import Mathlib

/-!
# Service-node subsystem of securetag: a shallow embedding

The definitions below transcribe the registry (`fundamentalnodeman.cpp`), the node and its
messages (`fundamentalnode.h`, `fundamentalnode.cpp`), the payment ledger
(`fundamentalnode-payments.h`, `fundamentalnode-payments.cpp`), the sync driver
(`fundamentalnode-sync.cpp`) and the local controller (`activefundamentalnode.cpp`).

Conventions of the embedding.

* `int`, `int64_t` and `CAmount` values are `Int`; the arithmetic of the transcribed functions
  (differences of timestamps, heights plus small constants) is assumed to stay inside the machine
  range, where C++ and `Int` agree (signed overflow has no defined behaviour in C++).
* `uint256` values (block hashes, vote hashes, scores) are `Nat`.
* A `std::map` is a list of key/value pairs kept in ascending key order; a `std::vector` is a list.
* Everything the subsystem reads from the surrounding node (clock, chain, sporks, sync stage,
  signature verification, hashing) is a field of `Env`.
* Log output is dropped; calls that only talk to peers (`Relay`, `AskForMN`, `Misbehaving`) are
  dropped unless a flag in the result records them.
-/

/-! ## Primitive types of the surrounding node -/

/-- A 256-bit value (`uint256`, `arith_uint256`). -/
abbrev uint256 := Nat

/-- A script, as its bytes. -/
abbrev CScript := List Nat

/-- A public key; the null key `CPubKey()` is `0`. -/
abbrev CPubKey := Nat

/-- An amount in base units. -/
abbrev CAmount := Int

/-- A signature, as its bytes (`std::vector<unsigned char>`). -/
abbrev Signature := List Nat

/-- A transaction output reference: transaction hash and output index. -/
structure COutPoint where
  hash : uint256
  n : Nat
deriving DecidableEq, Repr

/-- The null outpoint `COutPoint()`: the null hash with the index `(uint32_t) -1`. -/
def COutPoint.null : COutPoint := ⟨0, 0xffffffff⟩

/-- The key of the order of `COutPoint`: by hash first, by index second. -/
def COutPoint.toLexPair (o : COutPoint) : Lex (Nat × Nat) := toLex (o.hash, o.n)

instance : LinearOrder COutPoint :=
  LinearOrder.lift' COutPoint.toLexPair (by
    intro a b h
    cases a; cases b
    simp [COutPoint.toLexPair] at h
    simp [h])

/-- A network address with its port. -/
structure CService where
  ip : Nat
  port : Nat
deriving DecidableEq, Repr

/-- A transaction output. -/
structure CTxOut where
  nValue : CAmount
  scriptPubKey : CScript
deriving DecidableEq, Repr

/-- A transaction, reduced to its outputs. -/
structure CTransaction where
  vout : List CTxOut
deriving DecidableEq, Repr

/-- An unspent transaction output (`Coin`), reduced to the output and the height of its
block. -/
structure Coin where
  out : CTxOut
  nHeight : Int
deriving DecidableEq, Repr

/-- The network the node runs on (`Params().NetworkIDString()`). -/
inductive Network where
  | main
  | test
  | devnet
  | regtest
deriving DecidableEq, Repr

/-! ## Ordered maps -/

/-- The lookup `m.find(k)` of a `std::map`. -/
def mapFind {K V : Type} [DecidableEq K] : List (K × V) → K → Option V
  | [], _ => none
  | (k', v) :: rest, k => if k' = k then some v else mapFind rest k

/-- The test `m.count(k) != 0`. -/
def mapHas {K V : Type} [DecidableEq K] (m : List (K × V)) (k : K) : Bool :=
  (mapFind m k).isSome

/-- The assignment `m[k] = v`: replaces the value under `k` or inserts it at its place. -/
def mapAssign {K V : Type} [DecidableEq K] [LT K] [∀ a b : K, Decidable (a < b)] (k : K) (v : V) :
    List (K × V) → List (K × V)
  | [] => [(k, v)]
  | (k', v') :: rest =>
    if k < k' then (k, v) :: (k', v') :: rest
    else if k = k' then (k, v) :: rest
    else (k', v') :: mapAssign k v rest

/-- The call `m.emplace(k, v)`: inserts only when `k` is absent. -/
def mapEmplace {K V : Type} [DecidableEq K] [LT K] [∀ a b : K, Decidable (a < b)] (k : K) (v : V)
    (m : List (K × V)) : List (K × V) :=
  if mapHas m k then m else mapAssign k v m

/-! ## Constants -/

def FUNDAMENTALNODE_CHECK_SECONDS : Int := 5
def FUNDAMENTALNODE_MIN_MNB_SECONDS : Int := 5 * 60
def FUNDAMENTALNODE_MIN_MNP_SECONDS : Int := 10 * 60
def FUNDAMENTALNODE_SENTINEL_PING_MAX_SECONDS : Int := 60 * 60
def FUNDAMENTALNODE_EXPIRATION_SECONDS : Int := 120 * 60
def FUNDAMENTALNODE_NEW_START_REQUIRED_SECONDS : Int := 180 * 60
def FUNDAMENTALNODE_POSE_BAN_MAX_SCORE : Int := 5

def FNPAYMENTS_SIGNATURES_REQUIRED : Int := 6
def FNPAYMENTS_SIGNATURES_TOTAL : Int := 10
def MIN_FUNDAMENTALNODE_PAYMENT_PROTO_VERSION_1 : Int := 70210
def MIN_FUNDAMENTALNODE_PAYMENT_PROTO_VERSION_2 : Int := 70211

def FUNDAMENTALNODE_SYNC_FAILED : Int := -1
def FUNDAMENTALNODE_SYNC_INITIAL : Int := 0
def FUNDAMENTALNODE_SYNC_WAITING : Int := 1
def FUNDAMENTALNODE_SYNC_LIST : Int := 2
def FUNDAMENTALNODE_SYNC_MNW : Int := 3
def FUNDAMENTALNODE_SYNC_FINISHED : Int := 999

/-! ## Messages and the node -/

/-- The states of a node (`CFundamentalnode::state`). -/
inductive state where
  | FUNDAMENTALNODE_PRE_ENABLED
  | FUNDAMENTALNODE_ENABLED
  | FUNDAMENTALNODE_EXPIRED
  | FUNDAMENTALNODE_OUTPOINT_SPENT
  | FUNDAMENTALNODE_UPDATE_REQUIRED
  | FUNDAMENTALNODE_SENTINEL_PING_EXPIRED
  | FUNDAMENTALNODE_NEW_START_REQUIRED
  | FUNDAMENTALNODE_POSE_BAN
deriving DecidableEq, Repr

open state

/-- The ping message. A default-constructed ping has the null outpoint and the null hash. -/
structure CFundamentalnodePing where
  fundamentalnodeOutpoint : COutPoint := COutPoint.null
  blockHash : uint256 := 0
  sigTime : Int := 0
  vchSig : Signature := []
  fSentinelIsCurrent : Bool := false
  nSentinelVersion : Nat := 0x010001
  nDaemonVersion : Nat := 120200
deriving DecidableEq, Repr

/-- The conversion `operator bool` of a ping: it differs from the default ping, where
`operator==` compares the outpoint and the block hash only. -/
def CFundamentalnodePing.toBool (p : CFundamentalnodePing) : Bool :=
  !(p.fundamentalnodeOutpoint = COutPoint.null ∧ p.blockHash = 0)

/-- The node record: the fields of `fundamentalnode_info_t` followed by those that
`CFundamentalnode` adds. -/
structure CFundamentalnode where
  nActiveState : state := FUNDAMENTALNODE_PRE_ENABLED
  nProtocolVersion : Int := 0
  sigTime : Int := 0
  outpoint : COutPoint := COutPoint.null
  addr : CService := ⟨0, 0⟩
  pubKeyCollateralAddress : CPubKey := 0
  pubKeyFundamentalnode : CPubKey := 0
  nLastDsq : Int := 0
  nTimeLastChecked : Int := 0
  nTimeLastPaid : Int := 0
  lastPing : CFundamentalnodePing := {}
  vchSig : Signature := []
  nCollateralMinConfBlockHash : uint256 := 0
  nBlockLastPaid : Int := 0
  nPoSeBanScore : Int := 0
  nPoSeBanHeight : Int := 0
  fAllowMixingTx : Bool := true
  fUnitTest : Bool := false
deriving DecidableEq, Repr

/-- The announce message: a node record with the recovery mark. -/
structure CFundamentalnodeBroadcast where
  fn : CFundamentalnode
  fRecovery : Bool := false
deriving DecidableEq, Repr

/-- A payment vote. -/
structure CFundamentalnodePaymentVote where
  fundamentalnodeOutpoint : COutPoint
  nBlockHeight : Int
  payee : CScript
  vchSig : Signature
deriving DecidableEq, Repr

/-- The verification message: the node `fundamentalnodeOutpoint2` vouches that the node
`fundamentalnodeOutpoint1` answers at `addr`. -/
structure CFundamentalnodeVerification where
  fundamentalnodeOutpoint1 : COutPoint := COutPoint.null
  fundamentalnodeOutpoint2 : COutPoint := COutPoint.null
  addr : CService := ⟨0, 0⟩
  nonce : Int := 0
  nBlockHeight : Int := 0
  vchSig1 : Signature := []
  vchSig2 : Signature := []
deriving DecidableEq, Repr

/-! ## The surrounding node -/

/-- What the subsystem reads from its collaborators. -/
structure Env where
  /-- The call `GetTime()`. -/
  GetTime : Int
  /-- The call `GetAdjustedTime()`. -/
  GetAdjustedTime : Int
  /-- The call `ShutdownRequested()`. -/
  ShutdownRequested : Bool
  /-- The global `fLiteMode`. -/
  fLiteMode : Bool
  /-- The global `fFundamentalnodeMode`. -/
  fFundamentalnodeMode : Bool
  /-- The key `activeFundamentalnode.pubKeyFundamentalnode`. -/
  activePubKeyFundamentalnode : CPubKey
  /-- The constant `PROTOCOL_VERSION` of `version.h`. -/
  PROTOCOL_VERSION : Int
  /-- Whether `SPORK_6_NEW_SIGS` is active. -/
  SPORK_6_NEW_SIGS : Bool
  /-- Whether `SPORK_12_FUNDAMENTALNODE_PAY_UPDATED_NODES` is active. -/
  SPORK_12_FUNDAMENTALNODE_PAY_UPDATED_NODES : Bool
  /-- Whether `SPORK_15_REQUIRE_SENTINEL_FLAG` is active. -/
  SPORK_15_REQUIRE_SENTINEL_FLAG : Bool
  /-- The stage of the sync driver (`fundamentalnodeSync`). -/
  nRequestedFundamentalnodeAssets : Int
  /-- The value `Params().NetworkIDString()`. -/
  NetworkID : Network
  /-- The height `chainActive.Height()`. -/
  chainActiveHeight : Int
  /-- The index `mapBlockIndex`, reduced to the height of the block of a hash; the node never
  stores a null pointer in it. -/
  mapBlockIndex : uint256 → Option Int
  /-- The call `GetBlockHash(hash, height)`. -/
  GetBlockHash : Int → Option uint256
  /-- The hash of `CalculateScore`, over the outpoint, the confirmation block hash and the
  given block hash. -/
  scoreHash : COutPoint → uint256 → uint256 → uint256
  /-- The call `CHashSigner::VerifyHash` on the signature hash of a ping. -/
  pingVerifyHash : CPubKey → CFundamentalnodePing → Bool
  /-- The call `CMessageSigner::VerifyMessage` on the legacy message of a ping. -/
  pingVerifyMessage : CPubKey → CFundamentalnodePing → Bool
  /-- The call `CHashSigner::VerifyHash` on the signature hash of an announce, against its
  collateral key. -/
  fnbVerifyHash : CFundamentalnode → Bool
  /-- The call `CMessageSigner::VerifyMessage` on the legacy message of an announce. -/
  fnbVerifyMessage : CFundamentalnode → Bool
  /-- The call `GetBlockSubsidy(height, Params().GetConsensus())`. -/
  GetBlockSubsidy : Int → CAmount
  /-- The call `GetFundamentalnodePayment(height, blockValue)`. -/
  GetFundamentalnodePayment : Int → CAmount → CAmount
  /-- The hash `CFundamentalnodePaymentVote::GetHash`, over payee, height and voter. -/
  voteHash : CScript → Int → COutPoint → uint256
  /-- The call `CHashSigner::VerifyHash` on the signature hash of a payment vote. -/
  voteVerifyHash : CPubKey → CFundamentalnodePaymentVote → Bool
  /-- The call `CMessageSigner::VerifyMessage` on the legacy message of a payment vote. -/
  voteVerifyMessage : CPubKey → CFundamentalnodePaymentVote → Bool
  /-- The call `GetUTXOConfirmations(outpoint)`. -/
  GetUTXOConfirmations : COutPoint → Int
  /-- The script `GetScriptForDestination(pubkey.GetID())`. -/
  GetScriptForDestination : CPubKey → CScript
  /-- The floating-point test `sigTime + (nFnCount*2.6*60) > GetAdjustedTime()`, by
  `sigTime` and `nFnCount`. -/
  sigTimeTooNew : Int → Int → Bool
  /-- The size `fnodeman.size()` of the registry, as the node methods read it. -/
  fnodemanSize : Nat
  /-- The field `fnodeman.nLastSentinelPingTime`. -/
  nLastSentinelPingTime : Int
  /-- The outpoint `activeFundamentalnode.outpoint`. -/
  activeOutpoint : COutPoint
  /-- The hash `CFundamentalnodeBroadcast::GetHash`, over outpoint, collateral key and
  `sigTime`. -/
  fnbHash : COutPoint → CPubKey → Int → uint256
  /-- The hash `CFundamentalnodePing::GetHash`, over the fields of the ping that the active
  signature scheme hashes. -/
  pingHash : CFundamentalnodePing → uint256
  /-- The test `addrIn.IsIPv4() && IsReachable(addrIn) && addrIn.IsRoutable()`. -/
  IsRoutableIPv4 : CService → Bool
  /-- The constant `COIN` of `amount.h`. -/
  COIN : CAmount
  /-- The value `nValueIn - tx2->vout[outpoint.n].nValue` of `CheckOutpoint`: the inputs of the
  collateral transaction that are found in the chain, less the collateral output. -/
  collateralInputSurplus : COutPoint → CAmount
  /-- The value that `CheckOutpoint` reads from its local `nHeight`, which it declares and
  never assigns. -/
  nHeightUnassigned : Int
  /-- The consensus parameter `nFundamentalnodeMinimumConfirmations`. -/
  nFundamentalnodeMinimumConfirmations : Int
  /-- The time `chainActive[height]->GetBlockTime()`. -/
  GetBlockTime : Int → Int
  /-- The consensus parameter `nSuperblockStartBlock`. -/
  nSuperblockStartBlock : Int
  /-- The consensus parameter `nBudgetPaymentsCycleBlocks`. -/
  nBudgetPaymentsCycleBlocks : Int
  /-- The consensus parameter `nBudgetPaymentsStartBlock`. -/
  nBudgetPaymentsStartBlock : Int
  /-- The consensus parameter `nBudgetPaymentsWindowBlocks`. -/
  nBudgetPaymentsWindowBlocks : Int
  /-- The consensus parameter `nLastPoWBlock`. -/
  nLastPoWBlock : Int
  /-- The call `CSuperblock::GetPaymentsLimit(height)`. -/
  GetPaymentsLimit : Int → CAmount
  /-- The call `CSuperblock::IsValidBlockHeight(height)`. -/
  IsValidBlockHeight : Int → Bool
  /-- Whether `SPORK_10_SUPERBLOCKS_ENABLED` is active. -/
  SPORK_10_SUPERBLOCKS_ENABLED : Bool
  /-- The call `CSuperblockManager::IsSuperblockTriggered(height)`. -/
  IsSuperblockTriggered : Int → Bool
  /-- The call `CSuperblockManager::IsValid(tx, height, actualReward, expectedReward)`. -/
  superblockIsValid : CTransaction → Int → CAmount → CAmount → Bool
  /-- The hash `CFundamentalnodeVerification::GetHash`, over the two outpoints, the address,
  the nonce and the height. -/
  fnvHash : COutPoint → COutPoint → CService → Int → Int → uint256
  /-- The hash `CFundamentalnodeVerification::GetSignatureHash1(blockHash)`, over the address,
  the nonce and the block hash. -/
  fnvSignatureHash1 : CService → Int → uint256 → uint256
  /-- The hash `CFundamentalnodeVerification::GetSignatureHash2(blockHash)`, over the two
  outpoints, the address, the nonce and the block hash. -/
  fnvSignatureHash2 : COutPoint → COutPoint → CService → Int → uint256 → uint256
  /-- The call `CHashSigner::VerifyHash(hash, pubkey, vchSig, strError)`. -/
  VerifyHash : uint256 → CPubKey → Signature → Bool
  /-- The call `CMessageSigner::VerifyMessage` on the first legacy message of a verification,
  made of the address, the nonce and the block hash. -/
  fnvVerifyMessage1 : CPubKey → Signature → CService → Int → uint256 → Bool
  /-- The call `CMessageSigner::VerifyMessage` on the second legacy message of a verification,
  made of the address, the nonce, the block hash and the two outpoints. -/
  fnvVerifyMessage2 : CPubKey → Signature → CService → Int → uint256 → COutPoint → COutPoint →
    Bool
  /-- The call `GetUTXOCoin(outpoint, coin)`: `none` for the result false. -/
  GetUTXOCoin : COutPoint → Option Coin
  /-- The call `CHashSigner::SignHash(hash, activeFundamentalnode.keyFundamentalnode, vchSig)`:
  `none` for the result false, otherwise the signature written to `vchSig`. -/
  activeSignHash : uint256 → Option Signature
  /-- The call `CMessageSigner::SignMessage` with the key of the active fundamentalnode on the
  second legacy message of a verification, made of the address, the nonce, the block hash and
  the two outpoints: `none` for the result false. -/
  activeSignMessage2 : CService → Int → uint256 → COutPoint → COutPoint → Option Signature

def Env.IsFailed (env : Env) : Bool :=
  env.nRequestedFundamentalnodeAssets = FUNDAMENTALNODE_SYNC_FAILED

def Env.IsBlockchainSynced (env : Env) : Bool :=
  env.nRequestedFundamentalnodeAssets > FUNDAMENTALNODE_SYNC_WAITING

def Env.IsFundamentalnodeListSynced (env : Env) : Bool :=
  env.nRequestedFundamentalnodeAssets > FUNDAMENTALNODE_SYNC_LIST

def Env.IsWinnersListSynced (env : Env) : Bool :=
  env.nRequestedFundamentalnodeAssets > FUNDAMENTALNODE_SYNC_MNW

def Env.IsSynced (env : Env) : Bool :=
  env.nRequestedFundamentalnodeAssets = FUNDAMENTALNODE_SYNC_FINISHED

/-- The method `CFundamentalnodePayments::GetMinFundamentalnodePaymentsProto`. -/
def Env.GetMinFundamentalnodePaymentsProto (env : Env) : Int :=
  if env.SPORK_12_FUNDAMENTALNODE_PAY_UPDATED_NODES
  then MIN_FUNDAMENTALNODE_PAYMENT_PROTO_VERSION_2
  else MIN_FUNDAMENTALNODE_PAYMENT_PROTO_VERSION_1

/-- The method `CFundamentalnodeMan::IsSentinelPingActive`. -/
def Env.IsSentinelPingActive (env : Env) : Bool :=
  env.GetTime - env.nLastSentinelPingTime ≤ FUNDAMENTALNODE_SENTINEL_PING_MAX_SECONDS

/-! ## The node: `fundamentalnode.h`, `fundamentalnode.cpp` -/

def CFundamentalnode.IsEnabled (fn : CFundamentalnode) : Bool :=
  fn.nActiveState = FUNDAMENTALNODE_ENABLED

def CFundamentalnode.IsPreEnabled (fn : CFundamentalnode) : Bool :=
  fn.nActiveState = FUNDAMENTALNODE_PRE_ENABLED

def CFundamentalnode.IsPoSeBanned (fn : CFundamentalnode) : Bool :=
  fn.nActiveState = FUNDAMENTALNODE_POSE_BAN

def CFundamentalnode.IsPoSeVerified (fn : CFundamentalnode) : Bool :=
  fn.nPoSeBanScore ≤ -FUNDAMENTALNODE_POSE_BAN_MAX_SCORE

def CFundamentalnode.IsExpired (fn : CFundamentalnode) : Bool :=
  fn.nActiveState = FUNDAMENTALNODE_EXPIRED

def CFundamentalnode.IsOutpointSpent (fn : CFundamentalnode) : Bool :=
  fn.nActiveState = FUNDAMENTALNODE_OUTPOINT_SPENT

def CFundamentalnode.IsUpdateRequired (fn : CFundamentalnode) : Bool :=
  fn.nActiveState = FUNDAMENTALNODE_UPDATE_REQUIRED

def CFundamentalnode.IsSentinelPingExpired (fn : CFundamentalnode) : Bool :=
  fn.nActiveState = FUNDAMENTALNODE_SENTINEL_PING_EXPIRED

def CFundamentalnode.IsNewStartRequired (fn : CFundamentalnode) : Bool :=
  fn.nActiveState = FUNDAMENTALNODE_NEW_START_REQUIRED

def CFundamentalnode.IsValidForPayment (env : Env) (fn : CFundamentalnode) : Bool :=
  if fn.nActiveState = FUNDAMENTALNODE_ENABLED then true
  else if !env.SPORK_15_REQUIRE_SENTINEL_FLAG
      && decide (fn.nActiveState = FUNDAMENTALNODE_SENTINEL_PING_EXPIRED) then true
  else false

def CFundamentalnode.IsBroadcastedWithin (env : Env) (fn : CFundamentalnode) (nSeconds : Int) :
    Bool :=
  env.GetAdjustedTime - fn.sigTime < nSeconds

/-- The method `IsPingedWithin(nSeconds, nTimeToCheckAt)`; the default `-1` of the second
argument stands for the adjusted time. -/
def CFundamentalnode.IsPingedWithin (env : Env) (fn : CFundamentalnode) (nSeconds : Int)
    (nTimeToCheckAt : Int) : Bool :=
  if !fn.lastPing.toBool then false
  else
    let nTimeToCheckAt := if nTimeToCheckAt = -1 then env.GetAdjustedTime else nTimeToCheckAt
    nTimeToCheckAt - fn.lastPing.sigTime < nSeconds

def CFundamentalnode.IncreasePoSeBanScore (fn : CFundamentalnode) : CFundamentalnode :=
  if fn.nPoSeBanScore < FUNDAMENTALNODE_POSE_BAN_MAX_SCORE
  then { fn with nPoSeBanScore := fn.nPoSeBanScore + 1 } else fn

def CFundamentalnode.DecreasePoSeBanScore (fn : CFundamentalnode) : CFundamentalnode :=
  if fn.nPoSeBanScore > -FUNDAMENTALNODE_POSE_BAN_MAX_SCORE
  then { fn with nPoSeBanScore := fn.nPoSeBanScore - 1 } else fn

def CFundamentalnode.PoSeBan (fn : CFundamentalnode) : CFundamentalnode :=
  { fn with nPoSeBanScore := FUNDAMENTALNODE_POSE_BAN_MAX_SCORE }

/-- The method `CalculateScore(blockHash)`. -/
def CFundamentalnode.CalculateScore (env : Env) (fn : CFundamentalnode) (blockHash : uint256) :
    uint256 :=
  env.scoreHash fn.outpoint fn.nCollateralMinConfBlockHash blockHash

/-- The second part of `CFundamentalnode::Check`, from `int nActiveStatePrev = nActiveState;`
to the end of the function: the protocol, ping-age, sentinel and pre-enabled rules. The two
blocks guarded by `if(!fWaitForPing || fOurFundamentalnode)` are written with the guard
repeated in each of their tests. -/
def CFundamentalnode.CheckStateRules (env : Env) (fn : CFundamentalnode) : CFundamentalnode :=
  let fOurFundamentalnode : Bool :=
    env.fFundamentalnodeMode && env.activePubKeyFundamentalnode == fn.pubKeyFundamentalnode
  let fRequireUpdate : Bool :=
    decide (fn.nProtocolVersion < env.GetMinFundamentalnodePaymentsProto) ||
      (fOurFundamentalnode && decide (fn.nProtocolVersion < env.PROTOCOL_VERSION))
  if fRequireUpdate then { fn with nActiveState := FUNDAMENTALNODE_UPDATE_REQUIRED }
  else
    let fWaitForPing : Bool :=
      !env.IsFundamentalnodeListSynced && !fn.IsPingedWithin env FUNDAMENTALNODE_MIN_MNP_SECONDS (-1)
    if fWaitForPing && !fOurFundamentalnode &&
        (fn.IsExpired || fn.IsSentinelPingExpired || fn.IsNewStartRequired) then fn
    else if (!fWaitForPing || fOurFundamentalnode) &&
        !fn.IsPingedWithin env FUNDAMENTALNODE_NEW_START_REQUIRED_SECONDS (-1) then
      { fn with nActiveState := FUNDAMENTALNODE_NEW_START_REQUIRED }
    else if (!fWaitForPing || fOurFundamentalnode) &&
        !fn.IsPingedWithin env FUNDAMENTALNODE_EXPIRATION_SECONDS (-1) then
      { fn with nActiveState := FUNDAMENTALNODE_EXPIRED }
    else if (!fWaitForPing || fOurFundamentalnode) &&
        ((env.IsSynced && env.IsSentinelPingActive) &&
          !fn.IsPingedWithin env FUNDAMENTALNODE_SENTINEL_PING_MAX_SECONDS (-1)) then
      { fn with nActiveState := FUNDAMENTALNODE_SENTINEL_PING_EXPIRED }
    else if (decide (env.NetworkID ≠ Network.regtest) && decide (env.NetworkID ≠ Network.devnet)) &&
        decide (fn.lastPing.sigTime - fn.sigTime < FUNDAMENTALNODE_MIN_MNP_SECONDS) then
      { fn with nActiveState := FUNDAMENTALNODE_PRE_ENABLED }
    else if (!fWaitForPing || fOurFundamentalnode) &&
        ((env.IsSynced && env.IsSentinelPingActive) && !fn.lastPing.fSentinelIsCurrent) then
      { fn with nActiveState := FUNDAMENTALNODE_SENTINEL_PING_EXPIRED }
    else { fn with nActiveState := FUNDAMENTALNODE_ENABLED }

/-- The method `CFundamentalnode::Check(fForce)`. The block that looked the collateral up and
set `nHeight = chainActive.Height()` is commented out in the source, so `nHeight` keeps its
initial value `0`. The sum `nHeight + fnodeman.size()` is taken in `Int`. -/
def CFundamentalnode.Check (env : Env) (fn : CFundamentalnode) (fForce : Bool) :
    CFundamentalnode :=
  if env.ShutdownRequested then fn
  else if !fForce && decide (env.GetTime - fn.nTimeLastChecked < FUNDAMENTALNODE_CHECK_SECONDS) then fn
  else
    let fn := { fn with nTimeLastChecked := env.GetTime }
    if fn.IsOutpointSpent then fn
    else
      let nHeight : Int := 0
      if fn.IsPoSeBanned then
        if nHeight < fn.nPoSeBanHeight then fn
        else CFundamentalnode.CheckStateRules env fn.DecreasePoSeBanScore
      else if fn.nPoSeBanScore ≥ FUNDAMENTALNODE_POSE_BAN_MAX_SCORE then
        { fn with
          nActiveState := FUNDAMENTALNODE_POSE_BAN
          nPoSeBanHeight := nHeight + (env.fnodemanSize : Int) }
      else CFundamentalnode.CheckStateRules env fn

/-- The method `CFundamentalnodePing::SimpleCheck`: the result and `nDos`. -/
def CFundamentalnodePing.SimpleCheck (env : Env) (fnp : CFundamentalnodePing) : Bool × Int :=
  if fnp.sigTime > env.GetAdjustedTime + 60 * 60 then (false, 1)
  else if (env.mapBlockIndex fnp.blockHash).isNone then (false, 0)
  else (true, 0)

/-- The method `CFundamentalnodePing::CheckSignature`: the result and `nDos`. -/
def CFundamentalnodePing.CheckSignature (env : Env) (fnp : CFundamentalnodePing)
    (pubKeyFundamentalnode : CPubKey) : Bool × Int :=
  if env.SPORK_6_NEW_SIGS then
    if !env.pingVerifyHash pubKeyFundamentalnode fnp then
      if !env.pingVerifyMessage pubKeyFundamentalnode fnp then (false, 33) else (true, 0)
    else (true, 0)
  else
    if !env.pingVerifyMessage pubKeyFundamentalnode fnp then (false, 33) else (true, 0)

/-- What `CFundamentalnodePing::CheckAndUpdate` returns and leaves behind: the result, `nDos`
and the node `*pfn` after the call (`none` for a null pointer). -/
structure CheckAndUpdateResult where
  ret : Bool
  nDos : Int
  pfn : Option CFundamentalnode
deriving DecidableEq, Repr

/-- The method `CFundamentalnodePing::CheckAndUpdate(pfn, fFromNewBroadcast, nDos, connman)`.
The copy of the ping into `mapSeenFundamentalnodeBroadcast` and the sync bump are dropped. -/
def CFundamentalnodePing.CheckAndUpdate (env : Env) (fnp : CFundamentalnodePing)
    (pfn : Option CFundamentalnode) (fFromNewBroadcast : Bool) : CheckAndUpdateResult :=
  if !(fnp.SimpleCheck env).1 then ⟨false, (fnp.SimpleCheck env).2, pfn⟩
  else
    match pfn with
    | none => ⟨false, 0, none⟩
    | some fn =>
      if !fFromNewBroadcast && fn.IsUpdateRequired then ⟨false, 0, some fn⟩
      else if !fFromNewBroadcast && fn.IsNewStartRequired then ⟨false, 0, some fn⟩
      else if (match env.mapBlockIndex fnp.blockHash with
          | some nHeight => decide (nHeight < env.chainActiveHeight - 24)
          | none => false) then ⟨false, 0, some fn⟩
      else if fn.IsPingedWithin env (FUNDAMENTALNODE_MIN_MNP_SECONDS - 60) fnp.sigTime then
        ⟨false, 0, some fn⟩
      else if !(fnp.CheckSignature env fn.pubKeyFundamentalnode).1 then
        ⟨false, (fnp.CheckSignature env fn.pubKeyFundamentalnode).2, some fn⟩
      else
        let fn := ({ fn with lastPing := fnp } : CFundamentalnode).Check env true
        if !fn.IsEnabled && !fn.IsExpired && !fn.IsSentinelPingExpired then ⟨false, 0, some fn⟩
        else ⟨true, 0, some fn⟩

/-- The method `CFundamentalnode::UpdateFromNewBroadcast(fnb, connman)`: the result and the
node after the call. The insertion into `mapSeenFundamentalnodePing` and the call of
`activeFundamentalnode.ManageState` are dropped. -/
def CFundamentalnode.UpdateFromNewBroadcast (env : Env) (fn : CFundamentalnode)
    (fnb : CFundamentalnodeBroadcast) : Bool × CFundamentalnode :=
  if decide (fnb.fn.sigTime ≤ fn.sigTime) && !fnb.fRecovery then (false, fn)
  else
    let fn : CFundamentalnode :=
      { fn with
        pubKeyFundamentalnode := fnb.fn.pubKeyFundamentalnode
        sigTime := fnb.fn.sigTime
        vchSig := fnb.fn.vchSig
        nProtocolVersion := fnb.fn.nProtocolVersion
        addr := fnb.fn.addr
        nPoSeBanScore := 0
        nPoSeBanHeight := 0
        nTimeLastChecked := 0 }
    let fn : CFundamentalnode :=
      if !fnb.fn.lastPing.toBool then { fn with lastPing := fnb.fn.lastPing }
      else
        let r := fnb.fn.lastPing.CheckAndUpdate env (some fn) true
        let fn := r.pfn.getD fn
        if r.ret then { fn with lastPing := fnb.fn.lastPing } else fn
    if env.fFundamentalnodeMode && fn.pubKeyFundamentalnode == env.activePubKeyFundamentalnode then
      let fn := { fn with nPoSeBanScore := -FUNDAMENTALNODE_POSE_BAN_MAX_SCORE }
      if fn.nProtocolVersion = env.PROTOCOL_VERSION then (true, fn) else (false, fn)
    else (true, fn)

/-- The method `CFundamentalnodeBroadcast::CheckSignature`: the result and `nDos`. -/
def CFundamentalnodeBroadcast.CheckSignature (env : Env) (fnb : CFundamentalnodeBroadcast) :
    Bool × Int :=
  if env.SPORK_6_NEW_SIGS then
    if !env.fnbVerifyHash fnb.fn then
      if !env.fnbVerifyMessage fnb.fn then (false, 100) else (true, 0)
    else (true, 0)
  else
    if !env.fnbVerifyMessage fnb.fn then (false, 100) else (true, 0)

/-- What `CFundamentalnodeBroadcast::Update` returns and leaves behind: the result, `nDos`, the
node `*pfn` after the call, and whether `UpdateFromNewBroadcast` was reached and returned true
(the branch that runs `pfn->Check()` and `Relay`). -/
structure UpdateResult where
  ret : Bool
  nDos : Int
  pfn : CFundamentalnode
  fUpdated : Bool
deriving DecidableEq, Repr

/-- The method `CFundamentalnodeBroadcast::Update(pfn, nDos, connman)`, for a non-null `pfn`. -/
def CFundamentalnodeBroadcast.Update (env : Env) (fnb : CFundamentalnodeBroadcast)
    (pfn : CFundamentalnode) : UpdateResult :=
  if decide (pfn.sigTime = fnb.fn.sigTime) && !fnb.fRecovery then ⟨false, 0, pfn, false⟩
  else if pfn.sigTime > fnb.fn.sigTime then ⟨false, 0, pfn, false⟩
  else
    let pfn := pfn.Check env false
    if pfn.IsPoSeBanned then ⟨false, 0, pfn, false⟩
    else if pfn.pubKeyCollateralAddress ≠ fnb.fn.pubKeyCollateralAddress then ⟨false, 33, pfn, false⟩
    else if !(fnb.CheckSignature env).1 then ⟨false, (fnb.CheckSignature env).2, pfn, false⟩
    else if !pfn.IsBroadcastedWithin env FUNDAMENTALNODE_MIN_MNB_SECONDS ||
        (env.fFundamentalnodeMode &&
          fnb.fn.pubKeyFundamentalnode == env.activePubKeyFundamentalnode) then
      if (pfn.UpdateFromNewBroadcast env fnb).1 then
        ⟨true, 0, (pfn.UpdateFromNewBroadcast env fnb).2.Check env false, true⟩
      else ⟨true, 0, (pfn.UpdateFromNewBroadcast env fnb).2, false⟩
    else ⟨true, 0, pfn, false⟩

/-! ## The payment ledger: `fundamentalnode-payments.h`, `fundamentalnode-payments.cpp` -/

/-- A candidate payee of a height with the hashes of the votes for it. -/
structure CFundamentalnodePayee where
  scriptPubKey : CScript
  vecVoteHashes : List uint256
deriving DecidableEq, Repr

def CFundamentalnodePayee.GetPayee (p : CFundamentalnodePayee) : CScript := p.scriptPubKey

def CFundamentalnodePayee.AddVoteHash (p : CFundamentalnodePayee) (hashIn : uint256) :
    CFundamentalnodePayee :=
  { p with vecVoteHashes := p.vecVoteHashes ++ [hashIn] }

def CFundamentalnodePayee.GetVoteCount (p : CFundamentalnodePayee) : Int :=
  (p.vecVoteHashes.length : Int)

/-- The tally of one height. -/
structure CFundamentalnodeBlockPayees where
  nBlockHeight : Int := 0
  vecPayeesFN : List CFundamentalnodePayee := []
deriving DecidableEq, Repr

/-- The ledger: the cached tip height and the three maps the transcribed methods use. -/
structure CFundamentalnodePayments where
  nCachedBlockHeight : Int := 0
  mapFundamentalnodePaymentVotes : List (uint256 × CFundamentalnodePaymentVote) := []
  mapFundamentalnodeBlocks : List (Int × CFundamentalnodeBlockPayees) := []
  mapFundamentalnodesLastVote : List (COutPoint × Int) := []
deriving DecidableEq, Repr

def CFundamentalnodePaymentVote.GetHash (env : Env) (vote : CFundamentalnodePaymentVote) :
    uint256 :=
  env.voteHash vote.payee vote.nBlockHeight vote.fundamentalnodeOutpoint

def CFundamentalnodePaymentVote.IsVerified (vote : CFundamentalnodePaymentVote) : Bool :=
  !vote.vchSig.isEmpty

def CFundamentalnodePaymentVote.MarkAsNotVerified (vote : CFundamentalnodePaymentVote) :
    CFundamentalnodePaymentVote :=
  { vote with vchSig := [] }

/-- The loop of `CFundamentalnodeBlockPayees::AddPayee` over `vecPayeesFN`. -/
def AddPayeeLoop (payee : CScript) (nVoteHash : uint256) :
    List CFundamentalnodePayee → List CFundamentalnodePayee
  | [] => [⟨payee, [nVoteHash]⟩]
  | p :: rest =>
    if p.GetPayee = payee then p.AddVoteHash nVoteHash :: rest
    else p :: AddPayeeLoop payee nVoteHash rest

/-- The method `CFundamentalnodeBlockPayees::AddPayee(vote)`. -/
def CFundamentalnodeBlockPayees.AddPayee (env : Env) (bp : CFundamentalnodeBlockPayees)
    (vote : CFundamentalnodePaymentVote) : CFundamentalnodeBlockPayees :=
  { bp with vecPayeesFN := AddPayeeLoop vote.payee (vote.GetHash env) bp.vecPayeesFN }

/-- The loop of `GetBestPayee`: the running best payee and its vote count. -/
def GetBestPayeeLoop : List CFundamentalnodePayee → Option CScript → Int → Option CScript × Int
  | [], payeeRet, nVotes => (payeeRet, nVotes)
  | p :: rest, payeeRet, nVotes =>
    if p.GetVoteCount > nVotes then GetBestPayeeLoop rest (some p.GetPayee) p.GetVoteCount
    else GetBestPayeeLoop rest payeeRet nVotes

/-- The method `CFundamentalnodeBlockPayees::GetBestPayee(payeeRet)`: `none` for the result
false, otherwise the payee written to `payeeRet`. -/
def CFundamentalnodeBlockPayees.GetBestPayee (bp : CFundamentalnodeBlockPayees) : Option CScript :=
  if bp.vecPayeesFN.isEmpty then none
  else
    let r := GetBestPayeeLoop bp.vecPayeesFN none (-1)
    if r.2 > -1 then r.1 else none

/-- The first loop of `IsTransactionValid`: the largest vote count, starting from `0`. -/
def maxSignaturesLoop : List CFundamentalnodePayee → Int → Int
  | [], nMaxSignatures => nMaxSignatures
  | p :: rest, nMaxSignatures =>
    if p.GetVoteCount ≥ nMaxSignatures then maxSignaturesLoop rest p.GetVoteCount
    else maxSignaturesLoop rest nMaxSignatures

/-- The method `CFundamentalnodeBlockPayees::IsTransactionValid(txNew)`. -/
def CFundamentalnodeBlockPayees.IsTransactionValid (env : Env) (bp : CFundamentalnodeBlockPayees)
    (txNew : CTransaction) : Bool :=
  let nFundamentalnodePayment : CAmount :=
    env.GetFundamentalnodePayment bp.nBlockHeight (env.GetBlockSubsidy bp.nBlockHeight)
  let nMaxSignatures := maxSignaturesLoop bp.vecPayeesFN 0
  if nMaxSignatures < FNPAYMENTS_SIGNATURES_REQUIRED then true
  else
    bp.vecPayeesFN.any fun payee =>
      decide (payee.GetVoteCount ≥ FNPAYMENTS_SIGNATURES_REQUIRED) &&
        txNew.vout.any fun txout =>
          decide (payee.GetPayee = txout.scriptPubKey) &&
            decide (nFundamentalnodePayment = txout.nValue)

/-- The method `CFundamentalnodePayments::IsTransactionValid(txNew, nBlockHeight)`. -/
def CFundamentalnodePayments.IsTransactionValid (env : Env) (pay : CFundamentalnodePayments)
    (txNew : CTransaction) (nBlockHeight : Int) : Bool :=
  match mapFind pay.mapFundamentalnodeBlocks nBlockHeight with
  | some bp => bp.IsTransactionValid env txNew
  | none => true

/-- The method `CFundamentalnodePayments::GetBlockPayeeFN(nBlockHeight, payeeRet)`. -/
def CFundamentalnodePayments.GetBlockPayeeFN (pay : CFundamentalnodePayments) (nBlockHeight : Int) :
    Option CScript :=
  match mapFind pay.mapFundamentalnodeBlocks nBlockHeight with
  | some bp => bp.GetBestPayee
  | none => none

/-- The method `CFundamentalnodePayments::IsScheduled(fnInfo, nNotBlockHeight)`, on the node
whose info is passed. -/
def CFundamentalnodePayments.IsScheduled (env : Env) (pay : CFundamentalnodePayments)
    (fn : CFundamentalnode) (nNotBlockHeight : Int) : Bool :=
  if !env.IsFundamentalnodeListSynced then false
  else
    let fnpayee := env.GetScriptForDestination fn.pubKeyCollateralAddress
    (List.range 9).any fun i =>
      let h : Int := pay.nCachedBlockHeight + (i : Int)
      decide (h ≠ nNotBlockHeight) && decide (pay.GetBlockPayeeFN h = some fnpayee)

/-- The method `CFundamentalnodePayments::UpdateLastVote(vote)`: the result and the ledger
after the call. -/
def CFundamentalnodePayments.UpdateLastVote (pay : CFundamentalnodePayments)
    (vote : CFundamentalnodePaymentVote) : Bool × CFundamentalnodePayments :=
  match mapFind pay.mapFundamentalnodesLastVote vote.fundamentalnodeOutpoint with
  | some nHeight =>
    if nHeight = vote.nBlockHeight then (false, pay)
    else
      (true, { pay with
        mapFundamentalnodesLastVote :=
          mapAssign vote.fundamentalnodeOutpoint vote.nBlockHeight pay.mapFundamentalnodesLastVote })
  | none =>
    (true, { pay with
      mapFundamentalnodesLastVote :=
        mapEmplace vote.fundamentalnodeOutpoint vote.nBlockHeight pay.mapFundamentalnodesLastVote })

/-- The method `CFundamentalnodePayments::HasVerifiedPaymentVote(hashIn)`. -/
def CFundamentalnodePayments.HasVerifiedPaymentVote (pay : CFundamentalnodePayments)
    (hashIn : uint256) : Bool :=
  match mapFind pay.mapFundamentalnodePaymentVotes hashIn with
  | some vote => vote.IsVerified
  | none => false

/-- The method `CFundamentalnodePayments::AddOrUpdatePaymentVote(vote)`: the result and the
ledger after the call. -/
def CFundamentalnodePayments.AddOrUpdatePaymentVote (env : Env) (pay : CFundamentalnodePayments)
    (vote : CFundamentalnodePaymentVote) : Bool × CFundamentalnodePayments :=
  if (env.GetBlockHash (vote.nBlockHeight - 101)).isNone then (false, pay)
  else if pay.HasVerifiedPaymentVote (vote.GetHash env) then (false, pay)
  else
    let blocks :=
      mapEmplace vote.nBlockHeight (⟨vote.nBlockHeight, []⟩ : CFundamentalnodeBlockPayees)
        pay.mapFundamentalnodeBlocks
    let bp := (mapFind blocks vote.nBlockHeight).getD ⟨vote.nBlockHeight, []⟩
    (true, { pay with
      mapFundamentalnodePaymentVotes :=
        mapAssign (vote.GetHash env) vote pay.mapFundamentalnodePaymentVotes
      mapFundamentalnodeBlocks := mapAssign vote.nBlockHeight (bp.AddPayee env vote) blocks })

/-- The method `CFundamentalnodePaymentVote::CheckSignature`: the result and `nDos`. -/
def CFundamentalnodePaymentVote.CheckSignature (env : Env) (vote : CFundamentalnodePaymentVote)
    (pubKeyFundamentalnode : CPubKey) (nValidationHeight : Int) : Bool × Int :=
  let nDosBad : Int :=
    if env.IsFundamentalnodeListSynced && decide (vote.nBlockHeight > nValidationHeight) then 20
    else 0
  if env.SPORK_6_NEW_SIGS then
    if !env.voteVerifyHash pubKeyFundamentalnode vote then
      if !env.voteVerifyMessage pubKeyFundamentalnode vote then (false, nDosBad) else (true, 0)
    else (true, 0)
  else
    if !env.voteVerifyMessage pubKeyFundamentalnode vote then (false, nDosBad) else (true, 0)

/-- The number of low bits that the `float` format drops from the natural number `n`: the least
`s` with `n / 2 ^ s < 2 ^ 24`, the significand of a `float` having 24 bits. The first argument
bounds the search; `n` itself is enough. -/
def float32Shift : Nat → Nat → Nat
  | 0, _ => 0
  | fuel + 1, n => if n < 2 ^ 24 then 0 else float32Shift fuel (n / 2) + 1

/-- Rounding of `n` to a multiple of `2 ^ s`, to the nearest one and to the one with the even
quotient when `n` is half way between two. -/
def roundTiesToEven (s n : Nat) : Nat :=
  if 2 ^ s < 2 * (n % 2 ^ s) ∨ (2 * (n % 2 ^ s) = 2 ^ s ∧ n / 2 ^ s % 2 = 1) then
    (n / 2 ^ s + 1) * 2 ^ s
  else n / 2 ^ s * 2 ^ s

/-- The `float` nearest to the natural number `n`, in the arithmetic of IEEE 754 single
precision with rounding to nearest, ties to even. As the format is binary, the same function
rounds a number given in quarters. Overflow of the format (at `2 ^ 128`) is left out: the
values rounded come from an `int`. -/
def roundFloat32 (n : Nat) : Nat :=
  roundTiesToEven (float32Shift n n) n

/-- The method `CFundamentalnodePayments::GetStorageLimit`, by the size of the registry:
`std::max(int(fnodeman.size() * nStorageCoeff), nMinBlocksToStore)` with the `const float`
coefficient `1.25` and `nMinBlocksToStore = 6000`. The size, an `int`, is converted to `float`,
the product `size * 5 / 4` is rounded to `float` (it is computed here in quarters), and the
conversion to `int` drops the fraction. A product outside the range of `int` is kept as it is. -/
def GetStorageLimit (size : Nat) : Int :=
  max ((roundFloat32 (5 * roundFloat32 size) / 4 : Nat) : Int) 6000

/-! ## The registry: `fundamentalnodeman.h`, `fundamentalnodeman.cpp` -/

/-- The registry, reduced to the map of nodes and the fields the transcribed methods read or
write. -/
structure CFundamentalnodeMan where
  nCachedBlockHeight : Int := 0
  mapFundamentalnodes : List (COutPoint × CFundamentalnode) := []
  fFundamentalnodesAdded : Bool := false
  nLastSentinelPingTime : Int := 0
  /-- The announces seen, by hash, each with the time it was seen. -/
  mapSeenFundamentalnodeBroadcast : List (uint256 × (Int × CFundamentalnodeBroadcast)) := []
  /-- The pings seen, by hash. -/
  mapSeenFundamentalnodePing : List (uint256 × CFundamentalnodePing) := []
  /-- The recovery requests, by announce hash: the time the wait ends and the peers asked. -/
  mFnbRecoveryRequests : List (uint256 × (Int × List CService)) := []
  /-- The good replies to recovery requests, by announce hash. -/
  mFnbRecoveryGoodReplies : List (uint256 × List CFundamentalnodeBroadcast) := []
  /-- The verification messages seen, by hash. -/
  mapSeenFundamentalnodeVerification : List (uint256 × CFundamentalnodeVerification) := []
deriving DecidableEq, Repr

def CFundamentalnodeMan.size (man : CFundamentalnodeMan) : Nat := man.mapFundamentalnodes.length

def CFundamentalnodeMan.Has (man : CFundamentalnodeMan) (outpoint : COutPoint) : Bool :=
  mapHas man.mapFundamentalnodes outpoint

def CFundamentalnodeMan.Find (man : CFundamentalnodeMan) (outpoint : COutPoint) :
    Option CFundamentalnode :=
  mapFind man.mapFundamentalnodes outpoint

/-- The method `CFundamentalnodeMan::Add(fn)`: the result and the registry after the call. -/
def CFundamentalnodeMan.Add (man : CFundamentalnodeMan) (fn : CFundamentalnode) :
    Bool × CFundamentalnodeMan :=
  if man.Has fn.outpoint then (false, man)
  else
    (true, { man with
      mapFundamentalnodes := mapAssign fn.outpoint fn man.mapFundamentalnodes
      fFundamentalnodesAdded := true })

/-- The method `CFundamentalnodeMan::CountFundamentalnodes(nProtocolVersion)`; `-1` stands for
the minimum payment protocol. -/
def CFundamentalnodeMan.CountFundamentalnodes (env : Env) (man : CFundamentalnodeMan)
    (nProtocolVersion : Int) : Int :=
  let nProtocolVersion :=
    if nProtocolVersion = -1 then env.GetMinFundamentalnodePaymentsProto else nProtocolVersion
  ((man.mapFundamentalnodes.filter fun fnpair =>
    !decide (fnpair.2.nProtocolVersion < nProtocolVersion)).length : Int)

/-- The comparator `CompareScoreMN`: by score, then by outpoint. -/
def CompareScoreMN (t1 t2 : uint256 × CFundamentalnode) : Bool :=
  if t1.1 ≠ t2.1 then decide (t1.1 < t2.1) else decide (t1.2.outpoint < t2.2.outpoint)

/-- The comparator `CompareLastPaidBlock`: by last paid block, then by outpoint. -/
def CompareLastPaidBlock (t1 t2 : Int × CFundamentalnode) : Bool :=
  if t1.1 ≠ t2.1 then decide (t1.1 < t2.1) else decide (t1.2.outpoint < t2.2.outpoint)

/-- The call `std::sort(first, last, comp)` as an insertion sort into ascending order of the
comparator `comp` (a "less than"). On elements that `comp` orders strictly and totally, as the
two comparators above do for nodes of pairwise distinct outpoints, every sorting algorithm
returns this list. -/
def stdSort {α : Type} (comp : α → α → Bool) (l : List α) : List α :=
  List.insertionSort (fun a b => comp b a = false) l

/-- The method `CFundamentalnodeMan::GetFundamentalnodeScores`: the result and the vector
`vecFundamentalnodeScoresRet`. The sort runs over the reverse iterators, so the vector read
forwards is in descending order. -/
def CFundamentalnodeMan.GetFundamentalnodeScores (env : Env) (man : CFundamentalnodeMan)
    (nBlockHash : uint256) (nMinProtocol : Int) : Bool × List (uint256 × CFundamentalnode) :=
  if !env.IsFundamentalnodeListSynced then (false, [])
  else if man.mapFundamentalnodes.isEmpty then (false, [])
  else
    let vec : List (uint256 × CFundamentalnode) :=
      (man.mapFundamentalnodes.filter fun fnpair =>
        decide (fnpair.2.nProtocolVersion ≥ nMinProtocol)).map fun fnpair =>
          (fnpair.2.CalculateScore env nBlockHash, fnpair.2)
    let sorted := (stdSort CompareScoreMN vec.reverse).reverse
    (!sorted.isEmpty, sorted)

/-- The loop of `GetFundamentalnodeRank` over the scores, from the rank counted so far. -/
def GetFundamentalnodeRankLoop (outpoint : COutPoint) :
    List (uint256 × CFundamentalnode) → Int → Option Int
  | [], _ => none
  | scorePair :: rest, nRank =>
    if scorePair.2.outpoint = outpoint then some (nRank + 1)
    else GetFundamentalnodeRankLoop outpoint rest (nRank + 1)

/-- The method `CFundamentalnodeMan::GetFundamentalnodeRank`: `none` for the result false (where
`nRankRet` is `-1`), otherwise the rank. -/
def CFundamentalnodeMan.GetFundamentalnodeRank (env : Env) (man : CFundamentalnodeMan)
    (outpoint : COutPoint) (nBlockHeight : Int) (nMinProtocol : Int) : Option Int :=
  if !env.IsFundamentalnodeListSynced then none
  else
    match env.GetBlockHash nBlockHeight with
    | none => none
    | some nBlockHash =>
      if !(man.GetFundamentalnodeScores env nBlockHash nMinProtocol).1 then none
      else
        GetFundamentalnodeRankLoop outpoint
          (man.GetFundamentalnodeScores env nBlockHash nMinProtocol).2 0

/-- The loop of `GetFundamentalnodeRanks` over the scores, from the rank counted so far. -/
def GetFundamentalnodeRanksLoop :
    List (uint256 × CFundamentalnode) → Int → List (Int × CFundamentalnode)
  | [], _ => []
  | scorePair :: rest, nRank =>
    (nRank + 1, scorePair.2) :: GetFundamentalnodeRanksLoop rest (nRank + 1)

/-- The method `CFundamentalnodeMan::GetFundamentalnodeRanks`: the result and the vector
`vecFundamentalnodeRanksRet`. -/
def CFundamentalnodeMan.GetFundamentalnodeRanks (env : Env) (man : CFundamentalnodeMan)
    (nBlockHeight : Int) (nMinProtocol : Int) : Bool × List (Int × CFundamentalnode) :=
  if !env.IsFundamentalnodeListSynced then (false, [])
  else
    match env.GetBlockHash nBlockHeight with
    | none => (false, [])
    | some nBlockHash =>
      if !(man.GetFundamentalnodeScores env nBlockHash nMinProtocol).1 then (false, [])
      else
        (true, GetFundamentalnodeRanksLoop
          (man.GetFundamentalnodeScores env nBlockHash nMinProtocol).2 0)

/-- What `GetNextFundamentalnodeInQueueForPayment` returns: the result, `nCountRet`, and the
node whose info is written to `fnInfoRet` (`none` when `fnInfoRet` stays the default info). -/
structure NextPayeeResult where
  ret : Bool
  nCountRet : Int
  pBestFundamentalnode : Option CFundamentalnode
deriving DecidableEq, Repr

/-- The first loop of `GetNextFundamentalnodeInQueueForPayment`: the vector
`vecFundamentalnodeLastPaid` of the nodes that pass the five tests. -/
def vecFundamentalnodeLastPaid (env : Env) (man : CFundamentalnodeMan)
    (pay : CFundamentalnodePayments) (nBlockHeight : Int) (fFilterSigTime : Bool)
    (nFnCount : Int) : List (Int × CFundamentalnode) :=
  (man.mapFundamentalnodes.filter fun fnpair =>
    fnpair.2.IsValidForPayment env &&
    !decide (fnpair.2.nProtocolVersion < env.GetMinFundamentalnodePaymentsProto) &&
    !pay.IsScheduled env fnpair.2 nBlockHeight &&
    !(fFilterSigTime && env.sigTimeTooNew fnpair.2.sigTime nFnCount) &&
    !decide (env.GetUTXOConfirmations fnpair.1 < nFnCount)).map fun fnpair =>
      (fnpair.2.nBlockLastPaid, fnpair.2)

/-- The second loop of `GetNextFundamentalnodeInQueueForPayment`: the best node seen, from
the counter `nCountTenth`, the score `nHighest` and the node `pBestFundamentalnode` so far. -/
def bestOfTenthLoop (env : Env) (blockHash : uint256) (nTenthNetwork : Int) :
    List (Int × CFundamentalnode) → Int → uint256 → Option CFundamentalnode →
      Option CFundamentalnode
  | [], _, _, pBestFundamentalnode => pBestFundamentalnode
  | s :: rest, nCountTenth, nHighest, pBestFundamentalnode =>
    let nScore := s.2.CalculateScore env blockHash
    let nHighestNew := if nScore > nHighest then nScore else nHighest
    let pBestNew := if nScore > nHighest then some s.2 else pBestFundamentalnode
    if nCountTenth + 1 ≥ nTenthNetwork then pBestNew
    else bestOfTenthLoop env blockHash nTenthNetwork rest (nCountTenth + 1) nHighestNew pBestNew

/-- The part of `GetNextFundamentalnodeInQueueForPayment` after the relaxation test: sort the
vector, look the block hash up and pick the best of the leading nodes. -/
def selectNextPayee (env : Env) (nBlockHeight : Int) (nFnCount : Int)
    (vec : List (Int × CFundamentalnode)) : NextPayeeResult :=
  let sorted := stdSort CompareLastPaidBlock vec
  match env.GetBlockHash (nBlockHeight - 101) with
  | none => ⟨false, (vec.length : Int), none⟩
  | some blockHash =>
    let nTenthNetwork := nFnCount / 10
    let pBest := bestOfTenthLoop env blockHash nTenthNetwork sorted 0 0 none
    ⟨pBest.isSome, (vec.length : Int), pBest⟩

/-- The method `GetNextFundamentalnodeInQueueForPayment(nBlockHeight, fFilterSigTime, ...)`
called with `fFilterSigTime = false`, where the relaxation test cannot fire. -/
def CFundamentalnodeMan.GetNextFundamentalnodeInQueueForPaymentNoFilter (env : Env)
    (man : CFundamentalnodeMan) (pay : CFundamentalnodePayments) (nBlockHeight : Int) :
    NextPayeeResult :=
  if !env.IsWinnersListSynced then ⟨false, 0, none⟩
  else
    let nFnCount := man.CountFundamentalnodes env (-1)
    selectNextPayee env nBlockHeight nFnCount
      (vecFundamentalnodeLastPaid env man pay nBlockHeight false nFnCount)

/-- The method `GetNextFundamentalnodeInQueueForPayment(nBlockHeight, fFilterSigTime, ...)`.
Its one recursive call passes `fFilterSigTime = false` and is the function above. -/
def CFundamentalnodeMan.GetNextFundamentalnodeInQueueForPayment (env : Env)
    (man : CFundamentalnodeMan) (pay : CFundamentalnodePayments) (nBlockHeight : Int)
    (fFilterSigTime : Bool) : NextPayeeResult :=
  if !env.IsWinnersListSynced then ⟨false, 0, none⟩
  else
    let nFnCount := man.CountFundamentalnodes env (-1)
    let vec := vecFundamentalnodeLastPaid env man pay nBlockHeight fFilterSigTime nFnCount
    if fFilterSigTime && decide ((vec.length : Int) < nFnCount / 3) then
      man.GetNextFundamentalnodeInQueueForPaymentNoFilter env pay nBlockHeight
    else selectNextPayee env nBlockHeight nFnCount vec

/-- The method `CFundamentalnodePaymentVote::IsValid(pnode, nValidationHeight, ...)`. -/
def CFundamentalnodePaymentVote.IsValid (env : Env) (man : CFundamentalnodeMan)
    (vote : CFundamentalnodePaymentVote) (nValidationHeight : Int) : Bool :=
  match man.Find vote.fundamentalnodeOutpoint with
  | none => false
  | some fnInfo =>
    let nMinRequiredProtocol : Int :=
      if vote.nBlockHeight ≥ nValidationHeight then env.GetMinFundamentalnodePaymentsProto
      else MIN_FUNDAMENTALNODE_PAYMENT_PROTO_VERSION_1
    if fnInfo.nProtocolVersion < nMinRequiredProtocol then false
    else if !env.fFundamentalnodeMode && decide (vote.nBlockHeight < nValidationHeight) then true
    else
      match man.GetFundamentalnodeRank env vote.fundamentalnodeOutpoint (vote.nBlockHeight - 101)
          nMinRequiredProtocol with
      | none => false
      | some nRank => if nRank > FNPAYMENTS_SIGNATURES_TOTAL then false else true

/-- The branch of `CFundamentalnodePayments::ProcessMessage` for a payment vote received from
a peer of version `peerVersion`: the ledger after the call and whether the vote was relayed
(`AddOrUpdatePaymentVote` returned true). -/
def CFundamentalnodePayments.ProcessMessage (env : Env) (man : CFundamentalnodeMan)
    (pay : CFundamentalnodePayments) (peerVersion : Int) (vote : CFundamentalnodePaymentVote) :
    Bool × CFundamentalnodePayments :=
  if env.fLiteMode then (false, pay)
  else if peerVersion < env.GetMinFundamentalnodePaymentsProto then (false, pay)
  else if !env.IsFundamentalnodeListSynced then (false, pay)
  else if mapHas pay.mapFundamentalnodePaymentVotes (vote.GetHash env) &&
      pay.HasVerifiedPaymentVote (vote.GetHash env) then (false, pay)
  else
    let stored :=
      (mapFind pay.mapFundamentalnodePaymentVotes (vote.GetHash env)).getD vote
    let pay : CFundamentalnodePayments :=
      { pay with
        mapFundamentalnodePaymentVotes :=
          mapAssign (vote.GetHash env) stored.MarkAsNotVerified
            pay.mapFundamentalnodePaymentVotes }
    let nFirstBlock : Int := pay.nCachedBlockHeight - GetStorageLimit man.size
    if decide (vote.nBlockHeight < nFirstBlock) ||
        decide (vote.nBlockHeight > pay.nCachedBlockHeight + 20) then (false, pay)
    else if !vote.IsValid env man pay.nCachedBlockHeight then (false, pay)
    else
      match man.Find vote.fundamentalnodeOutpoint with
      | none => (false, pay)
      | some fnInfo =>
        if !(vote.CheckSignature env fnInfo.pubKeyFundamentalnode pay.nCachedBlockHeight).1 then
          (false, pay)
        else if !(pay.UpdateLastVote vote).1 then (false, (pay.UpdateLastVote vote).2)
        else (pay.UpdateLastVote vote).2.AddOrUpdatePaymentVote env vote

/-- The handler of payment votes run over a sequence of votes, all received from peers of
version `peerVersion`. -/
def processVotes (env : Env) (man : CFundamentalnodeMan) (peerVersion : Int) :
    CFundamentalnodePayments → List CFundamentalnodePaymentVote → CFundamentalnodePayments
  | pay, [] => pay
  | pay, vote :: rest =>
    processVotes env man peerVersion (pay.ProcessMessage env man peerVersion vote).2 rest

/-- The number of votes of `voter` that the tally of `nBlockHeight` counts: the vote hashes
listed under its candidates whose vote in the vote map was cast by `voter`. -/
def votesCountedFor (pay : CFundamentalnodePayments) (nBlockHeight : Int) (voter : COutPoint) :
    Nat :=
  match mapFind pay.mapFundamentalnodeBlocks nBlockHeight with
  | none => 0
  | some bp =>
    ((bp.vecPayeesFN.map fun payee => payee.vecVoteHashes).flatten.filter fun nVoteHash =>
      match mapFind pay.mapFundamentalnodePaymentVotes nVoteHash with
      | some vote => decide (vote.fundamentalnodeOutpoint = voter)
      | none => false).length

/-! ## Announces and pings at the registry: `fundamentalnodeman.cpp` -/

/-- The call `erase(k)` of a map. -/
def mapErase {K V : Type} [DecidableEq K] (k : K) (m : List (K × V)) : List (K × V) :=
  m.filter fun p => !decide (p.1 = k)

/-- The surroundings as the node methods see them while `man` is the registry `fnodeman`. -/
def CFundamentalnodeMan.toEnv (man : CFundamentalnodeMan) (env : Env) : Env :=
  { env with
    fnodemanSize := man.size
    nLastSentinelPingTime := man.nLastSentinelPingTime }

/-- The method `CFundamentalnodePing::GetHash`. -/
def CFundamentalnodePing.GetHash (env : Env) (fnp : CFundamentalnodePing) : uint256 :=
  env.pingHash fnp

/-- The method `CFundamentalnodeBroadcast::GetHash`. -/
def CFundamentalnodeBroadcast.GetHash (env : Env) (fnb : CFundamentalnodeBroadcast) : uint256 :=
  env.fnbHash fnb.fn.outpoint fnb.fn.pubKeyCollateralAddress fnb.fn.sigTime

/-- The constructor `CFundamentalnode()`. -/
def CFundamentalnode.new (env : Env) : CFundamentalnode :=
  { nActiveState := FUNDAMENTALNODE_ENABLED
    nProtocolVersion := env.PROTOCOL_VERSION
    sigTime := env.GetAdjustedTime
    fAllowMixingTx := true }

/-- The constructor `CFundamentalnode(const CFundamentalnodeBroadcast&)`. -/
def CFundamentalnode.ofBroadcast (fnb : CFundamentalnodeBroadcast) : CFundamentalnode :=
  { nActiveState := fnb.fn.nActiveState
    nProtocolVersion := fnb.fn.nProtocolVersion
    sigTime := fnb.fn.sigTime
    outpoint := fnb.fn.outpoint
    addr := fnb.fn.addr
    pubKeyCollateralAddress := fnb.fn.pubKeyCollateralAddress
    pubKeyFundamentalnode := fnb.fn.pubKeyFundamentalnode
    lastPing := fnb.fn.lastPing
    vchSig := fnb.fn.vchSig
    fAllowMixingTx := true }

/-- The method `CFundamentalnode::IsValidStateForAutoStart`. -/
def CFundamentalnode.IsValidStateForAutoStart (nActiveStateIn : state) : Bool :=
  nActiveStateIn = FUNDAMENTALNODE_ENABLED ||
  nActiveStateIn = FUNDAMENTALNODE_PRE_ENABLED ||
  nActiveStateIn = FUNDAMENTALNODE_EXPIRED ||
  nActiveStateIn = FUNDAMENTALNODE_SENTINEL_PING_EXPIRED

/-- The method `CFundamentalnode::IsValidNetAddr(addrIn)`. -/
def CFundamentalnode.IsValidNetAddr (env : Env) (addrIn : CService) : Bool :=
  decide (env.NetworkID = Network.regtest) || env.IsRoutableIPv4 addrIn

/-- The port `Params(CBaseChainParams::MAIN).GetDefaultPort()` of `chainparams.cpp`. -/
def mainnetDefaultPort : Nat := 12919

def FUNDAMENTALNODE_AMOUNT (env : Env) : CAmount := 10000 * env.COIN

/-- The constant `FN_MAGIC_AMOUNT = 0.1234 * COIN`, the floating-point product converted to
`CAmount`. -/
def FN_MAGIC_AMOUNT (env : Env) : CAmount := 1234 * env.COIN / 10000

/-- The branch of `CFundamentalnodeMan::ProcessMessage` for a ping received from a peer: the
registry after the call. `CheckAndUpdate` runs on the node found under the outpoint of the ping
and writes through the pointer into the map. The bookkeeping on the peer (`setAskFor`,
`Misbehaving`, `AskForMN`) is dropped. -/
def CFundamentalnodeMan.ProcessMessage_MNPING (env : Env) (man : CFundamentalnodeMan)
    (fnp : CFundamentalnodePing) : CFundamentalnodeMan :=
  if env.fLiteMode then man
  else if !env.IsBlockchainSynced then man
  else if mapHas man.mapSeenFundamentalnodePing (fnp.GetHash env) then man
  else
    let man : CFundamentalnodeMan :=
      { man with
        mapSeenFundamentalnodePing :=
          mapEmplace (fnp.GetHash env) fnp man.mapSeenFundamentalnodePing }
    let pfn := man.Find fnp.fundamentalnodeOutpoint
    let man : CFundamentalnodeMan :=
      if pfn.isSome && fnp.fSentinelIsCurrent then
        { man with nLastSentinelPingTime := env.GetTime }
      else man
    match pfn with
    | none => man
    | some fn =>
      if fn.IsNewStartRequired then man
      else
        match (fnp.CheckAndUpdate (man.toEnv env) (some fn) false).pfn with
        | none => man
        | some fn =>
          { man with
            mapFundamentalnodes :=
              mapAssign fnp.fundamentalnodeOutpoint fn man.mapFundamentalnodes }

/-- What `CFundamentalnodeBroadcast::SimpleCheck` returns and leaves behind: the result, `nDos`
and the announce after the call. -/
structure SimpleCheckResult where
  ret : Bool
  nDos : Int
  fnb : CFundamentalnodeBroadcast
deriving DecidableEq, Repr

/-- The two assignments to `nActiveState` in the middle of `SimpleCheck`: Expired for an empty
ping or one that fails its own `SimpleCheck`, then UpdateRequired for an outdated protocol
version. -/
def CFundamentalnodeBroadcast.SimpleCheckStates (env : Env) (fnb : CFundamentalnodeBroadcast) :
    CFundamentalnodeBroadcast :=
  let fnb : CFundamentalnodeBroadcast :=
    if !fnb.fn.lastPing.toBool || !(fnb.fn.lastPing.SimpleCheck env).1 then
      { fnb with fn := { fnb.fn with nActiveState := FUNDAMENTALNODE_EXPIRED } }
    else fnb
  if fnb.fn.nProtocolVersion < env.GetMinFundamentalnodePaymentsProto then
    { fnb with fn := { fnb.fn with nActiveState := FUNDAMENTALNODE_UPDATE_REQUIRED } }
  else fnb

/-- The method `CFundamentalnodeBroadcast::SimpleCheck(nDos)`. The ping's own `SimpleCheck` runs
only for a non-empty ping and writes `nDos`. -/
def CFundamentalnodeBroadcast.SimpleCheck (env : Env) (fnb : CFundamentalnodeBroadcast) :
    SimpleCheckResult :=
  if !CFundamentalnode.IsValidNetAddr env fnb.fn.addr then ⟨false, 0, fnb⟩
  else if fnb.fn.sigTime > env.GetAdjustedTime + 60 * 60 then ⟨false, 1, fnb⟩
  else
    let nDos : Int :=
      if fnb.fn.lastPing.toBool then (fnb.fn.lastPing.SimpleCheck env).2 else 0
    if (env.GetScriptForDestination fnb.fn.pubKeyCollateralAddress).length ≠ 25 then
      ⟨false, 100, fnb.SimpleCheckStates env⟩
    else if (env.GetScriptForDestination fnb.fn.pubKeyFundamentalnode).length ≠ 25 then
      ⟨false, 100, fnb.SimpleCheckStates env⟩
    else if env.NetworkID = Network.main then
      if fnb.fn.addr.port ≠ mainnetDefaultPort then ⟨false, nDos, fnb.SimpleCheckStates env⟩
      else ⟨true, nDos, fnb.SimpleCheckStates env⟩
    else if fnb.fn.addr.port = mainnetDefaultPort then ⟨false, nDos, fnb.SimpleCheckStates env⟩
    else ⟨true, nDos, fnb.SimpleCheckStates env⟩

/-- What `CFundamentalnodeBroadcast::CheckOutpoint` returns and leaves behind: the result,
`nDos`, whether it erased the hash of the announce from `mapSeenFundamentalnodeBroadcast`, and
the announce after the call. -/
structure CheckOutpointResult where
  ret : Bool
  nDos : Int
  fErased : Bool
  fnb : CFundamentalnodeBroadcast
deriving DecidableEq, Repr

/-- The method `CFundamentalnodeBroadcast::CheckOutpoint(nDos)`, entered with the given value
of `nDos`. The collateral transaction and the block at the required depth are taken to exist,
as the source takes them to (it dereferences both unchecked). -/
def CFundamentalnodeBroadcast.CheckOutpoint (env : Env) (fnb : CFundamentalnodeBroadcast)
    (nDos : Int) : CheckOutpointResult :=
  if env.fFundamentalnodeMode && fnb.fn.outpoint == env.activeOutpoint &&
      fnb.fn.pubKeyFundamentalnode == env.activePubKeyFundamentalnode then
    ⟨false, nDos, false, fnb⟩
  else
    let nHeight : Int := env.nHeightUnassigned
    if env.collateralInputSurplus fnb.fn.outpoint <
        FUNDAMENTALNODE_AMOUNT env - FN_MAGIC_AMOUNT env then ⟨false, 33, false, fnb⟩
    else if env.chainActiveHeight - nHeight + 1 < env.nFundamentalnodeMinimumConfirmations then
      ⟨false, nDos, true, fnb⟩
    else if env.GetBlockTime (nHeight + env.nFundamentalnodeMinimumConfirmations - 1) >
        fnb.fn.sigTime then ⟨false, nDos, false, fnb⟩
    else if !(fnb.CheckSignature env).1 then ⟨false, (fnb.CheckSignature env).2, false, fnb⟩
    else
      ⟨true, 0, false,
        { fnb with
          fn := { fnb.fn with
            nCollateralMinConfBlockHash :=
              (env.GetBlockHash
                (nHeight + env.nFundamentalnodeMinimumConfirmations - 1)).getD 0 } }⟩

/-- The constructor `CFundamentalnodeBroadcast()`. -/
def CFundamentalnodeBroadcast.new (env : Env) : CFundamentalnodeBroadcast :=
  { fn := CFundamentalnode.new env
    fRecovery := false }

/-- What `CheckFnbAndUpdateFundamentalnodeList` returns and leaves behind: the result, `nDos`
and the registry after the call. -/
structure CheckFnbResult where
  ret : Bool
  nDos : Int
  man : CFundamentalnodeMan
deriving DecidableEq, Repr

/-- The branch of `CheckFnbAndUpdateFundamentalnodeList` for an announce whose hash is in
`mapSeenFundamentalnodeBroadcast`, stored there as `seen`: the registry after the branch.
`pfrom` is the address of the sending peer, `none` for a null `pfrom`. -/
def CFundamentalnodeMan.CheckFnbSeen (env : Env) (man : CFundamentalnodeMan)
    (pfrom : Option CService) (fnb : CFundamentalnodeBroadcast) (hash : uint256)
    (seen : Int × CFundamentalnodeBroadcast) : CFundamentalnodeMan :=
  let man : CFundamentalnodeMan :=
    if env.GetTime - seen.1 >
        FUNDAMENTALNODE_NEW_START_REQUIRED_SECONDS - FUNDAMENTALNODE_MIN_MNP_SECONDS * 2 then
      { man with
        mapSeenFundamentalnodeBroadcast :=
          mapAssign hash (env.GetTime, seen.2) man.mapSeenFundamentalnodeBroadcast }
    else man
  match pfrom, mapFind man.mFnbRecoveryRequests hash with
  | some addr, some request =>
    if decide (env.GetTime < request.1) && request.2.contains addr then
      let man : CFundamentalnodeMan :=
        { man with
          mFnbRecoveryRequests :=
            mapAssign hash (request.1, request.2.filter fun a => !decide (a = addr))
              man.mFnbRecoveryRequests }
      if fnb.fn.lastPing.sigTime > seen.2.fn.lastPing.sigTime then
        let fnTemp := (CFundamentalnode.ofBroadcast fnb).Check (man.toEnv env) false
        if CFundamentalnode.IsValidStateForAutoStart fnTemp.nActiveState then
          { man with
            mFnbRecoveryGoodReplies :=
              mapAssign hash (((mapFind man.mFnbRecoveryGoodReplies hash).getD []) ++ [fnb])
                man.mFnbRecoveryGoodReplies }
        else man
      else man
    else man
  | _, _ => man

/-- The method `CFundamentalnodeMan::CheckFnbAndUpdateFundamentalnodeList(pfrom, fnb, nDos,
connman)`. `Update` runs on the node found under the outpoint of the announce and writes
through the pointer into the map. The copies of pings that `Update` makes into the two seen
maps are not transcribed: they leave the registry map and the keys of the seen-announce map as
they are, and of what this method reads they touch only the ping times compared for recovery
replies. Relaying, the sync bump and `activeFundamentalnode.ManageState` are dropped. -/
def CFundamentalnodeMan.CheckFnbAndUpdateFundamentalnodeList (env : Env)
    (man : CFundamentalnodeMan) (pfrom : Option CService) (fnb : CFundamentalnodeBroadcast) :
    CheckFnbResult :=
  let hash := fnb.GetHash env
  match mapFind man.mapSeenFundamentalnodeBroadcast hash, fnb.fRecovery with
  | some seen, false => ⟨true, 0, man.CheckFnbSeen env pfrom fnb hash seen⟩
  | _, _ =>
    let man : CFundamentalnodeMan :=
      { man with
        mapSeenFundamentalnodeBroadcast :=
          mapEmplace hash (env.GetTime, fnb) man.mapSeenFundamentalnodeBroadcast }
    let sc := fnb.SimpleCheck env
    if !sc.ret then ⟨false, sc.nDos, man⟩
    else
      match man.Find sc.fnb.fn.outpoint with
      | some pfn =>
        let hashOld := (⟨pfn, false⟩ : CFundamentalnodeBroadcast).GetHash env
        let man : CFundamentalnodeMan :=
          { man with
            mapSeenFundamentalnodeBroadcast :=
              mapEmplace hashOld (0, CFundamentalnodeBroadcast.new env)
                man.mapSeenFundamentalnodeBroadcast }
        let fnbOld : CFundamentalnodeBroadcast :=
          ((mapFind man.mapSeenFundamentalnodeBroadcast hashOld).getD
            (0, CFundamentalnodeBroadcast.new env)).2
        let u := sc.fnb.Update (man.toEnv env) pfn
        let man : CFundamentalnodeMan :=
          { man with
            mapFundamentalnodes :=
              mapAssign sc.fnb.fn.outpoint u.pfn man.mapFundamentalnodes }
        if !u.ret then ⟨false, u.nDos, man⟩
        else if hash ≠ fnbOld.GetHash env then
          ⟨true, u.nDos,
            { man with
              mapSeenFundamentalnodeBroadcast :=
                mapErase (fnbOld.GetHash env) man.mapSeenFundamentalnodeBroadcast }⟩
        else ⟨true, u.nDos, man⟩
      | none =>
        let co := sc.fnb.CheckOutpoint env sc.nDos
        let man : CFundamentalnodeMan :=
          if co.fErased then
            { man with
              mapSeenFundamentalnodeBroadcast :=
                mapErase (sc.fnb.GetHash env) man.mapSeenFundamentalnodeBroadcast }
          else man
        if co.ret then
          let man := (man.Add co.fnb.fn).2
          if env.fFundamentalnodeMode &&
              co.fnb.fn.pubKeyFundamentalnode == env.activePubKeyFundamentalnode then
            if co.fnb.fn.nProtocolVersion = env.PROTOCOL_VERSION then ⟨true, co.nDos, man⟩
            else ⟨false, co.nDos, man⟩
          else ⟨true, co.nDos, man⟩
        else ⟨false, co.nDos, man⟩

/-! ## The sync driver: `fundamentalnode-sync.h`, `fundamentalnode-sync.cpp` -/

def FUNDAMENTALNODE_SYNC_TICK_SECONDS : Int := 6
def FUNDAMENTALNODE_SYNC_TIMEOUT_SECONDS : Int := 30

/-- The sync driver: its fields, followed by the function-local statics of `ProcessTick`
(`nTick`, `nTimeLastProcess`) and of `UpdatedBlockTip` (`fReachedBestHeader`). The static
`nTimeLastProcess` is `none` until the first call that reaches its declaration. -/
structure CFundamentalnodeSync where
  nRequestedFundamentalnodeAssets : Int := FUNDAMENTALNODE_SYNC_INITIAL
  nRequestedFundamentalnodeAttempt : Int := 0
  nTimeAssetSyncStarted : Int := 0
  nTimeLastBumped : Int := 0
  nTimeLastFailure : Int := 0
  nTick : Int := 0
  nTimeLastProcess : Option Int := none
  fReachedBestHeader : Bool := false
deriving DecidableEq, Repr

def CFundamentalnodeSync.IsFailed (sync : CFundamentalnodeSync) : Bool :=
  sync.nRequestedFundamentalnodeAssets = FUNDAMENTALNODE_SYNC_FAILED

def CFundamentalnodeSync.IsBlockchainSynced (sync : CFundamentalnodeSync) : Bool :=
  sync.nRequestedFundamentalnodeAssets > FUNDAMENTALNODE_SYNC_WAITING

def CFundamentalnodeSync.IsFundamentalnodeListSynced (sync : CFundamentalnodeSync) : Bool :=
  sync.nRequestedFundamentalnodeAssets > FUNDAMENTALNODE_SYNC_LIST

def CFundamentalnodeSync.IsWinnersListSynced (sync : CFundamentalnodeSync) : Bool :=
  sync.nRequestedFundamentalnodeAssets > FUNDAMENTALNODE_SYNC_MNW

def CFundamentalnodeSync.IsSynced (sync : CFundamentalnodeSync) : Bool :=
  sync.nRequestedFundamentalnodeAssets = FUNDAMENTALNODE_SYNC_FINISHED

/-- The method `CFundamentalnodeSync::Fail`. -/
def CFundamentalnodeSync.Fail (env : Env) (sync : CFundamentalnodeSync) : CFundamentalnodeSync :=
  { sync with
    nTimeLastFailure := env.GetTime
    nRequestedFundamentalnodeAssets := FUNDAMENTALNODE_SYNC_FAILED }

/-- The method `CFundamentalnodeSync::Reset`. -/
def CFundamentalnodeSync.Reset (env : Env) (sync : CFundamentalnodeSync) : CFundamentalnodeSync :=
  { sync with
    nRequestedFundamentalnodeAssets := FUNDAMENTALNODE_SYNC_INITIAL
    nRequestedFundamentalnodeAttempt := 0
    nTimeAssetSyncStarted := env.GetTime
    nTimeLastBumped := env.GetTime
    nTimeLastFailure := 0 }

/-- The method `CFundamentalnodeSync::BumpAssetLastTime`. -/
def CFundamentalnodeSync.BumpAssetLastTime (env : Env) (sync : CFundamentalnodeSync) :
    CFundamentalnodeSync :=
  if sync.IsSynced || sync.IsFailed then sync
  else { sync with nTimeLastBumped := env.GetTime }

/-- The method `CFundamentalnodeSync::SwitchToNextAsset`: `none` where it throws (from stage
Failed). A stage that the `switch` does not list is left as it is. The notification of the
user interface, `activeFundamentalnode.ManageState` and the marking of the peers as fully
synced, which the case of stage MNW also runs, are dropped. -/
def CFundamentalnodeSync.SwitchToNextAsset (env : Env) (sync : CFundamentalnodeSync) :
    Option CFundamentalnodeSync :=
  if sync.nRequestedFundamentalnodeAssets = FUNDAMENTALNODE_SYNC_FAILED then none
  else
    let sync : CFundamentalnodeSync :=
      if sync.nRequestedFundamentalnodeAssets = FUNDAMENTALNODE_SYNC_INITIAL then
        { sync with nRequestedFundamentalnodeAssets := FUNDAMENTALNODE_SYNC_WAITING }
      else if sync.nRequestedFundamentalnodeAssets = FUNDAMENTALNODE_SYNC_WAITING then
        { sync with nRequestedFundamentalnodeAssets := FUNDAMENTALNODE_SYNC_LIST }
      else if sync.nRequestedFundamentalnodeAssets = FUNDAMENTALNODE_SYNC_LIST then
        { sync with nRequestedFundamentalnodeAssets := FUNDAMENTALNODE_SYNC_MNW }
      else if sync.nRequestedFundamentalnodeAssets = FUNDAMENTALNODE_SYNC_MNW then
        { sync with nRequestedFundamentalnodeAssets := FUNDAMENTALNODE_SYNC_FINISHED }
      else sync
    some (CFundamentalnodeSync.BumpAssetLastTime env
      { sync with
        nRequestedFundamentalnodeAttempt := 0
        nTimeAssetSyncStarted := env.GetTime })

/-- A connected peer, as `ProcessTick` reads it. -/
structure CNode where
  addr : CService
  fFundamentalnode : Bool := false
  fInbound : Bool := false
  nVersion : Int := 0
deriving DecidableEq, Repr

/-- The request names that `ProcessTick` files with `netfulfilledman`: `"full-sync"`,
`"spork-sync"`, `"fundamentalnode-list-sync"` and `"fundamentalnode-payment-sync"`. -/
inductive FulfilledRequest where
  | fullSync
  | sporkSync
  | listSync
  | paymentSync
deriving DecidableEq, Repr

/-- The requests that `netfulfilledman` holds as fulfilled, by peer address; none of them
runs out during a tick. -/
abbrev CNetFulfilledRequestManager := List (CService × FulfilledRequest)

def CNetFulfilledRequestManager.HasFulfilledRequest (m : CNetFulfilledRequestManager)
    (addr : CService) (strRequest : FulfilledRequest) : Bool :=
  decide ((addr, strRequest) ∈ m)

def CNetFulfilledRequestManager.AddFulfilledRequest (m : CNetFulfilledRequestManager)
    (addr : CService) (strRequest : FulfilledRequest) : CNetFulfilledRequestManager :=
  (addr, strRequest) :: m

/-- The loop of `ProcessTick` over the connected peers, from the driver and the fulfilled
requests reached so far: `none` where `SwitchToNextAsset` throws. `fEnoughData` is the value
of `fnpayments.IsEnoughData()`. The messages sent and the disconnecting of peers are
dropped. -/
def ProcessTickLoop (env : Env) (fEnoughData : Bool) :
    List CNode → CFundamentalnodeSync → CNetFulfilledRequestManager →
    Option (CFundamentalnodeSync × CNetFulfilledRequestManager)
  | [], sync, netfulfilledman => some (sync, netfulfilledman)
  | pnode :: rest, sync, netfulfilledman =>
    if pnode.fFundamentalnode || (env.fFundamentalnodeMode && pnode.fInbound) then
      ProcessTickLoop env fEnoughData rest sync netfulfilledman
    else if env.NetworkID = Network.regtest then
      let sync : CFundamentalnodeSync :=
        if sync.nRequestedFundamentalnodeAttempt ≤ 2 then sync
        else if sync.nRequestedFundamentalnodeAttempt < 4 then sync
        else if sync.nRequestedFundamentalnodeAttempt < 6 then sync
        else { sync with nRequestedFundamentalnodeAssets := FUNDAMENTALNODE_SYNC_FINISHED }
      some ({ sync with
              nRequestedFundamentalnodeAttempt := sync.nRequestedFundamentalnodeAttempt + 1 },
            netfulfilledman)
    else if netfulfilledman.HasFulfilledRequest pnode.addr FulfilledRequest.fullSync then
      ProcessTickLoop env fEnoughData rest sync netfulfilledman
    else
      let netfulfilledman : CNetFulfilledRequestManager :=
        if !netfulfilledman.HasFulfilledRequest pnode.addr FulfilledRequest.sporkSync then
          netfulfilledman.AddFulfilledRequest pnode.addr FulfilledRequest.sporkSync
        else netfulfilledman
      let switched : Option CFundamentalnodeSync :=
        if sync.nRequestedFundamentalnodeAssets = FUNDAMENTALNODE_SYNC_WAITING ∧
            env.GetTime - sync.nTimeLastBumped > FUNDAMENTALNODE_SYNC_TIMEOUT_SECONDS then
          sync.SwitchToNextAsset env
        else some sync
      match switched with
      | none => none
      | some sync =>
        if sync.nRequestedFundamentalnodeAssets = FUNDAMENTALNODE_SYNC_LIST then
          if env.GetTime - sync.nTimeLastBumped > FUNDAMENTALNODE_SYNC_TIMEOUT_SECONDS then
            if sync.nRequestedFundamentalnodeAttempt = 0 then
              some (sync.Fail env, netfulfilledman)
            else (sync.SwitchToNextAsset env).map fun sync => (sync, netfulfilledman)
          else if sync.nRequestedFundamentalnodeAttempt > 2 then some (sync, netfulfilledman)
          else if netfulfilledman.HasFulfilledRequest pnode.addr FulfilledRequest.listSync then
            ProcessTickLoop env fEnoughData rest sync netfulfilledman
          else
            let netfulfilledman :=
              netfulfilledman.AddFulfilledRequest pnode.addr FulfilledRequest.listSync
            if pnode.nVersion < env.GetMinFundamentalnodePaymentsProto then
              ProcessTickLoop env fEnoughData rest sync netfulfilledman
            else
              some ({ sync with
                      nRequestedFundamentalnodeAttempt :=
                        sync.nRequestedFundamentalnodeAttempt + 1 },
                    netfulfilledman)
        else if sync.nRequestedFundamentalnodeAssets = FUNDAMENTALNODE_SYNC_MNW then
          if env.GetTime - sync.nTimeLastBumped > FUNDAMENTALNODE_SYNC_TIMEOUT_SECONDS then
            if sync.nRequestedFundamentalnodeAttempt = 0 then
              some (sync.Fail env, netfulfilledman)
            else (sync.SwitchToNextAsset env).map fun sync => (sync, netfulfilledman)
          else if decide (sync.nRequestedFundamentalnodeAttempt > 1) && fEnoughData then
            (sync.SwitchToNextAsset env).map fun sync => (sync, netfulfilledman)
          else if sync.nRequestedFundamentalnodeAttempt > 2 then some (sync, netfulfilledman)
          else if netfulfilledman.HasFulfilledRequest pnode.addr
              FulfilledRequest.paymentSync then
            ProcessTickLoop env fEnoughData rest sync netfulfilledman
          else
            let netfulfilledman :=
              netfulfilledman.AddFulfilledRequest pnode.addr FulfilledRequest.paymentSync
            if pnode.nVersion < env.GetMinFundamentalnodePaymentsProto then
              ProcessTickLoop env fEnoughData rest sync netfulfilledman
            else
              some ({ sync with
                      nRequestedFundamentalnodeAttempt :=
                        sync.nRequestedFundamentalnodeAttempt + 1 },
                    netfulfilledman)
        else ProcessTickLoop env fEnoughData rest sync netfulfilledman

/-- The method `CFundamentalnodeSync::ProcessTick`, over the fully connected peers `vNodesCopy`:
the driver and the fulfilled requests after the call, `none` where `SwitchToNextAsset`
throws. -/
def CFundamentalnodeSync.ProcessTick (env : Env) (sync : CFundamentalnodeSync)
    (vNodesCopy : List CNode) (netfulfilledman : CNetFulfilledRequestManager)
    (fEnoughData : Bool) : Option (CFundamentalnodeSync × CNetFulfilledRequestManager) :=
  let nTickBefore := sync.nTick
  let sync : CFundamentalnodeSync := { sync with nTick := sync.nTick + 1 }
  if nTickBefore % FUNDAMENTALNODE_SYNC_TICK_SECONDS ≠ 0 then some (sync, netfulfilledman)
  else
    let sync : CFundamentalnodeSync :=
      { sync with nTimeLastProcess := some (sync.nTimeLastProcess.getD env.GetTime) }
    if env.GetTime - sync.nTimeLastProcess.getD env.GetTime > 60 * 60 then
      ((sync.Reset env).SwitchToNextAsset env).map fun sync =>
        ({ sync with nTimeLastProcess := some env.GetTime }, netfulfilledman)
    else
      let sync : CFundamentalnodeSync := { sync with nTimeLastProcess := some env.GetTime }
      if sync.IsFailed then
        if sync.nTimeLastFailure + 1 * 60 < env.GetTime then
          ((sync.Reset env).SwitchToNextAsset env).map fun sync => (sync, netfulfilledman)
        else some (sync, netfulfilledman)
      else if sync.IsSynced then some (sync, netfulfilledman)
      else ProcessTickLoop env fEnoughData vNodesCopy sync netfulfilledman

/-- The method `CFundamentalnodeSync::UpdatedBlockTip(pindexNew, fInitialDownload, connman)`:
the driver after the call, `none` where `SwitchToNextAsset` throws. `fBestHeader` is whether
`pindexBestHeader` is set and `fReachedBestHeaderNew` whether the new tip is the best
header. -/
def CFundamentalnodeSync.UpdatedBlockTip (env : Env) (sync : CFundamentalnodeSync)
    (fBestHeader : Bool) (fInitialDownload : Bool) (fReachedBestHeaderNew : Bool) :
    Option CFundamentalnodeSync :=
  if sync.IsFailed || sync.IsSynced || !fBestHeader then some sync
  else
    let sync : CFundamentalnodeSync :=
      if !sync.IsBlockchainSynced then sync.BumpAssetLastTime env else sync
    if fInitialDownload then
      if sync.IsBlockchainSynced then some (sync.Reset env) else some sync
    else if sync.fReachedBestHeader && !fReachedBestHeaderNew then
      some { (sync.Reset env) with fReachedBestHeader := false }
    else
      let sync : CFundamentalnodeSync := { sync with fReachedBestHeader := fReachedBestHeaderNew }
      if !sync.IsBlockchainSynced && sync.fReachedBestHeader then
        if env.fLiteMode then
          some { sync with nRequestedFundamentalnodeAssets := FUNDAMENTALNODE_SYNC_FINISHED }
        else sync.SwitchToNextAsset env
      else some sync

/-- The order of the stages in the words of the specification: the stage that follows
`stage` in the line Initial, Waiting, List, MNW (the payment votes), Finished, if any. -/
def specNextStage (stage : Int) : Option Int :=
  if stage = FUNDAMENTALNODE_SYNC_INITIAL then some FUNDAMENTALNODE_SYNC_WAITING
  else if stage = FUNDAMENTALNODE_SYNC_WAITING then some FUNDAMENTALNODE_SYNC_LIST
  else if stage = FUNDAMENTALNODE_SYNC_LIST then some FUNDAMENTALNODE_SYNC_MNW
  else if stage = FUNDAMENTALNODE_SYNC_MNW then some FUNDAMENTALNODE_SYNC_FINISHED
  else none

/-! ## Nodes at one address: `CFundamentalnodeMan::CheckSameAddr` -/

/-- The comparator `CompareByAddr`: the order `operator<` of `CService`, by address and then
by port. -/
def CompareByAddr (t1 t2 : CFundamentalnode) : Bool :=
  decide (t1.addr.ip < t2.addr.ip ∨ (t1.addr.ip = t2.addr.ip ∧ t1.addr.port < t2.addr.port))

/-- The vector `vSortedByAddr` of `CheckSameAddr`: the entries of the registry map, each a key
with the node it points to, sorted with `CompareByAddr`. `std::sort` leaves the order of
nodes of equal address open; here they stay in the order of the map. -/
def CFundamentalnodeMan.vSortedByAddr (man : CFundamentalnodeMan) :
    List (COutPoint × CFundamentalnode) :=
  stdSort (fun t1 t2 => CompareByAddr t1.2 t2.2) man.mapFundamentalnodes

/-- The first loop of `CheckSameAddr` over `vSortedByAddr`, from the pointers
`pprevFundamentalnode` and `pverifiedFundamentalnode` and the vector `vBan` reached so far: the
vector `vBan` at the end, as the keys of the map entries it points to. -/
def CheckSameAddrLoop :
    List (COutPoint × CFundamentalnode) → Option (COutPoint × CFundamentalnode) →
    Option (COutPoint × CFundamentalnode) → List COutPoint → List COutPoint
  | [], _, _, vBan => vBan
  | pfn :: rest, pprevFundamentalnode, pverifiedFundamentalnode, vBan =>
    if !pfn.2.IsEnabled && !pfn.2.IsPreEnabled then
      CheckSameAddrLoop rest pprevFundamentalnode pverifiedFundamentalnode vBan
    else
      match pprevFundamentalnode with
      | none =>
        CheckSameAddrLoop rest (some pfn) (if pfn.2.IsPoSeVerified then some pfn else none) vBan
      | some pprev =>
        if pfn.2.addr = pprev.2.addr then
          if pverifiedFundamentalnode.isSome then
            CheckSameAddrLoop rest (some pfn) pverifiedFundamentalnode (vBan ++ [pfn.1])
          else if pfn.2.IsPoSeVerified then
            CheckSameAddrLoop rest (some pfn) (some pfn) (vBan ++ [pprev.1])
          else CheckSameAddrLoop rest (some pfn) pverifiedFundamentalnode vBan
        else
          CheckSameAddrLoop rest (some pfn) (if pfn.2.IsPoSeVerified then some pfn else none)
            vBan

/-- The second loop of `CheckSameAddr`: `IncreasePoSeBanScore` on each node that `vBan` points
to, in the order of `vBan`. -/
def CheckSameAddrBan :
    List COutPoint → List (COutPoint × CFundamentalnode) → List (COutPoint × CFundamentalnode)
  | [], mapFundamentalnodes => mapFundamentalnodes
  | outpoint :: rest, mapFundamentalnodes =>
    CheckSameAddrBan rest
      (mapFundamentalnodes.map fun fnpair =>
        if fnpair.1 = outpoint then (fnpair.1, fnpair.2.IncreasePoSeBanScore) else fnpair)

/-- The method `CFundamentalnodeMan::CheckSameAddr`: the registry after the call. -/
def CFundamentalnodeMan.CheckSameAddr (env : Env) (man : CFundamentalnodeMan) :
    CFundamentalnodeMan :=
  if !env.IsSynced || man.mapFundamentalnodes.isEmpty then man
  else
    { man with
      mapFundamentalnodes :=
        CheckSameAddrBan (CheckSameAddrLoop man.vSortedByAddr none none [])
          man.mapFundamentalnodes }

/-- The storage limit in the words of the specification: the registry size times 1.25,
rounded down, and at least 6000. -/
def specStorageLimit (registrySize : Nat) : Int :=
  max ⌊(registrySize : ℚ) * (5 / 4)⌋ 6000

/-! ## Old votes: `CFundamentalnodePayments::CheckAndRemove` -/

/-- The loop of `CheckAndRemove` over the vote map, in key order: the vote map and the map of
tallies after it. -/
def CheckAndRemoveLoop (nCachedBlockHeight nLimit : Int) :
    List (uint256 × CFundamentalnodePaymentVote) → List (Int × CFundamentalnodeBlockPayees) →
      List (uint256 × CFundamentalnodePaymentVote) × List (Int × CFundamentalnodeBlockPayees)
  | [], blocks => ([], blocks)
  | (nHash, vote) :: rest, blocks =>
    if nCachedBlockHeight - vote.nBlockHeight > nLimit then
      CheckAndRemoveLoop nCachedBlockHeight nLimit rest (mapErase vote.nBlockHeight blocks)
    else
      ((nHash, vote) :: (CheckAndRemoveLoop nCachedBlockHeight nLimit rest blocks).1,
        (CheckAndRemoveLoop nCachedBlockHeight nLimit rest blocks).2)

/-- The method `CFundamentalnodePayments::CheckAndRemove`: the ledger after the call. -/
def CFundamentalnodePayments.CheckAndRemove (env : Env) (pay : CFundamentalnodePayments) :
    CFundamentalnodePayments :=
  if !env.IsBlockchainSynced then pay
  else
    let nLimit : Int := GetStorageLimit env.fnodemanSize
    { pay with
      mapFundamentalnodePaymentVotes :=
        (CheckAndRemoveLoop pay.nCachedBlockHeight nLimit pay.mapFundamentalnodePaymentVotes
          pay.mapFundamentalnodeBlocks).1
      mapFundamentalnodeBlocks :=
        (CheckAndRemoveLoop pay.nCachedBlockHeight nLimit pay.mapFundamentalnodePaymentVotes
          pay.mapFundamentalnodeBlocks).2 }

/-! ## The value of a block: `IsBlockValueValidFN` -/

/-- A block, reduced to its transactions. -/
structure CBlock where
  vtx : List CTransaction
deriving DecidableEq, Repr

/-- The text `strprintf("coinbase pays too much at height %d (actual=%d vs limit=%d), ...")`
with the given ending. -/
def strCoinbasePaysTooMuch (nBlockHeight : Int) (actualReward limit : CAmount)
    (strEnding : String) : String :=
  "coinbase pays too much at height " ++ toString nBlockHeight ++ " (actual=" ++
    toString actualReward ++ " vs limit=" ++ toString limit ++ "), " ++ strEnding

/-- The function `IsBlockValueValidFN(block, nBlockHeight, expectedReward, actualReward,
strErrorRet)`: the result and `strErrorRet`. The block is taken to hold the transaction the
source reads (`vtx[1]` above `nLastPoWBlock`, else `vtx[0]`); the remainder `%` of C++ rounds
towards zero. -/
def IsBlockValueValidFN (env : Env) (block : CBlock) (nBlockHeight : Int)
    (expectedReward actualReward : CAmount) : Bool × String :=
  let coinbaseTransaction : CTransaction :=
    if nBlockHeight > env.nLastPoWBlock then block.vtx.getD 1 ⟨[]⟩ else block.vtx.getD 0 ⟨[]⟩
  let isBlockRewardValueMet : Bool := decide (actualReward ≤ expectedReward)
  if nBlockHeight < env.nSuperblockStartBlock then
    let nOffset : Int := Int.tmod nBlockHeight env.nBudgetPaymentsCycleBlocks
    if nBlockHeight ≥ env.nBudgetPaymentsStartBlock ∧
        nOffset < env.nBudgetPaymentsWindowBlocks then
      if env.IsSynced then
        (isBlockRewardValueMet,
          if !isBlockRewardValueMet then
            strCoinbasePaysTooMuch nBlockHeight actualReward expectedReward
              "exceeded block reward, old budgets are disabled"
          else "")
      else (true, "")
    else
      (isBlockRewardValueMet,
        if !isBlockRewardValueMet then
          strCoinbasePaysTooMuch nBlockHeight actualReward expectedReward
            "exceeded block reward, block is not in old budget cycle window"
        else "")
  else
    let nSuperblockMaxValue : CAmount := expectedReward + env.GetPaymentsLimit nBlockHeight
    let isSuperblockMaxValueMet : Bool := decide (actualReward ≤ nSuperblockMaxValue)
    if !env.IsSynced || env.fLiteMode then
      if env.IsValidBlockHeight nBlockHeight then
        (isSuperblockMaxValueMet,
          if !isSuperblockMaxValueMet then
            strCoinbasePaysTooMuch nBlockHeight actualReward nSuperblockMaxValue
              "exceeded superblock max value"
          else "")
      else
        (isBlockRewardValueMet,
          if !isBlockRewardValueMet then
            strCoinbasePaysTooMuch nBlockHeight actualReward expectedReward
              "exceeded block reward, only regular blocks are allowed at this height"
          else "")
    else if env.SPORK_10_SUPERBLOCKS_ENABLED then
      if env.IsSuperblockTriggered nBlockHeight then
        if env.superblockIsValid coinbaseTransaction nBlockHeight actualReward expectedReward then
          (true, "")
        else (false, "invalid superblock detected at height " ++ toString nBlockHeight)
      else
        (isBlockRewardValueMet,
          if !isBlockRewardValueMet then
            strCoinbasePaysTooMuch nBlockHeight actualReward expectedReward
              "exceeded block reward, no triggered superblock detected"
          else "")
    else
      (isBlockRewardValueMet,
        if !isBlockRewardValueMet then
          strCoinbasePaysTooMuch nBlockHeight actualReward expectedReward
            "exceeded block reward, superblocks are disabled"
        else "")

/-! ## Verification broadcasts: `CFundamentalnodeMan::ProcessVerifyBroadcast` -/

def MIN_POSE_PROTO_VERSION : Int := 70203
def MAX_POSE_CONNECTIONS : Int := 10
def MAX_POSE_RANK : Int := 10
def MAX_POSE_BLOCKS : Int := 10

def CFundamentalnodeVerification.GetHash (env : Env) (fnv : CFundamentalnodeVerification) :
    uint256 :=
  env.fnvHash fnv.fundamentalnodeOutpoint1 fnv.fundamentalnodeOutpoint2 fnv.addr fnv.nonce
    fnv.nBlockHeight

def CFundamentalnodeVerification.GetSignatureHash1 (env : Env)
    (fnv : CFundamentalnodeVerification) (blockHash : uint256) : uint256 :=
  env.fnvSignatureHash1 fnv.addr fnv.nonce blockHash

def CFundamentalnodeVerification.GetSignatureHash2 (env : Env)
    (fnv : CFundamentalnodeVerification) (blockHash : uint256) : uint256 :=
  env.fnvSignatureHash2 fnv.fundamentalnodeOutpoint1 fnv.fundamentalnodeOutpoint2 fnv.addr
    fnv.nonce blockHash

/-- What `ProcessVerifyBroadcast` leaves behind: the registry after the call, the score passed
to `Misbehaving` for the sending peer (`0` when it is not called), and whether the message was
relayed (`fnv.Relay()`), which the method does exactly when it goes on to change scores. -/
structure ProcessVerifyBroadcastResult where
  man : CFundamentalnodeMan
  nMisbehaving : Int
  fRelayed : Bool
deriving DecidableEq, Repr

/-- The signature tests of `ProcessVerifyBroadcast`, by the active signature scheme. -/
def CFundamentalnodeVerification.CheckSignatures (env : Env)
    (fnv : CFundamentalnodeVerification) (blockHash : uint256) (pfn1 pfn2 : CFundamentalnode) :
    Bool :=
  if env.SPORK_6_NEW_SIGS then
    if !env.VerifyHash (fnv.GetSignatureHash1 env blockHash) pfn1.pubKeyFundamentalnode
        fnv.vchSig1 then false
    else if !env.VerifyHash (fnv.GetSignatureHash2 env blockHash) pfn2.pubKeyFundamentalnode
        fnv.vchSig2 then false
    else true
  else
    if !env.fnvVerifyMessage1 pfn1.pubKeyFundamentalnode fnv.vchSig1 fnv.addr fnv.nonce
        blockHash then false
    else if !env.fnvVerifyMessage2 pfn2.pubKeyFundamentalnode fnv.vchSig2 fnv.addr fnv.nonce
        blockHash fnv.fundamentalnodeOutpoint1 fnv.fundamentalnodeOutpoint2 then false
    else true

/-- The last loop of `ProcessVerifyBroadcast` over the registry: the score of every node at
the address of the message, the one under the first outpoint apart, goes up. -/
def ProcessVerifyBroadcastLoop (fnv : CFundamentalnodeVerification)
    (mapFundamentalnodes : List (COutPoint × CFundamentalnode)) :
    List (COutPoint × CFundamentalnode) :=
  mapFundamentalnodes.map fun fnpair =>
    if fnpair.2.addr ≠ fnv.addr ∨ fnpair.1 = fnv.fundamentalnodeOutpoint1 then fnpair
    else (fnpair.1, fnpair.2.IncreasePoSeBanScore)

/-- The method `CFundamentalnodeMan::ProcessVerifyBroadcast(pnode, fnv)`. -/
def CFundamentalnodeMan.ProcessVerifyBroadcast (env : Env) (man : CFundamentalnodeMan)
    (fnv : CFundamentalnodeVerification) : ProcessVerifyBroadcastResult :=
  if mapHas man.mapSeenFundamentalnodeVerification (fnv.GetHash env) then ⟨man, 0, false⟩
  else
    let man : CFundamentalnodeMan :=
      { man with
        mapSeenFundamentalnodeVerification :=
          mapAssign (fnv.GetHash env) fnv man.mapSeenFundamentalnodeVerification }
    if fnv.nBlockHeight < man.nCachedBlockHeight - MAX_POSE_BLOCKS then ⟨man, 0, false⟩
    else if fnv.fundamentalnodeOutpoint1 = fnv.fundamentalnodeOutpoint2 then ⟨man, 100, false⟩
    else
      match env.GetBlockHash fnv.nBlockHeight with
      | none => ⟨man, 0, false⟩
      | some blockHash =>
        match man.GetFundamentalnodeRank env fnv.fundamentalnodeOutpoint2 fnv.nBlockHeight
            MIN_POSE_PROTO_VERSION with
        | none => ⟨man, 0, false⟩
        | some nRank =>
          if nRank > MAX_POSE_RANK then ⟨man, 0, false⟩
          else
            match man.Find fnv.fundamentalnodeOutpoint1, man.Find fnv.fundamentalnodeOutpoint2 with
            | none, _ => ⟨man, 0, false⟩
            | some _, none => ⟨man, 0, false⟩
            | some pfn1, some pfn2 =>
              if pfn1.addr ≠ fnv.addr then ⟨man, 0, false⟩
              else if !fnv.CheckSignatures env blockHash pfn1 pfn2 then ⟨man, 0, false⟩
              else
                let mapFundamentalnodes : List (COutPoint × CFundamentalnode) :=
                  if !pfn1.IsPoSeVerified then
                    mapAssign fnv.fundamentalnodeOutpoint1 pfn1.DecreasePoSeBanScore
                      man.mapFundamentalnodes
                  else man.mapFundamentalnodes
                ⟨{ man with
                    mapFundamentalnodes := ProcessVerifyBroadcastLoop fnv mapFundamentalnodes },
                  0, true⟩

/-! ## The encoding of the messages: the `SerializationOp` templates

The primitive serializers (`serialize.h`, `primitives/transaction.h`) are outside the
transcribed sources. A data stream is the list of the values written to it: every primitive
serializer appends its value as one item, and reads back the item at the front when it is of
its type; reading from an empty stream, or a value of another type, throws. -/

/-- One value in a data stream. -/
inductive StreamItem where
  | outpoint (o : COutPoint)
  | uint256 (v : uint256)
  | int64 (v : Int)
  | int32 (v : Int)
  | uint32 (v : Nat)
  | bool (b : Bool)
  | bytes (v : List Nat)
  | script (v : CScript)
  | service (a : CService)
  | pubkey (k : CPubKey)
deriving DecidableEq, Repr

/-- A data stream: the values still to be read, the version of the stream and the two flags
of its type that the templates test. -/
structure CDataStream where
  vch : List StreamItem := []
  nVersion : Int
  /-- Whether `s.GetType() & SER_NETWORK` is set. -/
  fNetwork : Bool
  /-- Whether `s.GetType() & SER_GETHASH` is set. -/
  fGetHash : Bool
deriving DecidableEq, Repr

def CDataStream.size (s : CDataStream) : Nat := s.vch.length

def CDataStream.write (s : CDataStream) (item : StreamItem) : CDataStream :=
  { s with vch := s.vch ++ [item] }

def CDataStream.readOutpoint (s : CDataStream) : Option (COutPoint × CDataStream) :=
  match s.vch with
  | StreamItem.outpoint o :: rest => some (o, { s with vch := rest })
  | _ => none

def CDataStream.readUint256 (s : CDataStream) : Option (uint256 × CDataStream) :=
  match s.vch with
  | StreamItem.uint256 v :: rest => some (v, { s with vch := rest })
  | _ => none

def CDataStream.readInt64 (s : CDataStream) : Option (Int × CDataStream) :=
  match s.vch with
  | StreamItem.int64 v :: rest => some (v, { s with vch := rest })
  | _ => none

def CDataStream.readInt32 (s : CDataStream) : Option (Int × CDataStream) :=
  match s.vch with
  | StreamItem.int32 v :: rest => some (v, { s with vch := rest })
  | _ => none

def CDataStream.readUint32 (s : CDataStream) : Option (Nat × CDataStream) :=
  match s.vch with
  | StreamItem.uint32 v :: rest => some (v, { s with vch := rest })
  | _ => none

def CDataStream.readBool (s : CDataStream) : Option (Bool × CDataStream) :=
  match s.vch with
  | StreamItem.bool b :: rest => some (b, { s with vch := rest })
  | _ => none

def CDataStream.readBytes (s : CDataStream) : Option (List Nat × CDataStream) :=
  match s.vch with
  | StreamItem.bytes v :: rest => some (v, { s with vch := rest })
  | _ => none

def CDataStream.readScript (s : CDataStream) : Option (CScript × CDataStream) :=
  match s.vch with
  | StreamItem.script v :: rest => some (v, { s with vch := rest })
  | _ => none

def CDataStream.readService (s : CDataStream) : Option (CService × CDataStream) :=
  match s.vch with
  | StreamItem.service a :: rest => some (a, { s with vch := rest })
  | _ => none

def CDataStream.readPubKey (s : CDataStream) : Option (CPubKey × CDataStream) :=
  match s.vch with
  | StreamItem.pubkey k :: rest => some (k, { s with vch := rest })
  | _ => none

/-- Modelled from the spec: the transaction input of the legacy envelope, which carries the
outpoint with a dummy `scriptSig` and a sequence number. -/
structure CTxIn where
  prevout : COutPoint := COutPoint.null
  scriptSig : CScript := []
  nSequence : Nat := 0xffffffff
deriving DecidableEq, Repr

/-- Modelled from the spec: the constructor `CTxIn(outpoint)`, with the empty `scriptSig` and
the sequence number `0xffffffff`. -/
def CTxIn.ofOutpoint (outpoint : COutPoint) : CTxIn :=
  { prevout := outpoint, scriptSig := [], nSequence := 0xffffffff }

/-- Modelled from the spec: the encoding of a transaction input, its three fields in order. -/
def CTxIn.Serialize (s : CDataStream) (txin : CTxIn) : CDataStream :=
  ((s.write (StreamItem.outpoint txin.prevout)).write (StreamItem.script txin.scriptSig)).write
    (StreamItem.uint32 txin.nSequence)

/-- Modelled from the spec: the decoding of a transaction input. -/
def CTxIn.Unserialize (s : CDataStream) : Option (CTxIn × CDataStream) :=
  match s.readOutpoint with
  | none => none
  | some (prevout, s) =>
    match s.readScript with
    | none => none
    | some (scriptSig, s) =>
      match s.readUint32 with
      | none => none
      | some (nSequence, s) => some (⟨prevout, scriptSig, nSequence⟩, s)

/-- The first step of each `SerializationOp`, writing: the outpoint inside a transaction input
at version 70208 on the network, bare otherwise. -/
def SerializeOutpoint (s : CDataStream) (outpoint : COutPoint) : CDataStream :=
  if s.nVersion = 70208 ∧ s.fNetwork = true then CTxIn.Serialize s (CTxIn.ofOutpoint outpoint)
  else s.write (StreamItem.outpoint outpoint)

/-- The first step of each `SerializationOp`, reading. -/
def UnserializeOutpoint (s : CDataStream) : Option (COutPoint × CDataStream) :=
  if s.nVersion = 70208 ∧ s.fNetwork = true then
    match CTxIn.Unserialize s with
    | none => none
    | some (txin, s) => some (txin.prevout, s)
  else s.readOutpoint

def DEFAULT_SENTINEL_VERSION : Nat := 0x010001
def DEFAULT_DAEMON_VERSION : Nat := 120200

/-- The template `CFundamentalnodePing::SerializationOp`, writing. -/
def CFundamentalnodePing.Serialize (s : CDataStream) (fnp : CFundamentalnodePing) :
    CDataStream :=
  let s := SerializeOutpoint s fnp.fundamentalnodeOutpoint
  let s := s.write (StreamItem.uint256 fnp.blockHash)
  let s := s.write (StreamItem.int64 fnp.sigTime)
  let s := if !s.fGetHash then s.write (StreamItem.bytes fnp.vchSig) else s
  let s := s.write (StreamItem.bool fnp.fSentinelIsCurrent)
  let s := s.write (StreamItem.uint32 fnp.nSentinelVersion)
  if !(decide (s.nVersion = 70208) && s.fNetwork) then
    s.write (StreamItem.uint32 fnp.nDaemonVersion)
  else s

/-- The template `CFundamentalnodePing::SerializationOp`, reading into the ping `fnp`. -/
def CFundamentalnodePing.Unserialize (s : CDataStream) (fnp : CFundamentalnodePing) :
    Option (CFundamentalnodePing × CDataStream) :=
  match UnserializeOutpoint s with
  | none => none
  | some (fundamentalnodeOutpoint, s) =>
    let fnp := { fnp with fundamentalnodeOutpoint := fundamentalnodeOutpoint }
    match s.readUint256 with
    | none => none
    | some (blockHash, s) =>
      let fnp := { fnp with blockHash := blockHash }
      match s.readInt64 with
      | none => none
      | some (sigTime, s) =>
        let fnp := { fnp with sigTime := sigTime }
        match (if !s.fGetHash then s.readBytes else some (fnp.vchSig, s)) with
        | none => none
        | some (vchSig, s) =>
          let fnp := { fnp with vchSig := vchSig }
          if s.size = 0 then
            some ({ fnp with
              fSentinelIsCurrent := false
              nSentinelVersion := DEFAULT_SENTINEL_VERSION
              nDaemonVersion := DEFAULT_DAEMON_VERSION }, s)
          else
            match s.readBool with
            | none => none
            | some (fSentinelIsCurrent, s) =>
              let fnp := { fnp with fSentinelIsCurrent := fSentinelIsCurrent }
              match s.readUint32 with
              | none => none
              | some (nSentinelVersion, s) =>
                let fnp := { fnp with nSentinelVersion := nSentinelVersion }
                if s.size = 0 then
                  some ({ fnp with nDaemonVersion := DEFAULT_DAEMON_VERSION }, s)
                else if !(decide (s.nVersion = 70208) && s.fNetwork) then
                  match s.readUint32 with
                  | none => none
                  | some (nDaemonVersion, s) =>
                    some ({ fnp with nDaemonVersion := nDaemonVersion }, s)
                else some (fnp, s)

/-- The template `CFundamentalnodeBroadcast::SerializationOp`, writing. -/
def CFundamentalnodeBroadcast.Serialize (s : CDataStream) (fnb : CFundamentalnodeBroadcast) :
    CDataStream :=
  let s := SerializeOutpoint s fnb.fn.outpoint
  let s := s.write (StreamItem.service fnb.fn.addr)
  let s := s.write (StreamItem.pubkey fnb.fn.pubKeyCollateralAddress)
  let s := s.write (StreamItem.pubkey fnb.fn.pubKeyFundamentalnode)
  let s := if !s.fGetHash then s.write (StreamItem.bytes fnb.fn.vchSig) else s
  let s := s.write (StreamItem.int64 fnb.fn.sigTime)
  let s := s.write (StreamItem.int32 fnb.fn.nProtocolVersion)
  if !s.fGetHash then CFundamentalnodePing.Serialize s fnb.fn.lastPing else s

/-- The template `CFundamentalnodeBroadcast::SerializationOp`, reading into the announce
`fnb`. -/
def CFundamentalnodeBroadcast.Unserialize (s : CDataStream) (fnb : CFundamentalnodeBroadcast) :
    Option (CFundamentalnodeBroadcast × CDataStream) :=
  match UnserializeOutpoint s with
  | none => none
  | some (outpoint, s) =>
    match s.readService with
    | none => none
    | some (addr, s) =>
      match s.readPubKey with
      | none => none
      | some (pubKeyCollateralAddress, s) =>
        match s.readPubKey with
        | none => none
        | some (pubKeyFundamentalnode, s) =>
          match (if !s.fGetHash then s.readBytes else some (fnb.fn.vchSig, s)) with
          | none => none
          | some (vchSig, s) =>
            match s.readInt64 with
            | none => none
            | some (sigTime, s) =>
              match s.readInt32 with
              | none => none
              | some (nProtocolVersion, s) =>
                match (if !s.fGetHash then CFundamentalnodePing.Unserialize s fnb.fn.lastPing
                    else some (fnb.fn.lastPing, s)) with
                | none => none
                | some (lastPing, s) =>
                  some ({ fnb with
                    fn := { fnb.fn with
                      outpoint := outpoint
                      addr := addr
                      pubKeyCollateralAddress := pubKeyCollateralAddress
                      pubKeyFundamentalnode := pubKeyFundamentalnode
                      vchSig := vchSig
                      sigTime := sigTime
                      nProtocolVersion := nProtocolVersion
                      lastPing := lastPing } }, s)

/-- The template `CFundamentalnodePaymentVote::SerializationOp`, writing. -/
def CFundamentalnodePaymentVote.Serialize (s : CDataStream)
    (vote : CFundamentalnodePaymentVote) : CDataStream :=
  let s := SerializeOutpoint s vote.fundamentalnodeOutpoint
  let s := s.write (StreamItem.int32 vote.nBlockHeight)
  let s := s.write (StreamItem.script vote.payee)
  if !s.fGetHash then s.write (StreamItem.bytes vote.vchSig) else s

/-- The template `CFundamentalnodePaymentVote::SerializationOp`, reading into the vote
`vote`. -/
def CFundamentalnodePaymentVote.Unserialize (s : CDataStream)
    (vote : CFundamentalnodePaymentVote) : Option (CFundamentalnodePaymentVote × CDataStream) :=
  match UnserializeOutpoint s with
  | none => none
  | some (fundamentalnodeOutpoint, s) =>
    match s.readInt32 with
    | none => none
    | some (nBlockHeight, s) =>
      match s.readScript with
      | none => none
      | some (payee, s) =>
        match (if !s.fGetHash then s.readBytes else some (vote.vchSig, s)) with
        | none => none
        | some (vchSig, s) => some (⟨fundamentalnodeOutpoint, nBlockHeight, payee, vchSig⟩, s)

/-- The template `CFundamentalnodeVerification::SerializationOp`, writing. -/
def CFundamentalnodeVerification.Serialize (s : CDataStream)
    (fnv : CFundamentalnodeVerification) : CDataStream :=
  let s := SerializeOutpoint s fnv.fundamentalnodeOutpoint1
  let s := SerializeOutpoint s fnv.fundamentalnodeOutpoint2
  let s := s.write (StreamItem.service fnv.addr)
  let s := s.write (StreamItem.int32 fnv.nonce)
  let s := s.write (StreamItem.int32 fnv.nBlockHeight)
  let s := s.write (StreamItem.bytes fnv.vchSig1)
  s.write (StreamItem.bytes fnv.vchSig2)

/-- The template `CFundamentalnodeVerification::SerializationOp`, reading. -/
def CFundamentalnodeVerification.Unserialize (s : CDataStream) :
    Option (CFundamentalnodeVerification × CDataStream) :=
  match UnserializeOutpoint s with
  | none => none
  | some (fundamentalnodeOutpoint1, s) =>
    match UnserializeOutpoint s with
    | none => none
    | some (fundamentalnodeOutpoint2, s) =>
      match s.readService with
      | none => none
      | some (addr, s) =>
        match s.readInt32 with
        | none => none
        | some (nonce, s) =>
          match s.readInt32 with
          | none => none
          | some (nBlockHeight, s) =>
            match s.readBytes with
            | none => none
            | some (vchSig1, s) =>
              match s.readBytes with
              | none => none
              | some (vchSig2, s) =>
                some (⟨fundamentalnodeOutpoint1, fundamentalnodeOutpoint2, addr, nonce,
                  nBlockHeight, vchSig1, vchSig2⟩, s)

/-- The empty stream of a message to or from a peer of the given version: of the network type,
not of the hashing type. -/
def networkStream (nVersion : Int) : CDataStream :=
  { vch := [], nVersion := nVersion, fNetwork := true, fGetHash := false }

/-! ## The local controller: `activefundamentalnode.h`, `activefundamentalnode.cpp` -/

def ACTIVE_FUNDAMENTALNODE_INITIAL : Int := 0
def ACTIVE_FUNDAMENTALNODE_SYNC_IN_PROCESS : Int := 1
def ACTIVE_FUNDAMENTALNODE_INPUT_TOO_NEW : Int := 2
def ACTIVE_FUNDAMENTALNODE_NOT_CAPABLE : Int := 3
def ACTIVE_FUNDAMENTALNODE_STARTED : Int := 4

/-- The local controller `activeFundamentalnode`, reduced to the fields that
`ManageStateRemote` reads or writes. -/
structure CActiveFundamentalnode where
  fPingerEnabled : Bool := false
  pubKeyFundamentalnode : CPubKey := 0
  outpoint : COutPoint := COutPoint.null
  service : CService := ⟨0, 0⟩
  nState : Int := ACTIVE_FUNDAMENTALNODE_INITIAL
  strNotCapableReason : String := ""
deriving DecidableEq, Repr

/-- The surroundings as the node methods see them while `active` is the controller
`activeFundamentalnode`. -/
def CActiveFundamentalnode.toEnv (active : CActiveFundamentalnode) (env : Env) : Env :=
  { env with
    activePubKeyFundamentalnode := active.pubKeyFundamentalnode
    activeOutpoint := active.outpoint }

/-- The method `CFundamentalnode::StateToString`. -/
def CFundamentalnode.StateToString : state → String
  | FUNDAMENTALNODE_PRE_ENABLED => "PRE_ENABLED"
  | FUNDAMENTALNODE_ENABLED => "ENABLED"
  | FUNDAMENTALNODE_EXPIRED => "EXPIRED"
  | FUNDAMENTALNODE_OUTPOINT_SPENT => "OUTPOINT_SPENT"
  | FUNDAMENTALNODE_UPDATE_REQUIRED => "UPDATE_REQUIRED"
  | FUNDAMENTALNODE_SENTINEL_PING_EXPIRED => "SENTINEL_PING_EXPIRED"
  | FUNDAMENTALNODE_NEW_START_REQUIRED => "NEW_START_REQUIRED"
  | FUNDAMENTALNODE_POSE_BAN => "POSE_BAN"

/-- The loop of `CheckFundamentalnode(pubKeyFundamentalnode, fForce)` over the registry: the
first node with the key is checked. -/
def CheckFundamentalnodeLoop (env : Env) (pubKeyFundamentalnode : CPubKey) (fForce : Bool) :
    List (COutPoint × CFundamentalnode) → List (COutPoint × CFundamentalnode)
  | [] => []
  | fnpair :: rest =>
    if fnpair.2.pubKeyFundamentalnode = pubKeyFundamentalnode then
      (fnpair.1, fnpair.2.Check env fForce) :: rest
    else fnpair :: CheckFundamentalnodeLoop env pubKeyFundamentalnode fForce rest

/-- The method `CFundamentalnodeMan::CheckFundamentalnode(pubKeyFundamentalnode, fForce)`: the
registry after the call. -/
def CFundamentalnodeMan.CheckFundamentalnode (env : Env) (man : CFundamentalnodeMan)
    (pubKeyFundamentalnode : CPubKey) (fForce : Bool) : CFundamentalnodeMan :=
  { man with
    mapFundamentalnodes :=
      CheckFundamentalnodeLoop (man.toEnv env) pubKeyFundamentalnode fForce
        man.mapFundamentalnodes }

/-- The method `CFundamentalnodeMan::GetFundamentalnodeInfo(pubKeyFundamentalnode, fnInfoRet)`,
the overload that looks a node up by its operator key: `none` for the result false, otherwise
the first node with the key. -/
def CFundamentalnodeMan.GetFundamentalnodeInfoByPubKey (man : CFundamentalnodeMan)
    (pubKeyFundamentalnode : CPubKey) : Option CFundamentalnode :=
  (man.mapFundamentalnodes.find? fun fnpair =>
    decide (fnpair.2.pubKeyFundamentalnode = pubKeyFundamentalnode)).map fun fnpair => fnpair.2

/-- The method `CActiveFundamentalnode::ManageStateRemote`: the controller and the registry
after the call. -/
def CActiveFundamentalnode.ManageStateRemote (env : Env) (man : CFundamentalnodeMan)
    (active : CActiveFundamentalnode) : CActiveFundamentalnode × CFundamentalnodeMan :=
  let man := man.CheckFundamentalnode (active.toEnv env) active.pubKeyFundamentalnode true
  match man.GetFundamentalnodeInfoByPubKey active.pubKeyFundamentalnode with
  | some infoFn =>
    if infoFn.nProtocolVersion ≠ env.PROTOCOL_VERSION then
      ({ active with
          nState := ACTIVE_FUNDAMENTALNODE_NOT_CAPABLE
          strNotCapableReason := "Invalid protocol version" }, man)
    else if active.service ≠ infoFn.addr then
      ({ active with
          nState := ACTIVE_FUNDAMENTALNODE_NOT_CAPABLE
          strNotCapableReason :=
            "Broadcasted IP doesn't match our external address. Make sure you issued a new " ++
            "broadcast if IP of this fundamentalnode changed recently." }, man)
    else if !CFundamentalnode.IsValidStateForAutoStart infoFn.nActiveState then
      ({ active with
          nState := ACTIVE_FUNDAMENTALNODE_NOT_CAPABLE
          strNotCapableReason :=
            "Fundamentalnode in " ++ CFundamentalnode.StateToString infoFn.nActiveState ++
            " state" }, man)
    else if active.nState ≠ ACTIVE_FUNDAMENTALNODE_STARTED then
      ({ active with
          outpoint := infoFn.outpoint
          service := infoFn.addr
          fPingerEnabled := true
          nState := ACTIVE_FUNDAMENTALNODE_STARTED }, man)
    else (active, man)
  | none =>
    ({ active with
        nState := ACTIVE_FUNDAMENTALNODE_NOT_CAPABLE
        strNotCapableReason := "Fundamentalnode not in fundamentalnode list" }, man)

/-! ## The collateral: `CFundamentalnode::CheckCollateral` -/

/-- The results of `CheckCollateral` (`CFundamentalnode::CollateralStatus`). -/
inductive CollateralStatus where
  | COLLATERAL_OK
  | COLLATERAL_UTXO_NOT_FOUND
  | COLLATERAL_INVALID_AMOUNT
  | COLLATERAL_INVALID_PUBKEY
deriving DecidableEq, Repr

open CollateralStatus

/-- The method `CFundamentalnode::CheckCollateral(outpoint, pubkey, nHeightRet)`: the result
and the height written to `nHeightRet`, if any. -/
def CFundamentalnode.CheckCollateral (env : Env) (outpoint : COutPoint) (pubkey : CPubKey) :
    CollateralStatus × Option Int :=
  match env.GetUTXOCoin outpoint with
  | none => (COLLATERAL_UTXO_NOT_FOUND, none)
  | some coin =>
    if coin.out.nValue ≠ FN_MAGIC_AMOUNT env * env.COIN then (COLLATERAL_INVALID_AMOUNT, none)
    else if pubkey = 0 ∨ coin.out.scriptPubKey ≠ env.GetScriptForDestination pubkey then
      (COLLATERAL_INVALID_PUBKEY, none)
    else (COLLATERAL_OK, some coin.nHeight)

/-! ## The payment output of a new block: `AdjustFundamentalnodePayment` -/

/-- A transaction under construction, reduced to its outputs. -/
structure CMutableTransaction where
  vout : List CTxOut
deriving DecidableEq, Repr

/-- The function `AdjustFundamentalnodePayment(tx, txoutFundamentalnodePayment)`: the
transaction after the call, `none` where the index `tx.vout.size() - 2` that the source writes
to is not a position of `vout` (it writes there unchecked). -/
def AdjustFundamentalnodePayment (tx : CMutableTransaction)
    (txoutFundamentalnodePayment : CTxOut) : Option CMutableTransaction :=
  if txoutFundamentalnodePayment ∈ tx.vout then
    let fnPaymentOutIndex : Nat := tx.vout.indexOf txoutFundamentalnodePayment
    let fundamentalnodePayment : CAmount :=
      (tx.vout.getD fnPaymentOutIndex txoutFundamentalnodePayment).nValue
    let i : Int := (tx.vout.length : Int) - 2
    if 0 ≤ i ∧ i < (tx.vout.length : Int) then
      some { tx with
        vout := tx.vout.set i.toNat
          { (tx.vout.getD i.toNat txoutFundamentalnodePayment) with
            nValue := (tx.vout.getD i.toNat txoutFundamentalnodePayment).nValue -
              fundamentalnodePayment } }
    else none
  else some tx

/-! ## Verification replies: `CFundamentalnodeMan::ProcessVerifyReply` -/

/-- What the loop of `ProcessVerifyReply` over the registry leaves behind: the entries of the
registry, each with the mark that it was pushed to `vpFundamentalnodesToBan`; whether
`prealFundamentalnode` is set; whether the method returned from inside the loop; whether the
request `"mnverify-done"` was filed for the peer; whether a message was relayed; and the map of
the verification messages seen. -/
structure ProcessVerifyReplyLoopResult where
  vFundamentalnodes : List ((COutPoint × CFundamentalnode) × Bool)
  fReal : Bool
  fReturned : Bool
  fDone : Bool
  fRelayed : Bool
  mapSeenFundamentalnodeVerification : List (uint256 × CFundamentalnodeVerification)
deriving DecidableEq, Repr

/-- The signing of the completed verification message in `ProcessVerifyReply`, by the active
signature scheme: `none` where signing fails or the fresh signature does not verify (the
method returns there), otherwise the signature `vchSig2`. -/
def CFundamentalnodeVerification.SignSecond (env : Env) (fnv : CFundamentalnodeVerification)
    (blockHash : uint256) : Option Signature :=
  if env.SPORK_6_NEW_SIGS then
    match env.activeSignHash (fnv.GetSignatureHash2 env blockHash) with
    | none => none
    | some vchSig2 =>
      if !env.VerifyHash (fnv.GetSignatureHash2 env blockHash) env.activePubKeyFundamentalnode
          vchSig2 then none
      else some vchSig2
  else
    match env.activeSignMessage2 fnv.addr fnv.nonce blockHash fnv.fundamentalnodeOutpoint1
        fnv.fundamentalnodeOutpoint2 with
    | none => none
    | some vchSig2 =>
      if !env.fnvVerifyMessage2 env.activePubKeyFundamentalnode vchSig2 fnv.addr fnv.nonce
          blockHash fnv.fundamentalnodeOutpoint1 fnv.fundamentalnodeOutpoint2 then none
      else some vchSig2

/-- The loop of `ProcessVerifyReply` over the registry, for the peer at `addr`: `hash1` is the
signature hash taken from the message before the loop, `fnv` the message as the iterations so
far have left it. -/
def ProcessVerifyReplyLoop (env : Env) (addr : CService) (hash1 : uint256)
    (blockHash : uint256) :
    List (COutPoint × CFundamentalnode) → CFundamentalnodeVerification →
    List (uint256 × CFundamentalnodeVerification) → ProcessVerifyReplyLoopResult
  | [], _, seen => ⟨[], false, false, false, false, seen⟩
  | fnpair :: rest, fnv, seen =>
    if fnpair.2.addr = addr then
      let fFound : Bool :=
        if env.SPORK_6_NEW_SIGS then
          env.VerifyHash hash1 fnpair.2.pubKeyFundamentalnode fnv.vchSig1
        else
          env.fnvVerifyMessage1 fnpair.2.pubKeyFundamentalnode fnv.vchSig1 addr fnv.nonce
            blockHash
      if fFound then
        let fn : CFundamentalnode :=
          if !fnpair.2.IsPoSeVerified then fnpair.2.DecreasePoSeBanScore else fnpair.2
        if env.activeOutpoint = COutPoint.null then
          let r := ProcessVerifyReplyLoop env addr hash1 blockHash rest fnv seen
          { r with
            vFundamentalnodes := ((fnpair.1, fn), false) :: r.vFundamentalnodes
            fReal := true
            fDone := true }
        else
          let fnv : CFundamentalnodeVerification :=
            { fnv with
              addr := fn.addr
              fundamentalnodeOutpoint1 := fn.outpoint
              fundamentalnodeOutpoint2 := env.activeOutpoint }
          match fnv.SignSecond env blockHash with
          | none =>
            ⟨((fnpair.1, fn), false) :: rest.map (fun fnpair => (fnpair, false)), true, true, true,
              false, seen⟩
          | some vchSig2 =>
            let fnv : CFundamentalnodeVerification := { fnv with vchSig2 := vchSig2 }
            let r := ProcessVerifyReplyLoop env addr hash1 blockHash rest fnv
              (mapEmplace (fnv.GetHash env) fnv seen)
            { r with
              vFundamentalnodes := ((fnpair.1, fn), false) :: r.vFundamentalnodes
              fReal := true
              fDone := true
              fRelayed := true }
      else
        let r := ProcessVerifyReplyLoop env addr hash1 blockHash rest fnv seen
        { r with vFundamentalnodes := (fnpair, true) :: r.vFundamentalnodes }
    else
      let r := ProcessVerifyReplyLoop env addr hash1 blockHash rest fnv seen
      { r with vFundamentalnodes := (fnpair, false) :: r.vFundamentalnodes }

/-- What `ProcessVerifyReply` leaves behind: the registry after the call, the score passed to
`Misbehaving` for the peer (`0` when it is not called), whether the request `"mnverify-done"`
was filed for the peer and whether a message was relayed. -/
structure ProcessVerifyReplyResult where
  man : CFundamentalnodeMan
  nMisbehaving : Int
  fDone : Bool
  fRelayed : Bool
deriving DecidableEq, Repr

/-- The method `CFundamentalnodeMan::ProcessVerifyReply(pnode, fnv)`, for the peer at `addr`.
`fRequested` and `fDoneBefore` are whether `netfulfilledman` holds the requests
`"mnverify-request"` and `"mnverify-done"` for the peer, and `asked` is the entry
`mWeAskedForVerification[pnode->addr]` as the method reads it. The writes to
`mWeAskedForVerification` are dropped. -/
def CFundamentalnodeMan.ProcessVerifyReply (env : Env) (man : CFundamentalnodeMan)
    (addr : CService) (fnv : CFundamentalnodeVerification) (fRequested fDoneBefore : Bool)
    (asked : CFundamentalnodeVerification) : ProcessVerifyReplyResult :=
  if !fRequested then ⟨man, 20, false, false⟩
  else if asked.nonce ≠ fnv.nonce then ⟨man, 20, false, false⟩
  else if asked.nBlockHeight ≠ fnv.nBlockHeight then ⟨man, 20, false, false⟩
  else
    match env.GetBlockHash fnv.nBlockHeight with
    | none => ⟨man, 0, false, false⟩
    | some blockHash =>
      if fDoneBefore then ⟨man, 20, false, false⟩
      else
        let r := ProcessVerifyReplyLoop env addr (fnv.GetSignatureHash1 env blockHash) blockHash
          man.mapFundamentalnodes fnv man.mapSeenFundamentalnodeVerification
        if r.fReturned then
          ⟨{ man with
              mapFundamentalnodes := r.vFundamentalnodes.map fun marked => marked.1
              mapSeenFundamentalnodeVerification := r.mapSeenFundamentalnodeVerification },
            0, r.fDone, r.fRelayed⟩
        else if !r.fReal then
          ⟨{ man with
              mapFundamentalnodes := r.vFundamentalnodes.map fun marked => marked.1
              mapSeenFundamentalnodeVerification := r.mapSeenFundamentalnodeVerification },
            20, r.fDone, r.fRelayed⟩
        else
          ⟨{ man with
              mapFundamentalnodes := r.vFundamentalnodes.map fun marked =>
                if marked.2 then (marked.1.1, marked.1.2.IncreasePoSeBanScore) else marked.1
              mapSeenFundamentalnodeVerification := r.mapSeenFundamentalnodeVerification },
            0, r.fDone, r.fRelayed⟩

/-! ## Concrete inputs -/

/-- A synced main-net node at tip height 1000 and time 1000000: block `h` (for `0 ≤ h ≤ 1000`)
has hash `h + 1` and time `1000 * h`, a signature verifies when it is the single byte `1`, the
payment of a height is half of a subsidy of 100, the script of a key is 25 bytes long, every
address is routable, and the hash functions are simple encodings of their arguments. -/
def envMain : Env :=
  { GetTime := 1000000
    GetAdjustedTime := 1000000
    ShutdownRequested := false
    fLiteMode := false
    fFundamentalnodeMode := false
    activePubKeyFundamentalnode := 0
    PROTOCOL_VERSION := 70211
    SPORK_6_NEW_SIGS := true
    SPORK_12_FUNDAMENTALNODE_PAY_UPDATED_NODES := false
    SPORK_15_REQUIRE_SENTINEL_FLAG := false
    nRequestedFundamentalnodeAssets := FUNDAMENTALNODE_SYNC_FINISHED
    NetworkID := Network.main
    chainActiveHeight := 1000
    mapBlockIndex := fun h => if 1 ≤ h ∧ h ≤ 1001 then some ((h : Int) - 1) else none
    GetBlockHash := fun h => if 0 ≤ h ∧ h ≤ 1000 then some (h.toNat + 1) else none
    scoreHash := fun o c b => 1000 * o.hash + o.n + c + b
    pingVerifyHash := fun _ p => p.vchSig = [1]
    pingVerifyMessage := fun _ _ => false
    fnbVerifyHash := fun fn => fn.vchSig = [1]
    fnbVerifyMessage := fun _ => false
    GetBlockSubsidy := fun _ => 100
    GetFundamentalnodePayment := fun _ v => v / 2
    voteHash := fun p h o => 1000000 * p.headD 0 + 100 * h.toNat + o.hash
    voteVerifyHash := fun _ v => v.vchSig = [1]
    voteVerifyMessage := fun _ _ => false
    GetUTXOConfirmations := fun _ => 1000
    GetScriptForDestination := fun k => k :: List.replicate 24 0
    sigTimeTooNew := fun _ _ => false
    fnodemanSize := 20
    nLastSentinelPingTime := 0
    activeOutpoint := COutPoint.null
    fnbHash := fun o k t => 1000000000 * o.hash + 10000000 * k + t.toNat
    pingHash := fun p => 10000000 * p.fundamentalnodeOutpoint.hash + p.sigTime.toNat
    IsRoutableIPv4 := fun _ => true
    COIN := 100000000
    collateralInputSurplus := fun _ => 1000000000000
    nHeightUnassigned := 0
    nFundamentalnodeMinimumConfirmations := 15
    GetBlockTime := fun h => 1000 * h
    nSuperblockStartBlock := 22180
    nBudgetPaymentsCycleBlocks := 20160
    nBudgetPaymentsStartBlock := 22180
    nBudgetPaymentsWindowBlocks := 100
    nLastPoWBlock := 100
    GetPaymentsLimit := fun _ => 500
    IsValidBlockHeight := fun h => decide (22180 ≤ h ∧ h % 20160 = 0)
    SPORK_10_SUPERBLOCKS_ENABLED := true
    IsSuperblockTriggered := fun _ => false
    superblockIsValid := fun _ _ _ _ => false
    fnvHash := fun o1 o2 a n h => 1000000 * o1.hash + 10000 * o2.hash + 100 * a.ip + 10 * n.toNat
      + h.toNat
    fnvSignatureHash1 := fun a n b => 1000000 * a.ip + 1000 * n.toNat + b
    fnvSignatureHash2 := fun o1 o2 a n b => 100000000 * o1.hash + 10000000 * o2.hash
      + 1000000 * a.ip + 1000 * n.toNat + b
    VerifyHash := fun _ _ sig => sig = [1]
    fnvVerifyMessage1 := fun _ _ _ _ _ => false
    fnvVerifyMessage2 := fun _ _ _ _ _ _ _ => false
    GetUTXOCoin := fun o =>
      if o.hash = 1 then some ⟨⟨12340000, 5 :: List.replicate 24 0⟩, 900⟩
      else if o.hash = 2 then some ⟨⟨1234000000000000, 5 :: List.replicate 24 0⟩, 900⟩
      else none
    activeSignHash := fun _ => some [1]
    activeSignMessage2 := fun _ _ _ _ _ => none }

/-- The tally of height 1010 with 7 votes for the payee `[1]` and 1 vote for the payee `[2]`. -/
def tally1010 : CFundamentalnodeBlockPayees :=
  { nBlockHeight := 1010
    vecPayeesFN := [⟨[1], [11, 12, 13, 14, 15, 16, 17]⟩, ⟨[2], [21]⟩] }

/-- A registry with the single enabled node of outpoint `(1, 0)`. -/
def manOne : CFundamentalnodeMan :=
  { nCachedBlockHeight := 1000
    mapFundamentalnodes :=
      [(⟨1, 0⟩,
        { outpoint := ⟨1, 0⟩
          nProtocolVersion := 70211
          nActiveState := FUNDAMENTALNODE_ENABLED })] }

/-- An empty ledger at tip height 1000. -/
def payEmpty : CFundamentalnodePayments := { nCachedBlockHeight := 1000 }

/-- A signed vote of the node `(1, 0)` for height 1010 and payee `[1]`. -/
def voteFirst : CFundamentalnodePaymentVote := ⟨⟨1, 0⟩, 1010, [1], [1]⟩

/-- A signed vote of the node `(1, 0)` for height 1011 and payee `[1]`. -/
def voteOther : CFundamentalnodePaymentVote := ⟨⟨1, 0⟩, 1011, [1], [1]⟩

/-- A signed vote of the node `(1, 0)` for height 1010 again, for the payee `[2]`. -/
def voteAgain : CFundamentalnodePaymentVote := ⟨⟨1, 0⟩, 1010, [2], [1]⟩

/-- The node of outpoint `(i, 0)` last paid at block `i`, of the given protocol version and
state. -/
def nodeOf (i : Nat) (nProtocolVersion : Int) (nActiveState : state) : CFundamentalnode :=
  { outpoint := ⟨i, 0⟩
    nProtocolVersion := nProtocolVersion
    nActiveState := nActiveState
    nBlockLastPaid := (i : Int) }

/-- A registry of three enabled nodes, the third of an old protocol version. -/
def manThree : CFundamentalnodeMan :=
  { nCachedBlockHeight := 1000
    mapFundamentalnodes :=
      [(⟨1, 0⟩, nodeOf 1 70211 FUNDAMENTALNODE_ENABLED),
       (⟨2, 0⟩, nodeOf 2 70211 FUNDAMENTALNODE_ENABLED),
       (⟨3, 0⟩, nodeOf 3 70200 FUNDAMENTALNODE_ENABLED)] }

/-- The node of `envMain` while it still requests the fundamentalnode list. -/
def envListStage : Env :=
  { envMain with nRequestedFundamentalnodeAssets := FUNDAMENTALNODE_SYNC_LIST }

/-- A registry of twenty nodes `(1, 0)` to `(20, 0)` of the current protocol version: the first
ten are enabled, the last ten expired. -/
def manTwenty : CFundamentalnodeMan :=
  { nCachedBlockHeight := 1000
    mapFundamentalnodes :=
      ((List.range 10).map fun i => (⟨i + 1, 0⟩, nodeOf (i + 1) 70211 FUNDAMENTALNODE_ENABLED)) ++
      ((List.range 10).map fun i => (⟨i + 11, 0⟩, nodeOf (i + 11) 70211 FUNDAMENTALNODE_EXPIRED)) }

/-- An enabled node `(1, 0)` with operator key 7, announced at time 900000 and last pinged at
time 999000. -/
def nodeLive : CFundamentalnode :=
  { outpoint := ⟨1, 0⟩
    nActiveState := FUNDAMENTALNODE_ENABLED
    nProtocolVersion := 70211
    sigTime := 900000
    pubKeyCollateralAddress := 5
    pubKeyFundamentalnode := 7
    lastPing := { fundamentalnodeOutpoint := ⟨1, 0⟩, blockHash := 990, sigTime := 999000,
                  vchSig := [1] } }

/-- The same node in state NewStartRequired, last pinged at time 980000. -/
def nodeNewStart : CFundamentalnode :=
  { nodeLive with
    nActiveState := FUNDAMENTALNODE_NEW_START_REQUIRED
    lastPing := { fundamentalnodeOutpoint := ⟨1, 0⟩, blockHash := 970, sigTime := 980000,
                  vchSig := [1] } }

/-- A signed ping of the node `(1, 0)` at time 999600 on the block of height 994. -/
def pingNew : CFundamentalnodePing :=
  { fundamentalnodeOutpoint := ⟨1, 0⟩, blockHash := 995, sigTime := 999600, vchSig := [1] }

/-- The node `(1, 0)` last pinged `age` seconds before the time of `envMain`. -/
def nodePingedAgo (age : Int) : CFundamentalnode :=
  { nodeLive with
    lastPing := { fundamentalnodeOutpoint := ⟨1, 0⟩, blockHash := 990, sigTime := 1000000 - age,
                  vchSig := [1] } }

/-- The node `(1, 0)` with the highest PoSe score. -/
def nodeScoreFive : CFundamentalnode := { nodeLive with nPoSeBanScore := 5 }

/-- The node `(1, 0)` banned until height 20. -/
def nodeBanned : CFundamentalnode :=
  { nodeLive with
    nActiveState := FUNDAMENTALNODE_POSE_BAN
    nPoSeBanScore := 5
    nPoSeBanHeight := 20 }

/-- A signed announce of the node `(1, 0)` with the `sigTime` 950000, later than that of
`nodeLive`, carrying the ping `pingNew`. -/
def fnbNewer : CFundamentalnodeBroadcast :=
  { fn := { nodeLive with sigTime := 950000, vchSig := [1], lastPing := pingNew }
    fRecovery := false }

/-- A signed announce of the node `(1, 0)` with the `sigTime` of `nodeLive` itself, marked as
a recovery reply and carrying the ping `pingNew`. -/
def fnbRecovery : CFundamentalnodeBroadcast :=
  { fn := { nodeLive with vchSig := [1], lastPing := pingNew }
    fRecovery := true }

/-- The node of `envMain` at tip height 10000: block `h` (for `0 ≤ h ≤ 10000`) has hash
`h + 1`. -/
def envTall : Env :=
  { envMain with
    chainActiveHeight := 10000
    mapBlockIndex := fun h => if 1 ≤ h ∧ h ≤ 10001 then some ((h : Int) - 1) else none
    GetBlockHash := fun h => if 0 ≤ h ∧ h ≤ 10000 then some (h.toNat + 1) else none }

/-- An empty ledger at tip height 10000. -/
def payTall : CFundamentalnodePayments := { nCachedBlockHeight := 10000 }

/-- A signed vote of the node `(1, 0)` for the given height and the payee `[1]`. -/
def voteAt (nBlockHeight : Int) : CFundamentalnodePaymentVote := ⟨⟨1, 0⟩, nBlockHeight, [1], [1]⟩

/-- A signed vote of the node `(i, 0)` for the given height and the payee `[1]`. -/
def voteOf (i : Nat) (nBlockHeight : Int) : CFundamentalnodePaymentVote :=
  ⟨⟨i, 0⟩, nBlockHeight, [1], [1]⟩

/-- The node of `envMain` with spork 12 active: payments go to nodes of the newer protocol
version only. -/
def envSpork12 : Env := { envMain with SPORK_12_FUNDAMENTALNODE_PAY_UPDATED_NODES := true }

/-- A registry with the single enabled node `(1, 0)` of the older protocol version 70210. -/
def manOld : CFundamentalnodeMan :=
  { nCachedBlockHeight := 1000
    mapFundamentalnodes := [(⟨1, 0⟩, nodeOf 1 70210 FUNDAMENTALNODE_ENABLED)] }

/-- A ping signed one hour after the adjusted time of `envMain`, on a known block. -/
def pingHourAhead : CFundamentalnodePing :=
  { fundamentalnodeOutpoint := ⟨1, 0⟩, blockHash := 995, sigTime := 1003600, vchSig := [1] }

/-- A ping signed one hour and one second after the adjusted time of `envMain`. -/
def pingTooFarAhead : CFundamentalnodePing :=
  { fundamentalnodeOutpoint := ⟨1, 0⟩, blockHash := 995, sigTime := 1003601, vchSig := [1] }

/-- The node of `envMain` running as the fundamentalnode `(1, 0)` with the operator key 7. -/
def envOwn : Env :=
  { envMain with
    fFundamentalnodeMode := true
    activePubKeyFundamentalnode := 7
    activeOutpoint := ⟨1, 0⟩ }

/-- The node `nodeLive` at an address with the main-net port. -/
def nodeServed : CFundamentalnode := { nodeLive with addr := ⟨1, 12919⟩ }

/-- A registry holding `nodeServed` alone. -/
def manServed : CFundamentalnodeMan :=
  { nCachedBlockHeight := 1000
    mapFundamentalnodes := [(⟨1, 0⟩, nodeServed)] }

/-- A signed announce of `nodeServed` with its own `sigTime` and ping, of the older protocol
version 70210. -/
def fnbOlderProto : CFundamentalnodeBroadcast :=
  { fn := { nodeServed with nProtocolVersion := 70210, vchSig := [1] }
    fRecovery := false }

/-- The announce `fnbOlderProto` marked as a recovery reply. -/
def fnbOlderProtoRecovery : CFundamentalnodeBroadcast := { fnbOlderProto with fRecovery := true }

/-- A signed announce of a node `(2, 0)` that is not in `manServed`, carrying a ping. -/
def fnbFresh : CFundamentalnodeBroadcast :=
  { fn := { nodeServed with
      outpoint := ⟨2, 0⟩
      vchSig := [1]
      lastPing := { fundamentalnodeOutpoint := ⟨2, 0⟩, blockHash := 990, sigTime := 999000,
                    vchSig := [1] } }
    fRecovery := false }

/-- The node of `envMain` in lite mode. -/
def envLite : Env := { envMain with fLiteMode := true }

/-- The node of `envMain` on the regression-test network. -/
def envRegtest : Env := { envMain with NetworkID := Network.regtest }

/-- The sync driver in stage Initial, last bumped at the time of `envMain`. -/
def syncInitial : CFundamentalnodeSync :=
  { nRequestedFundamentalnodeAssets := FUNDAMENTALNODE_SYNC_INITIAL
    nTimeAssetSyncStarted := 1000000
    nTimeLastBumped := 1000000 }

/-- The sync driver in stage Initial after six requests. -/
def syncInitialSix : CFundamentalnodeSync :=
  { syncInitial with nRequestedFundamentalnodeAttempt := 6 }

/-- An outbound peer of the current protocol version. -/
def peerOne : CNode := { addr := ⟨1, 12919⟩, nVersion := 70211 }

/-- An enabled node of outpoint `(i, 0)` at the address `(ip, 12919)` with the given PoSe
score. -/
def nodeAt (i : Nat) (ip : Nat) (nPoSeBanScore : Int) : CFundamentalnode :=
  { outpoint := ⟨i, 0⟩
    nActiveState := FUNDAMENTALNODE_ENABLED
    nProtocolVersion := 70211
    addr := ⟨ip, 12919⟩
    nPoSeBanScore := nPoSeBanScore }

/-- A registry of three enabled nodes at one address: `(1, 0)` and `(2, 0)` with score 0 and
the PoSe-verified `(3, 0)` with score -5; and a fourth node alone at another address. -/
def manSameAddr : CFundamentalnodeMan :=
  { nCachedBlockHeight := 1000
    mapFundamentalnodes :=
      [(⟨1, 0⟩, nodeAt 1 7 0), (⟨2, 0⟩, nodeAt 2 7 0), (⟨3, 0⟩, nodeAt 3 7 (-5)),
       (⟨4, 0⟩, nodeAt 4 8 0)] }

/-- A verification message by which the node `(4, 0)` vouches for the node `(1, 0)` at the
address `(7, 12919)`, for the block of height 995, with both signatures. -/
def fnvFirst : CFundamentalnodeVerification :=
  { fundamentalnodeOutpoint1 := ⟨1, 0⟩
    fundamentalnodeOutpoint2 := ⟨4, 0⟩
    addr := ⟨7, 12919⟩
    nonce := 5
    nBlockHeight := 995
    vchSig1 := [1]
    vchSig2 := [1] }

/-- A synced node on the regression-test network, with the budget and superblock heights of
that chain: budget payments from height 1000 in the first 10 blocks of every 50,
superblocks from height 1500. -/
def envBudget : Env :=
  { envRegtest with
    nBudgetPaymentsStartBlock := 1000
    nBudgetPaymentsCycleBlocks := 50
    nBudgetPaymentsWindowBlocks := 10
    nSuperblockStartBlock := 1500 }

/-- The node of `envBudget` while it still requests the fundamentalnode list. -/
def envBudgetSyncing : Env :=
  { envBudget with nRequestedFundamentalnodeAssets := FUNDAMENTALNODE_SYNC_LIST }

/-- A block with two transactions without outputs. -/
def blockPlain : CBlock := ⟨[⟨[]⟩, ⟨[]⟩]⟩

/-- A registry holding `nodeLive` alone. -/
def manLive : CFundamentalnodeMan :=
  { nCachedBlockHeight := 1000
    mapFundamentalnodes := [(⟨1, 0⟩, nodeLive)] }

/-- A ledger at tip height 1000 whose tally of height 1011 has one candidate, the script of
the collateral key 5 of `nodeLive`, with one vote. -/
def payScheduled : CFundamentalnodePayments :=
  { nCachedBlockHeight := 1000
    mapFundamentalnodeBlocks := [(1011, ⟨1011, [⟨5 :: List.replicate 24 0, [77]⟩]⟩)] }

/-- The node of `envMain` where every announce counts as too new for the payment queue. -/
def envTooNew : Env := { envMain with sigTimeTooNew := fun _ _ => true }

/-- The node of `envMain` where an announce signed after time 950000 counts as too new for the
payment queue. -/
def envAgeTest : Env := { envMain with sigTimeTooNew := fun sigTime _ => decide (sigTime > 950000) }

/-- The enabled node `(1, 0)` of the current protocol version, announced at time 900000 and
last paid at block 500. -/
def nodeEarly : CFundamentalnode :=
  { nodeOf 1 70211 FUNDAMENTALNODE_ENABLED with sigTime := 900000, nBlockLastPaid := 500 }

/-- The enabled node `(2, 0)` of the current protocol version, announced at time 990000 and
last paid at block 2. -/
def nodeLate : CFundamentalnode :=
  { nodeOf 2 70211 FUNDAMENTALNODE_ENABLED with sigTime := 990000 }

/-- A registry of six enabled nodes: `nodeEarly`, `nodeLate` and four nodes of the protocol
version 70200, which is below the minimum for payments. -/
def manMixed : CFundamentalnodeMan :=
  { nCachedBlockHeight := 1000
    mapFundamentalnodes :=
      [(⟨1, 0⟩, nodeEarly), (⟨2, 0⟩, nodeLate),
       (⟨3, 0⟩, nodeOf 3 70200 FUNDAMENTALNODE_ENABLED),
       (⟨4, 0⟩, nodeOf 4 70200 FUNDAMENTALNODE_ENABLED),
       (⟨5, 0⟩, nodeOf 5 70200 FUNDAMENTALNODE_ENABLED),
       (⟨6, 0⟩, nodeOf 6 70200 FUNDAMENTALNODE_ENABLED)] }

/-- The announce `fnbFresh` with a ping on a block the node does not know. -/
def fnbUnknownBlock : CFundamentalnodeBroadcast :=
  { fnbFresh with
    fn := { fnbFresh.fn with
      lastPing := { fundamentalnodeOutpoint := ⟨2, 0⟩, blockHash := 5000, sigTime := 999000,
                    vchSig := [1] } } }

/-- The announce `fnbFresh` with an empty ping. -/
def fnbNoPing : CFundamentalnodeBroadcast :=
  { fnbFresh with fn := { fnbFresh.fn with lastPing := {} } }

/-- A ledger at tip height 10000 with one vote for height 3000, older than the storage limit
of 6000 blocks, one vote for height 9990, and the tallies of both heights. -/
def payOldVotes : CFundamentalnodePayments :=
  { nCachedBlockHeight := 10000
    mapFundamentalnodePaymentVotes :=
      [(1300001, ⟨⟨1, 0⟩, 3000, [1], [1]⟩), (1999002, ⟨⟨2, 0⟩, 9990, [1], [1]⟩)]
    mapFundamentalnodeBlocks :=
      [(3000, ⟨3000, [⟨[1], [1300001]⟩]⟩), (9990, ⟨9990, [⟨[1], [1999002]⟩]⟩)] }

/-- The sync driver in stage List on a processed tick, last bumped 100 s before the time of
`envMain`, with no request attempted. -/
def syncListStale : CFundamentalnodeSync :=
  { nRequestedFundamentalnodeAssets := FUNDAMENTALNODE_SYNC_LIST
    nRequestedFundamentalnodeAttempt := 0
    nTimeAssetSyncStarted := 999900
    nTimeLastBumped := 999900
    nTick := 6
    nTimeLastProcess := some 999994 }

/-- The sync driver of `syncListStale` in stage MNW (the payment votes) after two requests. -/
def syncVotesStale : CFundamentalnodeSync :=
  { syncListStale with
    nRequestedFundamentalnodeAssets := FUNDAMENTALNODE_SYNC_MNW
    nRequestedFundamentalnodeAttempt := 2 }

/-- The sync driver of `syncListStale` in stage Waiting. -/
def syncWaitingStale : CFundamentalnodeSync :=
  { syncListStale with nRequestedFundamentalnodeAssets := FUNDAMENTALNODE_SYNC_WAITING }

/-- The sync driver of `syncListStale` when its last processed tick is 10000 s before the time
of `envMain`. -/
def syncListAsleep : CFundamentalnodeSync :=
  { syncListStale with nTimeLastProcess := some 990000 }

/-- The sync driver in stage Failed since time 999000, on a tick that is processed, last
processed at time 999994. -/
def syncFailed : CFundamentalnodeSync :=
  { nRequestedFundamentalnodeAssets := FUNDAMENTALNODE_SYNC_FAILED
    nRequestedFundamentalnodeAttempt := 2
    nTimeAssetSyncStarted := 998000
    nTimeLastBumped := 998900
    nTimeLastFailure := 999000
    nTick := 6
    nTimeLastProcess := some 999994 }

/-- The sync driver of `syncFailed` failed 30 s before the time of `envMain`. -/
def syncFailedJustNow : CFundamentalnodeSync := { syncFailed with nTimeLastFailure := 999970 }

/-- The local controller with the operator key 7, not yet started, at the address of
`nodeServed`. -/
def activeFresh : CActiveFundamentalnode :=
  { pubKeyFundamentalnode := 7
    service := ⟨1, 12919⟩ }

/-- The local controller with the operator key 7, started earlier on the collateral `(9, 0)`,
at the address of `nodeServed`. -/
def activeStartedElsewhere : CActiveFundamentalnode :=
  { fPingerEnabled := true
    pubKeyFundamentalnode := 7
    outpoint := ⟨9, 0⟩
    service := ⟨1, 12919⟩
    nState := ACTIVE_FUNDAMENTALNODE_STARTED }

/-- A registry holding the node `(1, 0)` of `nodeServed`, in state Enabled, last pinged 10860 s
before the time of `envMain`. -/
def manServedStale : CFundamentalnodeMan :=
  { nCachedBlockHeight := 1000
    mapFundamentalnodes :=
      [(⟨1, 0⟩, { nodeServed with
        lastPing := { fundamentalnodeOutpoint := ⟨1, 0⟩, blockHash := 990, sigTime := 989140,
                      vchSig := [1] } })] }

/-- A verification reply from the peer at `(7, 12919)` for the block of height 995, with a
first signature. -/
def fnvReply : CFundamentalnodeVerification :=
  { addr := ⟨7, 12919⟩
    nonce := 5
    nBlockHeight := 995
    vchSig1 := [1] }

/-- The announce `fnbFresh` from an address with another port than the main-net port, which
`SimpleCheck` rejects on the main network. -/
def fnbWrongPort : CFundamentalnodeBroadcast :=
  { fnbFresh with fn := { fnbFresh.fn with addr := ⟨1, 12920⟩ } }

/-! # Properties -/

/-! ## Coinbase validation -/

theorem maxSignaturesLoop_lt (l : List CFundamentalnodePayee) (n k : Int) :
    maxSignaturesLoop l n < k ↔ n < k ∧ ∀ c ∈ l, c.GetVoteCount < k := by
  induction l generalizing n with
  | nil => simp [maxSignaturesLoop]
  | cons p rest ih =>
    simp only [maxSignaturesLoop, List.mem_cons, forall_eq_or_imp]
    split
    · rw [ih]
      constructor
      · rintro ⟨h1, h2⟩; exact ⟨by omega, h1, h2⟩
      · rintro ⟨_, h1, h2⟩; exact ⟨h1, h2⟩
    · rw [ih]
      constructor
      · rintro ⟨h1, h2⟩; exact ⟨h1, by omega, h2⟩
      · rintro ⟨h0, _, h2⟩; exact ⟨h0, h2⟩

/-- C1: a coinbase is valid for a per-height tally exactly when no candidate has at least 6
votes, or some output pays the payment amount of the tally's height to a candidate with at
least 6 votes; the ledger accepts every coinbase for a height without a tally and otherwise
answers with the tally stored for the height. -/
theorem IsTransactionValid_iff (env : Env) (bp : CFundamentalnodeBlockPayees)
    (txNew : CTransaction) (pay : CFundamentalnodePayments) (nBlockHeight : Int) :
    (bp.IsTransactionValid env txNew = true ↔
      (¬ ∃ payee ∈ bp.vecPayeesFN, 6 ≤ payee.vecVoteHashes.length) ∨
      (∃ payee ∈ bp.vecPayeesFN, 6 ≤ payee.vecVoteHashes.length ∧
        ∃ txout ∈ txNew.vout, txout.scriptPubKey = payee.scriptPubKey ∧
          txout.nValue =
            env.GetFundamentalnodePayment bp.nBlockHeight (env.GetBlockSubsidy bp.nBlockHeight)))
    ∧ (mapFind pay.mapFundamentalnodeBlocks nBlockHeight = none →
        pay.IsTransactionValid env txNew nBlockHeight = true)
    ∧ (∀ tally, mapFind pay.mapFundamentalnodeBlocks nBlockHeight = some tally →
        pay.IsTransactionValid env txNew nBlockHeight = tally.IsTransactionValid env txNew) := by
  refine ⟨?_, ?_, ?_⟩
  · unfold CFundamentalnodeBlockPayees.IsTransactionValid
    simp only [FNPAYMENTS_SIGNATURES_REQUIRED]
    by_cases hmax : maxSignaturesLoop bp.vecPayeesFN 0 < 6
    · simp only [hmax, if_true, true_iff]
      left
      rw [maxSignaturesLoop_lt] at hmax
      rintro ⟨payee, hmem, h6⟩
      have := hmax.2 payee hmem
      simp only [CFundamentalnodePayee.GetVoteCount] at this
      omega
    · simp only [hmax, if_false]
      have hex : ∃ payee ∈ bp.vecPayeesFN, 6 ≤ payee.vecVoteHashes.length := by
        by_contra hne
        apply hmax
        rw [maxSignaturesLoop_lt]
        refine ⟨by norm_num, fun c hc => ?_⟩
        simp only [CFundamentalnodePayee.GetVoteCount]
        by_contra hge
        exact hne ⟨c, hc, by omega⟩
      simp only [List.any_eq_true, Bool.and_eq_true, decide_eq_true_eq,
        CFundamentalnodePayee.GetVoteCount, CFundamentalnodePayee.GetPayee]
      constructor
      · rintro ⟨payee, hmem, h6, txout, hout, hs, hv⟩
        exact Or.inr ⟨payee, hmem, by omega, txout, hout, hs.symm, hv.symm⟩
      · rintro (hno | ⟨payee, hmem, h6, txout, hout, hs, hv⟩)
        · exact absurd hex hno
        · exact ⟨payee, hmem, by omega, txout, hout, hs.symm, hv.symm⟩
  · intro h
    simp [CFundamentalnodePayments.IsTransactionValid, h]
  · intro tally h
    simp [CFundamentalnodePayments.IsTransactionValid, h]

/-- The vote quorum scenario: with 7 votes for the payee `[1]` and 1 for the payee `[2]` at
height 1010, a coinbase paying the payment amount 50 to `[1]` is valid and one paying it only
to `[2]` is not. -/
theorem IsTransactionValid_quorum_scenario :
    tally1010.IsTransactionValid envMain ⟨[⟨50, [9]⟩, ⟨50, [1]⟩]⟩ = true ∧
    tally1010.IsTransactionValid envMain ⟨[⟨50, [9]⟩, ⟨50, [2]⟩]⟩ = false := by
  decide

/-! ## One vote per voter and height -/

theorem mapFind_mapAssign_self {K V : Type} [DecidableEq K] [LT K] [∀ a b : K, Decidable (a < b)]
    (k : K) (v : V) (m : List (K × V)) :
    mapFind (mapAssign k v m) k = some v := by
  induction m with
  | nil => simp [mapAssign, mapFind]
  | cons p rest ih =>
    obtain ⟨k', v'⟩ := p
    simp only [mapAssign]
    split
    · simp [mapFind]
    · split
      · simp [mapFind]
      · rename_i h1 h2
        have : ¬ k' = k := fun h => h2 h.symm
        simp [mapFind, this, ih]

theorem mapFind_mapEmplace_of_none {K V : Type} [DecidableEq K] [LT K]
    [∀ a b : K, Decidable (a < b)] (k : K) (v : V) (m : List (K × V)) (h : mapFind m k = none) : mapFind (mapEmplace k v m) k = some v := by
  simp [mapEmplace, mapHas, h, mapFind_mapAssign_self]

theorem UpdateLastVote_records (pay : CFundamentalnodePayments)
    (vote : CFundamentalnodePaymentVote) :
    mapFind (pay.UpdateLastVote vote).2.mapFundamentalnodesLastVote vote.fundamentalnodeOutpoint
      = some vote.nBlockHeight := by
  unfold CFundamentalnodePayments.UpdateLastVote
  split
  · rename_i nHeight hfind
    split
    · rename_i heq
      simpa [heq] using hfind
    · simp [mapFind_mapAssign_self]
  · rename_i hfind
    simp [mapFind_mapEmplace_of_none _ _ _ hfind]

theorem AddOrUpdatePaymentVote_lastVote (env : Env) (pay : CFundamentalnodePayments)
    (vote : CFundamentalnodePaymentVote) :
    (pay.AddOrUpdatePaymentVote env vote).2.mapFundamentalnodesLastVote
      = pay.mapFundamentalnodesLastVote := by
  unfold CFundamentalnodePayments.AddOrUpdatePaymentVote
  split
  · rfl
  · split <;> rfl

theorem ProcessMessage_accepted_records (env : Env) (man : CFundamentalnodeMan)
    (pay : CFundamentalnodePayments) (peerVersion : Int) (vote : CFundamentalnodePaymentVote)
    (h : (pay.ProcessMessage env man peerVersion vote).1 = true) :
    mapFind (pay.ProcessMessage env man peerVersion vote).2.mapFundamentalnodesLastVote
      vote.fundamentalnodeOutpoint = some vote.nBlockHeight := by
  unfold CFundamentalnodePayments.ProcessMessage at h ⊢
  split at h
  · simp at h
  split at h
  · simp at h
  split at h
  · simp at h
  split at h
  · simp at h
  simp only at h ⊢
  split at h
  · simp at h
  split at h
  · simp at h
  split at h
  · simp at h
  split at h
  · simp at h
  split at h
  · simp at h
  simp only [*, if_false, Bool.false_eq_true]
  rw [AddOrUpdatePaymentVote_lastVote]
  exact UpdateLastVote_records _ _

theorem ProcessMessage_repeat_keeps_tally (env : Env) (man : CFundamentalnodeMan)
    (pay : CFundamentalnodePayments) (peerVersion : Int) (vote : CFundamentalnodePaymentVote)
    (h : mapFind pay.mapFundamentalnodesLastVote vote.fundamentalnodeOutpoint
      = some vote.nBlockHeight) :
    (pay.ProcessMessage env man peerVersion vote).2.mapFundamentalnodeBlocks
      = pay.mapFundamentalnodeBlocks := by
  unfold CFundamentalnodePayments.ProcessMessage
  split
  · rfl
  split
  · rfl
  split
  · rfl
  split
  · rfl
  simp only
  split
  · rfl
  split
  · rfl
  split
  · rfl
  split
  · rfl
  simp [CFundamentalnodePayments.UpdateLastVote, h]

/-- C2 (counterexample): the node `(1, 0)` votes for height 1010 and payee `[1]`, then for
height 1011, then for height 1010 and payee `[2]`; the handler accepts all three votes, and the
tally of height 1010 then counts two votes of this one voter, the first not replaced. -/
theorem payment_vote_counted_twice :
    (payEmpty.ProcessMessage envMain manOne 70211 voteFirst).1 = true ∧
    ((processVotes envMain manOne 70211 payEmpty [voteFirst]).ProcessMessage
      envMain manOne 70211 voteOther).1 = true ∧
    ((processVotes envMain manOne 70211 payEmpty [voteFirst, voteOther]).ProcessMessage
      envMain manOne 70211 voteAgain).1 = true ∧
    votesCountedFor
      (processVotes envMain manOne 70211 payEmpty [voteFirst, voteOther, voteAgain])
      1010 ⟨1, 0⟩ = 2 ∧
    mapFind
      (processVotes envMain manOne 70211 payEmpty
        [voteFirst, voteOther, voteAgain]).mapFundamentalnodeBlocks 1010
      = some ⟨1010, [⟨[1], [voteFirst.GetHash envMain]⟩, ⟨[2], [voteAgain.GetHash envMain]⟩]⟩ := by
  decide

/-- C2 (amended): when the handler has accepted a vote, the next vote it receives from the same
voter for the same height, whatever its payee, leaves every per-height tally as it was: two
votes of one voter for one height that follow each other are never both counted. -/
theorem consecutive_votes_counted_once (env env' : Env) (man man' : CFundamentalnodeMan)
    (pay : CFundamentalnodePayments) (peerVersion peerVersion' : Int)
    (vote vote' : CFundamentalnodePaymentVote)
    (hvoter : vote'.fundamentalnodeOutpoint = vote.fundamentalnodeOutpoint)
    (hheight : vote'.nBlockHeight = vote.nBlockHeight)
    (haccepted : (pay.ProcessMessage env man peerVersion vote).1 = true) :
    ((pay.ProcessMessage env man peerVersion vote).2.ProcessMessage
        env' man' peerVersion' vote').2.mapFundamentalnodeBlocks
      = (pay.ProcessMessage env man peerVersion vote).2.mapFundamentalnodeBlocks := by
  apply ProcessMessage_repeat_keeps_tally
  rw [hvoter, hheight]
  exact ProcessMessage_accepted_records env man pay peerVersion vote haccepted

/-- C2 (amended), at the votes of the node `(1, 0)` for height 1010 with payees `[1]` and
`[2]`. -/
theorem consecutive_votes_counted_once_witness :
    (voteAgain.fundamentalnodeOutpoint = voteFirst.fundamentalnodeOutpoint ∧
      voteAgain.nBlockHeight = voteFirst.nBlockHeight ∧
      (payEmpty.ProcessMessage envMain manOne 70211 voteFirst).1 = true) ∧
    ((payEmpty.ProcessMessage envMain manOne 70211 voteFirst).2.ProcessMessage
        envMain manOne 70211 voteAgain).2.mapFundamentalnodeBlocks
      = (payEmpty.ProcessMessage envMain manOne 70211 voteFirst).2.mapFundamentalnodeBlocks :=
  ⟨⟨rfl, rfl, by decide⟩,
    consecutive_votes_counted_once envMain envMain manOne manOne payEmpty 70211 70211
      voteFirst voteAgain rfl rfl (by decide)⟩

/-! ## Ranking -/

theorem CompareScoreMN_eq_false_iff (a b : uint256 × CFundamentalnode) :
    CompareScoreMN b a = false ↔
      a.1 < b.1 ∨ (a.1 = b.1 ∧ a.2.outpoint ≤ b.2.outpoint) := by
  unfold CompareScoreMN
  by_cases h : b.1 = a.1
  · simp [h]
  · have h' : ¬ a.1 = b.1 := fun e => h e.symm
    simp only [ne_eq, h, not_false_eq_true, if_true, decide_eq_false_iff_not, not_lt, h',
      false_and, or_false]
    exact ⟨fun hle => lt_of_le_of_ne hle h', fun hlt => le_of_lt hlt⟩

theorem CompareScoreMN_total :
    IsTotal (uint256 × CFundamentalnode) (fun a b => CompareScoreMN b a = false) where
  total a b := by
    rw [CompareScoreMN_eq_false_iff, CompareScoreMN_eq_false_iff]
    rcases lt_trichotomy a.1 b.1 with h | h | h
    · exact Or.inl (Or.inl h)
    · rcases le_total a.2.outpoint b.2.outpoint with h2 | h2
      · exact Or.inl (Or.inr ⟨h, h2⟩)
      · exact Or.inr (Or.inr ⟨h.symm, h2⟩)
    · exact Or.inr (Or.inl h)

theorem CompareScoreMN_trans :
    IsTrans (uint256 × CFundamentalnode) (fun a b => CompareScoreMN b a = false) where
  trans a b c := by
    rw [CompareScoreMN_eq_false_iff, CompareScoreMN_eq_false_iff, CompareScoreMN_eq_false_iff]
    rintro (h1 | ⟨h1, h1'⟩) (h2 | ⟨h2, h2'⟩)
    · exact Or.inl (lt_trans h1 h2)
    · exact Or.inl (h2 ▸ h1)
    · exact Or.inl (h1 ▸ h2)
    · exact Or.inr ⟨h1.trans h2, le_trans h1' h2'⟩

theorem stdSort_perm {α : Type} (comp : α → α → Bool) (l : List α) :
    (stdSort comp l).Perm l :=
  List.perm_insertionSort _ l

theorem GetFundamentalnodeRanksLoop_snd (l : List (uint256 × CFundamentalnode)) (nRank : Int) :
    (GetFundamentalnodeRanksLoop l nRank).map Prod.snd = l.map Prod.snd := by
  induction l generalizing nRank with
  | nil => rfl
  | cons p rest ih => simp [GetFundamentalnodeRanksLoop, ih]

theorem GetFundamentalnodeRanksLoop_length (l : List (uint256 × CFundamentalnode)) (nRank : Int) :
    (GetFundamentalnodeRanksLoop l nRank).length = l.length := by
  induction l generalizing nRank with
  | nil => rfl
  | cons p rest ih => simp [GetFundamentalnodeRanksLoop, ih]

theorem GetFundamentalnodeRanksLoop_fst (l : List (uint256 × CFundamentalnode)) (nRank : Int) :
    (GetFundamentalnodeRanksLoop l nRank).map Prod.fst
      = (List.range l.length).map fun (i : Nat) => nRank + 1 + (i : Int) := by
  induction l generalizing nRank with
  | nil => rfl
  | cons p rest ih =>
    simp only [GetFundamentalnodeRanksLoop, List.map_cons, List.length_cons, List.range_succ_eq_map,
      ih, List.map_map]
    simp only [Nat.cast_zero, add_zero, List.cons.injEq, true_and]
    apply List.map_congr_left
    intro i _
    simp only [Function.comp, Nat.cast_succ]
    ring

/-- The scores that `GetFundamentalnodeScores` sorts: the nodes of sufficient protocol version
in registry order, each with its score. -/
theorem GetFundamentalnodeScores_synced (env : Env) (man : CFundamentalnodeMan)
    (nBlockHash : uint256) (nMinProtocol : Int)
    (hsync : env.IsFundamentalnodeListSynced = true) :
    (man.GetFundamentalnodeScores env nBlockHash nMinProtocol).2
      = (stdSort CompareScoreMN
          ((man.mapFundamentalnodes.filter fun fnpair =>
            decide (fnpair.2.nProtocolVersion ≥ nMinProtocol)).map fun fnpair =>
              (fnpair.2.CalculateScore env nBlockHash, fnpair.2)).reverse).reverse := by
  unfold CFundamentalnodeMan.GetFundamentalnodeScores
  simp only [hsync, Bool.not_true, Bool.false_eq_true, if_false]
  split
  · rename_i hempty
    have : man.mapFundamentalnodes = [] := by simpa using hempty
    simp [this, stdSort]
  · rfl

theorem GetFundamentalnodeRanks_synced (env : Env) (man : CFundamentalnodeMan)
    (nBlockHeight nMinProtocol : Int) (seed : uint256)
    (hsync : env.IsFundamentalnodeListSynced = true)
    (hseed : env.GetBlockHash nBlockHeight = some seed) :
    (man.GetFundamentalnodeRanks env nBlockHeight nMinProtocol).2
      = GetFundamentalnodeRanksLoop
          (man.GetFundamentalnodeScores env seed nMinProtocol).2 0 := by
  unfold CFundamentalnodeMan.GetFundamentalnodeRanks
  simp only [hsync, Bool.not_true, Bool.false_eq_true, if_false, hseed]
  split
  · rename_i hfail
    have h2 : (man.GetFundamentalnodeScores env seed nMinProtocol).2 = [] := by
      unfold CFundamentalnodeMan.GetFundamentalnodeScores at hfail ⊢
      simp only [hsync, Bool.not_true, Bool.false_eq_true, if_false] at hfail ⊢
      split at hfail
      · simp [*]
      · simp only [*, if_false]
        simpa using hfail
    simp [h2, GetFundamentalnodeRanksLoop]
  · rfl

theorem GetFundamentalnodeScores_mem_score (env : Env) (man : CFundamentalnodeMan)
    (nBlockHash : uint256) (nMinProtocol : Int) (p : uint256 × CFundamentalnode)
    (hp : p ∈ (man.GetFundamentalnodeScores env nBlockHash nMinProtocol).2) :
    p.1 = p.2.CalculateScore env nBlockHash := by
  unfold CFundamentalnodeMan.GetFundamentalnodeScores at hp
  split at hp
  · simp at hp
  split at hp
  · simp at hp
  simp only [List.mem_reverse] at hp
  have hp' := (stdSort_perm CompareScoreMN _).mem_iff.mp hp
  simp only [List.mem_reverse, List.mem_map, List.mem_filter] at hp'
  obtain ⟨q, _, hq⟩ := hp'
  rw [← hq]

theorem GetFundamentalnodeScores_pairwise (env : Env) (man : CFundamentalnodeMan)
    (nBlockHash : uint256) (nMinProtocol : Int) :
    (man.GetFundamentalnodeScores env nBlockHash nMinProtocol).2.Pairwise
      (fun a b => CompareScoreMN a b = false) := by
  unfold CFundamentalnodeMan.GetFundamentalnodeScores
  split
  · exact List.Pairwise.nil
  split
  · exact List.Pairwise.nil
  simp only
  rw [List.pairwise_reverse]
  haveI := CompareScoreMN_total
  haveI := CompareScoreMN_trans
  exact List.sorted_insertionSort (fun a b => CompareScoreMN b a = false) _

/-- C3 (amended): while the fundamentalnode list is synced and the hash of the target height
is known, the vector of `GetFundamentalnodeRanks` holds exactly the registry nodes with
protocol version at least `nMinProtocol`, each once; it is in descending order of score against
that hash, nodes of equal score in descending order of outpoint; its ranks are 1, 2, ..., n, so
that rank 1 carries a highest score; and the result depends on the environment only through
the block hash and the score function. -/
theorem GetFundamentalnodeRanks_sorted (env : Env) (man : CFundamentalnodeMan)
    (nBlockHeight nMinProtocol : Int) (seed : uint256)
    (hsync : env.IsFundamentalnodeListSynced = true)
    (hseed : env.GetBlockHash nBlockHeight = some seed) :
    ((man.GetFundamentalnodeRanks env nBlockHeight nMinProtocol).2.map Prod.snd).Perm
      ((man.mapFundamentalnodes.map Prod.snd).filter fun fn =>
        decide (fn.nProtocolVersion ≥ nMinProtocol)) ∧
    ((man.GetFundamentalnodeRanks env nBlockHeight nMinProtocol).2.map Prod.snd).Pairwise
      (fun a b => a.CalculateScore env seed > b.CalculateScore env seed ∨
        (a.CalculateScore env seed = b.CalculateScore env seed ∧ a.outpoint ≥ b.outpoint)) ∧
    (man.GetFundamentalnodeRanks env nBlockHeight nMinProtocol).2.map Prod.fst
      = (List.range (man.GetFundamentalnodeRanks env nBlockHeight nMinProtocol).2.length).map
          (fun (i : Nat) => (i : Int) + 1) ∧
    (∀ first rest, (man.GetFundamentalnodeRanks env nBlockHeight nMinProtocol).2 = first :: rest →
      first.1 = 1 ∧ ∀ p ∈ rest, p.2.CalculateScore env seed ≤ first.2.CalculateScore env seed) ∧
    (∀ (env' : Env) (nBlockHeight' : Int), env'.IsFundamentalnodeListSynced = true →
      env'.GetBlockHash nBlockHeight' = some seed → env'.scoreHash = env.scoreHash →
      man.GetFundamentalnodeRanks env' nBlockHeight' nMinProtocol
        = man.GetFundamentalnodeRanks env nBlockHeight nMinProtocol) := by
  have hranks := GetFundamentalnodeRanks_synced env man nBlockHeight nMinProtocol seed hsync hseed
  have hpair : ((man.GetFundamentalnodeRanks env nBlockHeight nMinProtocol).2.map
      Prod.snd).Pairwise
      (fun a b => a.CalculateScore env seed > b.CalculateScore env seed ∨
        (a.CalculateScore env seed = b.CalculateScore env seed ∧ a.outpoint ≥ b.outpoint)) := by
    rw [hranks, GetFundamentalnodeRanksLoop_snd, List.pairwise_map]
    refine List.Pairwise.imp_of_mem ?_ (GetFundamentalnodeScores_pairwise env man seed nMinProtocol)
    intro a b ha hb hab
    have h := (CompareScoreMN_eq_false_iff b a).mp hab
    rw [GetFundamentalnodeScores_mem_score env man seed nMinProtocol a ha,
      GetFundamentalnodeScores_mem_score env man seed nMinProtocol b hb] at h
    rcases h with h | ⟨h1, h2⟩
    · exact Or.inl h
    · exact Or.inr ⟨h1.symm, h2⟩
  have hfst : (man.GetFundamentalnodeRanks env nBlockHeight nMinProtocol).2.map Prod.fst
      = (List.range (man.GetFundamentalnodeRanks env nBlockHeight nMinProtocol).2.length).map
          (fun (i : Nat) => (i : Int) + 1) := by
    rw [hranks, GetFundamentalnodeRanksLoop_fst, GetFundamentalnodeRanksLoop_length]
    apply List.map_congr_left
    intro i _
    ring
  refine ⟨?_, hpair, hfst, ?_, ?_⟩
  · rw [hranks, GetFundamentalnodeRanksLoop_snd,
      GetFundamentalnodeScores_synced env man seed nMinProtocol hsync]
    refine ((List.reverse_perm _).trans ((stdSort_perm _ _).trans (List.reverse_perm _))).map
      Prod.snd |>.trans ?_
    rw [List.map_map, List.filter_map]
    exact List.Perm.refl _
  · intro first rest hcons
    rw [hcons] at hpair hfst
    constructor
    · have h := hfst
      simp only [List.map_cons, List.length_cons, List.range_succ_eq_map, Nat.cast_zero,
        zero_add, List.cons.injEq] at h
      exact h.1
    · intro p hp
      simp only [List.map_cons, List.pairwise_cons, List.mem_map, forall_exists_index,
        and_imp] at hpair
      rcases hpair.1 p.2 p hp rfl with h | ⟨h, _⟩
      · exact le_of_lt h
      · exact le_of_eq h.symm
  · intro env' nBlockHeight' hsync' hseed' hscore
    have hcalc : ∀ (fn : CFundamentalnode) (h : uint256),
        fn.CalculateScore env' h = fn.CalculateScore env h := by
      intro fn h
      simp [CFundamentalnode.CalculateScore, hscore]
    simp only [CFundamentalnodeMan.GetFundamentalnodeRanks,
      CFundamentalnodeMan.GetFundamentalnodeScores, hsync, hsync', hseed, hseed', hcalc]

/-- C3 (counterexample): while the node still requests the fundamentalnode list, the hash of
height 900 is known and two nodes of the registry have protocol version at least 70210, yet
`GetFundamentalnodeRanks` returns false and an empty vector. -/
theorem GetFundamentalnodeRanks_empty_while_syncing :
    envListStage.GetBlockHash 900 = some 901 ∧
    ((manThree.mapFundamentalnodes.map Prod.snd).filter fun fn =>
      decide (fn.nProtocolVersion ≥ 70210)).length = 2 ∧
    manThree.GetFundamentalnodeRanks envListStage 900 70210 = (false, []) := by
  decide

/-- C3 (amended), at the registry of three nodes and height 900: the node `(2, 0)` has the
higher score and rank 1, the node `(1, 0)` has rank 2, and the node of the old version is left
out. -/
theorem GetFundamentalnodeRanks_sorted_witness :
    (envMain.IsFundamentalnodeListSynced = true ∧ envMain.GetBlockHash 900 = some 901) ∧
    ((manThree.GetFundamentalnodeRanks envMain 900 70210).2.map Prod.snd).Perm
      ((manThree.mapFundamentalnodes.map Prod.snd).filter fun fn =>
        decide (fn.nProtocolVersion ≥ 70210)) ∧
    manThree.GetFundamentalnodeRanks envMain 900 70210
      = (true, [(1, nodeOf 2 70211 FUNDAMENTALNODE_ENABLED),
          (2, nodeOf 1 70211 FUNDAMENTALNODE_ENABLED)]) :=
  ⟨⟨by decide, by decide⟩,
    (GetFundamentalnodeRanks_sorted envMain manThree 900 70210 901 (by decide) (by decide)).1,
    by decide⟩

/-! ## Payment queue -/

theorem CompareLastPaidBlock_eq_false_iff (a b : Int × CFundamentalnode) :
    CompareLastPaidBlock b a = false ↔
      a.1 < b.1 ∨ (a.1 = b.1 ∧ a.2.outpoint ≤ b.2.outpoint) := by
  unfold CompareLastPaidBlock
  by_cases h : b.1 = a.1
  · simp [h]
  · have h' : ¬ a.1 = b.1 := fun e => h e.symm
    simp only [ne_eq, h, not_false_eq_true, if_true, decide_eq_false_iff_not, not_lt, h',
      false_and, or_false]
    exact ⟨fun hle => lt_of_le_of_ne hle h', fun hlt => le_of_lt hlt⟩

theorem CompareLastPaidBlock_total :
    IsTotal (Int × CFundamentalnode) (fun a b => CompareLastPaidBlock b a = false) where
  total a b := by
    rw [CompareLastPaidBlock_eq_false_iff, CompareLastPaidBlock_eq_false_iff]
    rcases lt_trichotomy a.1 b.1 with h | h | h
    · exact Or.inl (Or.inl h)
    · rcases le_total a.2.outpoint b.2.outpoint with h2 | h2
      · exact Or.inl (Or.inr ⟨h, h2⟩)
      · exact Or.inr (Or.inr ⟨h.symm, h2⟩)
    · exact Or.inr (Or.inl h)

theorem CompareLastPaidBlock_trans :
    IsTrans (Int × CFundamentalnode) (fun a b => CompareLastPaidBlock b a = false) where
  trans a b c := by
    rw [CompareLastPaidBlock_eq_false_iff, CompareLastPaidBlock_eq_false_iff,
      CompareLastPaidBlock_eq_false_iff]
    rintro (h1 | ⟨h1, h1'⟩) (h2 | ⟨h2, h2'⟩)
    · exact Or.inl (lt_trans h1 h2)
    · exact Or.inl (h2 ▸ h1)
    · exact Or.inl (h1 ▸ h2)
    · exact Or.inr ⟨h1.trans h2, le_trans h1' h2'⟩

/-- What the second loop returns, by the nodes it looks at: the first `k` of the list, where
`k` is the number of nodes still allowed by the counter and at least one. Either no score
among them exceeds `nHighest` and the best node so far is kept, or the result is the first of
them that carries their highest score. -/
theorem bestOfTenthLoop_spec (env : Env) (blockHash : uint256) (nTenthNetwork : Int)
    (l : List (Int × CFundamentalnode)) (nCountTenth : Int) (nHighest : uint256)
    (pBest : Option CFundamentalnode) (k : Nat)
    (hk : (k : Int) = max 1 (nTenthNetwork - nCountTenth)) :
    (bestOfTenthLoop env blockHash nTenthNetwork l nCountTenth nHighest pBest = pBest ∧
      ∀ x ∈ l.take k, x.2.CalculateScore env blockHash ≤ nHighest) ∨
    (∃ pre s post, l.take k = pre ++ s :: post ∧
      bestOfTenthLoop env blockHash nTenthNetwork l nCountTenth nHighest pBest = some s.2 ∧
      nHighest < s.2.CalculateScore env blockHash ∧
      (∀ x ∈ pre, x.2.CalculateScore env blockHash < s.2.CalculateScore env blockHash) ∧
      (∀ x ∈ post, x.2.CalculateScore env blockHash ≤ s.2.CalculateScore env blockHash)) := by
  induction l generalizing nCountTenth nHighest pBest k with
  | nil => left; simp [bestOfTenthLoop]
  | cons s rest ih =>
    simp only [bestOfTenthLoop]
    by_cases hstop : nCountTenth + 1 ≥ nTenthNetwork
    · have hk1 : k = 1 := by omega
      subst hk1
      simp only [hstop, if_true, List.take_succ_cons, List.take_zero]
      by_cases hs : s.2.CalculateScore env blockHash > nHighest
      · right
        exact ⟨[], s, [], rfl, by simp [hs], hs, by simp, by simp⟩
      · left
        refine ⟨by simp [hs], ?_⟩
        intro x hx
        simp only [List.mem_singleton] at hx
        subst hx
        exact not_lt.mp hs
    · simp only [hstop, if_false]
      obtain ⟨k', rfl⟩ : ∃ k', k = k' + 1 := ⟨k - 1, by omega⟩
      have hk' : (k' : Int) = max 1 (nTenthNetwork - (nCountTenth + 1)) := by omega
      simp only [List.take_succ_cons]
      by_cases hs : s.2.CalculateScore env blockHash > nHighest
      · simp only [hs, if_true]
        rcases ih (nCountTenth + 1) (s.2.CalculateScore env blockHash) (some s.2) k' hk' with
          ⟨h1, h2⟩ | ⟨pre, s', post, h1, h2, h3, h4, h5⟩
        · right
          exact ⟨[], s, rest.take k', rfl, h1, hs, by simp, h2⟩
        · right
          refine ⟨s :: pre, s', post, by simp [h1], h2, lt_trans hs h3, ?_, h5⟩
          intro x hx
          rcases List.mem_cons.mp hx with rfl | hx
          · exact h3
          · exact h4 x hx
      · simp only [hs, if_false]
        rcases ih (nCountTenth + 1) nHighest pBest k' hk' with
          ⟨h1, h2⟩ | ⟨pre, s', post, h1, h2, h3, h4, h5⟩
        · left
          refine ⟨h1, ?_⟩
          intro x hx
          rcases List.mem_cons.mp hx with rfl | hx
          · exact not_lt.mp hs
          · exact h2 x hx
        · right
          refine ⟨s :: pre, s', post, by simp [h1], h2, h3, ?_, h5⟩
          intro x hx
          rcases List.mem_cons.mp hx with rfl | hx
          · exact lt_of_le_of_lt (not_lt.mp hs) h3
          · exact h4 x hx

/-- Two splits of a list at a first maximum of `f` are at the same element. -/
theorem first_max_unique {α : Type} (f : α → Nat) (pre pre' post post' : List α) (s s' : α)
    (h : pre ++ s :: post = pre' ++ s' :: post')
    (hpre : ∀ x ∈ pre, f x < f s) (hpost : ∀ x ∈ post, f x ≤ f s)
    (hpre' : ∀ x ∈ pre', f x < f s') (hpost' : ∀ x ∈ post', f x ≤ f s') : s = s' := by
  rcases List.append_eq_append_iff.mp h with ⟨a, ha1, ha2⟩ | ⟨c, hc1, hc2⟩
  · cases a with
    | nil => exact (by simpa using ha2 : s = s' ∧ post = post').1
    | cons x a =>
      simp only [List.cons_append, List.cons.injEq] at ha2
      obtain ⟨rfl, ha2⟩ := ha2
      have h1 : f s < f s' := hpre' s (by simp [ha1])
      have h2 : f s' ≤ f s := hpost s' (by simp [ha2])
      omega
  · cases c with
    | nil => exact (by simpa using hc2.symm : s = s' ∧ post = post').1
    | cons x c =>
      simp only [List.cons_append, List.cons.injEq] at hc2
      obtain ⟨rfl, hc2⟩ := hc2
      have h1 : f s' < f s := hpre s' (by simp [hc1])
      have h2 : f s ≤ f s' := hpost' s (by simp [hc2])
      omega

theorem selectNextPayee_spec (env : Env) (nBlockHeight nFnCount : Int)
    (vec : List (Int × CFundamentalnode)) (blockHash : uint256) (best : CFundamentalnode)
    (hhash : env.GetBlockHash (nBlockHeight - 101) = some blockHash) :
    (selectNextPayee env nBlockHeight nFnCount vec).pBestFundamentalnode = some best ↔
      ∃ pre s post,
        (stdSort CompareLastPaidBlock vec).take (max 1 (nFnCount / 10)).toNat = pre ++ s :: post ∧
        s.2 = best ∧ 0 < best.CalculateScore env blockHash ∧
        (∀ x ∈ pre, x.2.CalculateScore env blockHash < best.CalculateScore env blockHash) ∧
        (∀ x ∈ post, x.2.CalculateScore env blockHash ≤ best.CalculateScore env blockHash) := by
  have hk : (((max 1 (nFnCount / 10)).toNat : Nat) : Int) = max 1 (nFnCount / 10 - 0) := by
    rw [Int.toNat_of_nonneg (by omega)]
    simp
  have hspec := bestOfTenthLoop_spec env blockHash (nFnCount / 10)
    (stdSort CompareLastPaidBlock vec) 0 0 none _ hk
  simp only [selectNextPayee, hhash]
  constructor
  · intro hbest
    rcases hspec with ⟨h1, _⟩ | ⟨pre, s, post, h1, h2, h3, h4, h5⟩
    · rw [h1] at hbest
      exact absurd hbest (by simp)
    · rw [h2] at hbest
      have hs : s.2 = best := Option.some.inj hbest
      subst hs
      exact ⟨pre, s, post, h1, rfl, h3, h4, h5⟩
  · rintro ⟨pre, s, post, h1, rfl, h3, h4, h5⟩
    rcases hspec with ⟨_, h2'⟩ | ⟨pre', s', post', h1', h2', h3', h4', h5'⟩
    · have := h2' s (by rw [h1]; simp)
      exact absurd (lt_of_lt_of_le h3 this) (lt_irrefl _)
    · rw [h2']
      have := first_max_unique (fun x : Int × CFundamentalnode => x.2.CalculateScore env blockHash)
        pre pre' post post' s s' (h1.symm.trans h1') h4 h5 h4' h5'
      rw [this]

theorem GetNextFundamentalnodeInQueueForPayment_synced (env : Env) (man : CFundamentalnodeMan)
    (pay : CFundamentalnodePayments) (nBlockHeight : Int) (fFilterSigTime : Bool)
    (hsync : env.IsWinnersListSynced = true) :
    man.GetNextFundamentalnodeInQueueForPayment env pay nBlockHeight fFilterSigTime
      = selectNextPayee env nBlockHeight (man.CountFundamentalnodes env (-1))
          (vecFundamentalnodeLastPaid env man pay nBlockHeight
            (fFilterSigTime &&
              !decide (((vecFundamentalnodeLastPaid env man pay nBlockHeight true
                (man.CountFundamentalnodes env (-1))).length : Int)
                  < man.CountFundamentalnodes env (-1) / 3))
            (man.CountFundamentalnodes env (-1))) := by
  unfold CFundamentalnodeMan.GetNextFundamentalnodeInQueueForPayment
    CFundamentalnodeMan.GetNextFundamentalnodeInQueueForPaymentNoFilter
  simp only [hsync, Bool.not_true, Bool.false_eq_true, if_false]
  cases fFilterSigTime with
  | false => simp
  | true =>
    by_cases hlt : ((vecFundamentalnodeLastPaid env man pay nBlockHeight true
        (man.CountFundamentalnodes env (-1))).length : Int)
          < man.CountFundamentalnodes env (-1) / 3
    · simp [hlt]
    · simp [hlt]

/-- C4 (amended): while the winners list is synced and the hash of height `nBlockHeight - 101`
is known, the node returned is the first node of highest score against that hash among the
leading entries of the eligible list sorted ascending by last paid block (ties by outpoint),
provided that score is positive. The number of leading entries is a tenth (rounded down, at
least one) of `nFnCount`, the number of registry nodes of sufficient protocol version; the
eligible list is built without the announce-age test when that test leaves fewer than
`nFnCount / 3` nodes. No node is returned otherwise. -/
theorem GetNextFundamentalnodeInQueueForPayment_best (env : Env) (man : CFundamentalnodeMan)
    (pay : CFundamentalnodePayments) (nBlockHeight : Int) (fFilterSigTime : Bool)
    (blockHash : uint256) (nFnCount : Int) (fRelaxed : Bool)
    (sorted : List (Int × CFundamentalnode))
    (hsync : env.IsWinnersListSynced = true)
    (hhash : env.GetBlockHash (nBlockHeight - 101) = some blockHash)
    (hcount : nFnCount = man.CountFundamentalnodes env (-1))
    (hrelaxed : fRelaxed = (fFilterSigTime &&
      decide (((vecFundamentalnodeLastPaid env man pay nBlockHeight true nFnCount).length : Int)
        < nFnCount / 3)))
    (hsorted : sorted = stdSort CompareLastPaidBlock
      (vecFundamentalnodeLastPaid env man pay nBlockHeight (fFilterSigTime && !fRelaxed)
        nFnCount)) :
    (∀ best : CFundamentalnode,
      (man.GetNextFundamentalnodeInQueueForPayment env pay nBlockHeight
          fFilterSigTime).pBestFundamentalnode = some best ↔
        ∃ pre s post,
          sorted.take (max 1 (nFnCount / 10)).toNat = pre ++ s :: post ∧
          s.2 = best ∧ 0 < best.CalculateScore env blockHash ∧
          (∀ x ∈ pre, x.2.CalculateScore env blockHash < best.CalculateScore env blockHash) ∧
          (∀ x ∈ post, x.2.CalculateScore env blockHash ≤ best.CalculateScore env blockHash)) ∧
    sorted.Pairwise (fun a b => a.1 < b.1 ∨ (a.1 = b.1 ∧ a.2.outpoint ≤ b.2.outpoint)) ∧
    (man.GetNextFundamentalnodeInQueueForPayment env pay nBlockHeight fFilterSigTime).ret
      = (man.GetNextFundamentalnodeInQueueForPayment env pay nBlockHeight
          fFilterSigTime).pBestFundamentalnode.isSome := by
  have heff : (fFilterSigTime && !fRelaxed) = (fFilterSigTime &&
      !decide (((vecFundamentalnodeLastPaid env man pay nBlockHeight true nFnCount).length : Int)
        < nFnCount / 3)) := by
    rw [hrelaxed]
    cases fFilterSigTime <;> simp
  rw [heff] at hsorted
  subst hcount hsorted
  rw [GetNextFundamentalnodeInQueueForPayment_synced env man pay nBlockHeight fFilterSigTime hsync]
  refine ⟨fun best => selectNextPayee_spec env nBlockHeight _ _ blockHash best hhash, ?_, ?_⟩
  · haveI := CompareLastPaidBlock_total
    haveI := CompareLastPaidBlock_trans
    refine List.Pairwise.imp ?_
      (List.sorted_insertionSort (fun a b => CompareLastPaidBlock b a = false) _)
    intro a b hab
    exact (CompareLastPaidBlock_eq_false_iff a b).mp hab
  · simp [selectNextPayee, hhash]

/-- C4 (counterexample): in the registry of twenty nodes ten are eligible, oldest first
`(1, 0)`, `(2, 0)`, ...; the oldest tenth of this eligible list is the one node `(1, 0)`, yet
the node returned for height 1010 is `(2, 0)`, the better of the first two (a tenth of the
twenty registry nodes). -/
theorem next_payee_outside_oldest_tenth :
    (manTwenty.GetNextFundamentalnodeInQueueForPayment envMain payEmpty 1010
      false).pBestFundamentalnode = some (nodeOf 2 70211 FUNDAMENTALNODE_ENABLED) ∧
    (stdSort CompareLastPaidBlock
      (vecFundamentalnodeLastPaid envMain manTwenty payEmpty 1010 false 20)).length = 10 ∧
    ((stdSort CompareLastPaidBlock
      (vecFundamentalnodeLastPaid envMain manTwenty payEmpty 1010 false 20)).take
        (10 / 10)).map Prod.snd = [nodeOf 1 70211 FUNDAMENTALNODE_ENABLED] := by
  decide

/-- C4 (amended), at the registry of twenty nodes and height 1010: of the two leading entries
`(1, 0)` and `(2, 0)` of the sorted eligible list the second has the higher score and is
returned. -/
theorem GetNextFundamentalnodeInQueueForPayment_best_witness :
    (envMain.IsWinnersListSynced = true ∧ envMain.GetBlockHash (1010 - 101) = some 910 ∧
      (20 : Int) = manTwenty.CountFundamentalnodes envMain (-1)) ∧
    ((manTwenty.GetNextFundamentalnodeInQueueForPayment envMain payEmpty 1010
        false).pBestFundamentalnode = some (nodeOf 2 70211 FUNDAMENTALNODE_ENABLED) ↔
      ∃ pre s post,
        (stdSort CompareLastPaidBlock
          (vecFundamentalnodeLastPaid envMain manTwenty payEmpty 1010 (false && !false) 20)).take
            (max 1 ((20 : Int) / 10)).toNat = pre ++ s :: post ∧
        s.2 = nodeOf 2 70211 FUNDAMENTALNODE_ENABLED ∧
        0 < (nodeOf 2 70211 FUNDAMENTALNODE_ENABLED).CalculateScore envMain 910 ∧
        (∀ x ∈ pre, x.2.CalculateScore envMain 910
          < (nodeOf 2 70211 FUNDAMENTALNODE_ENABLED).CalculateScore envMain 910) ∧
        (∀ x ∈ post, x.2.CalculateScore envMain 910
          ≤ (nodeOf 2 70211 FUNDAMENTALNODE_ENABLED).CalculateScore envMain 910)) :=
  ⟨⟨by decide, by decide, by decide⟩,
    (GetNextFundamentalnodeInQueueForPayment_best envMain manTwenty payEmpty 1010 false 910 20
      false _ (by decide) (by decide) (by decide) rfl rfl).1 _⟩

/-! ## The state check and the ping -/

theorem CheckStateRules_frame (env : Env) (fn : CFundamentalnode) :
    ∃ st, CFundamentalnode.CheckStateRules env fn = { fn with nActiveState := st } := by
  unfold CFundamentalnode.CheckStateRules
  simp only
  split
  · exact ⟨_, rfl⟩
  split
  · exact ⟨fn.nActiveState, rfl⟩
  split
  · exact ⟨_, rfl⟩
  split
  · exact ⟨_, rfl⟩
  split
  · exact ⟨_, rfl⟩
  split
  · exact ⟨_, rfl⟩
  split
  · exact ⟨_, rfl⟩
  exact ⟨_, rfl⟩

/-- The only fields `Check` writes are the state, the time of the last check and the two
PoSe fields. -/
theorem Check_frame (env : Env) (fn : CFundamentalnode) (fForce : Bool) :
    ∃ st t sc h, fn.Check env fForce =
      { fn with
        nActiveState := st
        nTimeLastChecked := t
        nPoSeBanScore := sc
        nPoSeBanHeight := h } := by
  unfold CFundamentalnode.Check
  split
  · exact ⟨fn.nActiveState, fn.nTimeLastChecked, fn.nPoSeBanScore, fn.nPoSeBanHeight, rfl⟩
  split
  · exact ⟨fn.nActiveState, fn.nTimeLastChecked, fn.nPoSeBanScore, fn.nPoSeBanHeight, rfl⟩
  simp only
  split
  · exact ⟨fn.nActiveState, _, fn.nPoSeBanScore, fn.nPoSeBanHeight, rfl⟩
  split
  · split
    · exact ⟨fn.nActiveState, _, fn.nPoSeBanScore, fn.nPoSeBanHeight, rfl⟩
    · obtain ⟨st, hst⟩ := CheckStateRules_frame env
        (CFundamentalnode.DecreasePoSeBanScore { fn with nTimeLastChecked := env.GetTime })
      rw [hst]
      unfold CFundamentalnode.DecreasePoSeBanScore
      split
      · exact ⟨st, _, _, fn.nPoSeBanHeight, rfl⟩
      · exact ⟨st, _, fn.nPoSeBanScore, fn.nPoSeBanHeight, rfl⟩
  · split
    · exact ⟨_, _, fn.nPoSeBanScore, _, rfl⟩
    · obtain ⟨st, hst⟩ := CheckStateRules_frame env { fn with nTimeLastChecked := env.GetTime }
      rw [hst]
      exact ⟨st, _, fn.nPoSeBanScore, fn.nPoSeBanHeight, rfl⟩

theorem Check_lastPing (env : Env) (fn : CFundamentalnode) (fForce : Bool) :
    (fn.Check env fForce).lastPing = fn.lastPing := by
  obtain ⟨st, t, sc, h, heq⟩ := Check_frame env fn fForce
  rw [heq]

theorem Check_sigTime (env : Env) (fn : CFundamentalnode) (fForce : Bool) :
    (fn.Check env fForce).sigTime = fn.sigTime := by
  obtain ⟨st, t, sc, h, heq⟩ := Check_frame env fn fForce
  rw [heq]

theorem Check_outpoint (env : Env) (fn : CFundamentalnode) (fForce : Bool) :
    (fn.Check env fForce).outpoint = fn.outpoint := by
  obtain ⟨st, t, sc, h, heq⟩ := Check_frame env fn fForce
  rw [heq]

/-- A ping that passes every test of `CheckAndUpdate` becomes the last ping of the node. -/
theorem CheckAndUpdate_accept (env : Env) (fnp : CFundamentalnodePing) (fn : CFundamentalnode)
    (fFromNewBroadcast : Bool) (nHeight : Int)
    (htime : fnp.sigTime ≤ env.GetAdjustedTime + 3600)
    (hblock : env.mapBlockIndex fnp.blockHash = some nHeight)
    (hrecent : env.chainActiveHeight - 24 ≤ nHeight)
    (hstate : fFromNewBroadcast = true ∨
      (fn.nActiveState ≠ FUNDAMENTALNODE_UPDATE_REQUIRED ∧
        fn.nActiveState ≠ FUNDAMENTALNODE_NEW_START_REQUIRED))
    (hearly : fn.IsPingedWithin env (FUNDAMENTALNODE_MIN_MNP_SECONDS - 60) fnp.sigTime = false)
    (hsig : (fnp.CheckSignature env fn.pubKeyFundamentalnode).1 = true) :
    (fnp.CheckAndUpdate env (some fn) fFromNewBroadcast).pfn
      = some (({ fn with lastPing := fnp } : CFundamentalnode).Check env true) := by
  have hsimple : (fnp.SimpleCheck env).1 = true := by
    unfold CFundamentalnodePing.SimpleCheck
    have : ¬ env.GetAdjustedTime + 3600 < fnp.sigTime := by omega
    simp [this, hblock]
  have hs1 : (!fFromNewBroadcast && fn.IsUpdateRequired) = false := by
    rcases hstate with h | ⟨h, _⟩
    · simp [h]
    · simp [CFundamentalnode.IsUpdateRequired, h]
  have hs2 : (!fFromNewBroadcast && fn.IsNewStartRequired) = false := by
    rcases hstate with h | ⟨_, h⟩
    · simp [h]
    · simp [CFundamentalnode.IsNewStartRequired, h]
  have hage : ¬ nHeight < env.chainActiveHeight - 24 := by omega
  unfold CFundamentalnodePing.CheckAndUpdate
  simp only [hsimple, hs1, hs2, hblock, hage, hearly, hsig, Bool.not_true, Bool.false_eq_true,
    if_false, decide_False]
  split <;> rfl

/-- A ping that fails a test of `CheckAndUpdate` leaves the node as it was. -/
theorem CheckAndUpdate_reject (env : Env) (fnp : CFundamentalnodePing) (fn : CFundamentalnode)
    (fFromNewBroadcast : Bool)
    (h : fnp.sigTime > env.GetAdjustedTime + 3600 ∨
      env.mapBlockIndex fnp.blockHash = none ∨
      (∃ nHeight, env.mapBlockIndex fnp.blockHash = some nHeight ∧
        nHeight < env.chainActiveHeight - 24) ∨
      (fFromNewBroadcast = false ∧
        (fn.nActiveState = FUNDAMENTALNODE_UPDATE_REQUIRED ∨
          fn.nActiveState = FUNDAMENTALNODE_NEW_START_REQUIRED)) ∨
      fn.IsPingedWithin env (FUNDAMENTALNODE_MIN_MNP_SECONDS - 60) fnp.sigTime = true ∨
      (fnp.CheckSignature env fn.pubKeyFundamentalnode).1 = false) :
    (fnp.CheckAndUpdate env (some fn) fFromNewBroadcast).pfn = some fn ∧
    (fnp.CheckAndUpdate env (some fn) fFromNewBroadcast).ret = false := by
  unfold CFundamentalnodePing.CheckAndUpdate
  split
  · exact ⟨rfl, rfl⟩
  rename_i hsimple
  simp only
  split
  · exact ⟨rfl, rfl⟩
  rename_i hs1
  split
  · exact ⟨rfl, rfl⟩
  rename_i hs2
  split
  · exact ⟨rfl, rfl⟩
  rename_i hold
  split
  · exact ⟨rfl, rfl⟩
  rename_i hearly
  split
  · exact ⟨rfl, rfl⟩
  rename_i hsig
  exfalso
  unfold CFundamentalnodePing.SimpleCheck at hsimple
  rcases h with h | h | ⟨nHeight, h, h'⟩ | ⟨hf, h | h⟩ | h | h
  · simp [h] at hsimple
  · simp only [h, Option.isNone_none, if_true] at hsimple
    split at hsimple <;> simp at hsimple
  · simp [h, h'] at hold
  · simp [hf, CFundamentalnode.IsUpdateRequired, h] at hs1
  · simp [hf, CFundamentalnode.IsNewStartRequired, h] at hs2
  · exact hearly h
  · simp [h] at hsig

theorem IsPingedWithin_at (env : Env) (fn : CFundamentalnode) (nSeconds t : Int)
    (ht : t ≠ -1) :
    fn.IsPingedWithin env nSeconds t = false ↔
      (fn.lastPing.toBool = false ∨ nSeconds ≤ t - fn.lastPing.sigTime) := by
  unfold CFundamentalnode.IsPingedWithin
  cases hb : fn.lastPing.toBool <;> simp [ht]

/-- C5 (amended): a ping (with a `sigTime` other than the value `-1`, which the age test reads
as "now") delivered for a registered node becomes the node's last ping if and only if its
`sigTime` is at most one hour ahead of the adjusted time, its block hash is known and at most
24 blocks below the tip, the node is neither in state UpdateRequired nor NewStartRequired
(unless the ping comes inside a new announce), the node has no last ping or the `sigTime` is at
least 540 s after that of the last ping, and the signature verifies against the stored operator
key; a ping that fails one of these leaves the node unchanged and is not relayed. -/
theorem CheckAndUpdate_replaces_lastPing_iff (env : Env) (fnp : CFundamentalnodePing)
    (fn : CFundamentalnode) (fFromNewBroadcast : Bool) (hsentinel : fnp.sigTime ≠ -1) :
    ((fnp.sigTime ≤ env.GetAdjustedTime + 3600 ∧
        (∃ nHeight, env.mapBlockIndex fnp.blockHash = some nHeight ∧
          env.chainActiveHeight - 24 ≤ nHeight) ∧
        (fFromNewBroadcast = true ∨
          (fn.nActiveState ≠ FUNDAMENTALNODE_UPDATE_REQUIRED ∧
            fn.nActiveState ≠ FUNDAMENTALNODE_NEW_START_REQUIRED)) ∧
        (fn.lastPing.toBool = false ∨ 540 ≤ fnp.sigTime - fn.lastPing.sigTime) ∧
        (fnp.CheckSignature env fn.pubKeyFundamentalnode).1 = true) →
      ∃ fnNew, (fnp.CheckAndUpdate env (some fn) fFromNewBroadcast).pfn = some fnNew ∧
        fnNew.lastPing = fnp) ∧
    (¬ (fnp.sigTime ≤ env.GetAdjustedTime + 3600 ∧
        (∃ nHeight, env.mapBlockIndex fnp.blockHash = some nHeight ∧
          env.chainActiveHeight - 24 ≤ nHeight) ∧
        (fFromNewBroadcast = true ∨
          (fn.nActiveState ≠ FUNDAMENTALNODE_UPDATE_REQUIRED ∧
            fn.nActiveState ≠ FUNDAMENTALNODE_NEW_START_REQUIRED)) ∧
        (fn.lastPing.toBool = false ∨ 540 ≤ fnp.sigTime - fn.lastPing.sigTime) ∧
        (fnp.CheckSignature env fn.pubKeyFundamentalnode).1 = true) →
      (fnp.CheckAndUpdate env (some fn) fFromNewBroadcast).pfn = some fn ∧
        (fnp.CheckAndUpdate env (some fn) fFromNewBroadcast).ret = false) := by
  have h540 : FUNDAMENTALNODE_MIN_MNP_SECONDS - 60 = 540 := by decide
  constructor
  · rintro ⟨htime, ⟨nHeight, hblock, hrecent⟩, hstate, hearly, hsig⟩
    refine ⟨_, CheckAndUpdate_accept env fnp fn fFromNewBroadcast nHeight htime hblock hrecent
      hstate ?_ hsig, ?_⟩
    · rw [h540, IsPingedWithin_at env fn 540 fnp.sigTime hsentinel]
      exact hearly
    · rw [Check_lastPing]
  · intro hnot
    apply CheckAndUpdate_reject
    by_contra hall
    apply hnot
    simp only [not_or] at hall
    obtain ⟨h1, h2, h3, h4, h5, h6⟩ := hall
    refine ⟨by omega, ?_, ?_, ?_, by simpa using h6⟩
    · cases hb : env.mapBlockIndex fnp.blockHash with
      | none => exact absurd hb h2
      | some nHeight =>
        refine ⟨nHeight, rfl, ?_⟩
        by_contra hlt
        exact h3 ⟨nHeight, hb, by omega⟩
    · cases fFromNewBroadcast with
      | true => exact Or.inl rfl
      | false =>
        right
        constructor
        · intro hst
          exact h4 ⟨rfl, Or.inl hst⟩
        · intro hst
          exact h4 ⟨rfl, Or.inr hst⟩
    · rw [h540] at h5
      have h5' : fn.IsPingedWithin env 540 fnp.sigTime = false := by simpa using h5
      exact (IsPingedWithin_at env fn 540 fnp.sigTime hsentinel).mp h5'

/-- C5 (counterexample): the node is in state NewStartRequired; a ping with a known block hash
6 blocks below the tip, a `sigTime` 19600 s after the last ping and a valid signature leaves
the node, and its last ping, unchanged. -/
theorem ping_rejected_when_new_start_required :
    envMain.mapBlockIndex pingNew.blockHash = some 994 ∧
    envMain.chainActiveHeight - 24 ≤ 994 ∧
    540 ≤ pingNew.sigTime - nodeNewStart.lastPing.sigTime ∧
    (pingNew.CheckSignature envMain nodeNewStart.pubKeyFundamentalnode).1 = true ∧
    (pingNew.CheckAndUpdate envMain (some nodeNewStart) false).pfn = some nodeNewStart ∧
    nodeNewStart.lastPing ≠ pingNew := by
  decide

/-- C5 (amended), at the enabled node last pinged at time 999000 and the ping of time
999600. -/
theorem CheckAndUpdate_replaces_lastPing_iff_witness :
    pingNew.sigTime ≠ -1 ∧
    ∃ fnNew, (pingNew.CheckAndUpdate envMain (some nodeLive) false).pfn = some fnNew ∧
      fnNew.lastPing = pingNew :=
  ⟨by decide,
    (CheckAndUpdate_replaces_lastPing_iff envMain pingNew nodeLive false (by decide)).1
      ⟨by decide, ⟨994, by decide, by decide⟩, Or.inr ⟨by decide, by decide⟩,
        Or.inr (by decide), by decide⟩⟩

/-! ## Ping age and PoSe rules of the state check -/

theorem IsPingedWithin_now (env : Env) (fn : CFundamentalnode) (nSeconds : Int) :
    fn.IsPingedWithin env nSeconds (-1) = false ↔
      (fn.lastPing.toBool = false ∨ nSeconds ≤ env.GetAdjustedTime - fn.lastPing.sigTime) := by
  unfold CFundamentalnode.IsPingedWithin
  cases hb : fn.lastPing.toBool <;> simp

theorem IsPingedWithin_now_true (env : Env) (fn : CFundamentalnode) (nSeconds : Int) :
    fn.IsPingedWithin env nSeconds (-1) = true ↔
      (fn.lastPing.toBool = true ∧ env.GetAdjustedTime - fn.lastPing.sigTime < nSeconds) := by
  unfold CFundamentalnode.IsPingedWithin
  cases hb : fn.lastPing.toBool <;> simp

/-- The ping-age rules of `Check` on a node that passes the protocol rule, when the rules are
not held back by the wait for a first ping. -/
theorem CheckStateRules_ping_expiry (env : Env) (fn : CFundamentalnode)
    (hproto : env.GetMinFundamentalnodePaymentsProto ≤ fn.nProtocolVersion)
    (hown : (env.fFundamentalnodeMode = true ∧
      env.activePubKeyFundamentalnode = fn.pubKeyFundamentalnode) →
        env.PROTOCOL_VERSION ≤ fn.nProtocolVersion)
    (hsynced : env.IsFundamentalnodeListSynced = true ∨
      (env.fFundamentalnodeMode = true ∧
        env.activePubKeyFundamentalnode = fn.pubKeyFundamentalnode)) :
    ((fn.lastPing.toBool = false ∨ 10800 ≤ env.GetAdjustedTime - fn.lastPing.sigTime) →
      (CFundamentalnode.CheckStateRules env fn).nActiveState
        = FUNDAMENTALNODE_NEW_START_REQUIRED) ∧
    ((fn.lastPing.toBool = true ∧ 7200 ≤ env.GetAdjustedTime - fn.lastPing.sigTime ∧
        env.GetAdjustedTime - fn.lastPing.sigTime < 10800) →
      (CFundamentalnode.CheckStateRules env fn).nActiveState = FUNDAMENTALNODE_EXPIRED) := by
  have hupd : (decide (fn.nProtocolVersion < env.GetMinFundamentalnodePaymentsProto) ||
      ((env.fFundamentalnodeMode && env.activePubKeyFundamentalnode == fn.pubKeyFundamentalnode)
        && decide (fn.nProtocolVersion < env.PROTOCOL_VERSION))) = false := by
    by_cases hm : env.fFundamentalnodeMode = true ∧
        env.activePubKeyFundamentalnode = fn.pubKeyFundamentalnode
    · have := hown hm
      simp [hm.1, hm.2]
      omega
    · have h1 : ¬ fn.nProtocolVersion < env.GetMinFundamentalnodePaymentsProto := by omega
      simp only [h1, decide_False, Bool.false_or, Bool.and_eq_false_imp, Bool.and_eq_true,
        beq_iff_eq]
      intro hm'
      exact absurd hm' hm
  have hgate : (!(!env.IsFundamentalnodeListSynced &&
        !fn.IsPingedWithin env FUNDAMENTALNODE_MIN_MNP_SECONDS (-1)) ||
      (env.fFundamentalnodeMode && env.activePubKeyFundamentalnode == fn.pubKeyFundamentalnode))
        = true := by
    rcases hsynced with h | ⟨h1, h2⟩
    · simp [h]
    · simp [h1, h2]
  have hgate2 : ((!env.IsFundamentalnodeListSynced &&
        !fn.IsPingedWithin env FUNDAMENTALNODE_MIN_MNP_SECONDS (-1)) &&
      !(env.fFundamentalnodeMode && env.activePubKeyFundamentalnode == fn.pubKeyFundamentalnode))
        = false := by
    revert hgate
    cases (!env.IsFundamentalnodeListSynced &&
        !fn.IsPingedWithin env FUNDAMENTALNODE_MIN_MNP_SECONDS (-1)) <;>
      cases (env.fFundamentalnodeMode &&
        env.activePubKeyFundamentalnode == fn.pubKeyFundamentalnode) <;> simp
  unfold CFundamentalnode.CheckStateRules
  simp only [hupd, hgate, hgate2, Bool.false_and, Bool.true_and, Bool.false_eq_true, if_false]
  constructor
  · intro hage
    have h1 : fn.IsPingedWithin env FUNDAMENTALNODE_NEW_START_REQUIRED_SECONDS (-1) = false := by
      rw [IsPingedWithin_now]
      simpa [FUNDAMENTALNODE_NEW_START_REQUIRED_SECONDS] using hage
    simp [h1]
  · rintro ⟨hb, hlo, hhi⟩
    have h1 : fn.IsPingedWithin env FUNDAMENTALNODE_NEW_START_REQUIRED_SECONDS (-1) = true := by
      rw [IsPingedWithin_now_true]
      exact ⟨hb, by simpa [FUNDAMENTALNODE_NEW_START_REQUIRED_SECONDS] using hhi⟩
    have h2 : fn.IsPingedWithin env FUNDAMENTALNODE_EXPIRATION_SECONDS (-1) = false := by
      rw [IsPingedWithin_now]
      exact Or.inr (by simpa [FUNDAMENTALNODE_EXPIRATION_SECONDS] using hlo)
    simp [h1, h2]

/-- C6 (amended): on a node on which rules 1 to 4 do not fire, and either the fundamentalnode
list is synced or the node is our own, a forced `Check` outside shutdown sets the state to
NewStartRequired when the node has no last ping or its last ping is at least 10800 s old, and
to Expired when the last ping is at least 7200 s and less than 10800 s old. -/
theorem Check_ping_expiry (env : Env) (fn : CFundamentalnode)
    (hshutdown : env.ShutdownRequested = false)
    (hspent : fn.nActiveState ≠ FUNDAMENTALNODE_OUTPOINT_SPENT)
    (hbanned : fn.nActiveState ≠ FUNDAMENTALNODE_POSE_BAN)
    (hscore : fn.nPoSeBanScore < 5)
    (hproto : env.GetMinFundamentalnodePaymentsProto ≤ fn.nProtocolVersion)
    (hown : (env.fFundamentalnodeMode = true ∧
      env.activePubKeyFundamentalnode = fn.pubKeyFundamentalnode) →
        env.PROTOCOL_VERSION ≤ fn.nProtocolVersion)
    (hsynced : env.IsFundamentalnodeListSynced = true ∨
      (env.fFundamentalnodeMode = true ∧
        env.activePubKeyFundamentalnode = fn.pubKeyFundamentalnode)) :
    ((fn.lastPing.toBool = false ∨ 10800 ≤ env.GetAdjustedTime - fn.lastPing.sigTime) →
      (fn.Check env true).nActiveState = FUNDAMENTALNODE_NEW_START_REQUIRED) ∧
    ((fn.lastPing.toBool = true ∧ 7200 ≤ env.GetAdjustedTime - fn.lastPing.sigTime ∧
        env.GetAdjustedTime - fn.lastPing.sigTime < 10800) →
      (fn.Check env true).nActiveState = FUNDAMENTALNODE_EXPIRED) := by
  have hcheck : fn.Check env true
      = CFundamentalnode.CheckStateRules env { fn with nTimeLastChecked := env.GetTime } := by
    unfold CFundamentalnode.Check
    have h5 : ¬ fn.nPoSeBanScore ≥ FUNDAMENTALNODE_POSE_BAN_MAX_SCORE := by
      simp only [FUNDAMENTALNODE_POSE_BAN_MAX_SCORE]; omega
    simp [hshutdown, CFundamentalnode.IsOutpointSpent, CFundamentalnode.IsPoSeBanned, hspent,
      hbanned, h5]
  rw [hcheck]
  exact CheckStateRules_ping_expiry env { fn with nTimeLastChecked := env.GetTime } hproto hown
    hsynced

/-- C6 (counterexample): while the node still requests the fundamentalnode list, a forced
`Check` of a node that is not our own, on which rules 1 to 4 do not fire, leaves it Enabled
both 121 min and 181 min after its last ping. -/
theorem Check_no_expiry_while_list_syncing :
    envListStage.ShutdownRequested = false ∧
    (nodePingedAgo 7260).nActiveState = FUNDAMENTALNODE_ENABLED ∧
    (nodePingedAgo 7260).nPoSeBanScore < 5 ∧
    envListStage.GetMinFundamentalnodePaymentsProto ≤ (nodePingedAgo 7260).nProtocolVersion ∧
    envListStage.GetAdjustedTime - (nodePingedAgo 7260).lastPing.sigTime = 7260 ∧
    ((nodePingedAgo 7260).Check envListStage true).nActiveState = FUNDAMENTALNODE_ENABLED ∧
    envListStage.GetAdjustedTime - (nodePingedAgo 10860).lastPing.sigTime = 10860 ∧
    ((nodePingedAgo 10860).Check envListStage true).nActiveState = FUNDAMENTALNODE_ENABLED := by
  decide

/-- C6 (amended), at the synced node: 121 min after the last ping the node becomes Expired. -/
theorem Check_ping_expiry_witness :
    (envMain.ShutdownRequested = false ∧
      (nodePingedAgo 7260).nActiveState ≠ FUNDAMENTALNODE_OUTPOINT_SPENT ∧
      (nodePingedAgo 7260).nActiveState ≠ FUNDAMENTALNODE_POSE_BAN ∧
      (nodePingedAgo 7260).nPoSeBanScore < 5 ∧
      envMain.GetMinFundamentalnodePaymentsProto ≤ (nodePingedAgo 7260).nProtocolVersion ∧
      envMain.fFundamentalnodeMode = false ∧
      envMain.IsFundamentalnodeListSynced = true) ∧
    ((nodePingedAgo 7260).Check envMain true).nActiveState = FUNDAMENTALNODE_EXPIRED :=
  ⟨⟨by decide, by decide, by decide, by decide, by decide, by decide, by decide⟩,
    (Check_ping_expiry envMain (nodePingedAgo 7260) (by decide) (by decide) (by decide)
      (by decide) (by decide) (fun h => absurd h.1 (by decide)) (Or.inl (by decide))).2
      ⟨by decide, by decide, by decide⟩⟩

/-- C7 (the code at the failing input): at tip height 1000 with 20 nodes in the registry, a
`Check` of an enabled node of PoSe score 5 bans it, with the ban height 20 and not 1020. In
general the ban height written is the size of the registry, whatever the tip height. -/
theorem Check_ban_height_without_tip :
    (envMain.chainActiveHeight = 1000 ∧ envMain.fnodemanSize = 20 ∧
      (nodeScoreFive.Check envMain true).nActiveState = FUNDAMENTALNODE_POSE_BAN ∧
      (nodeScoreFive.Check envMain true).nPoSeBanHeight = 20) ∧
    (∀ (env : Env) (fn : CFundamentalnode), env.ShutdownRequested = false →
      fn.nActiveState ≠ FUNDAMENTALNODE_OUTPOINT_SPENT →
      fn.nActiveState ≠ FUNDAMENTALNODE_POSE_BAN → 5 ≤ fn.nPoSeBanScore →
      (fn.Check env true).nActiveState = FUNDAMENTALNODE_POSE_BAN ∧
      (fn.Check env true).nPoSeBanHeight = (env.fnodemanSize : Int)) := by
  refine ⟨by decide, ?_⟩
  intro env fn hshutdown hspent hbanned hscore
  have h5 : fn.nPoSeBanScore ≥ FUNDAMENTALNODE_POSE_BAN_MAX_SCORE := by
    simp only [FUNDAMENTALNODE_POSE_BAN_MAX_SCORE]; omega
  unfold CFundamentalnode.Check
  simp [hshutdown, CFundamentalnode.IsOutpointSpent, CFundamentalnode.IsPoSeBanned, hspent,
    hbanned, h5]

/-- C8 (the code at the failing input): at tip height 1000 a `Check` of a node banned until
height 20 leaves it banned, with its PoSe score not decremented. In general a banned node with
a positive ban height stays banned at every tip height: `Check` only stamps the time. -/
theorem Check_keeps_ban_past_ban_height :
    (envMain.chainActiveHeight = 1000 ∧ nodeBanned.nPoSeBanHeight = 20 ∧
      (nodeBanned.Check envMain true).nActiveState = FUNDAMENTALNODE_POSE_BAN ∧
      (nodeBanned.Check envMain true).nPoSeBanScore = nodeBanned.nPoSeBanScore) ∧
    (∀ (env : Env) (fn : CFundamentalnode), env.ShutdownRequested = false →
      fn.nActiveState = FUNDAMENTALNODE_POSE_BAN → 0 < fn.nPoSeBanHeight →
      fn.Check env true = { fn with nTimeLastChecked := env.GetTime }) := by
  refine ⟨by decide, ?_⟩
  intro env fn hshutdown hbanned hheight
  unfold CFundamentalnode.Check
  simp [hshutdown, CFundamentalnode.IsOutpointSpent, CFundamentalnode.IsPoSeBanned, hbanned,
    hheight]

/-! ## Announce updates -/

theorem CheckAndUpdate_frame (env : Env) (fnp : CFundamentalnodePing) (fn : CFundamentalnode)
    (fFromNewBroadcast : Bool) :
    ∃ fnNew, (fnp.CheckAndUpdate env (some fn) fFromNewBroadcast).pfn = some fnNew ∧
      fnNew.sigTime = fn.sigTime ∧ fnNew.outpoint = fn.outpoint := by
  unfold CFundamentalnodePing.CheckAndUpdate
  split
  · exact ⟨fn, rfl, rfl, rfl⟩
  simp only
  split
  · exact ⟨fn, rfl, rfl, rfl⟩
  split
  · exact ⟨fn, rfl, rfl, rfl⟩
  split
  · exact ⟨fn, rfl, rfl, rfl⟩
  split
  · exact ⟨fn, rfl, rfl, rfl⟩
  split
  · exact ⟨fn, rfl, rfl, rfl⟩
  split
  · exact ⟨_, rfl, by rw [Check_sigTime], by rw [Check_outpoint]⟩
  · exact ⟨_, rfl, by rw [Check_sigTime], by rw [Check_outpoint]⟩

theorem UpdateFromNewBroadcast_outpoint (env : Env) (fn : CFundamentalnode)
    (fnb : CFundamentalnodeBroadcast) :
    (fn.UpdateFromNewBroadcast env fnb).2.outpoint = fn.outpoint := by
  unfold CFundamentalnode.UpdateFromNewBroadcast
  split
  · rfl
  simp only
  obtain ⟨fnNew, hpfn, _, hout⟩ := CheckAndUpdate_frame env fnb.fn.lastPing
    { fn with
      pubKeyFundamentalnode := fnb.fn.pubKeyFundamentalnode
      sigTime := fnb.fn.sigTime
      vchSig := fnb.fn.vchSig
      nProtocolVersion := fnb.fn.nProtocolVersion
      addr := fnb.fn.addr
      nPoSeBanScore := 0
      nPoSeBanHeight := 0
      nTimeLastChecked := 0 } true
  rw [hpfn]
  simp only [Option.getD_some]
  split_ifs <;> simp_all

theorem UpdateFromNewBroadcast_sigTime (env : Env) (fn : CFundamentalnode)
    (fnb : CFundamentalnodeBroadcast) (h : (fn.UpdateFromNewBroadcast env fnb).1 = true) :
    (fn.UpdateFromNewBroadcast env fnb).2.sigTime = fnb.fn.sigTime ∧
    (fn.sigTime < fnb.fn.sigTime ∨ fnb.fRecovery = true) := by
  unfold CFundamentalnode.UpdateFromNewBroadcast at h ⊢
  split at h
  · simp at h
  rename_i hguard
  constructor
  · simp only [hguard, if_false]
    obtain ⟨fnNew, hpfn, hsig, _⟩ := CheckAndUpdate_frame env fnb.fn.lastPing
      { fn with
        pubKeyFundamentalnode := fnb.fn.pubKeyFundamentalnode
        sigTime := fnb.fn.sigTime
        vchSig := fnb.fn.vchSig
        nProtocolVersion := fnb.fn.nProtocolVersion
        addr := fnb.fn.addr
        nPoSeBanScore := 0
        nPoSeBanHeight := 0
        nTimeLastChecked := 0 } true
    rw [hpfn]
    simp only [Option.getD_some]
    split_ifs <;> simp_all
  · cases hr : fnb.fRecovery with
    | true => exact Or.inr rfl
    | false =>
      left
      simp only [hr, Bool.not_false, Bool.and_true, decide_eq_true_eq, not_le] at hguard
      exact hguard

/-- C9 (amended): an announce update that is applied to an existing entry (`Update` reaches
`UpdateFromNewBroadcast`, which returns true) stores the `sigTime` of the announce; the stored
`sigTime` never decreases, and it strictly increases unless the announce is marked as a
recovery reply. -/
theorem Update_sigTime_increases (env : Env) (fnb : CFundamentalnodeBroadcast)
    (pfn : CFundamentalnode) (hupdated : (fnb.Update env pfn).fUpdated = true) :
    (fnb.Update env pfn).pfn.sigTime = fnb.fn.sigTime ∧
    pfn.sigTime ≤ (fnb.Update env pfn).pfn.sigTime ∧
    (fnb.fRecovery = false → pfn.sigTime < (fnb.Update env pfn).pfn.sigTime) := by
  unfold CFundamentalnodeBroadcast.Update at hupdated ⊢
  split at hupdated
  · simp at hupdated
  rename_i h1
  split at hupdated
  · simp at hupdated
  rename_i h2
  simp only at hupdated
  split at hupdated
  · simp at hupdated
  rename_i h3
  split at hupdated
  · simp at hupdated
  rename_i h4
  split at hupdated
  · simp at hupdated
  rename_i h5
  split at hupdated
  swap
  · simp at hupdated
  rename_i h6
  split at hupdated
  swap
  · simp at hupdated
  rename_i h7
  simp only [h1, h2, h3, h4, h5, h6, h7, if_false, if_true, Bool.false_eq_true]
  have hs := UpdateFromNewBroadcast_sigTime env (pfn.Check env false) fnb h7
  rw [Check_sigTime] at hs
  rw [Check_sigTime, hs.1]
  refine ⟨rfl, by omega, ?_⟩
  intro hrec
  rcases hs.2 with h | h
  · exact h
  · rw [hrec] at h
    exact absurd h (by simp)

/-- C9 (counterexample): an announce marked as a recovery reply with the `sigTime` of the
stored entry is applied (`UpdateFromNewBroadcast` returns true, the new ping is stored) and the
stored `sigTime` stays the same. -/
theorem recovery_update_keeps_sigTime :
    (fnbRecovery.Update envMain nodeLive).fUpdated = true ∧
    (fnbRecovery.Update envMain nodeLive).pfn.lastPing = pingNew ∧
    (fnbRecovery.Update envMain nodeLive).pfn.sigTime = nodeLive.sigTime := by
  decide

/-- C9 (amended), at the announce of `sigTime` 950000 for the entry of `sigTime` 900000. -/
theorem Update_sigTime_increases_witness :
    (fnbNewer.Update envMain nodeLive).fUpdated = true ∧
    ((fnbNewer.Update envMain nodeLive).pfn.sigTime = fnbNewer.fn.sigTime ∧
      nodeLive.sigTime ≤ (fnbNewer.Update envMain nodeLive).pfn.sigTime ∧
      (fnbNewer.fRecovery = false →
        nodeLive.sigTime < (fnbNewer.Update envMain nodeLive).pfn.sigTime)) :=
  ⟨by decide, Update_sigTime_increases envMain fnbNewer nodeLive (by decide)⟩

/-! ## The registry map -/

theorem mapFind_mapAssign_ne {K V : Type} [DecidableEq K] [LT K] [∀ a b : K, Decidable (a < b)]
    (k k' : K) (v : V) (m : List (K × V)) (hne : k' ≠ k) :
    mapFind (mapAssign k v m) k' = mapFind m k' := by
  induction m with
  | nil => simp [mapAssign, mapFind, hne.symm]
  | cons p rest ih =>
    obtain ⟨k0, v0⟩ := p
    simp only [mapAssign]
    split
    · simp [mapFind, hne.symm]
    · split
      · rename_i h1 h2
        subst h2
        simp [mapFind, hne.symm]
      · simp only [mapFind, ih]

theorem mem_mapAssign {K V : Type} [DecidableEq K] [LT K] [∀ a b : K, Decidable (a < b)]
    (k : K) (v : V) (m : List (K × V)) (p : K × V) (hp : p ∈ mapAssign k v m) :
    p = (k, v) ∨ p ∈ m := by
  induction m with
  | nil => simpa [mapAssign] using hp
  | cons q rest ih =>
    obtain ⟨k0, v0⟩ := q
    simp only [mapAssign] at hp
    split at hp
    · rcases List.mem_cons.mp hp with h | h
      · exact Or.inl h
      · exact Or.inr h
    · split at hp
      · rcases List.mem_cons.mp hp with h | h
        · exact Or.inl h
        · exact Or.inr (List.mem_cons_of_mem _ h)
      · rcases List.mem_cons.mp hp with h | h
        · exact Or.inr (by rw [h]; exact List.mem_cons_self _ _)
        · rcases ih h with h' | h'
          · exact Or.inl h'
          · exact Or.inr (List.mem_cons_of_mem _ h')

theorem mapAssign_keys_sorted {K V : Type} [DecidableEq K] [LinearOrder K] (k : K) (v : V)
    (m : List (K × V)) (hsorted : (m.map Prod.fst).Sorted (· < ·)) :
    ((mapAssign k v m).map Prod.fst).Sorted (· < ·) := by
  induction m with
  | nil => simp [mapAssign]
  | cons q rest ih =>
    obtain ⟨k0, v0⟩ := q
    simp only [List.map_cons, List.sorted_cons] at hsorted
    obtain ⟨hlt, hrest⟩ := hsorted
    simp only [mapAssign]
    split
    · rename_i h1
      simp only [List.map_cons, List.sorted_cons, List.mem_cons, forall_eq_or_imp]
      exact ⟨⟨h1, fun b hb => lt_trans h1 (hlt b hb)⟩, hlt, hrest⟩
    · split
      · rename_i h1 h2
        subst h2
        simp only [List.map_cons, List.sorted_cons]
        exact ⟨hlt, hrest⟩
      · rename_i h1 h2
        have hk : k0 < k := lt_of_le_of_ne (not_lt.mp h1) (fun h => h2 h.symm)
        simp only [List.map_cons, List.sorted_cons]
        refine ⟨?_, ih hrest⟩
        intro b hb
        obtain ⟨p, hp, rfl⟩ := List.mem_map.mp hb
        rcases mem_mapAssign k v rest p hp with h | h
        · rw [h]; exact hk
        · exact hlt p.1 (List.mem_map_of_mem _ h)

theorem Update_outpoint (env : Env) (fnb : CFundamentalnodeBroadcast) (pfn : CFundamentalnode) :
    (fnb.Update env pfn).pfn.outpoint = pfn.outpoint := by
  unfold CFundamentalnodeBroadcast.Update
  simp only
  repeat' split
  all_goals simp only [Check_outpoint, UpdateFromNewBroadcast_outpoint]

/-- C10: `Add` returns false and leaves the registry as it was when the outpoint of the node
is present; otherwise it returns true and stores the node under its outpoint, leaving the other
entries alone. A registry whose keys are in strictly ascending order (so that no outpoint has
two entries) and whose entries are stored under their own outpoints stays so after `Add`, and
an announce update never changes the outpoint of an entry. -/
theorem Add_keeps_registry_keyed (man : CFundamentalnodeMan) (fn : CFundamentalnode)
    (hsorted : (man.mapFundamentalnodes.map Prod.fst).Sorted (· < ·))
    (hkeyed : ∀ p ∈ man.mapFundamentalnodes, p.2.outpoint = p.1) :
    (man.Has fn.outpoint = true → man.Add fn = (false, man)) ∧
    (man.Has fn.outpoint = false →
      (man.Add fn).1 = true ∧ (man.Add fn).2.Find fn.outpoint = some fn ∧
      ∀ outpoint, outpoint ≠ fn.outpoint → (man.Add fn).2.Find outpoint = man.Find outpoint) ∧
    ((man.Add fn).2.mapFundamentalnodes.map Prod.fst).Sorted (· < ·) ∧
    ((man.Add fn).2.mapFundamentalnodes.map Prod.fst).Nodup ∧
    (∀ p ∈ (man.Add fn).2.mapFundamentalnodes, p.2.outpoint = p.1) ∧
    (∀ (env : Env) (fnb : CFundamentalnodeBroadcast) (pfn : CFundamentalnode),
      (pfn.UpdateFromNewBroadcast env fnb).2.outpoint = pfn.outpoint ∧
      (fnb.Update env pfn).pfn.outpoint = pfn.outpoint) := by
  have hs : ((man.Add fn).2.mapFundamentalnodes.map Prod.fst).Sorted (· < ·) := by
    unfold CFundamentalnodeMan.Add
    split
    · exact hsorted
    · exact mapAssign_keys_sorted _ _ _ hsorted
  refine ⟨?_, ?_, hs, hs.nodup, ?_, ?_⟩
  · intro hhas
    simp [CFundamentalnodeMan.Add, hhas]
  · intro hhas
    simp only [CFundamentalnodeMan.Add, hhas, Bool.false_eq_true, if_false,
      CFundamentalnodeMan.Find, true_and]
    exact ⟨mapFind_mapAssign_self _ _ _, fun o ho => mapFind_mapAssign_ne _ _ _ _ ho⟩
  · intro p hp
    unfold CFundamentalnodeMan.Add at hp
    split at hp
    · exact hkeyed p hp
    · rcases mem_mapAssign _ _ _ p hp with h | h
      · rw [h]
      · exact hkeyed p h
  · intro env fnb pfn
    exact ⟨UpdateFromNewBroadcast_outpoint env pfn fnb, Update_outpoint env fnb pfn⟩

/-- C10, at the registry of three nodes: a node with the new outpoint `(4, 0)` is added under
that outpoint, and a second node with the outpoint `(2, 0)` is refused. -/
theorem Add_keeps_registry_keyed_witness :
    ((manThree.mapFundamentalnodes.map Prod.fst).Sorted (· < ·) ∧
      ∀ p ∈ manThree.mapFundamentalnodes, p.2.outpoint = p.1) ∧
    (manThree.Add (nodeOf 4 70211 FUNDAMENTALNODE_ENABLED)).2.Find ⟨4, 0⟩
      = some (nodeOf 4 70211 FUNDAMENTALNODE_ENABLED) ∧
    manThree.Add (nodeOf 2 70200 FUNDAMENTALNODE_EXPIRED) = (false, manThree) :=
  ⟨⟨by decide, by decide⟩,
    ((Add_keeps_registry_keyed manThree (nodeOf 4 70211 FUNDAMENTALNODE_ENABLED)
      (by decide) (by decide)).2.1 (by decide)).2.1,
    (Add_keeps_registry_keyed manThree (nodeOf 2 70200 FUNDAMENTALNODE_EXPIRED)
      (by decide) (by decide)).1 (by decide)⟩

/-! ## The ping pre-check -/

/-- C13: the ping pre-check `SimpleCheck` rejects with DoS score 1 every ping whose `sigTime`
is later than the adjusted time plus 3600 seconds; a ping signed at exactly the adjusted time
plus 3600 seconds (or earlier) is not rejected for its time: its DoS score is 0 and it passes
exactly when its block hash is known. At the adjusted time 1000000 the ping signed at 1003600
on a known block passes and the one signed at 1003601 fails with score 1. -/
theorem SimpleCheck_future_boundary (env : Env) (fnp : CFundamentalnodePing) :
    (fnp.sigTime > env.GetAdjustedTime + 3600 → fnp.SimpleCheck env = (false, 1)) ∧
    (fnp.sigTime ≤ env.GetAdjustedTime + 3600 →
      fnp.SimpleCheck env = ((env.mapBlockIndex fnp.blockHash).isSome, 0)) ∧
    pingHourAhead.SimpleCheck envMain = (true, 0) ∧
    pingTooFarAhead.SimpleCheck envMain = (false, 1) := by
  refine ⟨?_, ?_, by decide, by decide⟩
  · intro h
    unfold CFundamentalnodePing.SimpleCheck
    have h' : fnp.sigTime > env.GetAdjustedTime + 60 * 60 := by omega
    simp only [h', if_true]
  · intro h
    unfold CFundamentalnodePing.SimpleCheck
    have h' : ¬ fnp.sigTime > env.GetAdjustedTime + 60 * 60 := by omega
    simp only [h', if_false]
    cases env.mapBlockIndex fnp.blockHash <;> simp

/-! ## The height range of the vote handler -/

theorem HasVerifiedPaymentVote_mapAssign_unverified (pay : CFundamentalnodePayments)
    (nHash : uint256) (stored : CFundamentalnodePaymentVote) :
    ({ pay with
        mapFundamentalnodePaymentVotes :=
          mapAssign nHash stored.MarkAsNotVerified pay.mapFundamentalnodePaymentVotes } :
      CFundamentalnodePayments).HasVerifiedPaymentVote nHash = false := by
  unfold CFundamentalnodePayments.HasVerifiedPaymentVote
  simp only [mapFind_mapAssign_self]
  simp [CFundamentalnodePaymentVote.IsVerified, CFundamentalnodePaymentVote.MarkAsNotVerified]

/-- C14: the handler of payment votes rejects every vote whose height is
`tip − GetStorageLimit − 1` or lower, or `tip + 21` or higher, and changes neither the tallies
nor the last-vote map for it. A vote whose height lies in `[tip − GetStorageLimit, tip + 20]`,
the two ends included, passes the range check: when the earlier tests pass (not lite mode,
peer version, list synced, not seen as verified) and the vote is otherwise valid (`IsValid`,
known voter, good signature, no earlier vote of the voter recorded for this height, known
anchor block), the handler accepts it. At tip 10000 with one registered node (storage limit
6000) the votes for heights 4000 and 10020 are accepted and those for 3999 and 10021 are
rejected. -/
theorem ProcessMessage_height_range (env : Env) (man : CFundamentalnodeMan)
    (pay : CFundamentalnodePayments) (peerVersion : Int) (vote : CFundamentalnodePaymentVote) :
    ((vote.nBlockHeight ≤ pay.nCachedBlockHeight - GetStorageLimit man.size - 1 ∨
        pay.nCachedBlockHeight + 21 ≤ vote.nBlockHeight) →
      (pay.ProcessMessage env man peerVersion vote).1 = false ∧
      (pay.ProcessMessage env man peerVersion vote).2.mapFundamentalnodeBlocks =
        pay.mapFundamentalnodeBlocks ∧
      (pay.ProcessMessage env man peerVersion vote).2.mapFundamentalnodesLastVote =
        pay.mapFundamentalnodesLastVote) ∧
    ((pay.nCachedBlockHeight - GetStorageLimit man.size ≤ vote.nBlockHeight ∧
        vote.nBlockHeight ≤ pay.nCachedBlockHeight + 20) →
      env.fLiteMode = false →
      env.GetMinFundamentalnodePaymentsProto ≤ peerVersion →
      env.IsFundamentalnodeListSynced = true →
      pay.HasVerifiedPaymentVote (vote.GetHash env) = false →
      vote.IsValid env man pay.nCachedBlockHeight = true →
      ∀ fnInfo, man.Find vote.fundamentalnodeOutpoint = some fnInfo →
      (vote.CheckSignature env fnInfo.pubKeyFundamentalnode pay.nCachedBlockHeight).1 = true →
      mapFind pay.mapFundamentalnodesLastVote vote.fundamentalnodeOutpoint ≠
        some vote.nBlockHeight →
      (env.GetBlockHash (vote.nBlockHeight - 101)).isSome = true →
      (pay.ProcessMessage env man peerVersion vote).1 = true) ∧
    GetStorageLimit manOne.size = 6000 ∧
    (payTall.ProcessMessage envTall manOne 70211 (voteAt 4000)).1 = true ∧
    (payTall.ProcessMessage envTall manOne 70211 (voteAt 3999)).1 = false ∧
    (payTall.ProcessMessage envTall manOne 70211 (voteAt 10020)).1 = true ∧
    (payTall.ProcessMessage envTall manOne 70211 (voteAt 10021)).1 = false := by
  refine ⟨?_, ?_, by decide, by decide, by decide, by decide, by decide⟩
  · intro hout
    have hrange : (decide (vote.nBlockHeight < pay.nCachedBlockHeight - GetStorageLimit man.size)
        || decide (vote.nBlockHeight > pay.nCachedBlockHeight + 20)) = true := by
      rcases hout with h | h
      · simp only [Bool.or_eq_true, decide_eq_true_eq]; left; omega
      · simp only [Bool.or_eq_true, decide_eq_true_eq]; right; omega
    unfold CFundamentalnodePayments.ProcessMessage
    simp only [hrange, if_true]
    repeat' split
    all_goals exact ⟨rfl, rfl, rfl⟩
  · intro hin hlite hpeer hsync hseen hvalid fnInfo hfind hsig hlast hanchor
    have hrange : (decide (vote.nBlockHeight < pay.nCachedBlockHeight - GetStorageLimit man.size)
        || decide (vote.nBlockHeight > pay.nCachedBlockHeight + 20)) = false := by
      have h1 : ¬ vote.nBlockHeight < pay.nCachedBlockHeight - GetStorageLimit man.size := by omega
      have h2 : ¬ vote.nBlockHeight > pay.nCachedBlockHeight + 20 := by omega
      simp [h1, h2]
    have hpeer' : ¬ peerVersion < env.GetMinFundamentalnodePaymentsProto := by omega
    unfold CFundamentalnodePayments.ProcessMessage
    simp only [hlite, hpeer', hsync, hseen, hrange, hvalid, hfind, hsig, Bool.and_false,
      Bool.not_true, Bool.false_eq_true, if_false]
    have hupd : ∀ p : CFundamentalnodePayments,
        p.mapFundamentalnodesLastVote = pay.mapFundamentalnodesLastVote →
        (p.UpdateLastVote vote).1 = true ∧
        (p.UpdateLastVote vote).2.mapFundamentalnodePaymentVotes =
          p.mapFundamentalnodePaymentVotes := by
      intro p hp
      unfold CFundamentalnodePayments.UpdateLastVote
      rw [hp]
      cases hm : mapFind pay.mapFundamentalnodesLastVote vote.fundamentalnodeOutpoint with
      | none => exact ⟨rfl, rfl⟩
      | some nHeight =>
        have hne : nHeight ≠ vote.nBlockHeight := by
          intro he
          exact hlast (by rw [hm, he])
        simp only [hne, if_false]
        exact ⟨trivial, trivial⟩
    obtain ⟨hu1, hu2⟩ := hupd
      { pay with
        mapFundamentalnodePaymentVotes :=
          mapAssign (vote.GetHash env)
            ((mapFind pay.mapFundamentalnodePaymentVotes (vote.GetHash env)).getD
              vote).MarkAsNotVerified
            pay.mapFundamentalnodePaymentVotes } rfl
    simp only [hu1, Bool.not_true, Bool.false_eq_true, if_false]
    unfold CFundamentalnodePayments.AddOrUpdatePaymentVote
    have hanchor' : (env.GetBlockHash (vote.nBlockHeight - 101)).isNone = false := by
      cases h : env.GetBlockHash (vote.nBlockHeight - 101) with
      | none => rw [h] at hanchor; exact absurd hanchor (by simp)
      | some _ => rfl
    have hnot : CFundamentalnodePayments.HasVerifiedPaymentVote
        (CFundamentalnodePayments.UpdateLastVote
          { pay with
            mapFundamentalnodePaymentVotes :=
              mapAssign (vote.GetHash env)
                ((mapFind pay.mapFundamentalnodePaymentVotes (vote.GetHash env)).getD
                  vote).MarkAsNotVerified
                pay.mapFundamentalnodePaymentVotes } vote).2 (vote.GetHash env) = false := by
      unfold CFundamentalnodePayments.HasVerifiedPaymentVote
      rw [hu2]
      simp only [mapFind_mapAssign_self]
      simp [CFundamentalnodePaymentVote.IsVerified,
        CFundamentalnodePaymentVote.MarkAsNotVerified]
    simp only [hanchor', hnot, Bool.false_eq_true, if_false]

/-! ## What an out-of-range vote leaves behind -/

/-- C15, counterexample: at tip 1000 with an empty ledger the vote of the registered node for
height 1021, above `tip + 20`, is rejected, and yet the vote map is not what it was: it holds
the vote, with the signature cleared, under the vote's hash. -/
theorem out_of_range_vote_is_stored :
    (1021 : Int) > payEmpty.nCachedBlockHeight + 20 ∧
    (payEmpty.ProcessMessage envMain manOne 70211 (voteAt 1021)).1 = false ∧
    (payEmpty.ProcessMessage envMain manOne 70211 (voteAt 1021)).2.mapFundamentalnodePaymentVotes
      = [(1102101, ⟨⟨1, 0⟩, 1021, [1], []⟩)] ∧
    (payEmpty.ProcessMessage envMain manOne 70211 (voteAt 1021)).2.mapFundamentalnodePaymentVotes
      ≠ payEmpty.mapFundamentalnodePaymentVotes := by
  decide

/-- C15, amended: a vote whose height lies outside `[tip − GetStorageLimit, tip + 20]` is
rejected and leaves the tip height, the per-height payee tallies and the last-vote map
unchanged. The vote map is either unchanged or (when the vote passed the tests before the range
check) holds under the vote's hash an unverified copy, its signature cleared, of the vote or of
the entry stored there before; every other entry is as before and exactly the hashes that had
a verified vote before have one after. -/
theorem ProcessMessage_out_of_range_effect (env : Env) (man : CFundamentalnodeMan)
    (pay : CFundamentalnodePayments) (peerVersion : Int) (vote : CFundamentalnodePaymentVote)
    (hout : vote.nBlockHeight < pay.nCachedBlockHeight - GetStorageLimit man.size ∨
      vote.nBlockHeight > pay.nCachedBlockHeight + 20) :
    (pay.ProcessMessage env man peerVersion vote).1 = false ∧
    (pay.ProcessMessage env man peerVersion vote).2.nCachedBlockHeight =
      pay.nCachedBlockHeight ∧
    (pay.ProcessMessage env man peerVersion vote).2.mapFundamentalnodeBlocks =
      pay.mapFundamentalnodeBlocks ∧
    (pay.ProcessMessage env man peerVersion vote).2.mapFundamentalnodesLastVote =
      pay.mapFundamentalnodesLastVote ∧
    ((pay.ProcessMessage env man peerVersion vote).2.mapFundamentalnodePaymentVotes =
        pay.mapFundamentalnodePaymentVotes ∨
      (pay.ProcessMessage env man peerVersion vote).2.mapFundamentalnodePaymentVotes =
        mapAssign (vote.GetHash env)
          ((mapFind pay.mapFundamentalnodePaymentVotes (vote.GetHash env)).getD
            vote).MarkAsNotVerified
          pay.mapFundamentalnodePaymentVotes) ∧
    (∀ nHash, nHash ≠ vote.GetHash env →
      mapFind (pay.ProcessMessage env man peerVersion vote).2.mapFundamentalnodePaymentVotes
        nHash = mapFind pay.mapFundamentalnodePaymentVotes nHash) ∧
    (∀ nHash, (pay.ProcessMessage env man peerVersion vote).2.HasVerifiedPaymentVote nHash =
      pay.HasVerifiedPaymentVote nHash) := by
  have hrange : (decide (vote.nBlockHeight < pay.nCachedBlockHeight - GetStorageLimit man.size)
      || decide (vote.nBlockHeight > pay.nCachedBlockHeight + 20)) = true := by
    rcases hout with h | h
    · simp only [Bool.or_eq_true, decide_eq_true_eq]; left; exact h
    · simp only [Bool.or_eq_true, decide_eq_true_eq]; right; exact h
  by_cases hpre : env.fLiteMode = true ∨ peerVersion < env.GetMinFundamentalnodePaymentsProto ∨
      (!env.IsFundamentalnodeListSynced) = true ∨
      (mapHas pay.mapFundamentalnodePaymentVotes (vote.GetHash env) &&
        pay.HasVerifiedPaymentVote (vote.GetHash env)) = true
  · have hsame : pay.ProcessMessage env man peerVersion vote = (false, pay) := by
      unfold CFundamentalnodePayments.ProcessMessage
      simp only [hrange, if_true]
      repeat' split
      all_goals first
        | rfl
        | (exfalso; rcases hpre with h | h | h | h <;> contradiction)
    rw [hsame]
    exact ⟨rfl, rfl, rfl, rfl, Or.inl rfl, fun _ _ => rfl, fun _ => rfl⟩
  · have h1 : ¬ env.fLiteMode = true := fun h => hpre (Or.inl h)
    have h2 : ¬ peerVersion < env.GetMinFundamentalnodePaymentsProto :=
      fun h => hpre (Or.inr (Or.inl h))
    have h3 : ¬ (!env.IsFundamentalnodeListSynced) = true :=
      fun h => hpre (Or.inr (Or.inr (Or.inl h)))
    have h4 : ¬ (mapHas pay.mapFundamentalnodePaymentVotes (vote.GetHash env) &&
        pay.HasVerifiedPaymentVote (vote.GetHash env)) = true :=
      fun h => hpre (Or.inr (Or.inr (Or.inr h)))
    have hres : pay.ProcessMessage env man peerVersion vote =
        (false, { pay with
          mapFundamentalnodePaymentVotes :=
            mapAssign (vote.GetHash env)
              ((mapFind pay.mapFundamentalnodePaymentVotes (vote.GetHash env)).getD
                vote).MarkAsNotVerified
              pay.mapFundamentalnodePaymentVotes }) := by
      unfold CFundamentalnodePayments.ProcessMessage
      simp only [hrange, if_true, h1, h2, h3, h4, if_false, Bool.false_eq_true]
    have hbefore : pay.HasVerifiedPaymentVote (vote.GetHash env) = false := by
      cases hv : pay.HasVerifiedPaymentVote (vote.GetHash env) with
      | false => rfl
      | true =>
        exfalso
        apply h4
        have hhas : mapHas pay.mapFundamentalnodePaymentVotes (vote.GetHash env) = true := by
          unfold CFundamentalnodePayments.HasVerifiedPaymentVote at hv
          unfold mapHas
          cases hm : mapFind pay.mapFundamentalnodePaymentVotes (vote.GetHash env) with
          | none => rw [hm] at hv; exact absurd hv (by simp)
          | some _ => rfl
        rw [hhas, hv]; rfl
    rw [hres]
    refine ⟨rfl, rfl, rfl, rfl, Or.inr rfl, ?_, ?_⟩
    · intro nHash hne
      exact mapFind_mapAssign_ne _ _ _ _ hne
    · intro nHash
      by_cases he : nHash = vote.GetHash env
      · rw [he, hbefore]
        exact HasVerifiedPaymentVote_mapAssign_unverified pay _ _
      · unfold CFundamentalnodePayments.HasVerifiedPaymentVote
        simp only [mapFind_mapAssign_ne _ _ _ _ he]

theorem ProcessMessage_out_of_range_effect_witness :
    ((1021 : Int) < payEmpty.nCachedBlockHeight - GetStorageLimit manOne.size ∨
      (1021 : Int) > payEmpty.nCachedBlockHeight + 20) ∧
    (payEmpty.ProcessMessage envMain manOne 70211 (voteAt 1021)).2.mapFundamentalnodeBlocks =
      payEmpty.mapFundamentalnodeBlocks ∧
    (∀ nHash,
      (payEmpty.ProcessMessage envMain manOne 70211 (voteAt 1021)).2.HasVerifiedPaymentVote nHash
        = payEmpty.HasVerifiedPaymentVote nHash) :=
  ⟨by decide,
   (ProcessMessage_out_of_range_effect envMain manOne payEmpty 70211 (voteAt 1021)
      (by decide)).2.2.1,
   (ProcessMessage_out_of_range_effect envMain manOne payEmpty 70211 (voteAt 1021)
      (by decide)).2.2.2.2.2.2⟩

/-! ## Vote validation -/

theorem GetFundamentalnodeRankLoop_gt (outpoint : COutPoint)
    (scores : List (uint256 × CFundamentalnode)) (nRank nRankRet : Int)
    (h : GetFundamentalnodeRankLoop outpoint scores nRank = some nRankRet) :
    nRank < nRankRet := by
  induction scores generalizing nRank with
  | nil => simp [GetFundamentalnodeRankLoop] at h
  | cons scorePair rest ih =>
    simp only [GetFundamentalnodeRankLoop] at h
    split at h
    · have := Option.some.inj h
      omega
    · have := ih _ h
      omega

theorem GetFundamentalnodeRank_pos (env : Env) (man : CFundamentalnodeMan)
    (outpoint : COutPoint) (nBlockHeight nMinProtocol nRank : Int)
    (h : man.GetFundamentalnodeRank env outpoint nBlockHeight nMinProtocol = some nRank) :
    1 ≤ nRank := by
  unfold CFundamentalnodeMan.GetFundamentalnodeRank at h
  split at h
  · exact absurd h (by simp)
  · split at h
    · exact absurd h (by simp)
    · split at h
      · exact absurd h (by simp)
      · have := GetFundamentalnodeRankLoop_gt _ _ _ _ h
        omega

/-- C16, counterexample: on a node that does not run as a fundamentalnode, with tip 1000, the
vote of the node `(10, 0)` for the earlier height 990 is valid although the voter has rank 11
at height 889; the handler accepts the vote. -/
theorem historical_vote_valid_at_rank_eleven :
    envMain.fFundamentalnodeMode = false ∧
    manTwenty.GetFundamentalnodeRank envMain ⟨10, 0⟩ (990 - 101)
      envMain.GetMinFundamentalnodePaymentsProto = some 11 ∧
    (voteOf 10 990).IsValid envMain manTwenty 1000 = true ∧
    (payEmpty.ProcessMessage envMain manTwenty 70211 (voteOf 10 990)).1 = true := by
  decide

/-- C16, amended: a vote is valid exactly when its voter is in the registry with a protocol
version of at least the required minimum (the minimum payment protocol for a vote at or above
the validation height, 70210 for an earlier one) and, where the rank is checked, the voter has a
rank between 1 and 10 at the vote's height minus 101. The rank is checked when the node runs as
a fundamentalnode or the vote's height is at or above the validation height; a vote for an
earlier height on any other node is valid whatever the rank. Rank 10 is accepted and rank 11
rejected for the votes of the nodes `(11, 0)` and `(10, 0)` for the future height 1010. -/
theorem IsValid_iff_rank_where_checked (env : Env) (man : CFundamentalnodeMan)
    (vote : CFundamentalnodePaymentVote) (nValidationHeight : Int) :
    (vote.IsValid env man nValidationHeight = true ↔
      ∃ fnInfo, man.Find vote.fundamentalnodeOutpoint = some fnInfo ∧
        (if vote.nBlockHeight ≥ nValidationHeight then env.GetMinFundamentalnodePaymentsProto
          else MIN_FUNDAMENTALNODE_PAYMENT_PROTO_VERSION_1) ≤ fnInfo.nProtocolVersion ∧
        ((env.fFundamentalnodeMode = true ∨ vote.nBlockHeight ≥ nValidationHeight) →
          ∃ nRank, man.GetFundamentalnodeRank env vote.fundamentalnodeOutpoint
              (vote.nBlockHeight - 101)
              (if vote.nBlockHeight ≥ nValidationHeight then
                env.GetMinFundamentalnodePaymentsProto
              else MIN_FUNDAMENTALNODE_PAYMENT_PROTO_VERSION_1) = some nRank ∧
            1 ≤ nRank ∧ nRank ≤ FNPAYMENTS_SIGNATURES_TOTAL)) ∧
    manTwenty.GetFundamentalnodeRank envMain ⟨11, 0⟩ (1010 - 101)
      envMain.GetMinFundamentalnodePaymentsProto = some 10 ∧
    (voteOf 11 1010).IsValid envMain manTwenty 1000 = true ∧
    manTwenty.GetFundamentalnodeRank envMain ⟨10, 0⟩ (1010 - 101)
      envMain.GetMinFundamentalnodePaymentsProto = some 11 ∧
    (voteOf 10 1010).IsValid envMain manTwenty 1000 = false := by
  refine ⟨?_, by decide, by decide, by decide, by decide⟩
  unfold CFundamentalnodePaymentVote.IsValid
  cases hfind : man.Find vote.fundamentalnodeOutpoint with
  | none => simp
  | some fnInfo =>
    simp only [Option.some.injEq, exists_eq_left']
    by_cases hproto : fnInfo.nProtocolVersion <
        (if vote.nBlockHeight ≥ nValidationHeight then env.GetMinFundamentalnodePaymentsProto
          else MIN_FUNDAMENTALNODE_PAYMENT_PROTO_VERSION_1)
    · simp only [hproto, if_true, Bool.false_eq_true, false_iff, not_and]
      intro hle
      omega
    · simp only [hproto, if_false]
      have hle := not_lt.mp hproto
      by_cases hskip : (!env.fFundamentalnodeMode &&
          decide (vote.nBlockHeight < nValidationHeight)) = true
      · rw [if_pos hskip]
        simp only [true_iff]
        refine ⟨hle, ?_⟩
        intro hchk
        exfalso
        simp only [Bool.and_eq_true, Bool.not_eq_true', decide_eq_true_eq] at hskip
        rcases hchk with h | h
        · rw [hskip.1] at h; exact absurd h (by simp)
        · omega
      · rw [if_neg hskip]
        have hchk : env.fFundamentalnodeMode = true ∨ vote.nBlockHeight ≥ nValidationHeight := by
          simp only [Bool.and_eq_true, Bool.not_eq_true', decide_eq_true_eq, not_and,
            not_lt] at hskip
          cases hm : env.fFundamentalnodeMode with
          | true => exact Or.inl rfl
          | false => exact Or.inr (hskip hm)
        cases hrank : man.GetFundamentalnodeRank env vote.fundamentalnodeOutpoint
            (vote.nBlockHeight - 101)
            (if vote.nBlockHeight ≥ nValidationHeight then
              env.GetMinFundamentalnodePaymentsProto
            else MIN_FUNDAMENTALNODE_PAYMENT_PROTO_VERSION_1) with
        | none =>
          simp only [Bool.false_eq_true, false_iff, not_and]
          intro _ hex
          obtain ⟨nRank, hr, _⟩ := hex hchk
          exact absurd hr (by simp)
        | some nRank =>
          have hpos := GetFundamentalnodeRank_pos _ _ _ _ _ _ hrank
          by_cases hgt : nRank > FNPAYMENTS_SIGNATURES_TOTAL
          · simp only [hgt, if_true, Bool.false_eq_true, false_iff, not_and]
            intro _ hex
            obtain ⟨r, hr, _, hr10⟩ := hex hchk
            have := Option.some.inj hr
            omega
          · simp only [hgt, if_false, true_iff]
            exact ⟨hle, fun _ => ⟨nRank, rfl, hpos, not_lt.mp hgt⟩⟩

/-- C17, counterexample: while spork 12 raises the minimum payment protocol to 70211, the vote
of a registered node of protocol version 70210 for the height 990, below the validation height
1000, is valid. -/
theorem historical_vote_valid_below_min_proto :
    envSpork12.GetMinFundamentalnodePaymentsProto = 70211 ∧
    manOld.Find (voteAt 990).fundamentalnodeOutpoint
      = some (nodeOf 1 70210 FUNDAMENTALNODE_ENABLED) ∧
    (voteAt 990).IsValid envSpork12 manOld 1000 = true := by
  decide

/-- C17, amended: for every vote that `IsValid` accepts the registry holds a node under the
voter's outpoint, and the protocol version of that node is at least the minimum payment
protocol when the vote's height is at or above the validation height, and at least 70210 (the
first payment protocol version) when it is below. -/
theorem IsValid_voter_registered (env : Env) (man : CFundamentalnodeMan)
    (vote : CFundamentalnodePaymentVote) (nValidationHeight : Int)
    (hvalid : vote.IsValid env man nValidationHeight = true) :
    ∃ fnInfo, man.Find vote.fundamentalnodeOutpoint = some fnInfo ∧
      (vote.nBlockHeight ≥ nValidationHeight →
        env.GetMinFundamentalnodePaymentsProto ≤ fnInfo.nProtocolVersion) ∧
      (vote.nBlockHeight < nValidationHeight →
        MIN_FUNDAMENTALNODE_PAYMENT_PROTO_VERSION_1 ≤ fnInfo.nProtocolVersion) := by
  unfold CFundamentalnodePaymentVote.IsValid at hvalid
  cases hfind : man.Find vote.fundamentalnodeOutpoint with
  | none => rw [hfind] at hvalid; exact absurd hvalid (by simp)
  | some fnInfo =>
    rw [hfind] at hvalid
    simp only at hvalid
    refine ⟨fnInfo, rfl, ?_, ?_⟩
    · intro hge
      by_contra hlt
      simp only [hge, if_true] at hvalid
      have hlt' : fnInfo.nProtocolVersion < env.GetMinFundamentalnodePaymentsProto := by omega
      simp [hlt'] at hvalid
    · intro hlt0
      by_contra hlt
      have hnge : ¬ vote.nBlockHeight ≥ nValidationHeight := by omega
      simp only [hnge, if_false] at hvalid
      have hlt' : fnInfo.nProtocolVersion < MIN_FUNDAMENTALNODE_PAYMENT_PROTO_VERSION_1 := by
        omega
      simp [hlt'] at hvalid

theorem IsValid_voter_registered_witness :
    voteFirst.IsValid envMain manOne 1000 = true ∧
    ∃ fnInfo, manOne.Find voteFirst.fundamentalnodeOutpoint = some fnInfo ∧
      (voteFirst.nBlockHeight ≥ 1000 →
        envMain.GetMinFundamentalnodePaymentsProto ≤ fnInfo.nProtocolVersion) ∧
      (voteFirst.nBlockHeight < 1000 →
        MIN_FUNDAMENTALNODE_PAYMENT_PROTO_VERSION_1 ≤ fnInfo.nProtocolVersion) :=
  ⟨by decide, IsValid_voter_registered envMain manOne voteFirst 1000 (by decide)⟩

/-! ## The storage limit -/

theorem float32Shift_spec (fuel : Nat) :
    ∀ n : Nat, n < 2 ^ (24 + fuel) →
      n < 2 ^ (24 + float32Shift fuel n) ∧
      (0 < float32Shift fuel n → 2 ^ (23 + float32Shift fuel n) ≤ n) := by
  induction fuel with
  | zero =>
    intro n hn
    simp only [float32Shift]
    exact ⟨hn, fun h => absurd h (by decide)⟩
  | succ fuel ih =>
    intro n hn
    rw [float32Shift]
    split
    · rename_i hlt
      exact ⟨hlt, fun h => absurd h (by decide)⟩
    · rename_i hge
      have hhalf : n / 2 < 2 ^ (24 + fuel) := by
        have : 2 ^ (24 + (fuel + 1)) = 2 * 2 ^ (24 + fuel) := by ring
        omega
      obtain ⟨h1, h2⟩ := ih (n / 2) hhalf
      have e1 : 2 ^ (24 + (float32Shift fuel (n / 2) + 1)) =
          2 * 2 ^ (24 + float32Shift fuel (n / 2)) := by ring
      have e2 : 2 ^ (23 + (float32Shift fuel (n / 2) + 1)) =
          2 * 2 ^ (23 + float32Shift fuel (n / 2)) := by ring
      refine ⟨by omega, fun _ => ?_⟩
      rw [e2]
      by_cases hs : 0 < float32Shift fuel (n / 2)
      · have := h2 hs
        omega
      · have hs0 : float32Shift fuel (n / 2) = 0 := by omega
        rw [hs0]
        simp only [Nat.add_zero]
        have : (2 : Nat) * 2 ^ 23 = 2 ^ 24 := by norm_num
        omega

theorem float32Shift_self_spec (n : Nat) :
    n < 2 ^ (24 + float32Shift n n) ∧
      (0 < float32Shift n n → 2 ^ (23 + float32Shift n n) ≤ n) := by
  apply float32Shift_spec
  calc n < 2 ^ n := Nat.lt_two_pow n
    _ ≤ 2 ^ (24 + n) := Nat.pow_le_pow_right (by decide) (by omega)

theorem float32Shift_of_lt (n : Nat) (h : n < 2 ^ 24) : float32Shift n n = 0 := by
  cases n with
  | zero => rfl
  | succ k => rw [float32Shift, if_pos h]

theorem float32Shift_mono (n m : Nat) (h : n ≤ m) : float32Shift n n ≤ float32Shift m m := by
  by_contra hlt
  have hlt : float32Shift m m < float32Shift n n := by omega
  obtain ⟨hm, _⟩ := float32Shift_self_spec m
  obtain ⟨_, hn⟩ := float32Shift_self_spec n
  have hn := hn (by omega)
  have hpow : 2 ^ (24 + float32Shift m m) ≤ 2 ^ (23 + float32Shift n n) :=
    Nat.pow_le_pow_right (by decide) (by omega)
  omega

theorem roundTiesToEven_bounds (s n : Nat) :
    n / 2 ^ s * 2 ^ s ≤ roundTiesToEven s n ∧ roundTiesToEven s n ≤ (n / 2 ^ s + 1) * 2 ^ s := by
  unfold roundTiesToEven
  split
  · exact ⟨Nat.mul_le_mul_right _ (by omega), le_refl _⟩
  · exact ⟨le_refl _, Nat.mul_le_mul_right _ (by omega)⟩

theorem roundTiesToEven_mono (s n m : Nat) (h : n ≤ m) :
    roundTiesToEven s n ≤ roundTiesToEven s m := by
  have hu : 0 < 2 ^ s := Nat.two_pow_pos _
  have hqle : n / 2 ^ s ≤ m / 2 ^ s := Nat.div_le_div_right h
  rcases Nat.lt_or_ge (n / 2 ^ s) (m / 2 ^ s) with hq | hq
  · calc roundTiesToEven s n ≤ (n / 2 ^ s + 1) * 2 ^ s := (roundTiesToEven_bounds s n).2
      _ ≤ m / 2 ^ s * 2 ^ s := Nat.mul_le_mul_right _ hq
      _ ≤ roundTiesToEven s m := (roundTiesToEven_bounds s m).1
  · have hqeq : n / 2 ^ s = m / 2 ^ s := by omega
    have hn := Nat.div_add_mod n (2 ^ s)
    have hm := Nat.div_add_mod m (2 ^ s)
    rw [hqeq] at hn
    have hr : n % 2 ^ s ≤ m % 2 ^ s := by omega
    unfold roundTiesToEven
    rw [hqeq]
    split
    · rename_i hc
      have hc' : 2 ^ s < 2 * (m % 2 ^ s) ∨ (2 * (m % 2 ^ s) = 2 ^ s ∧ m / 2 ^ s % 2 = 1) := by
        rcases hc with hc | ⟨hc1, hc2⟩
        · left; omega
        · by_cases heq : 2 * (m % 2 ^ s) = 2 ^ s
          · right; exact ⟨heq, hc2⟩
          · left; omega
      rw [if_pos hc']
    · split
      · exact Nat.mul_le_mul_right _ (by omega)
      · exact le_refl _

theorem roundFloat32_mono (n m : Nat) (h : n ≤ m) : roundFloat32 n ≤ roundFloat32 m := by
  unfold roundFloat32
  rcases Nat.lt_or_ge (float32Shift n n) (float32Shift m m) with hs | hs
  · obtain ⟨hn, _⟩ := float32Shift_self_spec n
    obtain ⟨_, hm⟩ := float32Shift_self_spec m
    have hm := hm (by omega)
    have hqn : n / 2 ^ float32Shift n n < 2 ^ 24 := by
      rw [Nat.div_lt_iff_lt_mul (Nat.two_pow_pos _), ← pow_add]
      exact hn
    have hqm : 2 ^ 23 ≤ m / 2 ^ float32Shift m m := by
      rw [Nat.le_div_iff_mul_le (Nat.two_pow_pos _), ← pow_add]
      exact hm
    calc roundTiesToEven (float32Shift n n) n
        ≤ (n / 2 ^ float32Shift n n + 1) * 2 ^ float32Shift n n :=
          (roundTiesToEven_bounds _ n).2
      _ ≤ 2 ^ 24 * 2 ^ float32Shift n n := Nat.mul_le_mul_right _ hqn
      _ = 2 ^ (24 + float32Shift n n) := by rw [pow_add]
      _ ≤ 2 ^ (23 + float32Shift m m) := Nat.pow_le_pow_right (by decide) (by omega)
      _ = 2 ^ 23 * 2 ^ float32Shift m m := by rw [pow_add]
      _ ≤ m / 2 ^ float32Shift m m * 2 ^ float32Shift m m := Nat.mul_le_mul_right _ hqm
      _ ≤ roundTiesToEven (float32Shift m m) m := (roundTiesToEven_bounds _ m).1
  · have heq : float32Shift n n = float32Shift m m :=
      Nat.le_antisymm (float32Shift_mono n m h) hs
    rw [heq]
    exact roundTiesToEven_mono _ n m h

theorem roundFloat32_of_lt (n : Nat) (h : n < 2 ^ 24) : roundFloat32 n = n := by
  unfold roundFloat32
  rw [float32Shift_of_lt n h]
  simp [roundTiesToEven, Nat.mod_one]

theorem specStorageLimit_eq (size : Nat) :
    specStorageLimit size = max ((5 * size / 4 : Nat) : Int) 6000 := by
  unfold specStorageLimit
  congr 1
  have h : ((size : ℚ) * (5 / 4)) = ((5 * size : Nat) : ℚ) / ((4 : Nat) : ℚ) := by
    push_cast
    ring
  rw [h, Rat.floor_natCast_div_natCast]
  norm_cast

/-- C18, counterexample: for a registry of 3355447 nodes the product `3355447 * 1.25` is
`4194308.75`, which is half way between two values of a `float` and is rounded up to
`4194309`: `GetStorageLimit` is `4194309`, one more than the size times 1.25 rounded down. -/
theorem GetStorageLimit_rounds_up :
    GetStorageLimit 3355447 = 4194309 ∧ specStorageLimit 3355447 = 4194308 := by
  refine ⟨by decide, ?_⟩
  rw [specStorageLimit_eq]
  decide

/-- C18, amended: for every registry size up to 3355446 `GetStorageLimit` is the registry size
times 1.25, rounded down, and at least 6000; from 3355447 nodes on the product is rounded to
the 24 bits of a `float` before the fraction is dropped. For every registry size
`GetStorageLimit` is never below 6000, and it is monotone non-decreasing in the registry size.
Up to 4800 nodes it is 6000, and for 4801 nodes it is 6001. -/
theorem GetStorageLimit_spec :
    (∀ size : Nat, size ≤ 3355446 → GetStorageLimit size = specStorageLimit size) ∧
    (∀ size : Nat, 6000 ≤ GetStorageLimit size) ∧
    (∀ size sizeMore : Nat, size ≤ sizeMore → GetStorageLimit size ≤ GetStorageLimit sizeMore) ∧
    (∀ size : Nat, size ≤ 4800 → GetStorageLimit size = 6000) ∧
    GetStorageLimit 4801 = 6001 ∧ GetStorageLimit 10000 = 12500 := by
  have hexact : ∀ size : Nat, size ≤ 3355443 →
      GetStorageLimit size = max ((5 * size / 4 : Nat) : Int) 6000 := by
    intro size hle
    unfold GetStorageLimit
    rw [roundFloat32_of_lt size (by norm_num; omega),
      roundFloat32_of_lt (5 * size) (by norm_num; omega)]
  refine ⟨?_, ?_, ?_, ?_, by decide, by decide⟩
  · intro size hle
    rw [specStorageLimit_eq]
    by_cases hsmall : size ≤ 3355443
    · exact hexact size hsmall
    · have h1 : 3355444 ≤ size := by omega
      interval_cases size <;> decide
  · intro size
    unfold GetStorageLimit
    exact le_max_right _ _
  · intro size sizeMore hle
    unfold GetStorageLimit
    apply max_le_max _ (le_refl _)
    have h1 : 5 * roundFloat32 size ≤ 5 * roundFloat32 sizeMore :=
      Nat.mul_le_mul_left _ (roundFloat32_mono _ _ hle)
    have h2 : roundFloat32 (5 * roundFloat32 size) / 4 ≤
        roundFloat32 (5 * roundFloat32 sizeMore) / 4 :=
      Nat.div_le_div_right (roundFloat32_mono _ _ h1)
    exact_mod_cast h2
  · intro size hle
    rw [hexact size (by omega)]
    have : 5 * size / 4 ≤ 6000 := by omega
    have h2 : ((5 * size / 4 : Nat) : Int) ≤ 6000 := by exact_mod_cast this
    exact max_eq_right h2

theorem GetStorageLimit_spec_witness :
    GetStorageLimit 3355446 = specStorageLimit 3355446 ∧
    GetStorageLimit 4800 ≤ GetStorageLimit 3355447 ∧
    GetStorageLimit 4800 = 6000 :=
  ⟨GetStorageLimit_spec.1 3355446 (by decide),
   GetStorageLimit_spec.2.2.1 4800 3355447 (by decide),
   GetStorageLimit_spec.2.2.2.1 4800 (by decide)⟩

/-! ## Announces processed twice -/

theorem mapHas_mapAssign_self {K V : Type} [DecidableEq K] [LT K] [∀ a b : K, Decidable (a < b)]
    (k : K) (v : V) (m : List (K × V)) : mapHas (mapAssign k v m) k = true := by
  unfold mapHas
  rw [mapFind_mapAssign_self]
  rfl

theorem mapHas_mapAssign_of_mapHas {K V : Type} [DecidableEq K] [LT K]
    [∀ a b : K, Decidable (a < b)] (k k' : K) (v : V) (m : List (K × V))
    (h : mapHas m k' = true) : mapHas (mapAssign k v m) k' = true := by
  by_cases hk : k' = k
  · rw [hk]; exact mapHas_mapAssign_self k v m
  · unfold mapHas at *
    rw [mapFind_mapAssign_ne k k' v m hk]
    exact h

theorem mapHas_mapEmplace_self {K V : Type} [DecidableEq K] [LT K] [∀ a b : K, Decidable (a < b)]
    (k : K) (v : V) (m : List (K × V)) : mapHas (mapEmplace k v m) k = true := by
  unfold mapEmplace
  split
  · assumption
  · exact mapHas_mapAssign_self k v m

theorem mapHas_mapEmplace_of_mapHas {K V : Type} [DecidableEq K] [LT K]
    [∀ a b : K, Decidable (a < b)] (k k' : K) (v : V) (m : List (K × V))
    (h : mapHas m k' = true) : mapHas (mapEmplace k v m) k' = true := by
  unfold mapEmplace
  split
  · exact h
  · exact mapHas_mapAssign_of_mapHas k k' v m h

theorem mapFind_mapErase_ne {K V : Type} [DecidableEq K] (k k' : K) (m : List (K × V))
    (hne : k' ≠ k) : mapFind (mapErase k m) k' = mapFind m k' := by
  induction m with
  | nil => rfl
  | cons p rest ih =>
    obtain ⟨k0, v0⟩ := p
    unfold mapErase at ih ⊢
    by_cases h0 : k0 = k
    · have hk0 : k0 ≠ k' := fun h => hne (h ▸ h0)
      have hkk : ¬ k = k' := fun h => hne h.symm
      simp [List.filter, h0, mapFind, ih, hkk]
    · simp [List.filter, h0, mapFind, ih]

theorem CheckFnbSeen_mapFundamentalnodes (env : Env) (man : CFundamentalnodeMan)
    (pfrom : Option CService) (fnb : CFundamentalnodeBroadcast) (hash : uint256)
    (seen : Int × CFundamentalnodeBroadcast) :
    (man.CheckFnbSeen env pfrom fnb hash seen).mapFundamentalnodes = man.mapFundamentalnodes := by
  unfold CFundamentalnodeMan.CheckFnbSeen
  simp only
  repeat' split
  all_goals rfl

theorem CheckFnbSeen_mapHas (env : Env) (man : CFundamentalnodeMan)
    (pfrom : Option CService) (fnb : CFundamentalnodeBroadcast) (hash : uint256)
    (seen : Int × CFundamentalnodeBroadcast)
    (h : mapHas man.mapSeenFundamentalnodeBroadcast hash = true) :
    mapHas (man.CheckFnbSeen env pfrom fnb hash seen).mapSeenFundamentalnodeBroadcast hash
      = true := by
  unfold CFundamentalnodeMan.CheckFnbSeen
  simp only
  repeat' split
  all_goals first
    | exact h
    | exact mapHas_mapAssign_self _ _ _

/-- An announce that is in the seen map and is not a recovery reply leaves the registry map
as it is. -/
theorem CheckFnb_seen_mapFundamentalnodes (env : Env) (man : CFundamentalnodeMan)
    (pfrom : Option CService) (fnb : CFundamentalnodeBroadcast)
    (hseen : mapHas man.mapSeenFundamentalnodeBroadcast (fnb.GetHash env) = true)
    (hrec : fnb.fRecovery = false) :
    (man.CheckFnbAndUpdateFundamentalnodeList env pfrom fnb).man.mapFundamentalnodes =
      man.mapFundamentalnodes := by
  unfold CFundamentalnodeMan.CheckFnbAndUpdateFundamentalnodeList
  unfold mapHas at hseen
  cases hm : mapFind man.mapSeenFundamentalnodeBroadcast (fnb.GetHash env) with
  | none => rw [hm] at hseen; exact absurd hseen (by simp)
  | some seen =>
    simp only [hm, hrec]
    exact CheckFnbSeen_mapFundamentalnodes _ _ _ _ _ _

theorem SimpleCheck_GetHash (env : Env) (fnb : CFundamentalnodeBroadcast) :
    (fnb.SimpleCheck env).fnb.GetHash env = fnb.GetHash env := by
  have hst : (fnb.SimpleCheckStates env).GetHash env = fnb.GetHash env := by
    unfold CFundamentalnodeBroadcast.SimpleCheckStates CFundamentalnodeBroadcast.GetHash
    simp only
    split_ifs <;> rfl
  unfold CFundamentalnodeBroadcast.SimpleCheck
  simp only
  split_ifs <;> first | rfl | exact hst

theorem CheckOutpoint_fErased (env : Env) (fnb : CFundamentalnodeBroadcast) (nDos : Int)
    (h : (fnb.CheckOutpoint env nDos).ret = true) :
    (fnb.CheckOutpoint env nDos).fErased = false := by
  unfold CFundamentalnodeBroadcast.CheckOutpoint at h ⊢
  simp only at h ⊢
  split_ifs at h ⊢
  rfl

theorem Add_mapSeenFundamentalnodeBroadcast (man : CFundamentalnodeMan) (fn : CFundamentalnode) :
    (man.Add fn).2.mapSeenFundamentalnodeBroadcast = man.mapSeenFundamentalnodeBroadcast := by
  unfold CFundamentalnodeMan.Add
  split <;> rfl

/-- After an announce has been processed, its hash is in the seen map, or else the registry
map is as before and the announce failed in `CheckOutpoint` for an outpoint that is not in the
registry. -/
theorem CheckFnb_seen_after (env : Env) (man : CFundamentalnodeMan)
    (pfrom : Option CService) (fnb : CFundamentalnodeBroadcast) :
    mapHas (man.CheckFnbAndUpdateFundamentalnodeList env pfrom
        fnb).man.mapSeenFundamentalnodeBroadcast (fnb.GetHash env) = true ∨
    ((man.CheckFnbAndUpdateFundamentalnodeList env pfrom fnb).man.mapFundamentalnodes =
        man.mapFundamentalnodes ∧
      (fnb.SimpleCheck env).ret = true ∧
      man.Find (fnb.SimpleCheck env).fnb.fn.outpoint = none ∧
      ((fnb.SimpleCheck env).fnb.CheckOutpoint env (fnb.SimpleCheck env).nDos).ret = false) := by
  unfold CFundamentalnodeMan.CheckFnbAndUpdateFundamentalnodeList
  simp only
  split
  · rename_i seen hm _
    left
    apply CheckFnbSeen_mapHas
    unfold mapHas
    rw [hm]
    rfl
  · have hemp : mapHas (mapEmplace (fnb.GetHash env) (env.GetTime, fnb)
        man.mapSeenFundamentalnodeBroadcast) (fnb.GetHash env) = true :=
      mapHas_mapEmplace_self _ _ _
    split
    · left; exact hemp
    · rename_i hsc
      have hsc' : (fnb.SimpleCheck env).ret = true := by
        cases h : (fnb.SimpleCheck env).ret with
        | true => rfl
        | false => rw [h] at hsc; exact absurd rfl hsc
      split
      · rename_i pfn hfind
        left
        have hemp2 := mapHas_mapEmplace_of_mapHas
          ((⟨pfn, false⟩ : CFundamentalnodeBroadcast).GetHash env) (fnb.GetHash env)
          ((0 : Int), CFundamentalnodeBroadcast.new env) _ hemp
        split
        · exact hemp2
        · split
          · rename_i hne
            unfold mapHas
            rw [mapFind_mapErase_ne _ _ _ hne]
            exact hemp2
          · exact hemp2
      · rename_i hfind
        cases hco : ((fnb.SimpleCheck env).fnb.CheckOutpoint env (fnb.SimpleCheck env).nDos).ret with
        | true =>
          left
          have her := CheckOutpoint_fErased _ _ _ hco
          simp only [hco, her, if_true, Bool.false_eq_true, if_false]
          have hadd := Add_mapSeenFundamentalnodeBroadcast
            { man with
              mapSeenFundamentalnodeBroadcast :=
                mapEmplace (fnb.GetHash env) (env.GetTime, fnb)
                  man.mapSeenFundamentalnodeBroadcast }
            ((fnb.SimpleCheck env).fnb.CheckOutpoint env (fnb.SimpleCheck env).nDos).fnb.fn
          repeat' split
          all_goals (simp only [hadd]; exact hemp)
        | false =>
          right
          simp only [Bool.false_eq_true, if_false]
          refine ⟨?_, hsc', hfind, trivial⟩
          split <;> rfl

/-- An announce that passes `SimpleCheck`, names an outpoint that is not in the registry and
fails in `CheckOutpoint` leaves the registry map as it is. -/
theorem CheckFnb_rejected_mapFundamentalnodes (env : Env) (man : CFundamentalnodeMan)
    (pfrom : Option CService) (fnb : CFundamentalnodeBroadcast)
    (hfind : man.Find (fnb.SimpleCheck env).fnb.fn.outpoint = none)
    (hco : ((fnb.SimpleCheck env).fnb.CheckOutpoint env (fnb.SimpleCheck env).nDos).ret = false) :
    (man.CheckFnbAndUpdateFundamentalnodeList env pfrom fnb).man.mapFundamentalnodes =
      man.mapFundamentalnodes := by
  unfold CFundamentalnodeMan.CheckFnbAndUpdateFundamentalnodeList
  simp only
  split
  · exact CheckFnbSeen_mapFundamentalnodes _ _ _ _ _ _
  · split
    · rfl
    · have hfind' : CFundamentalnodeMan.Find
          { man with
            mapSeenFundamentalnodeBroadcast :=
              mapEmplace (fnb.GetHash env) (env.GetTime, fnb)
                man.mapSeenFundamentalnodeBroadcast }
          (fnb.SimpleCheck env).fnb.fn.outpoint = none := hfind
      simp only [hfind', hco, Bool.false_eq_true, if_false]
      split <;> rfl

/-- C11, counterexample: on the node that runs as the fundamentalnode `(1, 0)`, the announce
of that node marked as a recovery reply, of protocol version 70210, is processed twice. After
the first call the registry holds the node in state Enabled, after the second call in state
UpdateRequired: the recovery mark passes the seen map by, and the second `Update` runs `Check`
on the protocol version that the first one stored. -/
theorem recovery_announce_twice_differs :
    fnbOlderProtoRecovery.fRecovery = true ∧
    ((manServed.CheckFnbAndUpdateFundamentalnodeList envOwn none
        fnbOlderProtoRecovery).man.Find ⟨1, 0⟩).map (fun fn => fn.nActiveState)
      = some FUNDAMENTALNODE_ENABLED ∧
    (((manServed.CheckFnbAndUpdateFundamentalnodeList envOwn none
        fnbOlderProtoRecovery).man.CheckFnbAndUpdateFundamentalnodeList envOwn none
        fnbOlderProtoRecovery).man.Find ⟨1, 0⟩).map (fun fn => fn.nActiveState)
      = some FUNDAMENTALNODE_UPDATE_REQUIRED ∧
    ((manServed.CheckFnbAndUpdateFundamentalnodeList envOwn none
        fnbOlderProtoRecovery).man.CheckFnbAndUpdateFundamentalnodeList envOwn none
        fnbOlderProtoRecovery).man.mapFundamentalnodes ≠
      (manServed.CheckFnbAndUpdateFundamentalnodeList envOwn none
        fnbOlderProtoRecovery).man.mapFundamentalnodes := by
  decide

/-- C11, amended: processing the same announce twice in succession, in the same surroundings,
with `CheckFnbAndUpdateFundamentalnodeList` leaves the registry map after the second call equal
to the registry map after the first call when the announce is not marked as a recovery reply
(whichever peers the two calls come from). -/
theorem CheckFnb_twice_mapFundamentalnodes (env : Env) (man : CFundamentalnodeMan)
    (pfrom pfromAgain : Option CService) (fnb : CFundamentalnodeBroadcast)
    (hrec : fnb.fRecovery = false) :
    ((man.CheckFnbAndUpdateFundamentalnodeList env pfrom
        fnb).man.CheckFnbAndUpdateFundamentalnodeList env pfromAgain fnb).man.mapFundamentalnodes
      = (man.CheckFnbAndUpdateFundamentalnodeList env pfrom fnb).man.mapFundamentalnodes := by
  rcases CheckFnb_seen_after env man pfrom fnb with hseen | ⟨hmap, _, hfind, hco⟩
  · exact CheckFnb_seen_mapFundamentalnodes env _ pfromAgain fnb hseen hrec
  · apply CheckFnb_rejected_mapFundamentalnodes env _ pfromAgain fnb _ hco
    unfold CFundamentalnodeMan.Find at hfind ⊢
    rw [hmap]
    exact hfind

theorem CheckFnb_twice_mapFundamentalnodes_witness :
    fnbFresh.fRecovery = false ∧
    (manServed.CheckFnbAndUpdateFundamentalnodeList envMain none fnbFresh).man.size = 2 ∧
    ((manServed.CheckFnbAndUpdateFundamentalnodeList envMain none
        fnbFresh).man.CheckFnbAndUpdateFundamentalnodeList envMain none
        fnbFresh).man.mapFundamentalnodes
      = (manServed.CheckFnbAndUpdateFundamentalnodeList envMain none
        fnbFresh).man.mapFundamentalnodes :=
  ⟨by decide, by decide,
   CheckFnb_twice_mapFundamentalnodes envMain manServed none none fnbFresh (by decide)⟩

/-! ## A ping applied twice -/

/-- C12: a ping that is not empty (with a `sigTime` other than the value `-1`, which the age
test reads as "now") is applied to a registered node and becomes its last ping. Applied to the
node a second time, in whatever surroundings, it is rejected (`CheckAndUpdate` returns false)
and leaves the node as the first application left it, field for field, with `lastPing` the
first-accepted instance: the node counts as pinged within 540 s of the ping's own `sigTime`
(the difference is `0`), which is the too-early test. The outpoint of the node is the one it
had before the first application. At the message handler the second delivery of the ping
leaves the whole registry as the first delivery left it: its hash is in the map of seen
pings. -/
theorem ping_twice_keeps_first (env envAgain : Env) (fnp : CFundamentalnodePing)
    (fn fnFirst : CFundamentalnode) (fFromNewBroadcast fAgain : Bool)
    (hping : fnp.toBool = true) (hsentinel : fnp.sigTime ≠ -1)
    (hfirst : (fnp.CheckAndUpdate env (some fn) fFromNewBroadcast).pfn = some fnFirst)
    (haccepted : fnFirst.lastPing = fnp) :
    fnFirst.outpoint = fn.outpoint ∧
    FUNDAMENTALNODE_MIN_MNP_SECONDS - 60 = 540 ∧
    fnFirst.IsPingedWithin envAgain (FUNDAMENTALNODE_MIN_MNP_SECONDS - 60) fnp.sigTime = true ∧
    (fnp.CheckAndUpdate envAgain (some fnFirst) fAgain).ret = false ∧
    (fnp.CheckAndUpdate envAgain (some fnFirst) fAgain).pfn = some fnFirst ∧
    (∀ man : CFundamentalnodeMan, env.fLiteMode = false → env.IsBlockchainSynced = true →
      envAgain.pingHash fnp = env.pingHash fnp →
      (man.ProcessMessage_MNPING env fnp).ProcessMessage_MNPING envAgain fnp =
        man.ProcessMessage_MNPING env fnp) := by
  have hout : fnFirst.outpoint = fn.outpoint := by
    obtain ⟨fnNew, hnew, _, ho⟩ := CheckAndUpdate_frame env fnp fn fFromNewBroadcast
    rw [hnew] at hfirst
    rw [← Option.some.inj hfirst]
    exact ho
  have hearly : fnFirst.IsPingedWithin envAgain (FUNDAMENTALNODE_MIN_MNP_SECONDS - 60)
      fnp.sigTime = true := by
    unfold CFundamentalnode.IsPingedWithin
    rw [haccepted]
    simp [hping, hsentinel, FUNDAMENTALNODE_MIN_MNP_SECONDS]
  have hsecond : (fnp.CheckAndUpdate envAgain (some fnFirst) fAgain).ret = false ∧
      (fnp.CheckAndUpdate envAgain (some fnFirst) fAgain).pfn = some fnFirst := by
    unfold CFundamentalnodePing.CheckAndUpdate
    simp only [hearly, if_true]
    repeat' split
    all_goals exact ⟨rfl, rfl⟩
  refine ⟨hout, by decide, hearly, hsecond.1, hsecond.2, ?_⟩
  intro man hlite hsync hhash
  have hseen : ∀ m : CFundamentalnodeMan,
      mapHas m.mapSeenFundamentalnodePing (fnp.GetHash env) = true →
      m.ProcessMessage_MNPING envAgain fnp = m := by
    intro m hm
    unfold CFundamentalnodeMan.ProcessMessage_MNPING
    have hm' : mapHas m.mapSeenFundamentalnodePing (fnp.GetHash envAgain) = true := by
      unfold CFundamentalnodePing.GetHash at hm ⊢
      rw [hhash]
      exact hm
    simp only [hm', if_true]
    repeat' split
    all_goals rfl
  apply hseen
  unfold CFundamentalnodeMan.ProcessMessage_MNPING
  simp only [hlite, hsync, Bool.not_true, Bool.false_eq_true, if_false]
  split
  · assumption
  · have hemp := mapHas_mapEmplace_self (fnp.GetHash env) fnp man.mapSeenFundamentalnodePing
    repeat' split
    all_goals exact hemp

theorem ping_twice_keeps_first_witness :
    pingNew.toBool = true ∧ pingNew.sigTime ≠ -1 ∧
    (pingNew.CheckAndUpdate envMain (some nodeLive) false).pfn =
      some ({ nodeLive with lastPing := pingNew, nTimeLastChecked := 1000000 }) ∧
    (pingNew.CheckAndUpdate envMain
      (some ({ nodeLive with lastPing := pingNew, nTimeLastChecked := 1000000 })) false).pfn =
      some ({ nodeLive with lastPing := pingNew, nTimeLastChecked := 1000000 }) :=
  ⟨by decide, by decide, by decide,
   (ping_twice_keeps_first envMain envMain pingNew nodeLive
      ({ nodeLive with lastPing := pingNew, nTimeLastChecked := 1000000 }) false false
      (by decide) (by decide) (by decide) rfl).2.2.2.2.1⟩

/-! ## The stages of the sync driver -/

theorem SwitchToNextAsset_stage (env : Env) (sync : CFundamentalnodeSync)
    (hfailed : sync.nRequestedFundamentalnodeAssets ≠ FUNDAMENTALNODE_SYNC_FAILED) :
    ∃ syncNew, sync.SwitchToNextAsset env = some syncNew ∧
      (syncNew.nRequestedFundamentalnodeAssets = sync.nRequestedFundamentalnodeAssets ∨
        specNextStage sync.nRequestedFundamentalnodeAssets =
          some syncNew.nRequestedFundamentalnodeAssets) ∧
      (∀ next, specNextStage sync.nRequestedFundamentalnodeAssets = some next →
        syncNew.nRequestedFundamentalnodeAssets = next) ∧
      (syncNew.nRequestedFundamentalnodeAssets ≠ FUNDAMENTALNODE_SYNC_FINISHED →
        syncNew.nTimeLastBumped = env.GetTime) := by
  unfold CFundamentalnodeSync.SwitchToNextAsset
  simp only [hfailed, if_false]
  refine ⟨_, rfl, ?_, ?_, ?_⟩
  · unfold CFundamentalnodeSync.BumpAssetLastTime specNextStage
    split_ifs <;> simp_all
  · intro next
    unfold CFundamentalnodeSync.BumpAssetLastTime specNextStage
    split_ifs <;> simp_all
  · unfold CFundamentalnodeSync.BumpAssetLastTime CFundamentalnodeSync.IsSynced
      CFundamentalnodeSync.IsFailed
    split_ifs <;>
      simp_all [FUNDAMENTALNODE_SYNC_FAILED, FUNDAMENTALNODE_SYNC_INITIAL,
        FUNDAMENTALNODE_SYNC_WAITING, FUNDAMENTALNODE_SYNC_LIST, FUNDAMENTALNODE_SYNC_MNW,
        FUNDAMENTALNODE_SYNC_FINISHED]

/-- In stage List without a timeout the loop over the peers leaves the stage as it is. -/
theorem ProcessTickLoop_list (env : Env) (fEnoughData : Bool) (vNodes : List CNode) :
    ∀ (sync : CFundamentalnodeSync) (netfulfilledman : CNetFulfilledRequestManager),
      env.NetworkID ≠ Network.regtest →
      sync.nRequestedFundamentalnodeAssets = FUNDAMENTALNODE_SYNC_LIST →
      ¬ env.GetTime - sync.nTimeLastBumped > FUNDAMENTALNODE_SYNC_TIMEOUT_SECONDS →
      ∃ r, ProcessTickLoop env fEnoughData vNodes sync netfulfilledman = some r ∧
        r.1.nRequestedFundamentalnodeAssets = FUNDAMENTALNODE_SYNC_LIST := by
  induction vNodes with
  | nil =>
    intro sync netfulfilledman _ hs _
    exact ⟨_, rfl, hs⟩
  | cons pnode rest ih =>
    intro sync netfulfilledman hnet hs hto
    have hw : ¬ (sync.nRequestedFundamentalnodeAssets = FUNDAMENTALNODE_SYNC_WAITING ∧
        env.GetTime - sync.nTimeLastBumped > FUNDAMENTALNODE_SYNC_TIMEOUT_SECONDS) :=
      fun h => hto h.2
    rw [ProcessTickLoop]
    simp only [hnet, hw, if_false]
    generalize (if (!netfulfilledman.HasFulfilledRequest pnode.addr FulfilledRequest.sporkSync)
      = true then netfulfilledman.AddFulfilledRequest pnode.addr FulfilledRequest.sporkSync
      else netfulfilledman) = netfulfilledmanNew
    simp only [hs, hto, if_true, if_false]
    split_ifs <;> first
      | exact ih _ _ hnet hs hto
      | exact ⟨_, rfl, hs⟩
      | exact ⟨_, rfl, rfl⟩

/-- The loop over the peers ends, and the stage it leaves is the stage it found, the next stage
of the line, Failed, or (on the regression-test network) Finished. -/
theorem ProcessTickLoop_stage (env : Env) (fEnoughData : Bool) (vNodes : List CNode) :
    ∀ (sync : CFundamentalnodeSync) (netfulfilledman : CNetFulfilledRequestManager),
      ∃ r, ProcessTickLoop env fEnoughData vNodes sync netfulfilledman = some r ∧
        (r.1.nRequestedFundamentalnodeAssets = sync.nRequestedFundamentalnodeAssets ∨
          specNextStage sync.nRequestedFundamentalnodeAssets =
            some r.1.nRequestedFundamentalnodeAssets ∨
          r.1.nRequestedFundamentalnodeAssets = FUNDAMENTALNODE_SYNC_FAILED ∨
          (env.NetworkID = Network.regtest ∧
            r.1.nRequestedFundamentalnodeAssets = FUNDAMENTALNODE_SYNC_FINISHED)) := by
  induction vNodes with
  | nil =>
    intro sync netfulfilledman
    exact ⟨_, rfl, Or.inl rfl⟩
  | cons pnode rest ih =>
    intro sync netfulfilledman
    rw [ProcessTickLoop]
    by_cases hskip : (pnode.fFundamentalnode || env.fFundamentalnodeMode && pnode.fInbound) = true
    · rw [if_pos hskip]
      exact ih sync netfulfilledman
    rw [if_neg hskip]
    by_cases hreg : env.NetworkID = Network.regtest
    · rw [if_pos hreg]
      simp only
      split_ifs
      · exact ⟨_, rfl, Or.inl rfl⟩
      · exact ⟨_, rfl, Or.inl rfl⟩
      · exact ⟨_, rfl, Or.inl rfl⟩
      · exact ⟨_, rfl, Or.inr (Or.inr (Or.inr ⟨hreg, rfl⟩))⟩
    rw [if_neg hreg]
    by_cases hfull : netfulfilledman.HasFulfilledRequest pnode.addr FulfilledRequest.fullSync
        = true
    · rw [if_pos hfull]
      exact ih sync netfulfilledman
    rw [if_neg hfull]
    simp only
    generalize (if (!netfulfilledman.HasFulfilledRequest pnode.addr FulfilledRequest.sporkSync)
      = true then netfulfilledman.AddFulfilledRequest pnode.addr FulfilledRequest.sporkSync
      else netfulfilledman) = netfulfilledmanNew
    by_cases hw : sync.nRequestedFundamentalnodeAssets = FUNDAMENTALNODE_SYNC_WAITING ∧
        env.GetTime - sync.nTimeLastBumped > FUNDAMENTALNODE_SYNC_TIMEOUT_SECONDS
    · rw [if_pos hw]
      have hnf : sync.nRequestedFundamentalnodeAssets ≠ FUNDAMENTALNODE_SYNC_FAILED := by
        rw [hw.1]; decide
      obtain ⟨syncNew, hsw, _, hnext, hbump⟩ := SwitchToNextAsset_stage env sync hnf
      have hlist : syncNew.nRequestedFundamentalnodeAssets = FUNDAMENTALNODE_SYNC_LIST :=
        hnext _ (by rw [hw.1]; rfl)
      have hb : syncNew.nTimeLastBumped = env.GetTime := hbump (by rw [hlist]; decide)
      have hto : ¬ env.GetTime - syncNew.nTimeLastBumped >
          FUNDAMENTALNODE_SYNC_TIMEOUT_SECONDS := by
        rw [hb]; simp [FUNDAMENTALNODE_SYNC_TIMEOUT_SECONDS]
      have hres : specNextStage sync.nRequestedFundamentalnodeAssets =
          some FUNDAMENTALNODE_SYNC_LIST := by rw [hw.1]; rfl
      rw [hsw]
      simp only [hlist, hto, if_true, if_false]
      split_ifs
      · refine ⟨_, rfl, Or.inr (Or.inl ?_)⟩
        simp only [hlist]
        exact hres
      · obtain ⟨r, hr, hrs⟩ := ProcessTickLoop_list env fEnoughData rest syncNew
          netfulfilledmanNew hreg hlist hto
        exact ⟨r, hr, Or.inr (Or.inl (by rw [hrs]; exact hres))⟩
      · obtain ⟨r, hr, hrs⟩ := ProcessTickLoop_list env fEnoughData rest syncNew
          (netfulfilledmanNew.AddFulfilledRequest pnode.addr FulfilledRequest.listSync)
          hreg hlist hto
        exact ⟨r, hr, Or.inr (Or.inl (by rw [hrs]; exact hres))⟩
      · exact ⟨_, rfl, Or.inr (Or.inl hres)⟩
    · rw [if_neg hw]
      simp only
      split_ifs with h1 h2 h3 h4 h5 h6 h7 h8 h9 h10 h11 h12 h13
      all_goals first
        | exact ih _ _
        | exact ⟨_, rfl, Or.inl rfl⟩
        | exact ⟨_, rfl, Or.inr (Or.inr (Or.inl rfl))⟩
        | (have hnf : sync.nRequestedFundamentalnodeAssets ≠ FUNDAMENTALNODE_SYNC_FAILED := by
             first
               | (rw [h1]; decide)
               | (rw [h7]; decide)
           obtain ⟨syncNew, hsw, hor, _, _⟩ := SwitchToNextAsset_stage env sync hnf
           rw [hsw]
           rcases hor with h | h
           · exact ⟨_, rfl, Or.inl h⟩
           · exact ⟨_, rfl, Or.inr (Or.inl h)⟩)

theorem Reset_SwitchToNextAsset_stage (env : Env) (sync : CFundamentalnodeSync) :
    ∃ syncNew, (sync.Reset env).SwitchToNextAsset env = some syncNew ∧
      syncNew.nRequestedFundamentalnodeAssets = FUNDAMENTALNODE_SYNC_WAITING := by
  have hnf : (sync.Reset env).nRequestedFundamentalnodeAssets ≠ FUNDAMENTALNODE_SYNC_FAILED := by
    unfold CFundamentalnodeSync.Reset
    simp [FUNDAMENTALNODE_SYNC_INITIAL, FUNDAMENTALNODE_SYNC_FAILED]
  obtain ⟨syncNew, hsw, _, hnext, _⟩ := SwitchToNextAsset_stage env (sync.Reset env) hnf
  exact ⟨syncNew, hsw, hnext _ rfl⟩

/-- C19, counterexample: in lite mode `UpdatedBlockTip`, called in stage Initial with the new
tip at the best header, puts the driver in stage Finished; and on the regression-test network
a tick in stage Initial after six requests does the same. Finished is neither Initial nor
Failed nor the stage after Initial, which is Waiting. -/
theorem sync_jumps_from_initial_to_finished :
    syncInitial.nRequestedFundamentalnodeAssets = FUNDAMENTALNODE_SYNC_INITIAL ∧
    specNextStage FUNDAMENTALNODE_SYNC_INITIAL = some FUNDAMENTALNODE_SYNC_WAITING ∧
    (syncInitial.UpdatedBlockTip envLite true false true).map
      (fun sync => sync.nRequestedFundamentalnodeAssets) = some FUNDAMENTALNODE_SYNC_FINISHED ∧
    (syncInitialSix.ProcessTick envRegtest [peerOne] [] false).map
      (fun r => r.1.nRequestedFundamentalnodeAssets) = some FUNDAMENTALNODE_SYNC_FINISHED := by
  decide

/-- C19, amended: the stage of the sync driver changes in these ways only. `Reset` sets it to
Initial and `Fail` to Failed; `SwitchToNextAsset` moves it to the stage that follows it in the
line Initial, Waiting, List, MNW, Finished. `ProcessTick` always ends, and leaves the stage as
it is, at the stage that follows it, at Waiting (after `Reset` and `SwitchToNextAsset`), at
Failed, or, on the regression-test network only, at Finished whatever the stage was.
`UpdatedBlockTip` always ends, and leaves the stage as it is, at Initial (after `Reset`), at
the stage that follows it, or, in lite mode only, at Finished whatever the stage was. -/
theorem sync_stage_changes (env : Env) (sync : CFundamentalnodeSync) :
    (sync.Reset env).nRequestedFundamentalnodeAssets = FUNDAMENTALNODE_SYNC_INITIAL ∧
    (sync.Fail env).nRequestedFundamentalnodeAssets = FUNDAMENTALNODE_SYNC_FAILED ∧
    (∀ next, specNextStage sync.nRequestedFundamentalnodeAssets = some next →
      ∃ syncNew, sync.SwitchToNextAsset env = some syncNew ∧
        syncNew.nRequestedFundamentalnodeAssets = next) ∧
    (∀ (vNodesCopy : List CNode) (netfulfilledman : CNetFulfilledRequestManager)
        (fEnoughData : Bool),
      ∃ r, sync.ProcessTick env vNodesCopy netfulfilledman fEnoughData = some r ∧
        (r.1.nRequestedFundamentalnodeAssets = sync.nRequestedFundamentalnodeAssets ∨
          specNextStage sync.nRequestedFundamentalnodeAssets =
            some r.1.nRequestedFundamentalnodeAssets ∨
          r.1.nRequestedFundamentalnodeAssets = FUNDAMENTALNODE_SYNC_WAITING ∨
          r.1.nRequestedFundamentalnodeAssets = FUNDAMENTALNODE_SYNC_FAILED ∨
          (env.NetworkID = Network.regtest ∧
            r.1.nRequestedFundamentalnodeAssets = FUNDAMENTALNODE_SYNC_FINISHED))) ∧
    (∀ (fBestHeader fInitialDownload fReachedBestHeaderNew : Bool),
      ∃ syncNew, sync.UpdatedBlockTip env fBestHeader fInitialDownload fReachedBestHeaderNew
          = some syncNew ∧
        (syncNew.nRequestedFundamentalnodeAssets = sync.nRequestedFundamentalnodeAssets ∨
          syncNew.nRequestedFundamentalnodeAssets = FUNDAMENTALNODE_SYNC_INITIAL ∨
          specNextStage sync.nRequestedFundamentalnodeAssets =
            some syncNew.nRequestedFundamentalnodeAssets ∨
          (env.fLiteMode = true ∧
            syncNew.nRequestedFundamentalnodeAssets = FUNDAMENTALNODE_SYNC_FINISHED))) := by
  refine ⟨rfl, rfl, ?_, ?_, ?_⟩
  · intro next hnext
    have hnf : sync.nRequestedFundamentalnodeAssets ≠ FUNDAMENTALNODE_SYNC_FAILED := by
      intro hF
      rw [hF] at hnext
      simp [specNextStage, FUNDAMENTALNODE_SYNC_INITIAL, FUNDAMENTALNODE_SYNC_FAILED,
        FUNDAMENTALNODE_SYNC_WAITING, FUNDAMENTALNODE_SYNC_LIST, FUNDAMENTALNODE_SYNC_MNW]
        at hnext
    obtain ⟨syncNew, hsw, _, hn, _⟩ := SwitchToNextAsset_stage env sync hnf
    exact ⟨syncNew, hsw, hn next hnext⟩
  · intro vNodesCopy netfulfilledman fEnoughData
    unfold CFundamentalnodeSync.ProcessTick
    simp only
    split_ifs with h1 h2 h3 h4 h5
    · exact ⟨_, rfl, Or.inl rfl⟩
    · obtain ⟨syncNew, hsw, hst⟩ := Reset_SwitchToNextAsset_stage env
        { sync with
          nTick := sync.nTick + 1
          nTimeLastProcess := some (sync.nTimeLastProcess.getD env.GetTime) }
      rw [hsw]
      exact ⟨_, rfl, Or.inr (Or.inr (Or.inl hst))⟩
    · obtain ⟨syncNew, hsw, hst⟩ := Reset_SwitchToNextAsset_stage env
        { sync with
          nTick := sync.nTick + 1
          nTimeLastProcess := some env.GetTime }
      rw [hsw]
      exact ⟨_, rfl, Or.inr (Or.inr (Or.inl hst))⟩
    · exact ⟨_, rfl, Or.inl rfl⟩
    · exact ⟨_, rfl, Or.inl rfl⟩
    · obtain ⟨r, hr, hor⟩ := ProcessTickLoop_stage env fEnoughData vNodesCopy
        { sync with
          nTick := sync.nTick + 1
          nTimeLastProcess := some env.GetTime } netfulfilledman
      refine ⟨r, hr, ?_⟩
      rcases hor with h | h | h | h
      · exact Or.inl h
      · exact Or.inr (Or.inl h)
      · exact Or.inr (Or.inr (Or.inr (Or.inl h)))
      · exact Or.inr (Or.inr (Or.inr (Or.inr h)))
  · intro fBestHeader fInitialDownload fReachedBestHeaderNew
    unfold CFundamentalnodeSync.UpdatedBlockTip
    by_cases h1 : (sync.IsFailed || sync.IsSynced || !fBestHeader) = true
    · rw [if_pos h1]
      exact ⟨_, rfl, Or.inl rfl⟩
    rw [if_neg h1]
    have hB : (if (!sync.IsBlockchainSynced) = true then sync.BumpAssetLastTime env
        else sync).nRequestedFundamentalnodeAssets = sync.nRequestedFundamentalnodeAssets := by
      unfold CFundamentalnodeSync.BumpAssetLastTime
      split_ifs <;> rfl
    have hnf : sync.nRequestedFundamentalnodeAssets ≠ FUNDAMENTALNODE_SYNC_FAILED := by
      intro hF
      apply h1
      simp [CFundamentalnodeSync.IsFailed, hF]
    simp only
    generalize (if (!sync.IsBlockchainSynced) = true then sync.BumpAssetLastTime env
      else sync) = syncBumped at hB ⊢
    split_ifs with h2 h3 h4 h5 h6
    · exact ⟨_, rfl, Or.inr (Or.inl rfl)⟩
    · exact ⟨_, rfl, Or.inl hB⟩
    · exact ⟨_, rfl, Or.inr (Or.inl rfl)⟩
    · exact ⟨_, rfl, Or.inr (Or.inr (Or.inr ⟨h6, rfl⟩))⟩
    · obtain ⟨syncNew, hsw, hor, _, _⟩ := SwitchToNextAsset_stage env
        { syncBumped with fReachedBestHeader := fReachedBestHeaderNew }
        (by rw [← hB] at hnf; exact hnf)
      rw [hsw]
      refine ⟨_, rfl, ?_⟩
      rcases hor with h | h
      · exact Or.inl (h.trans hB)
      · right; right; left
        rw [← hB]
        exact h
    · exact ⟨_, rfl, Or.inl hB⟩

/-! ## Nodes at one address -/

theorem mem_of_mapFind {K V : Type} [DecidableEq K] (l : List (K × V)) (k : K) (v : V)
    (h : mapFind l k = some v) : (k, v) ∈ l := by
  induction l with
  | nil => simp [mapFind] at h
  | cons p rest ih =>
    obtain ⟨k0, v0⟩ := p
    simp only [mapFind] at h
    split_ifs at h with hk
    · rw [← hk, ← Option.some.inj h]
      exact List.mem_cons_self _ _
    · exact List.mem_cons_of_mem _ (ih h)

theorem mapFind_ProcessVerifyBroadcastLoop (fnv : CFundamentalnodeVerification)
    (l : List (COutPoint × CFundamentalnode)) (k : COutPoint) :
    mapFind (ProcessVerifyBroadcastLoop fnv l) k =
      (mapFind l k).map fun fn =>
        if fn.addr ≠ fnv.addr ∨ k = fnv.fundamentalnodeOutpoint1 then fn
        else fn.IncreasePoSeBanScore := by
  induction l with
  | nil => rfl
  | cons p rest ih =>
    obtain ⟨k0, fn0⟩ := p
    unfold ProcessVerifyBroadcastLoop at ih ⊢
    rw [List.map_cons]
    by_cases hc : fn0.addr ≠ fnv.addr ∨ k0 = fnv.fundamentalnodeOutpoint1
    · have hhead : (if (k0, fn0).2.addr ≠ fnv.addr ∨ (k0, fn0).1 = fnv.fundamentalnodeOutpoint1
          then (k0, fn0) else ((k0, fn0).1, (k0, fn0).2.IncreasePoSeBanScore)) = (k0, fn0) :=
        if_pos hc
      rw [hhead]
      by_cases hk : k0 = k
      · subst hk
        simp only [mapFind, if_true, Option.map_some', if_pos hc]
      · simp only [mapFind, if_neg hk]
        exact ih
    · have hhead : (if (k0, fn0).2.addr ≠ fnv.addr ∨ (k0, fn0).1 = fnv.fundamentalnodeOutpoint1
          then (k0, fn0) else ((k0, fn0).1, (k0, fn0).2.IncreasePoSeBanScore)) =
            (k0, fn0.IncreasePoSeBanScore) := if_neg hc
      rw [hhead]
      by_cases hk : k0 = k
      · subst hk
        simp only [mapFind, if_true, Option.map_some', if_neg hc]
      · simp only [mapFind, if_neg hk]
        exact ih

theorem DecreasePoSeBanScore_of_verified (fn : CFundamentalnode)
    (h : fn.IsPoSeVerified = true) : fn.DecreasePoSeBanScore = fn := by
  unfold CFundamentalnode.IsPoSeVerified at h
  unfold CFundamentalnode.DecreasePoSeBanScore
  have h' : ¬ fn.nPoSeBanScore > -FUNDAMENTALNODE_POSE_BAN_MAX_SCORE := by
    simp only [decide_eq_true_eq] at h
    omega
  rw [if_neg h']

theorem GetFundamentalnodeRank_seen_verification (env : Env) (man : CFundamentalnodeMan)
    (seen : List (uint256 × CFundamentalnodeVerification)) (outpoint : COutPoint)
    (nBlockHeight nMinProtocol : Int) :
    CFundamentalnodeMan.GetFundamentalnodeRank env
      { man with mapSeenFundamentalnodeVerification := seen } outpoint nBlockHeight nMinProtocol =
      man.GetFundamentalnodeRank env outpoint nBlockHeight nMinProtocol := rfl

/-- The result of `ProcessVerifyBroadcast` on a message that passes every test. -/
theorem ProcessVerifyBroadcast_accepted (env : Env) (man : CFundamentalnodeMan)
    (fnv : CFundamentalnodeVerification) (blockHash : uint256) (nRank : Int)
    (pfn1 pfn2 : CFundamentalnode)
    (hseen : mapHas man.mapSeenFundamentalnodeVerification (fnv.GetHash env) = false)
    (hold : man.nCachedBlockHeight - 10 ≤ fnv.nBlockHeight)
    (hne : fnv.fundamentalnodeOutpoint1 ≠ fnv.fundamentalnodeOutpoint2)
    (hhash : env.GetBlockHash fnv.nBlockHeight = some blockHash)
    (hrank : man.GetFundamentalnodeRank env fnv.fundamentalnodeOutpoint2 fnv.nBlockHeight 70203
      = some nRank)
    (htop : nRank ≤ 10)
    (hfind1 : man.Find fnv.fundamentalnodeOutpoint1 = some pfn1)
    (hfind2 : man.Find fnv.fundamentalnodeOutpoint2 = some pfn2)
    (haddr : pfn1.addr = fnv.addr)
    (hsig : fnv.CheckSignatures env blockHash pfn1 pfn2 = true) :
    man.ProcessVerifyBroadcast env fnv =
      ⟨{ man with
          mapSeenFundamentalnodeVerification :=
            mapAssign (fnv.GetHash env) fnv man.mapSeenFundamentalnodeVerification
          mapFundamentalnodes :=
            ProcessVerifyBroadcastLoop fnv
              (if !pfn1.IsPoSeVerified then
                mapAssign fnv.fundamentalnodeOutpoint1 pfn1.DecreasePoSeBanScore
                  man.mapFundamentalnodes
              else man.mapFundamentalnodes) }, 0, true⟩ := by
  have hold' : ¬ fnv.nBlockHeight < man.nCachedBlockHeight - 10 := by omega
  have htop' : ¬ nRank > 10 := by omega
  have hfind1' : mapFind man.mapFundamentalnodes fnv.fundamentalnodeOutpoint1 = some pfn1 :=
    hfind1
  have hfind2' : mapFind man.mapFundamentalnodes fnv.fundamentalnodeOutpoint2 = some pfn2 :=
    hfind2
  unfold CFundamentalnodeMan.ProcessVerifyBroadcast
  simp only [hseen, Bool.false_eq_true, if_false, MAX_POSE_BLOCKS, hold', hne, hhash,
    MIN_POSE_PROTO_VERSION, GetFundamentalnodeRank_seen_verification, hrank, MAX_POSE_RANK,
    htop', CFundamentalnodeMan.Find, hfind1', hfind2', haddr, ne_eq, not_true_eq_false, hsig,
    Bool.not_true]

/-- The tests that a message relayed by `ProcessVerifyBroadcast` has passed. -/
theorem ProcessVerifyBroadcast_relayed (env : Env) (man : CFundamentalnodeMan)
    (fnv : CFundamentalnodeVerification)
    (h : (man.ProcessVerifyBroadcast env fnv).fRelayed = true) :
    mapHas man.mapSeenFundamentalnodeVerification (fnv.GetHash env) = false ∧
    man.nCachedBlockHeight - 10 ≤ fnv.nBlockHeight ∧
    fnv.fundamentalnodeOutpoint1 ≠ fnv.fundamentalnodeOutpoint2 ∧
    ∃ blockHash nRank pfn1 pfn2,
      env.GetBlockHash fnv.nBlockHeight = some blockHash ∧
      man.GetFundamentalnodeRank env fnv.fundamentalnodeOutpoint2 fnv.nBlockHeight 70203
        = some nRank ∧
      nRank ≤ 10 ∧
      man.Find fnv.fundamentalnodeOutpoint1 = some pfn1 ∧
      man.Find fnv.fundamentalnodeOutpoint2 = some pfn2 ∧
      pfn1.addr = fnv.addr ∧
      fnv.CheckSignatures env blockHash pfn1 pfn2 = true := by
  unfold CFundamentalnodeMan.ProcessVerifyBroadcast at h
  cases hseen : mapHas man.mapSeenFundamentalnodeVerification (fnv.GetHash env) with
  | true => simp [hseen] at h
  | false =>
    simp only [hseen, Bool.false_eq_true, if_false, MAX_POSE_BLOCKS, MIN_POSE_PROTO_VERSION,
      MAX_POSE_RANK, GetFundamentalnodeRank_seen_verification] at h
    by_cases hold : fnv.nBlockHeight < man.nCachedBlockHeight - 10
    · simp [hold] at h
    by_cases hne : fnv.fundamentalnodeOutpoint1 = fnv.fundamentalnodeOutpoint2
    · simp [hold, hne] at h
    simp only [hold, hne, if_false] at h
    cases hhash : env.GetBlockHash fnv.nBlockHeight with
    | none => simp [hhash] at h
    | some blockHash =>
      simp only [hhash] at h
      cases hrank : man.GetFundamentalnodeRank env fnv.fundamentalnodeOutpoint2
          fnv.nBlockHeight 70203 with
      | none => simp [hrank] at h
      | some nRank =>
        simp only [hrank] at h
        by_cases htop : nRank > 10
        · simp [htop] at h
        simp only [htop, if_false] at h
        cases hfind1 : man.Find fnv.fundamentalnodeOutpoint1 with
        | none =>
          have hfind1' : CFundamentalnodeMan.Find
              { man with
                mapSeenFundamentalnodeVerification :=
                  mapAssign (fnv.GetHash env) fnv man.mapSeenFundamentalnodeVerification }
              fnv.fundamentalnodeOutpoint1 = none := hfind1
          simp [hfind1'] at h
        | some pfn1 =>
          have hfind1' : CFundamentalnodeMan.Find
              { man with
                mapSeenFundamentalnodeVerification :=
                  mapAssign (fnv.GetHash env) fnv man.mapSeenFundamentalnodeVerification }
              fnv.fundamentalnodeOutpoint1 = some pfn1 := hfind1
          cases hfind2 : man.Find fnv.fundamentalnodeOutpoint2 with
          | none =>
            have hfind2' : CFundamentalnodeMan.Find
                { man with
                  mapSeenFundamentalnodeVerification :=
                    mapAssign (fnv.GetHash env) fnv man.mapSeenFundamentalnodeVerification }
                fnv.fundamentalnodeOutpoint2 = none := hfind2
            simp [hfind1', hfind2'] at h
          | some pfn2 =>
            have hfind2' : CFundamentalnodeMan.Find
                { man with
                  mapSeenFundamentalnodeVerification :=
                    mapAssign (fnv.GetHash env) fnv man.mapSeenFundamentalnodeVerification }
                fnv.fundamentalnodeOutpoint2 = some pfn2 := hfind2
            simp only [hfind1', hfind2'] at h
            by_cases haddr : pfn1.addr = fnv.addr
            swap
            · simp [haddr] at h
            cases hsig : fnv.CheckSignatures env blockHash pfn1 pfn2 with
            | false => simp [haddr, hsig] at h
            | true =>
              exact ⟨rfl, by omega, hne, blockHash, nRank, pfn1, pfn2, rfl, rfl, by omega,
                rfl, rfl, haddr, hsig⟩

/-- A message that `ProcessVerifyBroadcast` does not relay leaves the map of nodes as it
was. -/
theorem ProcessVerifyBroadcast_relayed_or_kept (env : Env) (man : CFundamentalnodeMan)
    (fnv : CFundamentalnodeVerification) :
    (man.ProcessVerifyBroadcast env fnv).fRelayed = true ∨
    (man.ProcessVerifyBroadcast env fnv).man.mapFundamentalnodes = man.mapFundamentalnodes := by
  unfold CFundamentalnodeMan.ProcessVerifyBroadcast
  cases hseen : mapHas man.mapSeenFundamentalnodeVerification (fnv.GetHash env) with
  | true => right; simp
  | false =>
    simp only [Bool.false_eq_true, if_false, MAX_POSE_BLOCKS, MIN_POSE_PROTO_VERSION,
      MAX_POSE_RANK, GetFundamentalnodeRank_seen_verification]
    by_cases hold : fnv.nBlockHeight < man.nCachedBlockHeight - 10
    · right; simp [hold]
    by_cases hne : fnv.fundamentalnodeOutpoint1 = fnv.fundamentalnodeOutpoint2
    · right; simp [hold, hne]
    simp only [hold, hne, if_false]
    cases hhash : env.GetBlockHash fnv.nBlockHeight with
    | none => right; simp
    | some blockHash =>
      simp only
      cases hrank : man.GetFundamentalnodeRank env fnv.fundamentalnodeOutpoint2
          fnv.nBlockHeight 70203 with
      | none => right; simp
      | some nRank =>
        simp only
        by_cases htop : nRank > 10
        · right; simp [htop]
        simp only [htop, if_false]
        cases hfind1 : man.Find fnv.fundamentalnodeOutpoint1 with
        | none =>
          have hfind1' : CFundamentalnodeMan.Find
              { man with
                mapSeenFundamentalnodeVerification :=
                  mapAssign (fnv.GetHash env) fnv man.mapSeenFundamentalnodeVerification }
              fnv.fundamentalnodeOutpoint1 = none := hfind1
          right; simp [hfind1']
        | some pfn1 =>
          have hfind1' : CFundamentalnodeMan.Find
              { man with
                mapSeenFundamentalnodeVerification :=
                  mapAssign (fnv.GetHash env) fnv man.mapSeenFundamentalnodeVerification }
              fnv.fundamentalnodeOutpoint1 = some pfn1 := hfind1
          cases hfind2 : man.Find fnv.fundamentalnodeOutpoint2 with
          | none =>
            have hfind2' : CFundamentalnodeMan.Find
                { man with
                  mapSeenFundamentalnodeVerification :=
                    mapAssign (fnv.GetHash env) fnv man.mapSeenFundamentalnodeVerification }
                fnv.fundamentalnodeOutpoint2 = none := hfind2
            right; simp [hfind1', hfind2']
          | some pfn2 =>
            have hfind2' : CFundamentalnodeMan.Find
                { man with
                  mapSeenFundamentalnodeVerification :=
                    mapAssign (fnv.GetHash env) fnv man.mapSeenFundamentalnodeVerification }
                fnv.fundamentalnodeOutpoint2 = some pfn2 := hfind2
            simp only [hfind1', hfind2']
            by_cases haddr : pfn1.addr = fnv.addr
            swap
            · right; simp [haddr]
            cases hsig : fnv.CheckSignatures env blockHash pfn1 pfn2 with
            | false => right; simp [haddr]
            | true => left; simp [haddr]

/-- C21: `ProcessVerifyBroadcast` goes on to relay the message and change scores exactly when
the hash of the message is not in the seen cache, its height is at least the tip height less
10, its two outpoints differ, the block hash of its height is known, the second outpoint has a
rank of at most 10 at that height, both outpoints are in the registry, the node under the
first is at the address of the message, and both signatures verify. Then the node under the
first outpoint has `DecreasePoSeBanScore` applied, every other node of the registry at the
address of the message has `IncreasePoSeBanScore` applied, and the nodes at other addresses
are as before; on scores between -5 and 5 these two operations are a step down not below -5
and a step up not above 5. A message that is not relayed leaves the map of nodes as it was. -/
theorem ProcessVerifyBroadcast_effect (env : Env) (man : CFundamentalnodeMan)
    (fnv : CFundamentalnodeVerification) :
    ((man.ProcessVerifyBroadcast env fnv).fRelayed = true ↔
      (mapHas man.mapSeenFundamentalnodeVerification (fnv.GetHash env) = false ∧
        man.nCachedBlockHeight - 10 ≤ fnv.nBlockHeight ∧
        fnv.fundamentalnodeOutpoint1 ≠ fnv.fundamentalnodeOutpoint2 ∧
        ∃ blockHash nRank pfn1 pfn2,
          env.GetBlockHash fnv.nBlockHeight = some blockHash ∧
          man.GetFundamentalnodeRank env fnv.fundamentalnodeOutpoint2 fnv.nBlockHeight 70203
            = some nRank ∧
          nRank ≤ 10 ∧
          man.Find fnv.fundamentalnodeOutpoint1 = some pfn1 ∧
          man.Find fnv.fundamentalnodeOutpoint2 = some pfn2 ∧
          pfn1.addr = fnv.addr ∧
          fnv.CheckSignatures env blockHash pfn1 pfn2 = true)) ∧
    ((man.ProcessVerifyBroadcast env fnv).fRelayed = true →
      ∀ outpoint, (man.ProcessVerifyBroadcast env fnv).man.Find outpoint =
        (man.Find outpoint).map fun fn =>
          if outpoint = fnv.fundamentalnodeOutpoint1 then fn.DecreasePoSeBanScore
          else if fn.addr = fnv.addr then fn.IncreasePoSeBanScore
          else fn) ∧
    ((man.ProcessVerifyBroadcast env fnv).fRelayed = false →
      (man.ProcessVerifyBroadcast env fnv).man.mapFundamentalnodes = man.mapFundamentalnodes) ∧
    (∀ fn : CFundamentalnode, -5 ≤ fn.nPoSeBanScore → fn.nPoSeBanScore ≤ 5 →
      fn.DecreasePoSeBanScore.nPoSeBanScore = max (fn.nPoSeBanScore - 1) (-5) ∧
      fn.IncreasePoSeBanScore.nPoSeBanScore = min (fn.nPoSeBanScore + 1) 5) := by
  have hscores : ∀ fn : CFundamentalnode, -5 ≤ fn.nPoSeBanScore → fn.nPoSeBanScore ≤ 5 →
      fn.DecreasePoSeBanScore.nPoSeBanScore = max (fn.nPoSeBanScore - 1) (-5) ∧
      fn.IncreasePoSeBanScore.nPoSeBanScore = min (fn.nPoSeBanScore + 1) 5 := by
    intro fn hlo hhi
    unfold CFundamentalnode.DecreasePoSeBanScore CFundamentalnode.IncreasePoSeBanScore
    simp only [FUNDAMENTALNODE_POSE_BAN_MAX_SCORE]
    constructor
    · split
      · simp only; omega
      · omega
    · split
      · simp only; omega
      · omega
  refine ⟨⟨ProcessVerifyBroadcast_relayed env man fnv, ?_⟩, ?_, ?_, hscores⟩
  · rintro ⟨hseen, hold, hne, blockHash, nRank, pfn1, pfn2, hhash, hrank, htop, hfind1, hfind2,
      haddr, hsig⟩
    rw [ProcessVerifyBroadcast_accepted env man fnv blockHash nRank pfn1 pfn2 hseen hold hne
      hhash hrank htop hfind1 hfind2 haddr hsig]
  · intro h outpoint
    obtain ⟨hseen, hold, hne, blockHash, nRank, pfn1, pfn2, hhash, hrank, htop, hfind1, hfind2,
      haddr, hsig⟩ := ProcessVerifyBroadcast_relayed env man fnv h
    rw [ProcessVerifyBroadcast_accepted env man fnv blockHash nRank pfn1 pfn2 hseen hold hne
      hhash hrank htop hfind1 hfind2 haddr hsig]
    unfold CFundamentalnodeMan.Find at hfind1 ⊢
    simp only
    rw [mapFind_ProcessVerifyBroadcastLoop]
    by_cases hk : outpoint = fnv.fundamentalnodeOutpoint1
    · subst hk
      rw [hfind1]
      cases hver : pfn1.IsPoSeVerified
      · simp only [Bool.not_false, if_true, mapFind_mapAssign_self, Option.map_some', or_true]
      · simp only [Bool.not_true, Bool.false_eq_true, if_false, hfind1, Option.map_some',
          or_true, if_true, DecreasePoSeBanScore_of_verified pfn1 hver]
    · have hfind : mapFind (if (!pfn1.IsPoSeVerified) = true then
            mapAssign fnv.fundamentalnodeOutpoint1 pfn1.DecreasePoSeBanScore
              man.mapFundamentalnodes
          else man.mapFundamentalnodes) outpoint = mapFind man.mapFundamentalnodes outpoint := by
        split
        · exact mapFind_mapAssign_ne _ _ _ _ hk
        · rfl
      rw [hfind]
      cases mapFind man.mapFundamentalnodes outpoint with
      | none => rfl
      | some fn =>
        simp only [Option.map_some', hk, or_false, if_false, ne_eq, ite_not]
  · intro h
    rcases ProcessVerifyBroadcast_relayed_or_kept env man fnv with hacc | hkept
    · rw [hacc] at h
      exact absurd h (by simp)
    · exact hkept

theorem ProcessVerifyBroadcast_effect_witness :
    (manSameAddr.ProcessVerifyBroadcast envMain fnvFirst).fRelayed = true ∧
    ((manSameAddr.ProcessVerifyBroadcast envMain fnvFirst).man.Find ⟨1, 0⟩).map
      (fun fn => fn.nPoSeBanScore) = some (-1) ∧
    ((manSameAddr.ProcessVerifyBroadcast envMain fnvFirst).man.Find ⟨2, 0⟩).map
      (fun fn => fn.nPoSeBanScore) = some 1 ∧
    ((manSameAddr.ProcessVerifyBroadcast envMain fnvFirst).man.Find ⟨3, 0⟩).map
      (fun fn => fn.nPoSeBanScore) = some (-4) ∧
    (manSameAddr.ProcessVerifyBroadcast envMain fnvFirst).man.Find ⟨4, 0⟩ =
      (manSameAddr.Find ⟨4, 0⟩).map fun fn =>
        if (⟨4, 0⟩ : COutPoint) = fnvFirst.fundamentalnodeOutpoint1 then fn.DecreasePoSeBanScore
        else if fn.addr = fnvFirst.addr then fn.IncreasePoSeBanScore
        else fn :=
  ⟨by decide, by decide, by decide, by decide,
   (ProcessVerifyBroadcast_effect envMain manSameAddr fnvFirst).2.1 (by decide) ⟨4, 0⟩⟩

/-! ## Encoding and decoding of the messages -/

/-- C22: for every stream version, so for 70208 with the outpoints inside transaction inputs
and for 70209 and later with the bare outpoints, decoding the network encoding of a ping, an
announce, a payment vote or a verification message consumes the whole encoding and yields the
values that were encoded in every field that is on the wire. For a vote and a verification
message that is the whole message. For a ping, `nDaemonVersion` is on the wire at every
version other than 70208, where decoding yields the whole ping; at 70208 the other six fields
are on the wire and `nDaemonVersion` is decoded as its default. For an announce the wire
fields are the outpoint, the address, the two keys, the signature, `sigTime`, the protocol
version and the ping. -/
theorem network_encoding_roundtrip (nVersion : Int) :
    (∀ fnp fnp0 : CFundamentalnodePing,
      CFundamentalnodePing.Unserialize
          (CFundamentalnodePing.Serialize (networkStream nVersion) fnp) fnp0 =
        some (if nVersion = 70208 then { fnp with nDaemonVersion := DEFAULT_DAEMON_VERSION }
          else fnp, networkStream nVersion)) ∧
    (∀ fnb fnb0 : CFundamentalnodeBroadcast,
      CFundamentalnodeBroadcast.Unserialize
          (CFundamentalnodeBroadcast.Serialize (networkStream nVersion) fnb) fnb0 =
        some ({ fnb0 with
          fn := { fnb0.fn with
            outpoint := fnb.fn.outpoint
            addr := fnb.fn.addr
            pubKeyCollateralAddress := fnb.fn.pubKeyCollateralAddress
            pubKeyFundamentalnode := fnb.fn.pubKeyFundamentalnode
            vchSig := fnb.fn.vchSig
            sigTime := fnb.fn.sigTime
            nProtocolVersion := fnb.fn.nProtocolVersion
            lastPing :=
              if nVersion = 70208 then
                { fnb.fn.lastPing with nDaemonVersion := DEFAULT_DAEMON_VERSION }
              else fnb.fn.lastPing } }, networkStream nVersion)) ∧
    (∀ vote vote0 : CFundamentalnodePaymentVote,
      CFundamentalnodePaymentVote.Unserialize
          (CFundamentalnodePaymentVote.Serialize (networkStream nVersion) vote) vote0 =
        some (vote, networkStream nVersion)) ∧
    (∀ fnv : CFundamentalnodeVerification,
      CFundamentalnodeVerification.Unserialize
          (CFundamentalnodeVerification.Serialize (networkStream nVersion) fnv) =
        some (fnv, networkStream nVersion)) := by
  by_cases hv : nVersion = 70208
  · subst hv
    refine ⟨?_, ?_, ?_, ?_⟩
    · intro fnp fnp0
      simp [CFundamentalnodePing.Unserialize, CFundamentalnodePing.Serialize, networkStream,
        SerializeOutpoint, UnserializeOutpoint, CTxIn.Serialize, CTxIn.Unserialize,
        CTxIn.ofOutpoint, CDataStream.write, CDataStream.readOutpoint, CDataStream.readScript,
        CDataStream.readUint32, CDataStream.readUint256, CDataStream.readInt64,
        CDataStream.readBytes, CDataStream.readBool, CDataStream.size]
    · intro fnb fnb0
      simp [CFundamentalnodeBroadcast.Unserialize, CFundamentalnodeBroadcast.Serialize,
        CFundamentalnodePing.Unserialize, CFundamentalnodePing.Serialize, networkStream,
        SerializeOutpoint, UnserializeOutpoint, CTxIn.Serialize, CTxIn.Unserialize,
        CTxIn.ofOutpoint, CDataStream.write, CDataStream.readOutpoint, CDataStream.readScript,
        CDataStream.readUint32, CDataStream.readUint256, CDataStream.readInt64,
        CDataStream.readInt32, CDataStream.readService, CDataStream.readPubKey,
        CDataStream.readBytes, CDataStream.readBool, CDataStream.size]
    · intro vote vote0
      simp [CFundamentalnodePaymentVote.Unserialize, CFundamentalnodePaymentVote.Serialize,
        networkStream, SerializeOutpoint, UnserializeOutpoint, CTxIn.Serialize,
        CTxIn.Unserialize, CTxIn.ofOutpoint, CDataStream.write, CDataStream.readOutpoint,
        CDataStream.readScript, CDataStream.readUint32, CDataStream.readInt32,
        CDataStream.readBytes]
    · intro fnv
      simp [CFundamentalnodeVerification.Unserialize, CFundamentalnodeVerification.Serialize,
        networkStream, SerializeOutpoint, UnserializeOutpoint, CTxIn.Serialize,
        CTxIn.Unserialize, CTxIn.ofOutpoint, CDataStream.write, CDataStream.readOutpoint,
        CDataStream.readScript, CDataStream.readUint32, CDataStream.readInt32,
        CDataStream.readService, CDataStream.readBytes]
  · refine ⟨?_, ?_, ?_, ?_⟩
    · intro fnp fnp0
      simp [CFundamentalnodePing.Unserialize, CFundamentalnodePing.Serialize, networkStream,
        SerializeOutpoint, UnserializeOutpoint, hv, CDataStream.write,
        CDataStream.readOutpoint, CDataStream.readUint32, CDataStream.readUint256,
        CDataStream.readInt64, CDataStream.readBytes, CDataStream.readBool, CDataStream.size]
    · intro fnb fnb0
      simp [CFundamentalnodeBroadcast.Unserialize, CFundamentalnodeBroadcast.Serialize,
        CFundamentalnodePing.Unserialize, CFundamentalnodePing.Serialize, networkStream,
        SerializeOutpoint, UnserializeOutpoint, hv, CDataStream.write,
        CDataStream.readOutpoint, CDataStream.readUint32, CDataStream.readUint256,
        CDataStream.readInt64, CDataStream.readInt32, CDataStream.readService,
        CDataStream.readPubKey, CDataStream.readBytes, CDataStream.readBool, CDataStream.size]
    · intro vote vote0
      simp [CFundamentalnodePaymentVote.Unserialize, CFundamentalnodePaymentVote.Serialize,
        networkStream, SerializeOutpoint, UnserializeOutpoint, hv, CDataStream.write,
        CDataStream.readOutpoint, CDataStream.readScript, CDataStream.readInt32,
        CDataStream.readBytes]
    · intro fnv
      simp [CFundamentalnodeVerification.Unserialize, CFundamentalnodeVerification.Serialize,
        networkStream, SerializeOutpoint, UnserializeOutpoint, hv, CDataStream.write,
        CDataStream.readOutpoint, CDataStream.readInt32, CDataStream.readService,
        CDataStream.readBytes]

/-! ## The value of a block before the superblocks -/

/-- C23, counterexample: at a synced node, height 1005 is below the superblock start 1500 and
inside the old budget window (`1005 ≥ 1000`, `1005 mod 50 = 5 < 10`), and a block paying 101
where 100 is expected is rejected. -/
theorem IsBlockValueValidFN_checks_window_when_synced :
    (1005 : Int) < envBudget.nSuperblockStartBlock ∧
    (1005 : Int) ≥ envBudget.nBudgetPaymentsStartBlock ∧
    (1005 : Int) % envBudget.nBudgetPaymentsCycleBlocks < envBudget.nBudgetPaymentsWindowBlocks ∧
    envBudget.IsSynced = true ∧
    (IsBlockValueValidFN envBudget blockPlain 1005 100 101).1 = false := by
  decide

/-- C23, amended: for every height below the superblock start, `IsBlockValueValidFN` inside
the old budget window (height at least the budget start and remainder of the height by the
cycle less than the window) accepts whatever the reward when the node is not synced, and
accepts if and only if `actualReward ≤ expectedReward` when it is synced; outside the window
it accepts if and only if `actualReward ≤ expectedReward`. -/
theorem IsBlockValueValidFN_before_superblocks (env : Env) (block : CBlock) (nBlockHeight : Int)
    (expectedReward actualReward : CAmount)
    (hbefore : nBlockHeight < env.nSuperblockStartBlock) :
    ((nBlockHeight ≥ env.nBudgetPaymentsStartBlock ∧
        Int.tmod nBlockHeight env.nBudgetPaymentsCycleBlocks < env.nBudgetPaymentsWindowBlocks) →
      (env.IsSynced = false →
        (IsBlockValueValidFN env block nBlockHeight expectedReward actualReward).1 = true) ∧
      (env.IsSynced = true →
        ((IsBlockValueValidFN env block nBlockHeight expectedReward actualReward).1 = true ↔
          actualReward ≤ expectedReward))) ∧
    (¬ (nBlockHeight ≥ env.nBudgetPaymentsStartBlock ∧
        Int.tmod nBlockHeight env.nBudgetPaymentsCycleBlocks < env.nBudgetPaymentsWindowBlocks) →
      ((IsBlockValueValidFN env block nBlockHeight expectedReward actualReward).1 = true ↔
        actualReward ≤ expectedReward)) ∧
    (0 ≤ nBlockHeight → 0 < env.nBudgetPaymentsCycleBlocks →
      Int.tmod nBlockHeight env.nBudgetPaymentsCycleBlocks =
        nBlockHeight % env.nBudgetPaymentsCycleBlocks) := by
  refine ⟨?_, ?_, ?_⟩
  · intro hwin
    constructor
    · intro hsync
      unfold IsBlockValueValidFN
      simp only [hbefore, if_true, hwin, and_self, hsync, Bool.false_eq_true, if_false]
    · intro hsync
      unfold IsBlockValueValidFN
      simp only [hbefore, if_true, hwin, and_self, hsync, decide_eq_true_eq]
  · intro hwin
    unfold IsBlockValueValidFN
    simp only [hbefore, if_true, hwin, if_false, decide_eq_true_eq]
  · intro h0 hc
    rw [Int.tmod_eq_emod h0 (le_of_lt hc)]

theorem IsBlockValueValidFN_before_superblocks_witness :
    (IsBlockValueValidFN envBudgetSyncing blockPlain 1005 100 101).1 = true ∧
    ((IsBlockValueValidFN envBudget blockPlain 1005 100 100).1 = true ↔ (100 : Int) ≤ 100) ∧
    ((IsBlockValueValidFN envBudget blockPlain 1015 100 101).1 = true ↔ (101 : Int) ≤ 100) :=
  ⟨((IsBlockValueValidFN_before_superblocks envBudgetSyncing blockPlain 1005 100 101
      (by decide)).1 ⟨by decide, by decide⟩).1 (by decide),
   ((IsBlockValueValidFN_before_superblocks envBudget blockPlain 1005 100 100
      (by decide)).1 ⟨by decide, by decide⟩).2 (by decide),
   (IsBlockValueValidFN_before_superblocks envBudget blockPlain 1015 100 101
      (by decide)).2.1 (by decide)⟩

/-! ## One rank, all ranks -/

theorem GetFundamentalnodeRankLoop_iff (outpoint : COutPoint)
    (scores : List (uint256 × CFundamentalnode)) :
    ∀ (nRank r : Int), (scores.map fun s => s.2.outpoint).Nodup →
      (GetFundamentalnodeRankLoop outpoint scores nRank = some r ↔
        ∃ fn, (r, fn) ∈ GetFundamentalnodeRanksLoop scores nRank ∧ fn.outpoint = outpoint) := by
  induction scores with
  | nil =>
    intro nRank r _
    simp [GetFundamentalnodeRankLoop, GetFundamentalnodeRanksLoop]
  | cons s rest ih =>
    intro nRank r hnd
    have hnd' := List.nodup_cons.mp hnd
    simp only [GetFundamentalnodeRankLoop, GetFundamentalnodeRanksLoop, List.mem_cons]
    by_cases hs : s.2.outpoint = outpoint
    · simp only [hs, if_true, Option.some.injEq]
      constructor
      · intro h
        exact ⟨s.2, Or.inl (by rw [h]), hs⟩
      · rintro ⟨fn, hmem | hmem, hfn⟩
        · exact (congrArg Prod.fst hmem).symm
        · exfalso
          apply hnd'.1
          have hfnmem : fn ∈ (GetFundamentalnodeRanksLoop rest (nRank + 1)).map Prod.snd :=
            List.mem_map.mpr ⟨(r, fn), hmem, rfl⟩
          rw [GetFundamentalnodeRanksLoop_snd] at hfnmem
          obtain ⟨s', hs', hs'fn⟩ := List.mem_map.mp hfnmem
          exact List.mem_map.mpr ⟨s', hs', by simp only [hs'fn, hfn, hs]⟩
    · simp only [hs, if_false]
      rw [ih (nRank + 1) r hnd'.2]
      constructor
      · rintro ⟨fn, hmem, hfn⟩
        exact ⟨fn, Or.inr hmem, hfn⟩
      · rintro ⟨fn, hmem | hmem, hfn⟩
        · exfalso
          have : fn = s.2 := congrArg Prod.snd hmem
          rw [this] at hfn
          exact hs hfn
        · exact ⟨fn, hmem, hfn⟩

theorem GetFundamentalnodeScores_outpoints_nodup (env : Env) (man : CFundamentalnodeMan)
    (nBlockHash : uint256) (nMinProtocol : Int)
    (hkeyed : (man.mapFundamentalnodes.map fun fnpair => fnpair.2.outpoint).Nodup) :
    ((man.GetFundamentalnodeScores env nBlockHash nMinProtocol).2.map
      fun s => s.2.outpoint).Nodup := by
  unfold CFundamentalnodeMan.GetFundamentalnodeScores
  split
  · exact List.nodup_nil
  split
  · exact List.nodup_nil
  simp only
  have hperm : ((stdSort CompareScoreMN
      ((man.mapFundamentalnodes.filter fun fnpair =>
        decide (fnpair.2.nProtocolVersion ≥ nMinProtocol)).map fun fnpair =>
          (fnpair.2.CalculateScore env nBlockHash, fnpair.2)).reverse).reverse).Perm
      ((man.mapFundamentalnodes.filter fun fnpair =>
        decide (fnpair.2.nProtocolVersion ≥ nMinProtocol)).map fun fnpair =>
          (fnpair.2.CalculateScore env nBlockHash, fnpair.2)) :=
    (List.reverse_perm _).trans ((stdSort_perm _ _).trans (List.reverse_perm _))
  rw [(hperm.map fun s => s.2.outpoint).nodup_iff, List.map_map]
  exact (List.Sublist.map _ (List.filter_sublist _)).nodup hkeyed

/-- C24: in a registry whose nodes have pairwise distinct outpoints (it is keyed by them),
`GetFundamentalnodeRank(outpoint, h, p)` succeeds with rank `r` if and only if
`GetFundamentalnodeRanks(h, p)` succeeds and lists a node of that outpoint at rank `r`; and
when the hash of height `h` is unavailable both fail, with no rank (`-1`) and the empty
vector. -/
theorem GetFundamentalnodeRank_iff_Ranks (env : Env) (man : CFundamentalnodeMan)
    (outpoint : COutPoint) (nBlockHeight nMinProtocol : Int)
    (hkeyed : (man.mapFundamentalnodes.map fun fnpair => fnpair.2.outpoint).Nodup) :
    (∀ r : Int, man.GetFundamentalnodeRank env outpoint nBlockHeight nMinProtocol = some r ↔
      ((man.GetFundamentalnodeRanks env nBlockHeight nMinProtocol).1 = true ∧
        ∃ fn, (r, fn) ∈ (man.GetFundamentalnodeRanks env nBlockHeight nMinProtocol).2 ∧
          fn.outpoint = outpoint)) ∧
    (env.GetBlockHash nBlockHeight = none →
      man.GetFundamentalnodeRank env outpoint nBlockHeight nMinProtocol = none ∧
      man.GetFundamentalnodeRanks env nBlockHeight nMinProtocol = (false, [])) := by
  constructor
  · intro r
    unfold CFundamentalnodeMan.GetFundamentalnodeRank CFundamentalnodeMan.GetFundamentalnodeRanks
    split
    · simp
    · cases hhash : env.GetBlockHash nBlockHeight with
      | none => simp
      | some nBlockHash =>
        simp only
        split
        · simp
        · simp only [true_and]
          exact GetFundamentalnodeRankLoop_iff outpoint _ 0 r
            (GetFundamentalnodeScores_outpoints_nodup env man nBlockHash nMinProtocol hkeyed)
  · intro hnone
    unfold CFundamentalnodeMan.GetFundamentalnodeRank CFundamentalnodeMan.GetFundamentalnodeRanks
    rw [hnone]
    constructor <;> split <;> rfl

theorem GetFundamentalnodeRank_iff_Ranks_witness :
    (manTwenty.mapFundamentalnodes.map fun fnpair => fnpair.2.outpoint).Nodup ∧
    manTwenty.GetFundamentalnodeRank envMain ⟨11, 0⟩ 909 70210 = some 10 ∧
    ((manTwenty.GetFundamentalnodeRanks envMain 909 70210).1 = true ∧
      ∃ fn, ((10 : Int), fn) ∈ (manTwenty.GetFundamentalnodeRanks envMain 909 70210).2 ∧
        fn.outpoint = ⟨11, 0⟩) :=
  ⟨by decide, by decide,
   ((GetFundamentalnodeRank_iff_Ranks envMain manTwenty ⟨11, 0⟩ 909 70210 (by decide)).1 10).mp
     (by decide)⟩

/-! ## The sentinel rules of the state check -/

theorem selectNextPayee_mem (env : Env) (nBlockHeight nFnCount : Int)
    (vec : List (Int × CFundamentalnode)) (best : CFundamentalnode)
    (h : (selectNextPayee env nBlockHeight nFnCount vec).pBestFundamentalnode = some best) :
    ∃ s ∈ vec, s.2 = best := by
  cases hhash : env.GetBlockHash (nBlockHeight - 101) with
  | none =>
    simp only [selectNextPayee, hhash] at h
    exact absurd h (by simp)
  | some blockHash =>
    obtain ⟨pre, s, post, htake, hs, _⟩ :=
      (selectNextPayee_spec env nBlockHeight nFnCount vec blockHash best hhash).mp h
    have hmem : s ∈ (stdSort CompareLastPaidBlock vec).take (max 1 (nFnCount / 10)).toNat := by
      rw [htake]
      simp
    exact ⟨s, (stdSort_perm _ vec).mem_iff.mp (List.mem_of_mem_take hmem), hs⟩

/-- C26, counterexample: at tip 1000 the node `(1, 0)` is the best-voted payee of height 1011,
which lies in `[1010, 1018]`, and `GetNextFundamentalnodeInQueueForPayment(1010, true)` returns
it all the same: `IsScheduled` looks at the heights from the tip to the tip plus 8. -/
theorem next_payee_scheduled_after_target :
    payScheduled.nCachedBlockHeight = 1000 ∧
    payScheduled.GetBlockPayeeFN 1011 =
      some (envMain.GetScriptForDestination nodeLive.pubKeyCollateralAddress) ∧
    payScheduled.IsScheduled envMain nodeLive 1010 = false ∧
    (manLive.GetNextFundamentalnodeInQueueForPayment envMain payScheduled 1010
      true).pBestFundamentalnode = some nodeLive := by
  decide

/-- C26, amended: the node that `GetNextFundamentalnodeInQueueForPayment(nBlockHeight, ·)`
returns is not scheduled in the sense of `IsScheduled`: it is not the best-voted payee of any
height from the tip to the tip plus 8 other than `nBlockHeight` itself. -/
theorem next_payee_not_scheduled (env : Env) (man : CFundamentalnodeMan)
    (pay : CFundamentalnodePayments) (nBlockHeight : Int) (fFilterSigTime : Bool)
    (best : CFundamentalnode)
    (hbest : (man.GetNextFundamentalnodeInQueueForPayment env pay nBlockHeight
      fFilterSigTime).pBestFundamentalnode = some best) :
    pay.IsScheduled env best nBlockHeight = false ∧
    ∀ i : Nat, i ≤ 8 → pay.nCachedBlockHeight + (i : Int) ≠ nBlockHeight →
      pay.GetBlockPayeeFN (pay.nCachedBlockHeight + (i : Int)) ≠
        some (env.GetScriptForDestination best.pubKeyCollateralAddress) := by
  have hsync : env.IsWinnersListSynced = true := by
    cases h : env.IsWinnersListSynced with
    | true => rfl
    | false =>
      unfold CFundamentalnodeMan.GetNextFundamentalnodeInQueueForPayment at hbest
      simp only [h, Bool.not_false, if_true] at hbest
      exact absurd hbest (by simp)
  have hlist : env.IsFundamentalnodeListSynced = true := by
    unfold Env.IsWinnersListSynced at hsync
    unfold Env.IsFundamentalnodeListSynced
    simp only [decide_eq_true_eq, FUNDAMENTALNODE_SYNC_MNW, FUNDAMENTALNODE_SYNC_LIST] at hsync ⊢
    omega
  rw [GetNextFundamentalnodeInQueueForPayment_synced env man pay nBlockHeight fFilterSigTime
    hsync] at hbest
  obtain ⟨s, hs, hsb⟩ := selectNextPayee_mem _ _ _ _ _ hbest
  have hnot : pay.IsScheduled env best nBlockHeight = false := by
    unfold vecFundamentalnodeLastPaid at hs
    obtain ⟨fnpair, hfn, hfs⟩ := List.mem_map.mp hs
    have hcond := (List.mem_filter.mp hfn).2
    simp only [Bool.and_eq_true, Bool.not_eq_true'] at hcond
    have : fnpair.2 = best := by rw [← hsb, ← hfs]
    rw [← this]
    exact hcond.1.1.2
  refine ⟨hnot, ?_⟩
  intro i hi hne hpay
  unfold CFundamentalnodePayments.IsScheduled at hnot
  simp only [hlist, Bool.not_true, Bool.false_eq_true, if_false] at hnot
  rw [List.any_eq_false] at hnot
  have := hnot i (List.mem_range.mpr (by omega))
  simp [hne, hpay] at this

theorem next_payee_not_scheduled_witness :
    (manLive.GetNextFundamentalnodeInQueueForPayment envMain payScheduled 1010
      true).pBestFundamentalnode = some nodeLive ∧
    payScheduled.IsScheduled envMain nodeLive 1010 = false :=
  ⟨by decide,
   (next_payee_not_scheduled envMain manLive payScheduled 1010 true nodeLive (by decide)).1⟩

/-- C27, counterexample: in a registry of six nodes of which two are of a sufficient protocol
version, the list built with `fFilterSigTime = true` has one entry, fewer than a third of the
registry, and the call with `true` still returns another node than the call with `false`: the
threshold is a third of the two nodes of sufficient version, rounded down to zero. -/
theorem next_payee_third_counts_protocol :
    manMixed.size = 6 ∧
    manMixed.CountFundamentalnodes envAgeTest (-1) = 2 ∧
    (vecFundamentalnodeLastPaid envAgeTest manMixed payEmpty 1010 true
      (manMixed.CountFundamentalnodes envAgeTest (-1))).length = 1 ∧
    ((vecFundamentalnodeLastPaid envAgeTest manMixed payEmpty 1010 true
      (manMixed.CountFundamentalnodes envAgeTest (-1))).length : Int) <
        (manMixed.size : Int) / 3 ∧
    (manMixed.GetNextFundamentalnodeInQueueForPayment envAgeTest payEmpty 1010
      true).pBestFundamentalnode = some nodeEarly ∧
    (manMixed.GetNextFundamentalnodeInQueueForPayment envAgeTest payEmpty 1010
      false).pBestFundamentalnode = some nodeLate := by
  decide

/-- C27, amended: whenever the list built with `fFilterSigTime = true` has fewer entries than a
third, rounded down, of `nFnCount`, the number of registry nodes of a sufficient protocol
version (the size of the registry when every node is of such a version),
`GetNextFundamentalnodeInQueueForPayment(nBlockHeight, true)` returns exactly what
`GetNextFundamentalnodeInQueueForPayment(nBlockHeight, false)` returns. The call with `false`
is the function without the relaxation test, so the relaxation is applied at most once and
every call returns. -/
theorem next_payee_relaxed_once (env : Env) (man : CFundamentalnodeMan)
    (pay : CFundamentalnodePayments) (nBlockHeight : Int)
    (hshort : ((vecFundamentalnodeLastPaid env man pay nBlockHeight true
      (man.CountFundamentalnodes env (-1))).length : Int) <
        man.CountFundamentalnodes env (-1) / 3) :
    man.GetNextFundamentalnodeInQueueForPayment env pay nBlockHeight true =
      man.GetNextFundamentalnodeInQueueForPayment env pay nBlockHeight false ∧
    man.GetNextFundamentalnodeInQueueForPayment env pay nBlockHeight false =
      man.GetNextFundamentalnodeInQueueForPaymentNoFilter env pay nBlockHeight ∧
    ((∀ fnpair ∈ man.mapFundamentalnodes,
        env.GetMinFundamentalnodePaymentsProto ≤ fnpair.2.nProtocolVersion) →
      man.CountFundamentalnodes env (-1) = (man.size : Int)) := by
  refine ⟨?_, ?_, ?_⟩
  · unfold CFundamentalnodeMan.GetNextFundamentalnodeInQueueForPayment
      CFundamentalnodeMan.GetNextFundamentalnodeInQueueForPaymentNoFilter
    split
    · rfl
    · simp [hshort]
  · unfold CFundamentalnodeMan.GetNextFundamentalnodeInQueueForPayment
      CFundamentalnodeMan.GetNextFundamentalnodeInQueueForPaymentNoFilter
    split
    · rfl
    · simp
  · intro hall
    unfold CFundamentalnodeMan.CountFundamentalnodes CFundamentalnodeMan.size
    simp only [if_true]
    congr 1
    rw [List.filter_eq_self.mpr]
    intro fnpair hmem
    have := hall fnpair hmem
    simp only [Bool.not_eq_true', decide_eq_false_iff_not, not_lt]
    exact this

theorem next_payee_relaxed_once_witness :
    ((vecFundamentalnodeLastPaid envTooNew manTwenty payEmpty 1010 true
      (manTwenty.CountFundamentalnodes envTooNew (-1))).length : Int) <
        manTwenty.CountFundamentalnodes envTooNew (-1) / 3 ∧
    (manTwenty.GetNextFundamentalnodeInQueueForPayment envTooNew payEmpty 1010
      true).pBestFundamentalnode.isSome = true ∧
    manTwenty.GetNextFundamentalnodeInQueueForPayment envTooNew payEmpty 1010 true =
      manTwenty.GetNextFundamentalnodeInQueueForPayment envTooNew payEmpty 1010 false :=
  ⟨by decide, by decide,
   (next_payee_relaxed_once envTooNew manTwenty payEmpty 1010 (by decide)).1⟩

/-! ## The simple check of an announce -/

/-- C28, counterexample: `SimpleCheck` accepts an announce whose ping fails the ping's own
`SimpleCheck` (unknown block), and one whose ping is empty; it sets the state of either to
Expired. -/
theorem SimpleCheck_accepts_failing_ping :
    (fnbUnknownBlock.fn.lastPing.SimpleCheck envMain).1 = false ∧
    (fnbUnknownBlock.SimpleCheck envMain).ret = true ∧
    (fnbUnknownBlock.SimpleCheck envMain).fnb.fn.nActiveState = FUNDAMENTALNODE_EXPIRED ∧
    fnbNoPing.fn.lastPing.toBool = false ∧
    (fnbNoPing.SimpleCheck envMain).ret = true ∧
    (fnbNoPing.SimpleCheck envMain).fnb.fn.nActiveState = FUNDAMENTALNODE_EXPIRED := by
  decide

/-- C28, amended: the `SimpleCheck` of an announce accepts it if and only if its net address
is valid, its `sigTime` is not more than 3600 s after the adjusted time, the scripts of its
collateral key and of its operator key are 25 bytes long, and its port is the main-net default
port on the main network and another port on the other networks. An empty ping, or one failing
the ping's own `SimpleCheck`, does not reject the announce: the state of an accepted announce
of a sufficient protocol version is then Expired. -/
theorem SimpleCheck_accepts_iff (env : Env) (fnb : CFundamentalnodeBroadcast) :
    ((fnb.SimpleCheck env).ret = true ↔
      (CFundamentalnode.IsValidNetAddr env fnb.fn.addr = true ∧
        fnb.fn.sigTime ≤ env.GetAdjustedTime + 3600 ∧
        (env.GetScriptForDestination fnb.fn.pubKeyCollateralAddress).length = 25 ∧
        (env.GetScriptForDestination fnb.fn.pubKeyFundamentalnode).length = 25 ∧
        (fnb.fn.addr.port = mainnetDefaultPort ↔ env.NetworkID = Network.main))) ∧
    ((fnb.SimpleCheck env).ret = true →
      (fnb.fn.lastPing.toBool = false ∨ (fnb.fn.lastPing.SimpleCheck env).1 = false) →
      env.GetMinFundamentalnodePaymentsProto ≤ fnb.fn.nProtocolVersion →
      (fnb.SimpleCheck env).fnb.fn.nActiveState = FUNDAMENTALNODE_EXPIRED) := by
  have hstates : (fnb.fn.lastPing.toBool = false ∨ (fnb.fn.lastPing.SimpleCheck env).1 = false) →
      env.GetMinFundamentalnodePaymentsProto ≤ fnb.fn.nProtocolVersion →
      (fnb.SimpleCheckStates env).fn.nActiveState = FUNDAMENTALNODE_EXPIRED := by
    intro hping hproto
    have hc : (!fnb.fn.lastPing.toBool || !(fnb.fn.lastPing.SimpleCheck env).1) = true := by
      rcases hping with h | h <;> simp [h]
    have hp : ¬ fnb.fn.nProtocolVersion < env.GetMinFundamentalnodePaymentsProto := by omega
    unfold CFundamentalnodeBroadcast.SimpleCheckStates
    simp only [hc, if_true, hp, if_false]
  unfold CFundamentalnodeBroadcast.SimpleCheck
  by_cases haddr : CFundamentalnode.IsValidNetAddr env fnb.fn.addr = true
  swap
  · simp [haddr]
  simp only [haddr, Bool.not_true, Bool.false_eq_true, if_false, true_and]
  by_cases htime : fnb.fn.sigTime > env.GetAdjustedTime + 60 * 60
  · have : ¬ fnb.fn.sigTime ≤ env.GetAdjustedTime + 3600 := by omega
    rw [if_pos htime]
    simp [this]
  have htime' : fnb.fn.sigTime ≤ env.GetAdjustedTime + 3600 := by omega
  rw [if_neg htime]
  simp only [htime', true_and]
  by_cases h1 : (env.GetScriptForDestination fnb.fn.pubKeyCollateralAddress).length = 25
  swap
  · simp [h1]
  by_cases h2 : (env.GetScriptForDestination fnb.fn.pubKeyFundamentalnode).length = 25
  swap
  · simp [h1, h2]
  simp only [h1, h2, ne_eq, not_true_eq_false, if_false, true_and]
  by_cases hnet : env.NetworkID = Network.main
  · by_cases hport : fnb.fn.addr.port = mainnetDefaultPort
    · simp only [hnet, hport, if_true, not_true_eq_false, if_false, true_iff, iff_self,
        true_and]
      exact fun _ => hstates
    · simp [hnet, hport]
  · by_cases hport : fnb.fn.addr.port = mainnetDefaultPort
    · simp [hnet, hport]
    · simp only [hnet, hport, if_false, iff_self, true_iff, true_and]
      exact fun _ => hstates

theorem SimpleCheck_accepts_iff_witness :
    (fnbUnknownBlock.SimpleCheck envMain).ret = true ∧
    (fnbUnknownBlock.SimpleCheck envMain).fnb.fn.nActiveState = FUNDAMENTALNODE_EXPIRED ∧
    (fnbFresh.SimpleCheck envMain).ret = true :=
  ⟨(SimpleCheck_accepts_iff envMain fnbUnknownBlock).1.mpr
      ⟨by decide, by decide, by decide, by decide, by decide⟩,
   (SimpleCheck_accepts_iff envMain fnbUnknownBlock).2 (by decide) (Or.inr (by decide))
      (by decide),
   (SimpleCheck_accepts_iff envMain fnbFresh).1.mpr
      ⟨by decide, by decide, by decide, by decide, by decide⟩⟩

/-! ## The removal of old votes -/

theorem CheckAndRemoveLoop_fst (nCachedBlockHeight nLimit : Int)
    (votes : List (uint256 × CFundamentalnodePaymentVote))
    (blocks : List (Int × CFundamentalnodeBlockPayees)) :
    (CheckAndRemoveLoop nCachedBlockHeight nLimit votes blocks).1 =
      votes.filter fun p => !decide (nCachedBlockHeight - p.2.nBlockHeight > nLimit) := by
  induction votes generalizing blocks with
  | nil => rfl
  | cons p rest ih =>
    obtain ⟨nHash, vote⟩ := p
    by_cases h : nCachedBlockHeight - vote.nBlockHeight > nLimit
    · simp only [CheckAndRemoveLoop, if_pos h, ih]
      simp [List.filter, h]
    · simp only [CheckAndRemoveLoop, if_neg h, ih]
      simp [List.filter, h]

theorem mapFind_mapErase_self {K V : Type} [DecidableEq K] (k : K) (m : List (K × V)) :
    mapFind (mapErase k m) k = none := by
  induction m with
  | nil => rfl
  | cons p rest ih =>
    obtain ⟨k0, v0⟩ := p
    unfold mapErase at ih ⊢
    by_cases h0 : k0 = k
    · simp [List.filter, h0, ih]
    · simp [List.filter, h0, mapFind, ih]

theorem mapFind_mapErase_of_none {K V : Type} [DecidableEq K] (k k' : K) (m : List (K × V))
    (h : mapFind m k' = none) : mapFind (mapErase k m) k' = none := by
  by_cases hk : k' = k
  · rw [hk]
    exact mapFind_mapErase_self k m
  · rw [mapFind_mapErase_ne k k' m hk]
    exact h

theorem CheckAndRemoveLoop_snd_none (nCachedBlockHeight nLimit : Int)
    (votes : List (uint256 × CFundamentalnodePaymentVote))
    (blocks : List (Int × CFundamentalnodeBlockPayees)) (h : Int)
    (hnone : mapFind blocks h = none) :
    mapFind (CheckAndRemoveLoop nCachedBlockHeight nLimit votes blocks).2 h = none := by
  induction votes generalizing blocks with
  | nil => exact hnone
  | cons p rest ih =>
    obtain ⟨nHash, vote⟩ := p
    by_cases hold : nCachedBlockHeight - vote.nBlockHeight > nLimit
    · simp only [CheckAndRemoveLoop, if_pos hold]
      exact ih _ (mapFind_mapErase_of_none _ _ _ hnone)
    · simp only [CheckAndRemoveLoop, if_neg hold]
      exact ih _ hnone

theorem CheckAndRemoveLoop_snd_erased (nCachedBlockHeight nLimit : Int)
    (votes : List (uint256 × CFundamentalnodePaymentVote))
    (blocks : List (Int × CFundamentalnodeBlockPayees)) (h : Int)
    (hex : ∃ p ∈ votes, nCachedBlockHeight - p.2.nBlockHeight > nLimit ∧ p.2.nBlockHeight = h) :
    mapFind (CheckAndRemoveLoop nCachedBlockHeight nLimit votes blocks).2 h = none := by
  induction votes generalizing blocks with
  | nil =>
    obtain ⟨p, hp, _⟩ := hex
    exact absurd hp (List.not_mem_nil p)
  | cons q rest ih =>
    obtain ⟨nHash, vote⟩ := q
    obtain ⟨p, hp, hpold, hph⟩ := hex
    by_cases hold : nCachedBlockHeight - vote.nBlockHeight > nLimit
    · simp only [CheckAndRemoveLoop, if_pos hold]
      rcases List.mem_cons.mp hp with rfl | hp
      · apply CheckAndRemoveLoop_snd_none
        rw [← hph]
        exact mapFind_mapErase_self _ _
      · exact ih _ ⟨p, hp, hpold, hph⟩
    · simp only [CheckAndRemoveLoop, if_neg hold]
      rcases List.mem_cons.mp hp with rfl | hp
      · exact absurd hpold hold
      · exact ih _ ⟨p, hp, hpold, hph⟩

theorem CheckAndRemoveLoop_snd_kept (nCachedBlockHeight nLimit : Int)
    (votes : List (uint256 × CFundamentalnodePaymentVote))
    (blocks : List (Int × CFundamentalnodeBlockPayees)) (h : Int)
    (hall : ∀ p ∈ votes, nCachedBlockHeight - p.2.nBlockHeight > nLimit → p.2.nBlockHeight ≠ h) :
    mapFind (CheckAndRemoveLoop nCachedBlockHeight nLimit votes blocks).2 h =
      mapFind blocks h := by
  induction votes generalizing blocks with
  | nil => rfl
  | cons q rest ih =>
    obtain ⟨nHash, vote⟩ := q
    have hrest : ∀ p ∈ rest, nCachedBlockHeight - p.2.nBlockHeight > nLimit →
        p.2.nBlockHeight ≠ h := fun p hp => hall p (List.mem_cons_of_mem _ hp)
    by_cases hold : nCachedBlockHeight - vote.nBlockHeight > nLimit
    · simp only [CheckAndRemoveLoop, if_pos hold]
      rw [ih _ hrest]
      have hne : h ≠ vote.nBlockHeight :=
        fun heq => hall (nHash, vote) (List.mem_cons_self _ _) hold heq.symm
      exact mapFind_mapErase_ne _ _ _ hne
    · simp only [CheckAndRemoveLoop, if_neg hold]
      exact ih _ hrest

theorem mapFind_filter_of_keep {K V : Type} [DecidableEq K] (f : K × V → Bool)
    (l : List (K × V)) (k : K) (v : V) (hfind : mapFind l k = some v) (hkeep : f (k, v) = true) :
    mapFind (l.filter f) k = some v := by
  induction l with
  | nil => exact absurd hfind (by simp [mapFind])
  | cons p rest ih =>
    obtain ⟨k0, v0⟩ := p
    by_cases h0 : k0 = k
    · subst h0
      simp only [mapFind, if_true, Option.some.injEq] at hfind
      subst hfind
      simp [List.filter, hkeep, mapFind]
    · simp only [mapFind, if_neg h0] at hfind
      cases hf : f (k0, v0)
      · simp only [List.filter, hf]
        exact ih hfind
      · simp only [List.filter, hf, mapFind, if_neg h0]
        exact ih hfind

/-- C29: after `CheckAndRemove` at a node whose blockchain is synced, with `nLimit` the value of
`GetStorageLimit`, every vote still stored has a height of at least
`nCachedBlockHeight - nLimit`; for every vote that was stored with a lower height, no tally of
its height remains; every vote that was stored with a height of at least
`nCachedBlockHeight - nLimit` is still stored, under the same hash, and the tally of its height
is what it was. -/
theorem CheckAndRemove_effect (env : Env) (pay : CFundamentalnodePayments)
    (hsynced : env.IsBlockchainSynced = true) :
    (∀ nHash vote, (nHash, vote) ∈ (pay.CheckAndRemove env).mapFundamentalnodePaymentVotes →
      pay.nCachedBlockHeight - GetStorageLimit env.fnodemanSize ≤ vote.nBlockHeight) ∧
    (∀ nHash vote, mapFind (pay.CheckAndRemove env).mapFundamentalnodePaymentVotes nHash
        = some vote →
      pay.nCachedBlockHeight - GetStorageLimit env.fnodemanSize ≤ vote.nBlockHeight) ∧
    (∀ nHash vote, (nHash, vote) ∈ pay.mapFundamentalnodePaymentVotes →
      vote.nBlockHeight < pay.nCachedBlockHeight - GetStorageLimit env.fnodemanSize →
      mapFind (pay.CheckAndRemove env).mapFundamentalnodeBlocks vote.nBlockHeight = none) ∧
    (∀ nHash vote, (nHash, vote) ∈ pay.mapFundamentalnodePaymentVotes →
      pay.nCachedBlockHeight - GetStorageLimit env.fnodemanSize ≤ vote.nBlockHeight →
      (nHash, vote) ∈ (pay.CheckAndRemove env).mapFundamentalnodePaymentVotes ∧
      mapFind (pay.CheckAndRemove env).mapFundamentalnodeBlocks vote.nBlockHeight =
        mapFind pay.mapFundamentalnodeBlocks vote.nBlockHeight) ∧
    (∀ nHash vote, mapFind pay.mapFundamentalnodePaymentVotes nHash = some vote →
      pay.nCachedBlockHeight - GetStorageLimit env.fnodemanSize ≤ vote.nBlockHeight →
      mapFind (pay.CheckAndRemove env).mapFundamentalnodePaymentVotes nHash = some vote) ∧
    (pay.CheckAndRemove env).nCachedBlockHeight = pay.nCachedBlockHeight := by
  have hres : pay.CheckAndRemove env =
      { pay with
        mapFundamentalnodePaymentVotes :=
          (CheckAndRemoveLoop pay.nCachedBlockHeight (GetStorageLimit env.fnodemanSize)
            pay.mapFundamentalnodePaymentVotes pay.mapFundamentalnodeBlocks).1
        mapFundamentalnodeBlocks :=
          (CheckAndRemoveLoop pay.nCachedBlockHeight (GetStorageLimit env.fnodemanSize)
            pay.mapFundamentalnodePaymentVotes pay.mapFundamentalnodeBlocks).2 } := by
    unfold CFundamentalnodePayments.CheckAndRemove
    simp only [hsynced, Bool.not_true, Bool.false_eq_true, if_false]
  rw [hres]
  simp only [CheckAndRemoveLoop_fst]
  refine ⟨?_, ?_, ?_, ?_, ?_, trivial⟩
  · intro nHash vote hmem
    have := (List.mem_filter.mp hmem).2
    simp only [Bool.not_eq_true', decide_eq_false_iff_not, not_lt] at this
    omega
  · intro nHash vote hfind
    have := (List.mem_filter.mp (mem_of_mapFind _ _ _ hfind)).2
    simp only [Bool.not_eq_true', decide_eq_false_iff_not, not_lt] at this
    omega
  · intro nHash vote hmem hold
    have hgt : pay.nCachedBlockHeight - vote.nBlockHeight > GetStorageLimit env.fnodemanSize := by
      omega
    exact CheckAndRemoveLoop_snd_erased _ _ _ _ vote.nBlockHeight ⟨(nHash, vote), hmem, hgt, rfl⟩
  · intro nHash vote hmem hnew
    refine ⟨List.mem_filter.mpr ⟨hmem, ?_⟩, ?_⟩
    · simp only [Bool.not_eq_true', decide_eq_false_iff_not, not_lt]
      omega
    · apply CheckAndRemoveLoop_snd_kept
      intro p _ hpold hph
      rw [hph] at hpold
      omega
  · intro nHash vote hfind hnew
    apply mapFind_filter_of_keep _ _ _ _ hfind
    simp only [Bool.not_eq_true', decide_eq_false_iff_not, not_lt]
    omega

theorem CheckAndRemove_effect_witness :
    envTall.IsBlockchainSynced = true ∧
    mapFind payOldVotes.mapFundamentalnodeBlocks 3000 ≠ none ∧
    mapFind (payOldVotes.CheckAndRemove envTall).mapFundamentalnodeBlocks 3000 = none ∧
    mapFind (payOldVotes.CheckAndRemove envTall).mapFundamentalnodePaymentVotes 1999002 =
      some ⟨⟨2, 0⟩, 9990, [1], [1]⟩ :=
  ⟨by decide, by decide,
   (CheckAndRemove_effect envTall payOldVotes (by decide)).2.2.1 1300001 ⟨⟨1, 0⟩, 3000, [1], [1]⟩
     (by decide) (by decide),
   (CheckAndRemove_effect envTall payOldVotes (by decide)).2.2.2.2.1 1999002
     ⟨⟨2, 0⟩, 9990, [1], [1]⟩ (by decide) (by decide)⟩

/-! ## Storing a payment vote -/

theorem AddPayeeLoop_spec (payee : CScript) (nVoteHash : uint256)
    (old : List CFundamentalnodePayee) :
    (∃ pre p post, old = pre ++ p :: post ∧ (∀ q ∈ pre, q.GetPayee ≠ payee) ∧
        p.GetPayee = payee ∧
        AddPayeeLoop payee nVoteHash old = pre ++ p.AddVoteHash nVoteHash :: post) ∨
    ((∀ q ∈ old, q.GetPayee ≠ payee) ∧
        AddPayeeLoop payee nVoteHash old = old ++ [⟨payee, [nVoteHash]⟩]) := by
  induction old with
  | nil => exact Or.inr ⟨by simp, rfl⟩
  | cons p rest ih =>
    by_cases hp : p.GetPayee = payee
    · refine Or.inl ⟨[], p, rest, rfl, by simp, hp, ?_⟩
      simp [AddPayeeLoop, hp]
    · rcases ih with ⟨pre, q, post, hold, hpre, hq, hnew⟩ | ⟨hall, hnew⟩
      · refine Or.inl ⟨p :: pre, q, post, by simp [hold], ?_, hq, ?_⟩
        · intro x hx
          rcases List.mem_cons.mp hx with rfl | hx
          · exact hp
          · exact hpre x hx
        · simp [AddPayeeLoop, hp, hnew]
      · refine Or.inr ⟨?_, ?_⟩
        · intro x hx
          rcases List.mem_cons.mp hx with rfl | hx
          · exact hp
          · exact hall x hx
        · simp [AddPayeeLoop, hp, hnew]

theorem mapFind_mapEmplace_ne {K V : Type} [DecidableEq K] [LT K]
    [∀ a b : K, Decidable (a < b)] (k k' : K) (v : V) (m : List (K × V)) (hne : k' ≠ k) :
    mapFind (mapEmplace k v m) k' = mapFind m k' := by
  unfold mapEmplace
  split
  · rfl
  · exact mapFind_mapAssign_ne k k' v m hne

theorem mapFind_mapEmplace_self {K V : Type} [DecidableEq K] [LT K]
    [∀ a b : K, Decidable (a < b)] (k : K) (v : V) (m : List (K × V)) :
    mapFind (mapEmplace k v m) k = some ((mapFind m k).getD v) := by
  cases h : mapFind m k with
  | none => simp [mapFind_mapEmplace_of_none k v m h]
  | some w => simp [mapEmplace, mapHas, h]

/-- C30: `AddOrUpdatePaymentVote` returns false and leaves the whole ledger as it was when the
hash of the block at `vote.nBlockHeight - 101` is unknown or a verified vote is stored under
the hash of the vote. Otherwise it returns true, the vote is stored under its hash and the
votes under other hashes are as before; the tally of `vote.nBlockHeight` exists afterwards,
and its candidates are those of before (none when the height had no tally) where either the
first candidate of the payee of the vote has the hash appended and one vote more, or, when
no candidate had that payee, a new candidate of that payee with this one hash is appended;
the tallies of the other heights are as before. -/
theorem AddOrUpdatePaymentVote_effect (env : Env) (pay : CFundamentalnodePayments)
    (vote : CFundamentalnodePaymentVote) :
    ((env.GetBlockHash (vote.nBlockHeight - 101) = none ∨
        pay.HasVerifiedPaymentVote (vote.GetHash env) = true) →
      pay.AddOrUpdatePaymentVote env vote = (false, pay)) ∧
    (¬ (env.GetBlockHash (vote.nBlockHeight - 101) = none ∨
        pay.HasVerifiedPaymentVote (vote.GetHash env) = true) →
      (pay.AddOrUpdatePaymentVote env vote).1 = true ∧
      mapFind (pay.AddOrUpdatePaymentVote env vote).2.mapFundamentalnodePaymentVotes
        (vote.GetHash env) = some vote ∧
      (∀ nHash, nHash ≠ vote.GetHash env →
        mapFind (pay.AddOrUpdatePaymentVote env vote).2.mapFundamentalnodePaymentVotes nHash =
          mapFind pay.mapFundamentalnodePaymentVotes nHash) ∧
      (∀ h, h ≠ vote.nBlockHeight →
        mapFind (pay.AddOrUpdatePaymentVote env vote).2.mapFundamentalnodeBlocks h =
          mapFind pay.mapFundamentalnodeBlocks h) ∧
      (pay.AddOrUpdatePaymentVote env vote).2.nCachedBlockHeight = pay.nCachedBlockHeight ∧
      (pay.AddOrUpdatePaymentVote env vote).2.mapFundamentalnodesLastVote =
        pay.mapFundamentalnodesLastVote ∧
      ∃ tally, mapFind (pay.AddOrUpdatePaymentVote env vote).2.mapFundamentalnodeBlocks
          vote.nBlockHeight = some tally ∧
        ((∃ pre p post,
            ((mapFind pay.mapFundamentalnodeBlocks vote.nBlockHeight).getD
              ⟨vote.nBlockHeight, []⟩).vecPayeesFN = pre ++ p :: post ∧
            (∀ q ∈ pre, q.GetPayee ≠ vote.payee) ∧ p.GetPayee = vote.payee ∧
            tally.vecPayeesFN = pre ++ p.AddVoteHash (vote.GetHash env) :: post ∧
            (p.AddVoteHash (vote.GetHash env)).GetPayee = vote.payee ∧
            (p.AddVoteHash (vote.GetHash env)).vecVoteHashes =
              p.vecVoteHashes ++ [vote.GetHash env] ∧
            (p.AddVoteHash (vote.GetHash env)).GetVoteCount = p.GetVoteCount + 1) ∨
         ((∀ q ∈ ((mapFind pay.mapFundamentalnodeBlocks vote.nBlockHeight).getD
              ⟨vote.nBlockHeight, []⟩).vecPayeesFN, q.GetPayee ≠ vote.payee) ∧
            tally.vecPayeesFN =
              ((mapFind pay.mapFundamentalnodeBlocks vote.nBlockHeight).getD
                ⟨vote.nBlockHeight, []⟩).vecPayeesFN ++ [⟨vote.payee, [vote.GetHash env]⟩] ∧
            (⟨vote.payee, [vote.GetHash env]⟩ : CFundamentalnodePayee).GetVoteCount = 1))) := by
  constructor
  · intro h
    unfold CFundamentalnodePayments.AddOrUpdatePaymentVote
    rcases h with h | h
    · simp [h]
    · simp [h]
  · intro h
    have h1 : (env.GetBlockHash (vote.nBlockHeight - 101)).isNone = false := by
      cases hh : env.GetBlockHash (vote.nBlockHeight - 101) with
      | none => exact absurd (Or.inl hh) h
      | some x => rfl
    have h2 : pay.HasVerifiedPaymentVote (vote.GetHash env) = false := by
      cases hh : pay.HasVerifiedPaymentVote (vote.GetHash env) with
      | true => exact absurd (Or.inr hh) h
      | false => rfl
    have hres : pay.AddOrUpdatePaymentVote env vote =
        (true, { pay with
          mapFundamentalnodePaymentVotes :=
            mapAssign (vote.GetHash env) vote pay.mapFundamentalnodePaymentVotes
          mapFundamentalnodeBlocks :=
            mapAssign vote.nBlockHeight
              (((mapFind (mapEmplace vote.nBlockHeight
                  (⟨vote.nBlockHeight, []⟩ : CFundamentalnodeBlockPayees)
                  pay.mapFundamentalnodeBlocks) vote.nBlockHeight).getD
                    ⟨vote.nBlockHeight, []⟩).AddPayee env vote)
              (mapEmplace vote.nBlockHeight
                (⟨vote.nBlockHeight, []⟩ : CFundamentalnodeBlockPayees)
                pay.mapFundamentalnodeBlocks) }) := by
      unfold CFundamentalnodePayments.AddOrUpdatePaymentVote
      simp only [h1, h2, Bool.false_eq_true, if_false]
    rw [hres]
    refine ⟨rfl, mapFind_mapAssign_self _ _ _, ?_, ?_, rfl, rfl, ?_⟩
    · intro nHash hne
      exact mapFind_mapAssign_ne _ _ _ _ hne
    · intro ht hne
      simp only
      rw [mapFind_mapAssign_ne _ _ _ _ hne, mapFind_mapEmplace_ne _ _ _ _ hne]
    · refine ⟨_, mapFind_mapAssign_self _ _ _, ?_⟩
      rw [mapFind_mapEmplace_self]
      simp only [Option.getD_some, CFundamentalnodeBlockPayees.AddPayee]
      rcases AddPayeeLoop_spec vote.payee (vote.GetHash env)
        ((mapFind pay.mapFundamentalnodeBlocks vote.nBlockHeight).getD
          ⟨vote.nBlockHeight, []⟩).vecPayeesFN with
        ⟨pre, p, post, hold, hpre, hp, hnew⟩ | ⟨hall, hnew⟩
      · refine Or.inl ⟨pre, p, post, hold, hpre, hp, hnew, hp, rfl, ?_⟩
        simp [CFundamentalnodePayee.AddVoteHash, CFundamentalnodePayee.GetVoteCount]
      · exact Or.inr ⟨hall, hnew, rfl⟩

theorem AddOrUpdatePaymentVote_effect_witness :
    payEmpty.AddOrUpdatePaymentVote envMain (voteAt 50) = (false, payEmpty) ∧
    (payEmpty.AddOrUpdatePaymentVote envMain voteFirst).1 = true ∧
    mapFind (payEmpty.AddOrUpdatePaymentVote envMain voteFirst).2.mapFundamentalnodePaymentVotes
      (voteFirst.GetHash envMain) = some voteFirst :=
  ⟨(AddOrUpdatePaymentVote_effect envMain payEmpty (voteAt 50)).1 (Or.inl (by decide)),
   ((AddOrUpdatePaymentVote_effect envMain payEmpty voteFirst).2 (by decide)).1,
   ((AddOrUpdatePaymentVote_effect envMain payEmpty voteFirst).2 (by decide)).2.1⟩

/-! ## The sync predicates -/

/-- C40: for every value of the sync stage, `IsSynced` implies `IsWinnersListSynced`, which
implies `IsFundamentalnodeListSynced`, which implies `IsBlockchainSynced`, and `IsFailed`
implies that none of the four holds; for the driver itself and for the stage as the other
components read it. -/
theorem sync_predicates_chain (sync : CFundamentalnodeSync) (env : Env) :
    ((sync.IsSynced = true → sync.IsWinnersListSynced = true) ∧
      (sync.IsWinnersListSynced = true → sync.IsFundamentalnodeListSynced = true) ∧
      (sync.IsFundamentalnodeListSynced = true → sync.IsBlockchainSynced = true) ∧
      (sync.IsFailed = true →
        sync.IsSynced = false ∧ sync.IsWinnersListSynced = false ∧
        sync.IsFundamentalnodeListSynced = false ∧ sync.IsBlockchainSynced = false)) ∧
    ((env.IsSynced = true → env.IsWinnersListSynced = true) ∧
      (env.IsWinnersListSynced = true → env.IsFundamentalnodeListSynced = true) ∧
      (env.IsFundamentalnodeListSynced = true → env.IsBlockchainSynced = true) ∧
      (env.IsFailed = true →
        env.IsSynced = false ∧ env.IsWinnersListSynced = false ∧
        env.IsFundamentalnodeListSynced = false ∧ env.IsBlockchainSynced = false)) := by
  unfold CFundamentalnodeSync.IsSynced CFundamentalnodeSync.IsWinnersListSynced
    CFundamentalnodeSync.IsFundamentalnodeListSynced CFundamentalnodeSync.IsBlockchainSynced
    CFundamentalnodeSync.IsFailed Env.IsSynced Env.IsWinnersListSynced
    Env.IsFundamentalnodeListSynced Env.IsBlockchainSynced Env.IsFailed
  simp only [FUNDAMENTALNODE_SYNC_FAILED, FUNDAMENTALNODE_SYNC_WAITING, FUNDAMENTALNODE_SYNC_LIST,
    FUNDAMENTALNODE_SYNC_MNW, FUNDAMENTALNODE_SYNC_FINISHED, decide_eq_true_eq,
    decide_eq_false_iff_not]
  refine ⟨⟨?_, ?_, ?_, ?_⟩, ?_, ?_, ?_, ?_⟩ <;> intro h <;> omega

theorem sync_predicates_chain_witness :
    syncInitial.IsFailed = false ∧
    ((({ syncInitial with nRequestedFundamentalnodeAssets := FUNDAMENTALNODE_SYNC_FINISHED } :
        CFundamentalnodeSync).IsSynced = true →
      ({ syncInitial with nRequestedFundamentalnodeAssets := FUNDAMENTALNODE_SYNC_FINISHED } :
        CFundamentalnodeSync).IsWinnersListSynced = true)) ∧
    envMain.IsWinnersListSynced = true :=
  ⟨by decide,
   (sync_predicates_chain
      { syncInitial with nRequestedFundamentalnodeAssets := FUNDAMENTALNODE_SYNC_FINISHED }
      envMain).1.1,
   (sync_predicates_chain syncInitial envMain).2.1 (by decide)⟩

/-! ## The error text of the block value check -/

theorem append_ne_empty_of_length_pos (s t : String) (h : 0 < s.length) : s ++ t ≠ "" := by
  intro he
  have hl := congrArg String.length he
  rw [String.length_append] at hl
  have h0 : ("" : String).length = 0 := rfl
  omega

theorem strCoinbasePaysTooMuch_ne_empty (nBlockHeight : Int) (actualReward limit : CAmount)
    (strEnding : String) :
    strCoinbasePaysTooMuch nBlockHeight actualReward limit strEnding ≠ "" := by
  unfold strCoinbasePaysTooMuch
  simp only [String.append_assoc]
  exact append_ne_empty_of_length_pos _ _ (by decide)

/-- C38: `IsBlockValueValidFN` returns true if and only if it leaves `strErrorRet` empty, for
every block, height, pair of rewards and every value of what it reads from its
surroundings. -/
theorem IsBlockValueValidFN_true_iff_no_error (env : Env) (block : CBlock) (nBlockHeight : Int)
    (expectedReward actualReward : CAmount) :
    (IsBlockValueValidFN env block nBlockHeight expectedReward actualReward).1 = true ↔
      (IsBlockValueValidFN env block nBlockHeight expectedReward actualReward).2 = "" := by
  have hne := strCoinbasePaysTooMuch_ne_empty
  have hinv : "invalid superblock detected at height " ++ toString nBlockHeight ≠ "" :=
    append_ne_empty_of_length_pos _ _ (by decide)
  unfold IsBlockValueValidFN
  simp only
  split_ifs <;> simp_all

/-! ## The best payee of a height -/

/-- The loop of `GetBestPayee`, entered with a count below that of some candidate to come or
with a payee already chosen: it ends on the first candidate of the largest count. -/
theorem GetBestPayeeLoop_spec (vec : List CFundamentalnodePayee) :
    ∀ (payeeRet : Option CScript) (nVotes : Int),
      (∃ p ∈ vec, p.GetVoteCount > nVotes) →
      ∃ pre p post, vec = pre ++ p :: post ∧
        GetBestPayeeLoop vec payeeRet nVotes = (some p.GetPayee, p.GetVoteCount) ∧
        p.GetVoteCount > nVotes ∧
        (∀ q ∈ pre, q.GetVoteCount < p.GetVoteCount) ∧
        (∀ q ∈ post, q.GetVoteCount ≤ p.GetVoteCount) := by
  induction vec with
  | nil =>
    intro payeeRet nVotes hex
    obtain ⟨p, hp, _⟩ := hex
    exact absurd hp (List.not_mem_nil p)
  | cons a rest ih =>
    intro payeeRet nVotes hex
    by_cases ha : a.GetVoteCount > nVotes
    · by_cases hrest : ∃ p ∈ rest, p.GetVoteCount > a.GetVoteCount
      · obtain ⟨pre, p, post, hsplit, hloop, hgt, hpre, hpost⟩ :=
          ih (some a.GetPayee) a.GetVoteCount hrest
        refine ⟨a :: pre, p, post, by rw [hsplit]; rfl, ?_, by omega, ?_, hpost⟩
        · simp only [GetBestPayeeLoop, if_pos ha]
          exact hloop
        · intro q hq
          rcases List.mem_cons.mp hq with rfl | hq
          · exact hgt
          · exact hpre q hq
      · refine ⟨[], a, rest, rfl, ?_, ha, by simp, ?_⟩
        · simp only [GetBestPayeeLoop, if_pos ha]
          have hle : ∀ q ∈ rest, ¬ q.GetVoteCount > a.GetVoteCount :=
            fun q hq hgt => hrest ⟨q, hq, hgt⟩
          clear ih hex hrest
          induction rest with
          | nil => rfl
          | cons b rest2 ih2 =>
            simp only [GetBestPayeeLoop, if_neg (hle b (List.mem_cons_self _ _))]
            exact ih2 fun q hq => hle q (List.mem_cons_of_mem _ hq)
        · intro q hq
          have : ¬ q.GetVoteCount > a.GetVoteCount := fun hgt => hrest ⟨q, hq, hgt⟩
          omega
    · have hrest : ∃ p ∈ rest, p.GetVoteCount > nVotes := by
        obtain ⟨p, hp, hgt⟩ := hex
        rcases List.mem_cons.mp hp with rfl | hp
        · exact absurd hgt ha
        · exact ⟨p, hp, hgt⟩
      obtain ⟨pre, p, post, hsplit, hloop, hgt, hpre, hpost⟩ := ih payeeRet nVotes hrest
      refine ⟨a :: pre, p, post, by rw [hsplit]; rfl, ?_, hgt, ?_, hpost⟩
      · simp only [GetBestPayeeLoop, if_neg ha]
        exact hloop
      · intro q hq
        rcases List.mem_cons.mp hq with rfl | hq
        · omega
        · exact hpre q hq

/-- C37: `GetBestPayee` returns false if and only if the tally has no candidate. Otherwise it
returns the payee of the first candidate, in the order of `vecPayeesFN`, to which `AddPayee`
appends, among those of the largest vote count: every candidate before it has fewer votes and
no candidate after it has more. -/
theorem GetBestPayee_spec (bp : CFundamentalnodeBlockPayees) :
    (bp.GetBestPayee = none ↔ bp.vecPayeesFN = []) ∧
    (bp.vecPayeesFN ≠ [] →
      ∃ pre p post, bp.vecPayeesFN = pre ++ p :: post ∧
        bp.GetBestPayee = some p.GetPayee ∧
        (∀ q ∈ pre, q.GetVoteCount < p.GetVoteCount) ∧
        (∀ q ∈ post, q.GetVoteCount ≤ p.GetVoteCount)) := by
  have hsome : bp.vecPayeesFN ≠ [] →
      ∃ pre p post, bp.vecPayeesFN = pre ++ p :: post ∧
        bp.GetBestPayee = some p.GetPayee ∧
        (∀ q ∈ pre, q.GetVoteCount < p.GetVoteCount) ∧
        (∀ q ∈ post, q.GetVoteCount ≤ p.GetVoteCount) := by
    intro hne
    have hex : ∃ p ∈ bp.vecPayeesFN, p.GetVoteCount > -1 := by
      cases hvec : bp.vecPayeesFN with
      | nil => exact absurd hvec hne
      | cons a rest =>
        refine ⟨a, List.mem_cons_self _ _, ?_⟩
        unfold CFundamentalnodePayee.GetVoteCount
        omega
    obtain ⟨pre, p, post, hsplit, hloop, hgt, hpre, hpost⟩ :=
      GetBestPayeeLoop_spec bp.vecPayeesFN none (-1) hex
    refine ⟨pre, p, post, hsplit, ?_, hpre, hpost⟩
    unfold CFundamentalnodeBlockPayees.GetBestPayee
    have hemp : bp.vecPayeesFN.isEmpty = false := by
      cases hvec : bp.vecPayeesFN with
      | nil => exact absurd hvec hne
      | cons a rest => rfl
    simp only [hemp, Bool.false_eq_true, if_false, hloop, hgt, if_true]
  refine ⟨⟨?_, ?_⟩, hsome⟩
  · intro hnone
    by_contra hne
    obtain ⟨_, p, _, _, hbest, _, _⟩ := hsome hne
    rw [hbest] at hnone
    exact absurd hnone (by simp)
  · intro hnil
    unfold CFundamentalnodeBlockPayees.GetBestPayee
    simp [hnil]

theorem GetBestPayee_spec_witness :
    tally1010.vecPayeesFN ≠ [] ∧ tally1010.GetBestPayee = some [1] ∧
    ∃ pre p post, tally1010.vecPayeesFN = pre ++ p :: post ∧
      tally1010.GetBestPayee = some p.GetPayee ∧
      (∀ q ∈ pre, q.GetVoteCount < p.GetVoteCount) ∧
      (∀ q ∈ post, q.GetVoteCount ≤ p.GetVoteCount) :=
  ⟨by decide, by decide, (GetBestPayee_spec tally1010).2 (by decide)⟩

/-! ## Announces that were seen before -/

/-- C39: for every announce that is not marked as a recovery reply and whose hash is in the
seen-announce cache, `CheckFnbAndUpdateFundamentalnodeList` returns true with `nDos = 0` and
leaves the registry map as it is. That includes an announce that `SimpleCheck` rejected when
it was processed first: the first call returns false and leaves the hash in the cache, and
the second call on the registry it left returns true with `nDos = 0` and the registry map
unchanged. -/
theorem CheckFnb_seen_returns_true (env : Env) (man : CFundamentalnodeMan)
    (pfrom : Option CService) (fnb : CFundamentalnodeBroadcast)
    (hrec : fnb.fRecovery = false) :
    (mapHas man.mapSeenFundamentalnodeBroadcast (fnb.GetHash env) = true →
      (man.CheckFnbAndUpdateFundamentalnodeList env pfrom fnb).ret = true ∧
      (man.CheckFnbAndUpdateFundamentalnodeList env pfrom fnb).nDos = 0 ∧
      (man.CheckFnbAndUpdateFundamentalnodeList env pfrom fnb).man.mapFundamentalnodes =
        man.mapFundamentalnodes) ∧
    (mapHas man.mapSeenFundamentalnodeBroadcast (fnb.GetHash env) = false →
      (fnb.SimpleCheck env).ret = false →
      (man.CheckFnbAndUpdateFundamentalnodeList env pfrom fnb).ret = false ∧
      mapHas (man.CheckFnbAndUpdateFundamentalnodeList env pfrom
        fnb).man.mapSeenFundamentalnodeBroadcast (fnb.GetHash env) = true ∧
      ∀ pfrom2 : Option CService,
        ((man.CheckFnbAndUpdateFundamentalnodeList env pfrom
          fnb).man.CheckFnbAndUpdateFundamentalnodeList env pfrom2 fnb).ret = true ∧
        ((man.CheckFnbAndUpdateFundamentalnodeList env pfrom
          fnb).man.CheckFnbAndUpdateFundamentalnodeList env pfrom2 fnb).nDos = 0 ∧
        ((man.CheckFnbAndUpdateFundamentalnodeList env pfrom
          fnb).man.CheckFnbAndUpdateFundamentalnodeList env pfrom2
            fnb).man.mapFundamentalnodes = man.mapFundamentalnodes) := by
  have hfirst : ∀ (man : CFundamentalnodeMan) (pfrom : Option CService),
      mapHas man.mapSeenFundamentalnodeBroadcast (fnb.GetHash env) = true →
      (man.CheckFnbAndUpdateFundamentalnodeList env pfrom fnb).ret = true ∧
      (man.CheckFnbAndUpdateFundamentalnodeList env pfrom fnb).nDos = 0 ∧
      (man.CheckFnbAndUpdateFundamentalnodeList env pfrom fnb).man.mapFundamentalnodes =
        man.mapFundamentalnodes := by
    intro man pfrom hseen
    refine ⟨?_, ?_, CheckFnb_seen_mapFundamentalnodes env man pfrom fnb hseen hrec⟩
    · unfold CFundamentalnodeMan.CheckFnbAndUpdateFundamentalnodeList
      unfold mapHas at hseen
      cases hm : mapFind man.mapSeenFundamentalnodeBroadcast (fnb.GetHash env) with
      | none => rw [hm] at hseen; exact absurd hseen (by simp)
      | some seen => simp only [hm, hrec]
    · unfold CFundamentalnodeMan.CheckFnbAndUpdateFundamentalnodeList
      unfold mapHas at hseen
      cases hm : mapFind man.mapSeenFundamentalnodeBroadcast (fnb.GetHash env) with
      | none => rw [hm] at hseen; exact absurd hseen (by simp)
      | some seen => simp only [hm, hrec]
  refine ⟨hfirst man pfrom, ?_⟩
  intro hnew hsc
  have hres : man.CheckFnbAndUpdateFundamentalnodeList env pfrom fnb =
      ⟨false, (fnb.SimpleCheck env).nDos,
        { man with
          mapSeenFundamentalnodeBroadcast :=
            mapEmplace (fnb.GetHash env) (env.GetTime, fnb)
              man.mapSeenFundamentalnodeBroadcast }⟩ := by
    unfold CFundamentalnodeMan.CheckFnbAndUpdateFundamentalnodeList
    unfold mapHas at hnew
    cases hm : mapFind man.mapSeenFundamentalnodeBroadcast (fnb.GetHash env) with
    | some seen => rw [hm] at hnew; exact absurd hnew (by simp)
    | none => simp only [hm, hsc, Bool.not_false, if_true]
  rw [hres]
  refine ⟨rfl, mapHas_mapEmplace_self _ _ _, ?_⟩
  intro pfrom2
  exact hfirst _ pfrom2 (mapHas_mapEmplace_self _ _ _)

theorem CheckFnb_seen_returns_true_witness :
    (fnbWrongPort.SimpleCheck envMain).ret = false ∧
    (manServed.CheckFnbAndUpdateFundamentalnodeList envMain none fnbWrongPort).ret = false ∧
    ((manServed.CheckFnbAndUpdateFundamentalnodeList envMain none
      fnbWrongPort).man.CheckFnbAndUpdateFundamentalnodeList envMain none fnbWrongPort).ret
        = true :=
  ⟨by decide,
   ((CheckFnb_seen_returns_true envMain manServed none fnbWrongPort (by decide)).2 (by decide)
     (by decide)).1,
   (((CheckFnb_seen_returns_true envMain manServed none fnbWrongPort (by decide)).2 (by decide)
     (by decide)).2.2 none).1⟩

/-! ## The sync driver after a failure -/

/-- C32, counterexample: a tick in stage Failed more than 60 s after the failure leaves the
driver in stage Waiting, not in stage Initial. -/
theorem ProcessTick_failed_ends_in_waiting :
    syncFailed.IsFailed = true ∧
    envMain.GetTime - syncFailed.nTimeLastFailure > 60 ∧
    (syncFailed.ProcessTick envMain [peerOne] [] false).map
      (fun r => r.1.nRequestedFundamentalnodeAssets) = some FUNDAMENTALNODE_SYNC_WAITING ∧
    FUNDAMENTALNODE_SYNC_WAITING ≠ FUNDAMENTALNODE_SYNC_INITIAL := by
  decide

/-- C32, amended: in stage Failed a call of `ProcessTick` that is not a processed tick (the
tick counter is not a multiple of 6) only counts the tick. A processed tick not more than 60 s
after the failure, and not more than an hour after the last processed tick, changes nothing
but the tick counter and the time of the last processed tick. A processed tick more than 60 s
after the failure, or more than an hour after the last processed one, runs `Reset` and then
`SwitchToNextAsset`: it ends in stage Waiting with the attempt counter 0, the failure time
cleared and the start and bump times set to now. The fulfilled requests are never touched. -/
theorem ProcessTick_failed (env : Env) (sync : CFundamentalnodeSync) (vNodesCopy : List CNode)
    (netfulfilledman : CNetFulfilledRequestManager) (fEnoughData : Bool)
    (hfailed : sync.IsFailed = true) :
    (sync.nTick % 6 ≠ 0 →
      sync.ProcessTick env vNodesCopy netfulfilledman fEnoughData =
        some ({ sync with nTick := sync.nTick + 1 }, netfulfilledman)) ∧
    (sync.nTick % 6 = 0 →
      env.GetTime - sync.nTimeLastProcess.getD env.GetTime ≤ 3600 →
      env.GetTime - sync.nTimeLastFailure ≤ 60 →
      sync.ProcessTick env vNodesCopy netfulfilledman fEnoughData =
        some ({ sync with nTick := sync.nTick + 1, nTimeLastProcess := some env.GetTime },
          netfulfilledman)) ∧
    (sync.nTick % 6 = 0 →
      (env.GetTime - sync.nTimeLastProcess.getD env.GetTime > 3600 ∨
        env.GetTime - sync.nTimeLastFailure > 60) →
      sync.ProcessTick env vNodesCopy netfulfilledman fEnoughData =
        some ({ sync with
          nTick := sync.nTick + 1
          nTimeLastProcess := some env.GetTime
          nRequestedFundamentalnodeAssets := FUNDAMENTALNODE_SYNC_WAITING
          nRequestedFundamentalnodeAttempt := 0
          nTimeAssetSyncStarted := env.GetTime
          nTimeLastBumped := env.GetTime
          nTimeLastFailure := 0 }, netfulfilledman)) := by
  have hstage : sync.nRequestedFundamentalnodeAssets = FUNDAMENTALNODE_SYNC_FAILED := by
    unfold CFundamentalnodeSync.IsFailed at hfailed
    simpa using hfailed
  have hreset : ∀ s : CFundamentalnodeSync, (s.Reset env).SwitchToNextAsset env =
      some { s with
        nRequestedFundamentalnodeAssets := FUNDAMENTALNODE_SYNC_WAITING
        nRequestedFundamentalnodeAttempt := 0
        nTimeAssetSyncStarted := env.GetTime
        nTimeLastBumped := env.GetTime
        nTimeLastFailure := 0 } := by
    intro s
    simp [CFundamentalnodeSync.Reset, CFundamentalnodeSync.SwitchToNextAsset,
      CFundamentalnodeSync.BumpAssetLastTime, CFundamentalnodeSync.IsSynced,
      CFundamentalnodeSync.IsFailed, FUNDAMENTALNODE_SYNC_FAILED, FUNDAMENTALNODE_SYNC_INITIAL,
      FUNDAMENTALNODE_SYNC_WAITING, FUNDAMENTALNODE_SYNC_FINISHED]
  refine ⟨?_, ?_, ?_⟩
  · intro htick
    unfold CFundamentalnodeSync.ProcessTick
    simp only [FUNDAMENTALNODE_SYNC_TICK_SECONDS, ne_eq, htick, not_false_eq_true, if_true]
  · intro htick hsleep hcool
    have hsleep' : ¬ env.GetTime - sync.nTimeLastProcess.getD env.GetTime > 60 * 60 := by omega
    have hcool' : ¬ sync.nTimeLastFailure + 1 * 60 < env.GetTime := by omega
    unfold CFundamentalnodeSync.ProcessTick
    simp only [FUNDAMENTALNODE_SYNC_TICK_SECONDS, ne_eq, htick, not_true_eq_false, if_false,
      Option.getD_some, hsleep', CFundamentalnodeSync.IsFailed, hstage, decide_True, if_true,
      hcool']
  · intro htick hafter
    unfold CFundamentalnodeSync.ProcessTick
    simp only [FUNDAMENTALNODE_SYNC_TICK_SECONDS, ne_eq, htick, not_true_eq_false, if_false,
      Option.getD_some]
    by_cases hsleep : env.GetTime - sync.nTimeLastProcess.getD env.GetTime > 60 * 60
    · rw [if_pos hsleep, hreset]
      rfl
    · have hcool : sync.nTimeLastFailure + 1 * 60 < env.GetTime := by
        rcases hafter with h | h
        · exact absurd (by omega) hsleep
        · omega
      rw [if_neg hsleep]
      simp only [CFundamentalnodeSync.IsFailed, hstage, decide_True, if_true, hcool, hreset]
      rfl

theorem ProcessTick_failed_witness :
    syncFailedJustNow.ProcessTick envMain [peerOne] [] false =
      some ({ syncFailedJustNow with nTick := 7, nTimeLastProcess := some 1000000 }, []) ∧
    (syncFailed.ProcessTick envMain [peerOne] [] false).map
      (fun r => (r.1.nRequestedFundamentalnodeAssets, r.1.nRequestedFundamentalnodeAttempt,
        r.1.nTimeLastFailure)) = some (FUNDAMENTALNODE_SYNC_WAITING, 0, 0) :=
  ⟨(ProcessTick_failed envMain syncFailedJustNow [peerOne] [] false (by decide)).2.1 (by decide)
     (by decide) (by decide),
   by rw [(ProcessTick_failed envMain syncFailed [peerOne] [] false (by decide)).2.2 (by decide)
     (Or.inr (by decide))]; rfl⟩

/-! ## Timeouts of the sync driver -/

/-- The loop over the peers in stage List or MNW once the timeout has elapsed, on a network
other than the regression-test one: the first peer that is neither skipped as a fundamentalnode
connection nor recently fully synced ends the loop, with `Fail` when no request was attempted
and `SwitchToNextAsset` otherwise; without such a peer nothing changes. -/
theorem ProcessTickLoop_timeout (env : Env) (fEnoughData : Bool) (sync : CFundamentalnodeSync)
    (netfulfilledman : CNetFulfilledRequestManager)
    (hnet : env.NetworkID ≠ Network.regtest)
    (hstage : sync.nRequestedFundamentalnodeAssets = FUNDAMENTALNODE_SYNC_LIST ∨
      sync.nRequestedFundamentalnodeAssets = FUNDAMENTALNODE_SYNC_MNW)
    (htimeout : env.GetTime - sync.nTimeLastBumped > FUNDAMENTALNODE_SYNC_TIMEOUT_SECONDS)
    (vNodes : List CNode) :
    ((∃ pnode ∈ vNodes,
        (pnode.fFundamentalnode || (env.fFundamentalnodeMode && pnode.fInbound)) = false ∧
        netfulfilledman.HasFulfilledRequest pnode.addr FulfilledRequest.fullSync = false) →
      ∃ netfulfilledmanNew,
        (sync.nRequestedFundamentalnodeAttempt = 0 →
          ProcessTickLoop env fEnoughData vNodes sync netfulfilledman =
            some (sync.Fail env, netfulfilledmanNew)) ∧
        (sync.nRequestedFundamentalnodeAttempt ≠ 0 →
          ProcessTickLoop env fEnoughData vNodes sync netfulfilledman =
            (sync.SwitchToNextAsset env).map fun syncNew => (syncNew, netfulfilledmanNew))) ∧
    ((∀ pnode ∈ vNodes,
        ¬ ((pnode.fFundamentalnode || (env.fFundamentalnodeMode && pnode.fInbound)) = false ∧
          netfulfilledman.HasFulfilledRequest pnode.addr FulfilledRequest.fullSync = false)) →
      ProcessTickLoop env fEnoughData vNodes sync netfulfilledman =
        some (sync, netfulfilledman)) := by
  have hnw : ¬ (sync.nRequestedFundamentalnodeAssets = FUNDAMENTALNODE_SYNC_WAITING ∧
      env.GetTime - sync.nTimeLastBumped > FUNDAMENTALNODE_SYNC_TIMEOUT_SECONDS) := by
    intro h
    rcases hstage with hs | hs <;> rw [hs] at h <;> exact absurd h.1 (by decide)
  induction vNodes with
  | nil =>
    refine ⟨?_, fun _ => rfl⟩
    rintro ⟨p, hp, _⟩
    exact absurd hp (List.not_mem_nil p)
  | cons pnode rest ih =>
    by_cases hskip : (pnode.fFundamentalnode || env.fFundamentalnodeMode && pnode.fInbound) = true
    · have hstep : ProcessTickLoop env fEnoughData (pnode :: rest) sync netfulfilledman =
          ProcessTickLoop env fEnoughData rest sync netfulfilledman := by
        rw [ProcessTickLoop, if_pos hskip]
      rw [hstep]
      refine ⟨?_, ?_⟩
      · rintro ⟨p, hp, hp1, hp2⟩
        rcases List.mem_cons.mp hp with rfl | hp
        · rw [hp1] at hskip
          exact absurd hskip (by simp)
        · exact ih.1 ⟨p, hp, hp1, hp2⟩
      · intro hall
        exact ih.2 fun p hp => hall p (List.mem_cons_of_mem _ hp)
    by_cases hfull : netfulfilledman.HasFulfilledRequest pnode.addr FulfilledRequest.fullSync
        = true
    · have hstep : ProcessTickLoop env fEnoughData (pnode :: rest) sync netfulfilledman =
          ProcessTickLoop env fEnoughData rest sync netfulfilledman := by
        rw [ProcessTickLoop, if_neg hskip, if_neg hnet, if_pos hfull]
      rw [hstep]
      refine ⟨?_, ?_⟩
      · rintro ⟨p, hp, hp1, hp2⟩
        rcases List.mem_cons.mp hp with rfl | hp
        · rw [hp2] at hfull
          exact absurd hfull (by simp)
        · exact ih.1 ⟨p, hp, hp1, hp2⟩
      · intro hall
        exact ih.2 fun p hp => hall p (List.mem_cons_of_mem _ hp)
    refine ⟨fun _ => ?_, ?_⟩
    · rw [ProcessTickLoop, if_neg hskip, if_neg hnet, if_neg hfull]
      simp only [if_neg hnw]
      generalize (if (!netfulfilledman.HasFulfilledRequest pnode.addr
        FulfilledRequest.sporkSync) = true then
          netfulfilledman.AddFulfilledRequest pnode.addr FulfilledRequest.sporkSync
        else netfulfilledman) = netfulfilledmanNew
      refine ⟨netfulfilledmanNew, ?_, ?_⟩
      · intro h0
        rcases hstage with hs | hs
        · simp only [hs, htimeout, h0, if_true]
        · have hl : ¬ sync.nRequestedFundamentalnodeAssets = FUNDAMENTALNODE_SYNC_LIST := by
            rw [hs]; decide
          simp only [hl, if_false, htimeout, h0, if_true]
          simp only [hs, if_true]
      · intro h0
        rcases hstage with hs | hs
        · simp only [hs, htimeout, h0, if_true, if_false]
        · have hl : ¬ sync.nRequestedFundamentalnodeAssets = FUNDAMENTALNODE_SYNC_LIST := by
            rw [hs]; decide
          simp only [hl, if_false, htimeout, h0, if_true]
          simp only [hs, if_true]
    · intro hall
      have := hall pnode (List.mem_cons_self _ _)
      refine absurd ⟨?_, ?_⟩ this
      · simpa using hskip
      · simpa using hfull

/-- The loop over the peers in stage Waiting never ends in stage Failed. -/
theorem ProcessTickLoop_waiting (env : Env) (fEnoughData : Bool) (vNodes : List CNode) :
    ∀ (sync : CFundamentalnodeSync) (netfulfilledman : CNetFulfilledRequestManager),
      sync.nRequestedFundamentalnodeAssets = FUNDAMENTALNODE_SYNC_WAITING →
      ∃ r, ProcessTickLoop env fEnoughData vNodes sync netfulfilledman = some r ∧
        r.1.nRequestedFundamentalnodeAssets ≠ FUNDAMENTALNODE_SYNC_FAILED := by
  induction vNodes with
  | nil =>
    intro sync netfulfilledman hs
    exact ⟨_, rfl, by rw [hs]; decide⟩
  | cons pnode rest ih =>
    intro sync netfulfilledman hs
    rw [ProcessTickLoop]
    by_cases hskip : (pnode.fFundamentalnode || env.fFundamentalnodeMode && pnode.fInbound) = true
    · rw [if_pos hskip]
      exact ih sync netfulfilledman hs
    rw [if_neg hskip]
    by_cases hreg : env.NetworkID = Network.regtest
    · rw [if_pos hreg]
      simp only
      split_ifs
      all_goals exact ⟨_, rfl, by simp only [hs]; decide⟩
    rw [if_neg hreg]
    by_cases hfull : netfulfilledman.HasFulfilledRequest pnode.addr FulfilledRequest.fullSync
        = true
    · rw [if_pos hfull]
      exact ih sync netfulfilledman hs
    rw [if_neg hfull]
    simp only
    generalize (if (!netfulfilledman.HasFulfilledRequest pnode.addr FulfilledRequest.sporkSync)
      = true then netfulfilledman.AddFulfilledRequest pnode.addr FulfilledRequest.sporkSync
      else netfulfilledman) = netfulfilledmanNew
    by_cases hw : sync.nRequestedFundamentalnodeAssets = FUNDAMENTALNODE_SYNC_WAITING ∧
        env.GetTime - sync.nTimeLastBumped > FUNDAMENTALNODE_SYNC_TIMEOUT_SECONDS
    · rw [if_pos hw]
      have hnf : sync.nRequestedFundamentalnodeAssets ≠ FUNDAMENTALNODE_SYNC_FAILED := by
        rw [hs]; decide
      obtain ⟨syncNew, hsw, _, hnext, hbump⟩ := SwitchToNextAsset_stage env sync hnf
      have hlist : syncNew.nRequestedFundamentalnodeAssets = FUNDAMENTALNODE_SYNC_LIST :=
        hnext _ (by rw [hs]; rfl)
      have hb : syncNew.nTimeLastBumped = env.GetTime := hbump (by rw [hlist]; decide)
      have hto : ¬ env.GetTime - syncNew.nTimeLastBumped >
          FUNDAMENTALNODE_SYNC_TIMEOUT_SECONDS := by
        rw [hb]; simp [FUNDAMENTALNODE_SYNC_TIMEOUT_SECONDS]
      have hlf : FUNDAMENTALNODE_SYNC_LIST ≠ FUNDAMENTALNODE_SYNC_FAILED := by decide
      rw [hsw]
      simp only [hlist, hto, if_true, if_false]
      split_ifs
      · exact ⟨_, rfl, by simp only [hlist]; exact hlf⟩
      · obtain ⟨r, hr, hrs⟩ := ProcessTickLoop_list env fEnoughData rest syncNew
          netfulfilledmanNew hreg hlist hto
        exact ⟨r, hr, by rw [hrs]; exact hlf⟩
      · obtain ⟨r, hr, hrs⟩ := ProcessTickLoop_list env fEnoughData rest syncNew
          (netfulfilledmanNew.AddFulfilledRequest pnode.addr FulfilledRequest.listSync)
          hreg hlist hto
        exact ⟨r, hr, by rw [hrs]; exact hlf⟩
      · exact ⟨_, rfl, hlf⟩
    · rw [if_neg hw]
      have hl : ¬ sync.nRequestedFundamentalnodeAssets = FUNDAMENTALNODE_SYNC_LIST := by
        rw [hs]; decide
      have hm : ¬ sync.nRequestedFundamentalnodeAssets = FUNDAMENTALNODE_SYNC_MNW := by
        rw [hs]; decide
      simp only [hl, hm, if_false]
      exact ih sync netfulfilledmanNew hs

theorem SwitchToNextAsset_attempt (env : Env) (sync syncNew : CFundamentalnodeSync)
    (h : sync.SwitchToNextAsset env = some syncNew) :
    syncNew.nRequestedFundamentalnodeAttempt = 0 := by
  have hbump : ∀ s : CFundamentalnodeSync,
      (s.BumpAssetLastTime env).nRequestedFundamentalnodeAttempt =
        s.nRequestedFundamentalnodeAttempt := by
    intro s
    unfold CFundamentalnodeSync.BumpAssetLastTime
    split <;> rfl
  unfold CFundamentalnodeSync.SwitchToNextAsset at h
  split at h
  · exact absurd h (by simp)
  · simp only [Option.some.injEq] at h
    rw [← h, hbump]

/-- C31, counterexample: in stage List, on a processed tick 100 s after the last bump with no
request attempted, the driver stays in stage List when it has no peer to sync from. -/
theorem ProcessTick_timeout_without_peers :
    syncListStale.nRequestedFundamentalnodeAssets = FUNDAMENTALNODE_SYNC_LIST ∧
    syncListStale.nRequestedFundamentalnodeAttempt = 0 ∧
    syncListStale.nTick % FUNDAMENTALNODE_SYNC_TICK_SECONDS = 0 ∧
    envMain.GetTime - syncListStale.nTimeLastBumped > FUNDAMENTALNODE_SYNC_TIMEOUT_SECONDS ∧
    (syncListStale.ProcessTick envMain [] [] false).map
      (fun r => r.1.nRequestedFundamentalnodeAssets) = some FUNDAMENTALNODE_SYNC_LIST ∧
    (syncListStale.ProcessTick envMain [{ peerOne with fFundamentalnode := true }] [] false).map
      (fun r => r.1.nRequestedFundamentalnodeAssets) = some FUNDAMENTALNODE_SYNC_LIST := by
  decide

/-- C31, amended: in stage List and in stage MNW (the payment votes), on a network other than
the regression-test one, a processed tick (tick counter a multiple of 6) not more than an hour
after the last processed tick, on which more than 30 s have passed since the last bump, and
which has a peer to sync from (one that is neither skipped as a fundamentalnode connection nor
recently fully synced), moves the driver to Failed, recording the time, when no request was
attempted, and to the next stage with the attempt counter 0 otherwise; without such a peer
the stage stays as it is. In stage Waiting no call of `ProcessTick` ends in Failed: from
Waiting the driver fails only after it has moved on to List. In every stage, a call whose tick
counter is not a multiple of 6 only counts the tick, and a processed tick more than an hour
after the last processed one resets the driver and ends in stage Waiting, whatever the
timeout. -/
theorem ProcessTick_timeout (env : Env) (sync : CFundamentalnodeSync) (vNodesCopy : List CNode)
    (netfulfilledman : CNetFulfilledRequestManager) (fEnoughData : Bool) :
    ((sync.nRequestedFundamentalnodeAssets = FUNDAMENTALNODE_SYNC_LIST ∨
        sync.nRequestedFundamentalnodeAssets = FUNDAMENTALNODE_SYNC_MNW) →
      env.NetworkID ≠ Network.regtest →
      sync.nTick % 6 = 0 →
      env.GetTime - sync.nTimeLastProcess.getD env.GetTime ≤ 3600 →
      env.GetTime - sync.nTimeLastBumped > 30 →
      ((∃ pnode ∈ vNodesCopy,
          (pnode.fFundamentalnode || (env.fFundamentalnodeMode && pnode.fInbound)) = false ∧
          netfulfilledman.HasFulfilledRequest pnode.addr FulfilledRequest.fullSync = false) →
        ∃ r, sync.ProcessTick env vNodesCopy netfulfilledman fEnoughData = some r ∧
          (sync.nRequestedFundamentalnodeAttempt = 0 →
            r.1.nRequestedFundamentalnodeAssets = FUNDAMENTALNODE_SYNC_FAILED ∧
            r.1.nTimeLastFailure = env.GetTime) ∧
          (sync.nRequestedFundamentalnodeAttempt ≠ 0 →
            specNextStage sync.nRequestedFundamentalnodeAssets =
              some r.1.nRequestedFundamentalnodeAssets ∧
            r.1.nRequestedFundamentalnodeAttempt = 0)) ∧
      ((∀ pnode ∈ vNodesCopy,
          ¬ ((pnode.fFundamentalnode || (env.fFundamentalnodeMode && pnode.fInbound)) = false ∧
            netfulfilledman.HasFulfilledRequest pnode.addr FulfilledRequest.fullSync = false)) →
        ∃ r, sync.ProcessTick env vNodesCopy netfulfilledman fEnoughData = some r ∧
          r.1.nRequestedFundamentalnodeAssets = sync.nRequestedFundamentalnodeAssets ∧
          r.1.nRequestedFundamentalnodeAttempt = sync.nRequestedFundamentalnodeAttempt)) ∧
    (sync.nRequestedFundamentalnodeAssets = FUNDAMENTALNODE_SYNC_WAITING →
      ∃ r, sync.ProcessTick env vNodesCopy netfulfilledman fEnoughData = some r ∧
        r.1.nRequestedFundamentalnodeAssets ≠ FUNDAMENTALNODE_SYNC_FAILED) ∧
    (sync.nTick % 6 ≠ 0 →
      sync.ProcessTick env vNodesCopy netfulfilledman fEnoughData =
        some ({ sync with nTick := sync.nTick + 1 }, netfulfilledman)) ∧
    (sync.nTick % 6 = 0 →
      env.GetTime - sync.nTimeLastProcess.getD env.GetTime > 3600 →
      ∃ r, sync.ProcessTick env vNodesCopy netfulfilledman fEnoughData = some r ∧
        r.1.nRequestedFundamentalnodeAssets = FUNDAMENTALNODE_SYNC_WAITING ∧
        r.1.nRequestedFundamentalnodeAttempt = 0 ∧
        r.1.nTimeLastBumped = env.GetTime ∧
        r.2 = netfulfilledman) := by
  refine ⟨?_, ?_, ?_, ?_⟩
  · intro hstage hnet htick hsleep htimeout
    have hsleep' : ¬ env.GetTime - sync.nTimeLastProcess.getD env.GetTime > 60 * 60 := by omega
    have hnf : ¬ sync.nRequestedFundamentalnodeAssets = FUNDAMENTALNODE_SYNC_FAILED := by
      rcases hstage with hs | hs <;> rw [hs] <;> decide
    have hns : ¬ sync.nRequestedFundamentalnodeAssets = FUNDAMENTALNODE_SYNC_FINISHED := by
      rcases hstage with hs | hs <;> rw [hs] <;> decide
    have htick' : ({ sync with
        nTick := sync.nTick + 1
        nTimeLastProcess := some env.GetTime } : CFundamentalnodeSync).nRequestedFundamentalnodeAssets
          = sync.nRequestedFundamentalnodeAssets := rfl
    have hloop : sync.ProcessTick env vNodesCopy netfulfilledman fEnoughData =
        ProcessTickLoop env fEnoughData vNodesCopy
          { sync with nTick := sync.nTick + 1, nTimeLastProcess := some env.GetTime }
          netfulfilledman := by
      unfold CFundamentalnodeSync.ProcessTick
      simp only [FUNDAMENTALNODE_SYNC_TICK_SECONDS, ne_eq, htick, not_true_eq_false, if_false,
        Option.getD_some, hsleep', CFundamentalnodeSync.IsFailed, CFundamentalnodeSync.IsSynced,
        hnf, hns, decide_False, Bool.false_eq_true]
    have hl := ProcessTickLoop_timeout env fEnoughData
      { sync with nTick := sync.nTick + 1, nTimeLastProcess := some env.GetTime }
      netfulfilledman hnet hstage
      (by simp only [FUNDAMENTALNODE_SYNC_TIMEOUT_SECONDS]; exact htimeout) vNodesCopy
    rw [hloop]
    constructor
    · intro hex
      obtain ⟨netfulfilledmanNew, h0, h1⟩ := hl.1 hex
      by_cases hatt : sync.nRequestedFundamentalnodeAttempt = 0
      · exact ⟨_, h0 hatt, fun _ => ⟨rfl, rfl⟩, fun h => absurd hatt h⟩
      · obtain ⟨syncNew, hsw, _, hnext, _⟩ := SwitchToNextAsset_stage env
          { sync with nTick := sync.nTick + 1, nTimeLastProcess := some env.GetTime } hnf
        have hspec : ∃ next, specNextStage sync.nRequestedFundamentalnodeAssets = some next := by
          rcases hstage with hs | hs <;> rw [hs] <;> exact ⟨_, rfl⟩
        obtain ⟨next, hnx⟩ := hspec
        refine ⟨(syncNew, netfulfilledmanNew), ?_, fun h => absurd h hatt, fun _ => ⟨?_, ?_⟩⟩
        · rw [h1 hatt, hsw]
          rfl
        · rw [hnx, hnext next hnx]
        · exact SwitchToNextAsset_attempt env _ _ hsw
    · intro hall
      exact ⟨_, hl.2 hall, rfl, rfl⟩
  · intro hs
    unfold CFundamentalnodeSync.ProcessTick
    simp only
    split
    · exact ⟨_, rfl, by simp only [hs]; decide⟩
    split
    · obtain ⟨syncNew, hsw, hst⟩ := Reset_SwitchToNextAsset_stage env
        { sync with
          nTick := sync.nTick + 1
          nTimeLastProcess := some (sync.nTimeLastProcess.getD env.GetTime) }
      rw [hsw]
      exact ⟨_, rfl, by simp only [Option.map_some', hst]; decide⟩
    have hnf : CFundamentalnodeSync.IsFailed
        { sync with nTick := sync.nTick + 1, nTimeLastProcess := some env.GetTime } = false := by
      simp only [CFundamentalnodeSync.IsFailed, hs]
      decide
    have hns : CFundamentalnodeSync.IsSynced
        { sync with nTick := sync.nTick + 1, nTimeLastProcess := some env.GetTime } = false := by
      simp only [CFundamentalnodeSync.IsSynced, hs]
      decide
    simp only [hnf, hns, Bool.false_eq_true, if_false]
    exact ProcessTickLoop_waiting env fEnoughData vNodesCopy _ netfulfilledman hs
  · intro htick
    unfold CFundamentalnodeSync.ProcessTick
    simp only [FUNDAMENTALNODE_SYNC_TICK_SECONDS]
    rw [if_pos htick]
  · intro htick hsleep
    have hsleep' : env.GetTime - sync.nTimeLastProcess.getD env.GetTime > 60 * 60 := by omega
    unfold CFundamentalnodeSync.ProcessTick
    simp only [FUNDAMENTALNODE_SYNC_TICK_SECONDS, ne_eq, htick, not_true_eq_false, if_false,
      Option.getD_some]
    rw [if_pos hsleep']
    simp [CFundamentalnodeSync.Reset, CFundamentalnodeSync.SwitchToNextAsset,
      CFundamentalnodeSync.BumpAssetLastTime, CFundamentalnodeSync.IsSynced,
      CFundamentalnodeSync.IsFailed, FUNDAMENTALNODE_SYNC_INITIAL, FUNDAMENTALNODE_SYNC_WAITING,
      FUNDAMENTALNODE_SYNC_FAILED, FUNDAMENTALNODE_SYNC_FINISHED]

theorem ProcessTick_timeout_witness :
    (syncListStale.ProcessTick envMain [peerOne] [] false).map
      (fun r => r.1.nRequestedFundamentalnodeAssets) = some FUNDAMENTALNODE_SYNC_FAILED ∧
    (syncVotesStale.ProcessTick envMain [peerOne] [] false).map
      (fun r => r.1.nRequestedFundamentalnodeAssets) = some FUNDAMENTALNODE_SYNC_FINISHED ∧
    (∃ r, syncListStale.ProcessTick envMain [peerOne] [] false = some r ∧
      (syncListStale.nRequestedFundamentalnodeAttempt = 0 →
        r.1.nRequestedFundamentalnodeAssets = FUNDAMENTALNODE_SYNC_FAILED ∧
        r.1.nTimeLastFailure = envMain.GetTime) ∧
      (syncListStale.nRequestedFundamentalnodeAttempt ≠ 0 →
        specNextStage syncListStale.nRequestedFundamentalnodeAssets =
          some r.1.nRequestedFundamentalnodeAssets ∧
        r.1.nRequestedFundamentalnodeAttempt = 0)) ∧
    (∃ r, syncWaitingStale.ProcessTick envMain [peerOne] [] false = some r ∧
      r.1.nRequestedFundamentalnodeAssets ≠ FUNDAMENTALNODE_SYNC_FAILED) ∧
    ∃ r, syncListAsleep.ProcessTick envMain [peerOne] [] false = some r ∧
      r.1.nRequestedFundamentalnodeAssets = FUNDAMENTALNODE_SYNC_WAITING ∧
      r.1.nRequestedFundamentalnodeAttempt = 0 ∧
      r.1.nTimeLastBumped = envMain.GetTime ∧
      r.2 = [] :=
  ⟨by decide, by decide,
   ((ProcessTick_timeout envMain syncListStale [peerOne] [] false).1 (Or.inl (by decide))
      (by decide) (by decide) (by decide) (by decide)).1
        ⟨peerOne, by decide, by decide, by decide⟩,
   (ProcessTick_timeout envMain syncWaitingStale [peerOne] [] false).2.1 (by decide),
   (ProcessTick_timeout envMain syncListAsleep [peerOne] [] false).2.2.2 (by decide)
     (by decide)⟩

/-! ## The collateral amount that `CheckCollateral` asks for -/

/-- C34 (the code, in general and at the failing input): `CheckCollateral` returns
`COLLATERAL_OK` exactly when the UTXO exists, its value is `FN_MAGIC_AMOUNT * COIN`, the key
is not null and the script of the UTXO pays to the key; otherwise it returns the status of the
first of the three tests that fails. With `COIN = 100000000` the value asked for is
`1234000000000000` base units, not `FN_MAGIC_AMOUNT = 12340000` (0.1234 coin): a UTXO of 0.1234
coin that pays to the key is refused with `COLLATERAL_INVALID_AMOUNT`. -/
theorem CheckCollateral_amount_times_COIN :
    (∀ (env : Env) (outpoint : COutPoint) (pubkey : CPubKey),
      ((CFundamentalnode.CheckCollateral env outpoint pubkey).1 = COLLATERAL_OK ↔
        ∃ coin, env.GetUTXOCoin outpoint = some coin ∧
          coin.out.nValue = FN_MAGIC_AMOUNT env * env.COIN ∧
          pubkey ≠ 0 ∧ coin.out.scriptPubKey = env.GetScriptForDestination pubkey) ∧
      ((CFundamentalnode.CheckCollateral env outpoint pubkey).1 = COLLATERAL_UTXO_NOT_FOUND ↔
        env.GetUTXOCoin outpoint = none) ∧
      ((CFundamentalnode.CheckCollateral env outpoint pubkey).1 = COLLATERAL_INVALID_AMOUNT ↔
        ∃ coin, env.GetUTXOCoin outpoint = some coin ∧
          coin.out.nValue ≠ FN_MAGIC_AMOUNT env * env.COIN) ∧
      ((CFundamentalnode.CheckCollateral env outpoint pubkey).1 = COLLATERAL_INVALID_PUBKEY ↔
        ∃ coin, env.GetUTXOCoin outpoint = some coin ∧
          coin.out.nValue = FN_MAGIC_AMOUNT env * env.COIN ∧
          (pubkey = 0 ∨ coin.out.scriptPubKey ≠ env.GetScriptForDestination pubkey))) ∧
    (envMain.COIN = 100000000 ∧
      FN_MAGIC_AMOUNT envMain = 12340000 ∧
      FN_MAGIC_AMOUNT envMain * envMain.COIN = 1234000000000000 ∧
      envMain.GetUTXOCoin ⟨1, 0⟩ = some ⟨⟨12340000, envMain.GetScriptForDestination 5⟩, 900⟩ ∧
      (CFundamentalnode.CheckCollateral envMain ⟨1, 0⟩ 5).1 = COLLATERAL_INVALID_AMOUNT ∧
      envMain.GetUTXOCoin ⟨2, 0⟩ =
        some ⟨⟨1234000000000000, envMain.GetScriptForDestination 5⟩, 900⟩ ∧
      CFundamentalnode.CheckCollateral envMain ⟨2, 0⟩ 5 = (COLLATERAL_OK, some 900)) := by
  refine ⟨?_, by decide⟩
  intro env outpoint pubkey
  unfold CFundamentalnode.CheckCollateral
  cases hcoin : env.GetUTXOCoin outpoint with
  | none => simp
  | some coin =>
    simp only [Option.some.injEq, exists_eq_left']
    by_cases hval : coin.out.nValue = FN_MAGIC_AMOUNT env * env.COIN
    · by_cases hkey : pubkey = 0 ∨ coin.out.scriptPubKey ≠ env.GetScriptForDestination pubkey
      · have hkey' : ¬ (pubkey ≠ 0 ∧
            coin.out.scriptPubKey = env.GetScriptForDestination pubkey) := by
          rintro ⟨h1, h2⟩
          rcases hkey with h | h
          · exact h1 h
          · exact h h2
        simp [hval, hkey, hkey']
      · have hkey' : pubkey ≠ 0 ∧
            coin.out.scriptPubKey = env.GetScriptForDestination pubkey := by
          constructor
          · exact fun h => hkey (Or.inl h)
          · by_contra h
            exact hkey (Or.inr h)
        simp [hval, hkey, hkey']
    · simp [hval]

/-! ## The output that `AdjustFundamentalnodePayment` reduces -/

theorem getD_indexOf_of_mem (l : List CTxOut) (a d : CTxOut) (h : a ∈ l) :
    l.getD (l.indexOf a) d = a := by
  have h1 := List.indexOf_get? h
  simp [List.getD_eq_getElem?_getD, ← List.get?_eq_getElem?, h1]

/-- C35 (the code, in general and at the failing input): when the payment output does not
occur in `vout` the transaction is unchanged. When it occurs and `vout` has at least two
outputs, the output at index `size - 2`, and no other, has its value reduced by the value of
the payment output. When it occurs in a `vout` of one output, the index `size - 2` is `-1`,
not a position of `vout`, and the source writes there all the same. -/
theorem AdjustFundamentalnodePayment_effect (tx : CMutableTransaction)
    (txoutFundamentalnodePayment : CTxOut) :
    (txoutFundamentalnodePayment ∉ tx.vout →
      AdjustFundamentalnodePayment tx txoutFundamentalnodePayment = some tx) ∧
    (txoutFundamentalnodePayment ∈ tx.vout → 2 ≤ tx.vout.length →
      ∃ txNew, AdjustFundamentalnodePayment tx txoutFundamentalnodePayment = some txNew ∧
        txNew.vout.length = tx.vout.length ∧
        (∀ j : Nat, j ≠ tx.vout.length - 2 → txNew.vout[j]? = tx.vout[j]?) ∧
        txNew.vout[tx.vout.length - 2]? =
          (tx.vout[tx.vout.length - 2]?).map fun out =>
            { out with nValue := out.nValue - txoutFundamentalnodePayment.nValue }) ∧
    (txoutFundamentalnodePayment ∈ tx.vout → tx.vout.length < 2 →
      tx.vout = [txoutFundamentalnodePayment] ∧
      AdjustFundamentalnodePayment tx txoutFundamentalnodePayment = none) ∧
    AdjustFundamentalnodePayment ⟨[⟨50, [1]⟩]⟩ ⟨50, [1]⟩ = none := by
  refine ⟨?_, ?_, ?_, by decide⟩
  · intro hnot
    unfold AdjustFundamentalnodePayment
    rw [if_neg hnot]
  · intro hmem hlen
    have hidx : 0 ≤ (tx.vout.length : Int) - 2 ∧
        (tx.vout.length : Int) - 2 < (tx.vout.length : Int) := by omega
    have hnat : ((tx.vout.length : Int) - 2).toNat = tx.vout.length - 2 := by omega
    have hlt : tx.vout.length - 2 < tx.vout.length := by omega
    unfold AdjustFundamentalnodePayment
    simp only [if_pos hmem, if_pos hidx, hnat, getD_indexOf_of_mem _ _ _ hmem]
    refine ⟨_, rfl, ?_, ?_, ?_⟩
    · simp only [List.length_set]
    · intro j hj
      simp only
      rw [List.getElem?_set_ne (Ne.symm hj)]
    · simp only
      rw [List.getElem?_set_self hlt, List.getD_eq_getElem?_getD, List.getElem?_eq_getElem hlt]
      simp
  · intro hmem hlen
    have hone : tx.vout = [txoutFundamentalnodePayment] := by
      cases hv : tx.vout with
      | nil => rw [hv] at hmem; exact absurd hmem (List.not_mem_nil _)
      | cons a rest =>
        cases rest with
        | nil =>
          rw [hv] at hmem
          simp only [List.mem_singleton] at hmem
          rw [hmem]
        | cons b rest2 =>
          rw [hv] at hlen
          simp only [List.length_cons] at hlen
          omega
    refine ⟨hone, ?_⟩
    have hidx : ¬ (0 ≤ (tx.vout.length : Int) - 2 ∧
        (tx.vout.length : Int) - 2 < (tx.vout.length : Int)) := by omega
    unfold AdjustFundamentalnodePayment
    simp only [if_pos hmem, if_neg hidx]

theorem AdjustFundamentalnodePayment_effect_witness :
    AdjustFundamentalnodePayment ⟨[⟨100, [9]⟩, ⟨50, [1]⟩]⟩ ⟨50, [1]⟩ =
      some ⟨[⟨50, [9]⟩, ⟨50, [1]⟩]⟩ ∧
    AdjustFundamentalnodePayment ⟨[⟨100, [9]⟩, ⟨50, [1]⟩]⟩ ⟨70, [1]⟩ =
      some ⟨[⟨100, [9]⟩, ⟨50, [1]⟩]⟩ ∧
    ∃ txNew, AdjustFundamentalnodePayment ⟨[⟨100, [9]⟩, ⟨50, [1]⟩]⟩ ⟨50, [1]⟩ = some txNew ∧
      txNew.vout.length = (⟨[⟨100, [9]⟩, ⟨50, [1]⟩]⟩ : CMutableTransaction).vout.length ∧
      (∀ j : Nat, j ≠ (⟨[⟨100, [9]⟩, ⟨50, [1]⟩]⟩ : CMutableTransaction).vout.length - 2 →
        txNew.vout[j]? = (⟨[⟨100, [9]⟩, ⟨50, [1]⟩]⟩ : CMutableTransaction).vout[j]?) ∧
      txNew.vout[(⟨[⟨100, [9]⟩, ⟨50, [1]⟩]⟩ : CMutableTransaction).vout.length - 2]? =
        ((⟨[⟨100, [9]⟩, ⟨50, [1]⟩]⟩ : CMutableTransaction).vout[
          (⟨[⟨100, [9]⟩, ⟨50, [1]⟩]⟩ : CMutableTransaction).vout.length - 2]?).map fun out =>
            { out with nValue := out.nValue - (⟨50, [1]⟩ : CTxOut).nValue } :=
  ⟨by decide,
   (AdjustFundamentalnodePayment_effect ⟨[⟨100, [9]⟩, ⟨50, [1]⟩]⟩ ⟨70, [1]⟩).1 (by decide),
   (AdjustFundamentalnodePayment_effect ⟨[⟨100, [9]⟩, ⟨50, [1]⟩]⟩ ⟨50, [1]⟩).2.1 (by decide)
     (by decide)⟩

/-! ## The start of the local controller -/

theorem CheckFundamentalnodeLoop_find (env : Env) (pubKeyFundamentalnode : CPubKey)
    (fForce : Bool) (l : List (COutPoint × CFundamentalnode)) :
    ((CheckFundamentalnodeLoop env pubKeyFundamentalnode fForce l).find? fun fnpair =>
        decide (fnpair.2.pubKeyFundamentalnode = pubKeyFundamentalnode)).map (fun fnpair =>
          fnpair.2) =
      ((l.find? fun fnpair =>
        decide (fnpair.2.pubKeyFundamentalnode = pubKeyFundamentalnode)).map fun fnpair =>
          fnpair.2).map fun fn => fn.Check env fForce := by
  induction l with
  | nil => rfl
  | cons p rest ih =>
    by_cases hk : p.2.pubKeyFundamentalnode = pubKeyFundamentalnode
    · have hcheck : (p.2.Check env fForce).pubKeyFundamentalnode = pubKeyFundamentalnode := by
        obtain ⟨st, t, sc, h, heq⟩ := Check_frame env p.2 fForce
        rw [heq]
        exact hk
      rw [CheckFundamentalnodeLoop, if_pos hk]
      simp only [List.find?_cons, hcheck, hk, decide_True, Option.map_some']
    · rw [CheckFundamentalnodeLoop, if_neg hk]
      simp only [List.find?_cons, hk, decide_False]
      exact ih

/-- The node that `ManageStateRemote` reads from the registry: the first node with the
operator key of the controller, after its forced `Check`. -/
theorem GetFundamentalnodeInfoByPubKey_after_check (env : Env) (man : CFundamentalnodeMan)
    (pubKeyFundamentalnode : CPubKey) (fForce : Bool) :
    (man.CheckFundamentalnode env pubKeyFundamentalnode
        fForce).GetFundamentalnodeInfoByPubKey pubKeyFundamentalnode =
      (man.GetFundamentalnodeInfoByPubKey pubKeyFundamentalnode).map fun fn =>
        fn.Check (man.toEnv env) fForce := by
  unfold CFundamentalnodeMan.GetFundamentalnodeInfoByPubKey
    CFundamentalnodeMan.CheckFundamentalnode
  exact CheckFundamentalnodeLoop_find _ _ _ _

theorem StateToString_ne_empty (nStateIn : state) :
    "Fundamentalnode in " ++ CFundamentalnode.StateToString nStateIn ++ " state" ≠ "" := by
  rw [String.append_assoc]
  exact append_ne_empty_of_length_pos _ _ (by decide)

/-- C33, counterexample: (a) a controller that is in state Started on the collateral `(9, 0)`
stays Started with that outpoint when the registry entry with its key is the node `(1, 0)`:
the outpoint is not taken from the registry entry. (b) A registry entry with the key of the
controller, the expected protocol version, the address of the controller and the state Enabled
does not start the controller when its last ping is 181 min old: the forced `Check` that
`ManageStateRemote` runs first moves the node to NewStartRequired. -/
theorem ManageStateRemote_keeps_started_outpoint :
    ((activeStartedElsewhere.ManageStateRemote envOwn manServed).1.nState =
        ACTIVE_FUNDAMENTALNODE_STARTED ∧
      manServed.GetFundamentalnodeInfoByPubKey activeStartedElsewhere.pubKeyFundamentalnode =
        some nodeServed ∧
      nodeServed.outpoint = ⟨1, 0⟩ ∧
      (activeStartedElsewhere.ManageStateRemote envOwn manServed).1.outpoint = ⟨9, 0⟩) ∧
    ((manServedStale.GetFundamentalnodeInfoByPubKey activeFresh.pubKeyFundamentalnode).map
        (fun fn => (fn.nProtocolVersion, fn.addr, fn.nActiveState)) =
          some (envOwn.PROTOCOL_VERSION, activeFresh.service, FUNDAMENTALNODE_ENABLED) ∧
      CFundamentalnode.IsValidStateForAutoStart FUNDAMENTALNODE_ENABLED = true ∧
      (activeFresh.ManageStateRemote envOwn manServedStale).1.nState =
        ACTIVE_FUNDAMENTALNODE_NOT_CAPABLE) := by
  decide

/-- C33, amended: let the entry be the first registry node with the operator key of the
controller, as it is after the forced `Check` that `ManageStateRemote` runs on it. After
`ManageStateRemote` the controller is in state Started if and only if there is such an entry,
its protocol version is `PROTOCOL_VERSION`, its address is the address of the controller and
its state is valid for auto-start; otherwise the state is NotCapable with a non-empty
`strNotCapableReason`. A controller that was not in state Started before and is Started after
has the pinger enabled and its outpoint and address taken from the entry; a controller that
was in state Started before and still is has not been changed. -/
theorem ManageStateRemote_started_iff (env : Env) (man : CFundamentalnodeMan)
    (active : CActiveFundamentalnode) :
    ((active.ManageStateRemote env man).1.nState = ACTIVE_FUNDAMENTALNODE_STARTED ↔
      ∃ infoFn,
        (man.GetFundamentalnodeInfoByPubKey active.pubKeyFundamentalnode).map
          (fun fn => fn.Check (man.toEnv (active.toEnv env)) true) = some infoFn ∧
        infoFn.nProtocolVersion = env.PROTOCOL_VERSION ∧
        active.service = infoFn.addr ∧
        CFundamentalnode.IsValidStateForAutoStart infoFn.nActiveState = true) ∧
    ((active.ManageStateRemote env man).1.nState ≠ ACTIVE_FUNDAMENTALNODE_STARTED →
      (active.ManageStateRemote env man).1.nState = ACTIVE_FUNDAMENTALNODE_NOT_CAPABLE ∧
      (active.ManageStateRemote env man).1.strNotCapableReason ≠ "") ∧
    ((active.ManageStateRemote env man).1.nState = ACTIVE_FUNDAMENTALNODE_STARTED →
      active.nState ≠ ACTIVE_FUNDAMENTALNODE_STARTED →
      ∃ infoFn,
        (man.GetFundamentalnodeInfoByPubKey active.pubKeyFundamentalnode).map
          (fun fn => fn.Check (man.toEnv (active.toEnv env)) true) = some infoFn ∧
        (active.ManageStateRemote env man).1.fPingerEnabled = true ∧
        (active.ManageStateRemote env man).1.outpoint = infoFn.outpoint ∧
        (active.ManageStateRemote env man).1.service = infoFn.addr) ∧
    ((active.ManageStateRemote env man).1.nState = ACTIVE_FUNDAMENTALNODE_STARTED →
      active.nState = ACTIVE_FUNDAMENTALNODE_STARTED →
      (active.ManageStateRemote env man).1 = active) := by
  have hinfo := GetFundamentalnodeInfoByPubKey_after_check (active.toEnv env) man
    active.pubKeyFundamentalnode true
  have hnc : ACTIVE_FUNDAMENTALNODE_NOT_CAPABLE ≠ ACTIVE_FUNDAMENTALNODE_STARTED := by decide
  have hr1 : ("Invalid protocol version" : String) ≠ "" := by decide
  have hr2 : ("Broadcasted IP doesn't match our external address. Make sure you issued a new " ++
      "broadcast if IP of this fundamentalnode changed recently." : String) ≠ "" := by decide
  have hr3 : ("Fundamentalnode not in fundamentalnode list" : String) ≠ "" := by decide
  unfold CActiveFundamentalnode.ManageStateRemote
  simp only
  rw [hinfo]
  cases hfind : (man.GetFundamentalnodeInfoByPubKey active.pubKeyFundamentalnode).map
      (fun fn => fn.Check (man.toEnv (active.toEnv env)) true) with
  | none =>
    simp only [hnc, false_iff, not_exists, ne_eq, not_false_eq_true, true_and, hr3,
      false_implies, and_true, implies_true]
    intro infoFn h
    exact absurd h.1 (by simp)
  | some infoFn =>
    simp only [Option.some.injEq, exists_eq_left']
    by_cases hproto : infoFn.nProtocolVersion = env.PROTOCOL_VERSION
    swap
    · simp [hproto, hnc, hr1]
    by_cases haddr : active.service = infoFn.addr
    swap
    · simp [hproto, haddr, hnc, hr2]
    cases hvalid : CFundamentalnode.IsValidStateForAutoStart infoFn.nActiveState with
    | false =>
      simp [hproto, haddr, hnc, StateToString_ne_empty]
    | true =>
      by_cases hstarted : active.nState = ACTIVE_FUNDAMENTALNODE_STARTED
      · simp [hproto, haddr, hstarted]
      · simp [hproto, haddr, hstarted]

theorem ManageStateRemote_started_iff_witness :
    (activeFresh.ManageStateRemote envOwn manServed).1.nState = ACTIVE_FUNDAMENTALNODE_STARTED ∧
    (activeFresh.ManageStateRemote envOwn manServedStale).1.strNotCapableReason ≠ "" ∧
    (activeStartedElsewhere.ManageStateRemote envOwn manServed).1 = activeStartedElsewhere :=
  ⟨by decide,
   ((ManageStateRemote_started_iff envOwn manServedStale activeFresh).2.1 (by decide)).2,
   (ManageStateRemote_started_iff envOwn manServed activeStartedElsewhere).2.2.2 (by decide)
     (by decide)⟩

/-! ## The range of the PoSe score -/

theorem IncreasePoSeBanScore_bound (fn : CFundamentalnode)
    (h : -5 ≤ fn.nPoSeBanScore ∧ fn.nPoSeBanScore ≤ 5) :
    -5 ≤ fn.IncreasePoSeBanScore.nPoSeBanScore ∧ fn.IncreasePoSeBanScore.nPoSeBanScore ≤ 5 := by
  unfold CFundamentalnode.IncreasePoSeBanScore
  simp only [FUNDAMENTALNODE_POSE_BAN_MAX_SCORE]
  split
  · simp only; omega
  · exact h

theorem DecreasePoSeBanScore_bound (fn : CFundamentalnode)
    (h : -5 ≤ fn.nPoSeBanScore ∧ fn.nPoSeBanScore ≤ 5) :
    -5 ≤ fn.DecreasePoSeBanScore.nPoSeBanScore ∧ fn.DecreasePoSeBanScore.nPoSeBanScore ≤ 5 := by
  unfold CFundamentalnode.DecreasePoSeBanScore
  simp only [FUNDAMENTALNODE_POSE_BAN_MAX_SCORE]
  split
  · simp only; omega
  · exact h

theorem CheckStateRules_nPoSeBanScore (env : Env) (fn : CFundamentalnode) :
    (CFundamentalnode.CheckStateRules env fn).nPoSeBanScore = fn.nPoSeBanScore := by
  obtain ⟨st, h⟩ := CheckStateRules_frame env fn
  rw [h]

theorem Check_bound (env : Env) (fn : CFundamentalnode) (fForce : Bool)
    (h : -5 ≤ fn.nPoSeBanScore ∧ fn.nPoSeBanScore ≤ 5) :
    -5 ≤ (fn.Check env fForce).nPoSeBanScore ∧ (fn.Check env fForce).nPoSeBanScore ≤ 5 := by
  have hdec := DecreasePoSeBanScore_bound { fn with nTimeLastChecked := env.GetTime } h
  unfold CFundamentalnode.Check
  simp only
  split_ifs
  all_goals first
    | exact h
    | (rw [CheckStateRules_nPoSeBanScore]; exact hdec)
    | (rw [CheckStateRules_nPoSeBanScore]; exact h)

theorem CheckAndUpdate_bound (env : Env) (fnp : CFundamentalnodePing) (fn : CFundamentalnode)
    (fFromNewBroadcast : Bool) (h : -5 ≤ fn.nPoSeBanScore ∧ fn.nPoSeBanScore ≤ 5) :
    ∃ fnNew, (fnp.CheckAndUpdate env (some fn) fFromNewBroadcast).pfn = some fnNew ∧
      -5 ≤ fnNew.nPoSeBanScore ∧ fnNew.nPoSeBanScore ≤ 5 := by
  have hc := Check_bound env { fn with lastPing := fnp } true h
  unfold CFundamentalnodePing.CheckAndUpdate
  simp only
  split_ifs
  all_goals first
    | exact ⟨fn, rfl, h⟩
    | exact ⟨_, rfl, hc⟩

theorem UpdateFromNewBroadcast_bound (env : Env) (fn : CFundamentalnode)
    (fnb : CFundamentalnodeBroadcast) (h : -5 ≤ fn.nPoSeBanScore ∧ fn.nPoSeBanScore ≤ 5) :
    -5 ≤ (fn.UpdateFromNewBroadcast env fnb).2.nPoSeBanScore ∧
      (fn.UpdateFromNewBroadcast env fnb).2.nPoSeBanScore ≤ 5 := by
  have h0 : -5 ≤ ({ fn with
      pubKeyFundamentalnode := fnb.fn.pubKeyFundamentalnode
      sigTime := fnb.fn.sigTime
      vchSig := fnb.fn.vchSig
      nProtocolVersion := fnb.fn.nProtocolVersion
      addr := fnb.fn.addr
      nPoSeBanScore := 0
      nPoSeBanHeight := 0
      nTimeLastChecked := 0 } : CFundamentalnode).nPoSeBanScore ∧
      ({ fn with
      pubKeyFundamentalnode := fnb.fn.pubKeyFundamentalnode
      sigTime := fnb.fn.sigTime
      vchSig := fnb.fn.vchSig
      nProtocolVersion := fnb.fn.nProtocolVersion
      addr := fnb.fn.addr
      nPoSeBanScore := 0
      nPoSeBanHeight := 0
      nTimeLastChecked := 0 } : CFundamentalnode).nPoSeBanScore ≤ 5 := by
    constructor <;> simp
  obtain ⟨fnNew, hpfn, hb⟩ := CheckAndUpdate_bound env fnb.fn.lastPing _ true h0
  unfold CFundamentalnode.UpdateFromNewBroadcast
  simp only [hpfn, Option.getD_some, FUNDAMENTALNODE_POSE_BAN_MAX_SCORE]
  split_ifs
  all_goals first
    | exact h
    | exact hb
    | (constructor <;> simp)

theorem CheckSameAddrBan_bound (vBan : List COutPoint) :
    ∀ l : List (COutPoint × CFundamentalnode),
      (∀ p ∈ l, -5 ≤ p.2.nPoSeBanScore ∧ p.2.nPoSeBanScore ≤ 5) →
      ∀ p ∈ CheckSameAddrBan vBan l, -5 ≤ p.2.nPoSeBanScore ∧ p.2.nPoSeBanScore ≤ 5 := by
  induction vBan with
  | nil =>
    intro l hl p hp
    exact hl p hp
  | cons outpoint rest ih =>
    intro l hl p hp
    simp only [CheckSameAddrBan] at hp
    refine ih _ ?_ p hp
    intro q hq
    obtain ⟨q0, hq0, rfl⟩ := List.mem_map.mp hq
    split
    · exact IncreasePoSeBanScore_bound _ (hl q0 hq0)
    · exact hl q0 hq0

theorem ProcessVerifyBroadcastLoop_bound (fnv : CFundamentalnodeVerification)
    (l : List (COutPoint × CFundamentalnode))
    (hl : ∀ p ∈ l, -5 ≤ p.2.nPoSeBanScore ∧ p.2.nPoSeBanScore ≤ 5) :
    ∀ p ∈ ProcessVerifyBroadcastLoop fnv l, -5 ≤ p.2.nPoSeBanScore ∧ p.2.nPoSeBanScore ≤ 5 := by
  intro p hp
  unfold ProcessVerifyBroadcastLoop at hp
  obtain ⟨q0, hq0, rfl⟩ := List.mem_map.mp hp
  split
  · exact hl q0 hq0
  · exact IncreasePoSeBanScore_bound _ (hl q0 hq0)

theorem ProcessVerifyReplyLoop_bound (env : Env) (addr : CService) (hash1 blockHash : uint256)
    (l : List (COutPoint × CFundamentalnode)) :
    ∀ (fnv : CFundamentalnodeVerification) (seen : List (uint256 × CFundamentalnodeVerification)),
      (∀ p ∈ l, -5 ≤ p.2.nPoSeBanScore ∧ p.2.nPoSeBanScore ≤ 5) →
      ∀ marked ∈ (ProcessVerifyReplyLoop env addr hash1 blockHash l fnv seen).vFundamentalnodes,
        -5 ≤ marked.1.2.nPoSeBanScore ∧ marked.1.2.nPoSeBanScore ≤ 5 := by
  induction l with
  | nil =>
    intro fnv seen _ marked hm
    simp [ProcessVerifyReplyLoop] at hm
  | cons fnpair rest ih =>
    intro fnv seen hl marked hm
    have hhead := hl fnpair (List.mem_cons_self _ _)
    have hrest : ∀ p ∈ rest, -5 ≤ p.2.nPoSeBanScore ∧ p.2.nPoSeBanScore ≤ 5 :=
      fun p hp => hl p (List.mem_cons_of_mem _ hp)
    have hdec := DecreasePoSeBanScore_bound _ hhead
    have hmap : ∀ m ∈ rest.map (fun fnpair => (fnpair, false)),
        -5 ≤ m.1.2.nPoSeBanScore ∧ m.1.2.nPoSeBanScore ≤ 5 := by
      intro m hm
      obtain ⟨q, hq, rfl⟩ := List.mem_map.mp hm
      exact hrest q hq
    have fin1 : ∀ (x : (COutPoint × CFundamentalnode) × Bool)
        (L : List ((COutPoint × CFundamentalnode) × Bool)),
        (-5 ≤ x.1.2.nPoSeBanScore ∧ x.1.2.nPoSeBanScore ≤ 5) →
        (∀ m ∈ L, -5 ≤ m.1.2.nPoSeBanScore ∧ m.1.2.nPoSeBanScore ≤ 5) →
        marked ∈ x :: L → -5 ≤ marked.1.2.nPoSeBanScore ∧ marked.1.2.nPoSeBanScore ≤ 5 := by
      intro x L hx hL hmem
      rcases List.mem_cons.mp hmem with rfl | hmem
      · exact hx
      · exact hL _ hmem
    rw [ProcessVerifyReplyLoop] at hm
    simp only at hm
    split_ifs at hm
    all_goals first
      | exact fin1 _ _ hdec (ih _ _ hrest) hm
      | exact fin1 _ _ hhead (ih _ _ hrest) hm
      | (split at hm
         all_goals first
           | exact fin1 _ _ hdec (ih _ _ hrest) hm
           | exact fin1 _ _ hhead (ih _ _ hrest) hm
           | exact fin1 _ _ hdec hmap hm
           | exact fin1 _ _ hhead hmap hm)

/-- C36: each of the operations that change the PoSe score of a node keeps
`-5 ≤ nPoSeBanScore ≤ 5` when that held before: `IncreasePoSeBanScore`,
`DecreasePoSeBanScore`, `PoSeBan` (which sets 5), `Check` and `UpdateFromNewBroadcast` on the
node, and `CheckSameAddr`, `ProcessVerifyReply` and `ProcessVerifyBroadcast` on every node of
the registry. -/
theorem PoSeBanScore_stays_in_range (env : Env) :
    (∀ fn : CFundamentalnode, -5 ≤ fn.nPoSeBanScore ∧ fn.nPoSeBanScore ≤ 5 →
      (-5 ≤ fn.IncreasePoSeBanScore.nPoSeBanScore ∧ fn.IncreasePoSeBanScore.nPoSeBanScore ≤ 5) ∧
      (-5 ≤ fn.DecreasePoSeBanScore.nPoSeBanScore ∧ fn.DecreasePoSeBanScore.nPoSeBanScore ≤ 5) ∧
      (-5 ≤ fn.PoSeBan.nPoSeBanScore ∧ fn.PoSeBan.nPoSeBanScore ≤ 5) ∧
      (∀ fForce : Bool,
        -5 ≤ (fn.Check env fForce).nPoSeBanScore ∧ (fn.Check env fForce).nPoSeBanScore ≤ 5) ∧
      (∀ fnb : CFundamentalnodeBroadcast,
        -5 ≤ (fn.UpdateFromNewBroadcast env fnb).2.nPoSeBanScore ∧
        (fn.UpdateFromNewBroadcast env fnb).2.nPoSeBanScore ≤ 5)) ∧
    (∀ man : CFundamentalnodeMan,
      (∀ p ∈ man.mapFundamentalnodes, -5 ≤ p.2.nPoSeBanScore ∧ p.2.nPoSeBanScore ≤ 5) →
      (∀ p ∈ (man.CheckSameAddr env).mapFundamentalnodes,
        -5 ≤ p.2.nPoSeBanScore ∧ p.2.nPoSeBanScore ≤ 5) ∧
      (∀ (addr : CService) (fnv asked : CFundamentalnodeVerification)
          (fRequested fDoneBefore : Bool),
        ∀ p ∈ (man.ProcessVerifyReply env addr fnv fRequested fDoneBefore
            asked).man.mapFundamentalnodes,
          -5 ≤ p.2.nPoSeBanScore ∧ p.2.nPoSeBanScore ≤ 5) ∧
      (∀ fnv : CFundamentalnodeVerification,
        ∀ p ∈ (man.ProcessVerifyBroadcast env fnv).man.mapFundamentalnodes,
          -5 ≤ p.2.nPoSeBanScore ∧ p.2.nPoSeBanScore ≤ 5)) := by
  constructor
  · intro fn h
    refine ⟨IncreasePoSeBanScore_bound fn h, DecreasePoSeBanScore_bound fn h, ?_,
      fun fForce => Check_bound env fn fForce h,
      fun fnb => UpdateFromNewBroadcast_bound env fn fnb h⟩
    unfold CFundamentalnode.PoSeBan
    simp [FUNDAMENTALNODE_POSE_BAN_MAX_SCORE]
  · intro man hman
    refine ⟨?_, ?_, ?_⟩
    · intro p hp
      unfold CFundamentalnodeMan.CheckSameAddr at hp
      split at hp
      · exact hman p hp
      · exact CheckSameAddrBan_bound _ _ hman p hp
    · intro addr fnv asked fRequested fDoneBefore p hp
      unfold CFundamentalnodeMan.ProcessVerifyReply at hp
      have hloop := fun blockHash => ProcessVerifyReplyLoop_bound env addr
        (fnv.GetSignatureHash1 env blockHash) blockHash man.mapFundamentalnodes fnv
        man.mapSeenFundamentalnodeVerification hman
      split_ifs at hp
      all_goals first
        | exact hman p hp
        | (split at hp
           · exact hman p hp
           · rename_i blockHash _
             first
               | exact hman p hp
               | (simp only at hp
                  split_ifs at hp)
             all_goals first
               | exact hman p hp
               | (obtain ⟨marked, hm, rfl⟩ := List.mem_map.mp hp
                  first
                    | exact hloop blockHash marked hm
                    | (split
                       · exact IncreasePoSeBanScore_bound _ (hloop blockHash marked hm)
                       · exact hloop blockHash marked hm)))
    · intro fnv p hp
      rcases ProcessVerifyBroadcast_relayed_or_kept env man fnv with hacc | hkept
      · obtain ⟨hseen, hold, hne, blockHash, nRank, pfn1, pfn2, hhash, hrank, htop, hfind1,
          hfind2, haddr, hsig⟩ := ProcessVerifyBroadcast_relayed env man fnv hacc
        rw [ProcessVerifyBroadcast_accepted env man fnv blockHash nRank pfn1 pfn2 hseen hold hne
          hhash hrank htop hfind1 hfind2 haddr hsig] at hp
        simp only at hp
        refine ProcessVerifyBroadcastLoop_bound fnv _ ?_ p hp
        intro q hq
        split at hq
        · rcases mem_mapAssign _ _ _ _ hq with rfl | hq
          · exact DecreasePoSeBanScore_bound _
              (hman (fnv.fundamentalnodeOutpoint1, pfn1) (mem_of_mapFind _ _ _ hfind1))
          · exact hman q hq
        · exact hman q hq
      · rw [hkept] at hp
        exact hman p hp

theorem PoSeBanScore_stays_in_range_witness :
    (-5 ≤ (nodeAt 3 7 (-5)).DecreasePoSeBanScore.nPoSeBanScore ∧
      (nodeAt 3 7 (-5)).DecreasePoSeBanScore.nPoSeBanScore ≤ 5) ∧
    (((manSameAddr.ProcessVerifyReply envMain ⟨7, 12919⟩ fnvReply true false
      fnvReply).man.mapFundamentalnodes.map fun p => p.2.nPoSeBanScore) = [-1, -1, -5, 0]) ∧
    ∀ p ∈ (manSameAddr.ProcessVerifyReply envMain ⟨7, 12919⟩ fnvReply true false
        fnvReply).man.mapFundamentalnodes,
      -5 ≤ p.2.nPoSeBanScore ∧ p.2.nPoSeBanScore ≤ 5 :=
  ⟨((PoSeBanScore_stays_in_range envMain).1 (nodeAt 3 7 (-5)) (by decide)).2.1,
   by decide,
   ((PoSeBanScore_stays_in_range envMain).2 manSameAddr (by decide)).2.1 ⟨7, 12919⟩ fnvReply
     fnvReply true false⟩
